import Mathlib

/-!
# The SQL code generator of `core/internal/psql/query.go`

A shallow embedding of the query compiler (`Compiler.Compile`, `CompileQuery`,
the select emitter and the expression emitter) and theorems about it.

Conventions of the embedding.

* The compiler only ever appends to its byte buffer `c.w`.  A render function is
  therefore modelled by the text it appends, together with its effect on the
  metadata `c.md`: an element of `M Unit`.  `c.w.WriteString(x)` is `write x`.
  `Compile` takes the caller's buffer and returns it with the text appended.
* A Go run-time panic (index out of range) is the result `Res.panic`; the text
  written before the panic is not kept.
* The two `for` loops over a stack (`renderQuery`, `renderExp`) take a fuel
  argument; running out of it is `Res.outOfFuel`.  The call of `renderExp` inside
  `renderNestedWhere` runs on the fuel that is left.
* `int32` values are integers; the addition `sel.ID + closeBlock` wraps around;
  a loop index converted with `int32(i)` is the index.
* Functions of the package that are not in `query.go` are the fields of
  `Helpers`: they append text, may update the metadata, and return.
  `specHelpers` is one instance, following the specification; it serves the
  concrete examples.
* The open and the close branch of the loop of `renderQuery` are the functions
  `renderOpen` and `renderClose`.
-/

namespace Psql

/-! ## Data model (packages `sdata` and `qcode`) -/

/-- Modelled from the spec: `sdata.DBColumn`, a column with its SQL type and table. -/
structure DBColumn where
  Name : String := ""
  Typ : String := ""
  Table : String := ""
deriving DecidableEq, Repr, Inhabited

/-- Modelled from the spec: `sdata.TInfo`, the table info of a selection. -/
structure TInfo where
  Name : String := ""
  Typ : String := ""
  Columns : List DBColumn := []
  FullText : List DBColumn := []
  PrimaryCol : DBColumn := {}
deriving DecidableEq, Repr, Inhabited

/-- Modelled from the spec: `sdata.RelType`, the kind of relation to the parent. -/
inductive RelType where
  | RelNone
  | RelOneToOne
  | RelOneToMany
  | RelManyToMany
  | RelEmbedded
  | RelRecursive
deriving DecidableEq, Repr, Inhabited

/-- Modelled from the spec: one side (`Left` or `Right`) of a `sdata.DBRel`. -/
structure RelSide where
  Col : DBColumn := {}
  Ti : TInfo := {}
deriving DecidableEq, Repr, Inhabited

/-- Modelled from the spec: `sdata.DBRel`. -/
structure DBRel where
  Typ : RelType := RelType.RelNone
  Left : RelSide := {}
  Right : RelSide := {}
deriving DecidableEq, Repr, Inhabited

/-- Modelled from the spec: `sdata.DBSchema`; the compiler only reads its type. -/
structure DBSchema where
  Typ : String := ""
deriving DecidableEq, Repr, Inhabited

/-- Modelled from the spec: `qcode.QType`; `QTOther` stands for every other value
of the Go integer type. -/
inductive QType where
  | QTQuery
  | QTSubscription
  | QTMutation
  | QTOther (code : Int)
deriving DecidableEq, Repr, Inhabited

/-- Modelled from the spec: `qcode.SelType`. -/
inductive SelType where
  | SelTypeNone
  | SelTypeUnion
  | SelTypeMember
deriving DecidableEq, Repr, Inhabited

/-- Modelled from the spec: `qcode.SkipType`. -/
inductive SkipType where
  | SkipTypeNone
  | SkipTypeUserNeeded
  | SkipTypeRemove
deriving DecidableEq, Repr, Inhabited

/-- Modelled from the spec: `qcode.Order`, the direction of an order-by column. -/
inductive Order where
  | OrderAsc
  | OrderDesc
  | OrderAscNullsFirst
  | OrderDescNullsFirst
  | OrderAscNullsLast
  | OrderDescNullsLast
deriving DecidableEq, Repr, Inhabited

/-- Modelled from the spec: `qcode.ExpOp`, the operators named in `query.go`. -/
inductive ExpOp where
  | OpNop
  | OpAnd
  | OpOr
  | OpNot
  | OpEquals
  | OpNotEquals
  | OpGreaterOrEquals
  | OpLesserOrEquals
  | OpGreaterThan
  | OpLesserThan
  | OpIn
  | OpNotIn
  | OpLike
  | OpNotLike
  | OpILike
  | OpNotILike
  | OpSimilar
  | OpNotSimilar
  | OpRegex
  | OpNotRegex
  | OpIRegex
  | OpNotIRegex
  | OpContains
  | OpContainedIn
  | OpHasKey
  | OpHasKeyAny
  | OpHasKeyAll
  | OpIsNull
  | OpTsQuery
  | OpFalse
  | OpNotDistinct
  | OpDistinct
  | OpEqualsTrue
  | OpNotEqualsTrue
deriving DecidableEq, Repr, Inhabited

/-- Modelled from the spec: `qcode.ValType`, the kind of value of an expression. -/
inductive ValType where
  | ValStr
  | ValNum
  | ValBool
  | ValList
  | ValVar
  | ValRef
deriving DecidableEq, Repr, Inhabited

/-- Modelled from the spec: the attributes of a `qcode.Exp` node other than its
children. -/
structure ExpNode where
  Op : ExpOp := ExpOp.OpNop
  Col : DBColumn := {}
  Val : String := ""
  Typ : ValType := ValType.ValStr
  ListType : ValType := ValType.ValStr
  ListVal : List String := []
  Rels : List DBRel := []
  Table : String := ""
deriving DecidableEq, Repr, Inhabited

/-- Modelled from the spec: `qcode.Exp`, a node of the WHERE tree with its children. -/
inductive Exp where
  | node (n : ExpNode) (children : List Exp)
deriving Repr, Inhabited

/-- The attributes of an expression node. -/
def Exp.attrs : Exp → ExpNode
  | Exp.node n _ => n

/-- The field `Children` of an expression node. -/
def Exp.Children : Exp → List Exp
  | Exp.node _ cs => cs

/-- The field `Op` of an expression node. -/
def Exp.Op (e : Exp) : ExpOp := e.attrs.Op

/-- The field `Col` of an expression node. -/
def Exp.Col (e : Exp) : DBColumn := e.attrs.Col

/-- The field `Val` of an expression node. -/
def Exp.Val (e : Exp) : String := e.attrs.Val

/-- The field `Type` of an expression node. -/
def Exp.Typ (e : Exp) : ValType := e.attrs.Typ

/-- The field `ListType` of an expression node. -/
def Exp.ListType (e : Exp) : ValType := e.attrs.ListType

/-- The field `ListVal` of an expression node. -/
def Exp.ListVal (e : Exp) : List String := e.attrs.ListVal

/-- The field `Rels` of an expression node. -/
def Exp.Rels (e : Exp) : List DBRel := e.attrs.Rels

/-- The field `Table` of an expression node. -/
def Exp.Table (e : Exp) : String := e.attrs.Table

/-- Modelled from the spec: `qcode.Paging`. -/
structure Paging where
  Limit : Int := 0
  Offset : Int := 0
  LimitVar : String := ""
  OffsetVar : String := ""
  Cursor : Bool := false
  NoLimit : Bool := false
deriving DecidableEq, Repr, Inhabited

/-- Modelled from the spec: an entry of `Select.OrderBy`. -/
structure OrderBy where
  Col : DBColumn := {}
  Order : Order := Order.OrderAsc
deriving DecidableEq, Repr, Inhabited

/-- Modelled from the spec: an entry of `Select.BCols` (base columns). -/
structure BaseColumn where
  Col : DBColumn := {}
deriving DecidableEq, Repr, Inhabited

/-- Modelled from the spec: `Select.Where`, an optional expression tree. -/
structure Filter where
  Exp : Option Exp := none
deriving Repr, Inhabited

/-- Modelled from the spec: `Select.ArgMap`, argument name to argument value. -/
abbrev ArgMap := List (String × String)

/-- Modelled from the spec: `qcode.Select`, a node of the selection tree. -/
structure Select where
  ID : Int := 0
  ParentID : Int := -1
  FieldName : String := ""
  Table : String := ""
  Ti : TInfo := {}
  Typ : SelType := SelType.SelTypeNone
  Rel : DBRel := {}
  Children : List Int := []
  Singular : Bool := false
  Paging : Paging := {}
  OrderBy : List OrderBy := []
  DistinctOn : List DBColumn := []
  GroupCols : Bool := false
  BCols : List BaseColumn := []
  Where : Filter := {}
  Joins : List DBRel := []
  ArgMap : ArgMap := []
  SkipRender : SkipType := SkipType.SkipTypeNone
deriving Repr, Inhabited

/-- Modelled from the spec: `qcode.QCode`, the query handed to the compiler. -/
structure QCode where
  Typ : QType := QType.QTQuery
  Schema : DBSchema := {}
  Roots : List Int := []
  Selects : List Select := []
deriving Repr, Inhabited

/-- The Go expression `qc.Selects[id]`: `none` stands for the index-out-of-range
panic. -/
def selectAt (selects : List Select) (id : Int) : Option Select :=
  if id < 0 then none else selects.get? id.toNat

/-! ## Compiler types (`query.go`, lines 15-55) -/

/-- The offset that marks a close event on the selection stack. -/
def closeBlock : Int := 500

/-- The `Param` of `query.go`. -/
structure Param where
  Name : String := ""
  Typ : String := ""
  IsArray : Bool := false
deriving DecidableEq, Repr, Inhabited

/-- The `Metadata` of `query.go`; the map `pindex` is an association list. -/
structure Metadata where
  ct : String := ""
  poll : Bool := false
  params : List Param := []
  pindex : List (String × Nat) := []
deriving DecidableEq, Repr, Inhabited

/-- The `Compiler` of `query.go`; the map `svars` is an association list. -/
structure Compiler where
  svars : List (String × String) := []
  ct : String := ""
  cv : Int := 0
deriving DecidableEq, Repr, Inhabited

/-- The `Config` of `query.go`. -/
structure Config where
  Vars : List (String × String) := []
  DBType : String := ""
  DBVersion : Int := 0
deriving DecidableEq, Repr, Inhabited

/-- The constructor `NewCompiler`. -/
def NewCompiler (conf : Config) : Compiler :=
  { svars := conf.Vars, ct := conf.DBType, cv := conf.DBVersion }

/-- Wrap-around of a sum to the range of `int32`. -/
def wrap32 (x : Int) : Int := (x + 2147483648) % 4294967296 - 2147483648

/-! ## Results and the emitter monad -/

/-- The outcome of running a piece of the compiler. -/
inductive Res (α : Type) where
  | ok (a : α)
  | panic
  | outOfFuel
deriving DecidableEq, Repr, Inhabited

/-- What a successful step leaves behind: a value, the metadata, the text
appended to the buffer. -/
structure Emitted (α : Type) where
  val : α
  md : Metadata
  text : String
deriving DecidableEq, Repr, Inhabited

/-- A render function: from the metadata before, to the value, metadata and
appended text after. -/
def M (α : Type) : Type := Metadata → Res (Emitted α)

/-- An emitter that only returns a value. -/
def M.pure {α : Type} (a : α) : M α := fun md => Res.ok ⟨a, md, ""⟩

/-- Sequencing: the second emitter starts from the metadata the first left, and
the appended texts are concatenated. -/
def M.bind {α β : Type} (x : M α) (f : α → M β) : M β := fun md =>
  match x md with
  | Res.ok r =>
    match f r.val r.md with
    | Res.ok r2 => Res.ok ⟨r2.val, r2.md, r.text ++ r2.text⟩
    | Res.panic => Res.panic
    | Res.outOfFuel => Res.outOfFuel
  | Res.panic => Res.panic
  | Res.outOfFuel => Res.outOfFuel

instance : Monad M where
  pure := M.pure
  bind := M.bind

/-- The call `c.w.WriteString(s)`. -/
def write (s : String) : M Unit := fun md => Res.ok ⟨(), md, s⟩

/-- A Go run-time panic. -/
def panicM {α : Type} : M α := fun _ => Res.panic

/-- The loop has run out of fuel. -/
def outOfFuelM {α : Type} : M α := fun _ => Res.outOfFuel

/-- An update of the metadata. -/
def modifyMd (f : Metadata → Metadata) : M Unit := fun md => Res.ok ⟨(), f md, ""⟩

/-- A helper that always returns: metadata before to metadata after and appended
text. -/
abbrev Emit := Metadata → Metadata × String

/-- A helper run as an emitter. -/
def emit (e : Emit) : M Unit := fun md => Res.ok ⟨(), (e md).1, (e md).2⟩

/-- The Go loop `for i, x := range xs`, started at index `i`. -/
def forRangeFrom {α : Type} (body : Nat → α → M Unit) : Nat → List α → M Unit
  | _, [] => pure ()
  | i, x :: rest => do
    body i x
    forRangeFrom body (i + 1) rest

/-- The Go loop `for i, x := range xs`. -/
def forRange {α : Type} (xs : List α) (body : Nat → α → M Unit) : M Unit :=
  forRangeFrom body 0 xs

/-! ## The rest of the package -/

/-- The functions that `query.go` calls and that live elsewhere in the package:
the writer helpers (pure text), the parameter recorder, the column, relation and
variable emitters, and the mutation compiler.  The column emitters may consult
the selection array `c.qc.Selects`. -/
structure Helpers where
  int32String : Int → String
  quoted : String → String
  squoted : String → String
  colWithTable : String → String → String
  colWithTableID : String → Int → String → String
  aliasWithID : String → Int → String
  renderParam : Param → Emit
  renderVar : String → Emit
  renderColumns : List Select → Select → Emit
  renderBaseColumns : List Select → Select → Emit
  renderJSONFields : List Select → Select → Emit
  renderRel : TInfo → DBRel → Int → ArgMap → Emit
  compileMutation : QCode → M Unit

/-- The compiler context of `query.go` without its buffer and metadata: the
query and the compiler, with the rest of the package. -/
structure compilerContext where
  h : Helpers
  qc : QCode
  co : Compiler

/-- The db type `c.ct` of the embedded compiler. -/
def compilerContext.ct (c : compilerContext) : String := c.co.ct

/-- The db version `c.cv` of the embedded compiler. -/
def compilerContext.cv (c : compilerContext) : Int := c.co.cv

/-- The static variables `c.svars` of the embedded compiler. -/
def compilerContext.svars (c : compilerContext) : List (String × String) := c.co.svars

/-! ## Go library functions used by `query.go` -/

/-- The Go call `strings.EqualFold(s, t)` for a `t` of ASCII letters that have no
case variant outside ASCII, as in the one call of `query.go`, where `t` is `true`. -/
def equalFold (s t : String) : Bool :=
  s.data.map Char.toLower == t.data.map Char.toLower

/-- The Go call `strings.HasPrefix(s, p)`. -/
def hasPrefix (s p : String) : Bool := p.data.isPrefixOf s.data

/-- The Go slice `s[n:]` of a string whose first `n` bytes are ASCII. -/
def sliceFrom (s : String) (n : Nat) : String := String.mk (s.data.drop n)

/-! ## Expression emitter (`query.go`, lines 562-915) -/

/-- The function `renderList` (lines 838-854). -/
def renderList (ex : Exp) : M Unit := do
  write "(ARRAY["
  forRange ex.ListVal (fun i v => do
    (if i != 0 then write ", " else pure ())
    match ex.ListType with
    | ValType.ValBool => write v
    | ValType.ValNum => write v
    | ValType.ValStr => do
      write "'"
      write v
      write "'"
    | _ => pure ())
  write "])"

/-- The function `renderValVarPrefix` (lines 863-875). -/
def renderValVarPrefix (c : compilerContext) (ti : TInfo) (ex : Exp) : M Bool :=
  if ex.Op = ExpOp.OpIn ∨ ex.Op = ExpOp.OpNotIn then
    if c.ct = "mysql" then do
      write "JSON_CONTAINS("
      emit (c.h.renderParam { Name := ex.Val, Typ := ex.Col.Typ, IsArray := true })
      write ", CAST("
      write (c.h.colWithTable ti.Name ex.Col.Name)
      write " AS JSON), '$')"
      pure true
    else pure false
  else pure false

/-- The function `renderValPrefix` (lines 856-861). -/
def renderValPrefix (c : compilerContext) (ti : TInfo) (ex : Exp) : M Bool :=
  if ex.Typ = ValType.ValVar then renderValVarPrefix c ti ex else pure false

/-- The function `renderValVar` (lines 890-915). -/
def renderValVar (c : compilerContext) (_ti : TInfo) (ex : Exp) : M Unit :=
  match c.svars.lookup ex.Val with
  | some val =>
    if hasPrefix val "sql:" then do
      write "("
      emit (c.h.renderVar (sliceFrom val 4))
      write ")"
    else do
      write "'"
      emit (c.h.renderVar val)
      write "'"
  | none =>
    if ex.Op = ExpOp.OpIn ∨ ex.Op = ExpOp.OpNotIn then do
      write "(ARRAY(SELECT json_array_elements_text("
      emit (c.h.renderParam { Name := ex.Val, Typ := ex.Col.Typ, IsArray := true })
      write "))"
      write " :: "
      write ex.Col.Typ
      write "[])"
    else
      emit (c.h.renderParam { Name := ex.Val, Typ := ex.Col.Typ, IsArray := false })

/-- The function `renderVal` (lines 877-888). -/
def renderVal (c : compilerContext) (ti : TInfo) (ex : Exp) : M Unit :=
  match ex.Typ with
  | ValType.ValVar => renderValVar c ti ex
  | ValType.ValRef => write (c.h.colWithTable ex.Table ex.Col.Name)
  | _ => write (c.h.squoted ex.Val)

/-- The `switch ex.Op` of `renderOp` (lines 663-769): the value says whether the
case returned from `renderOp`. -/
def renderOpSwitch (c : compilerContext) (ti : TInfo) (ex : Exp) : M Bool :=
  match ex.Op with
  | ExpOp.OpEquals => do write "="; pure false
  | ExpOp.OpNotEquals => do write "!="; pure false
  | ExpOp.OpNotDistinct => do write "IS NOT DISTINCT FROM"; pure false
  | ExpOp.OpDistinct => do write "IS DISTINCT FROM"; pure false
  | ExpOp.OpGreaterOrEquals => do write ">="; pure false
  | ExpOp.OpLesserOrEquals => do write "<="; pure false
  | ExpOp.OpGreaterThan => do write ">"; pure false
  | ExpOp.OpLesserThan => do write "<"; pure false
  | ExpOp.OpIn => do write "= ANY"; pure false
  | ExpOp.OpNotIn => do write "!= ALL"; pure false
  | ExpOp.OpLike => do write "LIKE"; pure false
  | ExpOp.OpNotLike => do write "NOT LIKE"; pure false
  | ExpOp.OpILike => do write "ILIKE"; pure false
  | ExpOp.OpNotILike => do write "NOT ILIKE"; pure false
  | ExpOp.OpSimilar => do write "SIMILAR TO"; pure false
  | ExpOp.OpNotSimilar => do write "NOT SIMILAR TO"; pure false
  | ExpOp.OpRegex => do write "~"; pure false
  | ExpOp.OpNotRegex => do write "!~"; pure false
  | ExpOp.OpIRegex => do write "~*"; pure false
  | ExpOp.OpNotIRegex => do write "!~*"; pure false
  | ExpOp.OpContains => do write "@>"; pure false
  | ExpOp.OpContainedIn => do write "<@"; pure false
  | ExpOp.OpHasKey => do write "?"; pure false
  | ExpOp.OpHasKeyAny => do write "?|"; pure false
  | ExpOp.OpHasKeyAll => do write "?&"; pure false
  | ExpOp.OpEqualsTrue => do
    write "("
    emit (c.h.renderParam { Name := ex.Val, Typ := "boolean" })
    write " IS TRUE)"
    pure true
  | ExpOp.OpNotEqualsTrue => do
    write "("
    emit (c.h.renderParam { Name := ex.Val, Typ := "boolean" })
    write " IS NOT TRUE)"
    pure true
  | ExpOp.OpIsNull => do
    (if equalFold ex.Val "true" then write "IS NULL)" else write "IS NOT NULL)")
    pure true
  | ExpOp.OpTsQuery => do
    (if c.ct = "mysql" then do
      write "(MATCH("
      forRange ti.FullText (fun i col => do
        (if i != 0 then write ", " else pure ())
        write (c.h.colWithTable ti.Name col.Name))
      write ") AGAINST ("
      emit (c.h.renderParam { Name := ex.Val, Typ := "text" })
      write " IN NATURAL LANGUAGE MODE))"
    else do
      write "(("
      forRange ti.FullText (fun i col => do
        (if i != 0 then write " OR (" else pure ())
        write (c.h.colWithTable ti.Name col.Name)
        (if c.cv ≥ 110000 then write ") @@ websearch_to_tsquery("
        else write ") @@ to_tsquery(")
        emit (c.h.renderParam { Name := ex.Val, Typ := "text" })
        write ")")
      write ")")
    pure true
  | _ => pure false

/-- The function `renderOp` (lines 644-780). -/
def renderOp (c : compilerContext) (_schema : DBSchema) (ti : TInfo) (ex : Exp) : M Unit :=
  if ex.Op = ExpOp.OpNop then pure ()
  else do
    let done ← renderValPrefix c ti ex
    if done then pure ()
    else do
      (if ex.Col.Name != "" then do
        write "(("
        (if ex.Typ = ValType.ValRef ∧ ex.Op = ExpOp.OpIsNull then
          write (c.h.colWithTable ex.Table ex.Col.Name)
        else
          write (c.h.colWithTable ti.Name ex.Col.Name))
        write ") "
      else pure ())
      let returned ← renderOpSwitch c ti ex
      if returned then pure ()
      else do
        write " "
        (if ex.Typ = ValType.ValList then renderList ex else renderVal c ti ex)
        write ")"

/-- The function `renderJoin` (lines 333-339). -/
def renderJoin (c : compilerContext) (rel : DBRel) (pid : Int) : M Unit := do
  write " LEFT OUTER JOIN "
  write rel.Left.Ti.Name
  write " ON (("
  emit (c.h.renderRel rel.Left.Ti rel pid [])
  write "))"

/-- The Go slice expression `xs[lo:hi]`, the capacity of the slice taken to be its
length: `none` stands for the slice-bounds-out-of-range panic. -/
def goSlice {α : Type} (xs : List α) (lo hi : Nat) : Option (List α) :=
  if lo ≤ hi ∧ hi ≤ xs.length then some ((xs.take hi).drop lo) else none

/-- The function `renderNestedWhere` (lines 623-642); `rec` is its call of
`renderExp` with `skipNested` true.  `ex.Rels[0]` panics on an empty list. -/
def renderNestedWhere (c : compilerContext) (rec : TInfo → Exp → M Unit)
    (ti : TInfo) (ex : Exp) : M Unit :=
  match ex.Rels with
  | [] => panicM
  | firstRel :: _ => do
    write "EXISTS (SELECT 1 FROM "
    write firstRel.Left.Col.Table
    (if ex.Rels.length > 1 then
      match goSlice ex.Rels 1 (ex.Rels.length - 1) with
      | none => panicM
      | some mid => forRange mid (fun _ rel => renderJoin c rel (-1))
    else pure ())
    write " WHERE "
    match ex.Rels.get? (ex.Rels.length - 1) with
    | none => panicM
    | some lastRel => do
      rec lastRel.Left.Ti ex
      write " AND ("
      emit (c.h.renderRel ti firstRel (-1) [])
      write "))"

/-- Modelled from the spec: an element of the stack `util.StackInf` of
`renderExp`: a raw character, an operator token or an expression node. -/
inductive Frame where
  | chr (v : Char)
  | op (v : ExpOp)
  | exp (v : Exp)
deriving Repr, Inhabited

/-- The loop `for i := len(val.Children) - 1; i >= 0; i--` of `renderExp` (lines
600-605), over the children from the last to the first: `rest` holds the `i`
children still to come, so `i > 0` is `rest.length > 0`. -/
def pushChildren (op : ExpOp) : List Exp → List Frame → List Frame
  | [], st => st
  | child :: rest, st =>
    let st1 := Frame.exp child :: st
    let st2 := if rest.length > 0 then Frame.op op :: st1 else st1
    pushChildren op rest st2

/-- The loop of `renderExp` (lines 566-620) on the stack `st`, top first. -/
def renderExpLoop (c : compilerContext) (schema : DBSchema) :
    Nat → TInfo → Bool → List Frame → M Unit
  | 0, _, _, [] => pure ()
  | 0, _, _, _ :: _ => outOfFuelM
  | _ + 1, _, _, [] => pure ()
  | fuel + 1, ti, skipNested, intf :: st =>
    match intf with
    | Frame.chr v => do
      (if v = '(' then write "(" else if v = ')' then write ")" else pure ())
      renderExpLoop c schema fuel ti skipNested st
    | Frame.op v => do
      (match v with
        | ExpOp.OpAnd => write " AND "
        | ExpOp.OpOr => write " OR "
        | ExpOp.OpNot => write "NOT "
        | ExpOp.OpFalse => write "false"
        | _ => pure ())
      renderExpLoop c schema fuel ti skipNested st
    | Frame.exp val =>
      match val.Op with
      | ExpOp.OpFalse =>
        renderExpLoop c schema fuel ti skipNested (Frame.op val.Op :: st)
      | ExpOp.OpAnd =>
        renderExpLoop c schema fuel ti skipNested
          (Frame.chr '(' :: pushChildren val.Op val.Children.reverse (Frame.chr ')' :: st))
      | ExpOp.OpOr =>
        renderExpLoop c schema fuel ti skipNested
          (Frame.chr '(' :: pushChildren val.Op val.Children.reverse (Frame.chr ')' :: st))
      | ExpOp.OpNot =>
        match val.Children with
        | [] => panicM
        | child :: _ =>
          renderExpLoop c schema fuel ti skipNested
            (Frame.op ExpOp.OpNot :: Frame.exp child :: st)
      | _ => do
        (if !skipNested && val.Rels.length != 0 then
          renderNestedWhere c
            (fun ti2 ex2 => renderExpLoop c schema fuel ti2 true [Frame.exp ex2]) ti val
        else
          renderOp c schema ti val)
        renderExpLoop c schema fuel ti skipNested st

/-- The function `renderExp` (lines 562-621). -/
def renderExp (c : compilerContext) (fuel : Nat) (schema : DBSchema) (ti : TInfo)
    (ex : Exp) (skipNested : Bool) : M Unit :=
  renderExpLoop c schema fuel ti skipNested [Frame.exp ex]

/-! ## Select emitter (`query.go`, lines 217-560 and 782-836) -/

/-- The function `renderPluralSelect` (lines 217-244). -/
def renderPluralSelect (c : compilerContext) (sel : Select) : M Unit :=
  if sel.Singular then pure ()
  else do
    (if c.ct = "mysql" then do
      write "SELECT CAST(COALESCE(json_arrayagg(__sj_"
      write (c.h.int32String sel.ID)
      write ".json), '[]') AS JSON) AS json"
    else do
      write "SELECT COALESCE(jsonb_agg(__sj_"
      write (c.h.int32String sel.ID)
      write ".json), '[]') AS json")
    (if sel.Paging.Cursor then do
      write ", CONCAT_WS(','"
      forRange sel.OrderBy (fun i _ => do
        write ", max(__cur_"
        write (c.h.int32String i)
        write ")")
      write ") as __cursor"
    else pure ())
    write " FROM ("

/-- The function `renderDistinctOn` (lines 824-836). -/
def renderDistinctOn (c : compilerContext) (sel : Select) : M Unit :=
  if sel.DistinctOn.length = 0 then pure ()
  else do
    write "DISTINCT ON ("
    forRange sel.DistinctOn (fun i col => do
      (if i != 0 then write ", " else pure ())
      write (c.h.colWithTable sel.Table col.Name))
    write ") "

/-- The function `renderOrderBy` (lines 796-822). -/
def renderOrderBy (c : compilerContext) (sel : Select) : M Unit :=
  if sel.OrderBy.length = 0 then pure ()
  else do
    write " ORDER BY "
    forRange sel.OrderBy (fun i col => do
      (if i != 0 then write ", " else pure ())
      write (c.h.colWithTable sel.Table col.Col.Name)
      match col.Order with
      | Order.OrderAsc => write " ASC"
      | Order.OrderDesc => write " DESC"
      | Order.OrderAscNullsFirst => write " ASC NULLS FIRST"
      | Order.OrderDescNullsFirst => write " DESC NULLLS FIRST"
      | Order.OrderAscNullsLast => write " ASC NULLS LAST"
      | Order.OrderDescNullsLast => write " DESC NULLS LAST")

/-- The function `renderGroupBy` (lines 782-794). -/
def renderGroupBy (c : compilerContext) (sel : Select) : M Unit :=
  if !sel.GroupCols then pure ()
  else do
    write " GROUP BY "
    forRange sel.BCols (fun i col => do
      (if i != 0 then write ", " else pure ())
      write (c.h.colWithTable sel.Table col.Col.Name))

/-- The function `renderLimit` (lines 359-388). -/
def renderLimit (c : compilerContext) (sel : Select) : M Unit := do
  (if sel.Paging.NoLimit then pure ()
  else if sel.Singular then write " LIMIT 1"
  else if sel.Paging.LimitVar != "" then do
    write " LIMIT LEAST("
    emit (c.h.renderParam { Name := sel.Paging.LimitVar, Typ := "integer" })
    write ", "
    write (c.h.int32String sel.Paging.Limit)
    write ")"
  else do
    write " LIMIT "
    write (c.h.int32String sel.Paging.Limit))
  if sel.Paging.OffsetVar != "" then do
    write " OFFSET "
    emit (c.h.renderParam { Name := sel.Paging.OffsetVar, Typ := "integer" })
  else if sel.Paging.Offset != 0 then do
    write " OFFSET "
    write (c.h.int32String sel.Paging.Offset)
  else pure ()

/-- The function `renderCursorCTE` (lines 493-529). -/
def renderCursorCTE (c : compilerContext) (sel : Select) : M Unit :=
  if !sel.Paging.Cursor then pure ()
  else do
    write "WITH __cur AS (SELECT "
    if c.ct = "mysql" then do
      forRange sel.OrderBy (fun i ob => do
        (if i != 0 then write ", " else pure ())
        write "SUBSTRING_INDEX(SUBSTRING_INDEX(a.i, ',', "
        write (c.h.int32String (i + 1))
        write "), ',', -1) AS "
        write (c.h.quoted ob.Col.Name))
      write " FROM ((SELECT "
      emit (c.h.renderParam { Name := "cursor", Typ := "text" })
      write " AS i)) as a) "
    else do
      forRange sel.OrderBy (fun i ob => do
        (if i != 0 then write ", " else pure ())
        write "a["
        write (c.h.int32String (i + 1))
        write "] :: "
        write ob.Col.Typ
        write " as "
        write (c.h.quoted ob.Col.Name))
      write " FROM string_to_array("
      emit (c.h.renderParam { Name := "cursor", Typ := "text" })
      write ", ',') as a) "

/-- The function `renderJSONTable` (lines 453-471). -/
def renderJSONTable (c : compilerContext) (sel : Select) : M Unit := do
  write "JSON_TABLE("
  write (c.h.colWithTable sel.Rel.Left.Col.Table sel.Rel.Left.Col.Name)
  write ", \"$[*]\" COLUMNS("
  forRange sel.Ti.Columns (fun i col => do
    (if i != 0 then write ", " else pure ())
    write col.Name
    write " "
    write col.Typ
    write " PATH \"$."
    write col.Name
    write "\" ERROR ON ERROR")
  write ")) AS"
  write (c.h.quoted sel.Table)

/-- The function `renderRecordSet` (lines 473-491). -/
def renderRecordSet (c : compilerContext) (sel : Select) : M Unit := do
  write sel.Ti.Typ
  write "_to_recordset("
  write (c.h.colWithTable sel.Rel.Left.Col.Table sel.Rel.Left.Col.Name)
  write ") AS "
  write (c.h.quoted sel.Table)
  write "("
  forRange sel.Ti.Columns (fun i col => do
    (if i != 0 then write ", " else pure ())
    write col.Name
    write " "
    write col.Typ)
  write ")"

/-- The function `renderFrom` (lines 418-451). -/
def renderFrom (c : compilerContext) (sel : Select) : M Unit := do
  write " FROM "
  (match sel.Rel.Typ with
  | RelType.RelEmbedded => do
    write sel.Rel.Left.Col.Table
    write ", "
    if c.ct = "mysql" then renderJSONTable c sel else renderRecordSet c sel
  | RelType.RelRecursive => do
    write "(SELECT * FROM "
    write (c.h.quoted ("_rcte_" ++ sel.Rel.Right.Ti.Name))
    (if c.ct = "mysql" then write " LIMIT 1, 18446744073709551610) "
    else write " OFFSET 1) ")
    write (c.h.quoted sel.Table)
  | _ => write (c.h.quoted sel.Table))
  if sel.Paging.Cursor then write ", __cur" else pure ()

/-- The function `renderJoinTables` (lines 320-331). -/
def renderJoinTables (c : compilerContext) (sel : Select) : M Unit :=
  forRange sel.Joins (fun i rel =>
    renderJoin c rel (if i = 0 then sel.ParentID else -1))

/-- The function `renderWhere` (lines 531-560); `c.qc.Selects[sel.ParentID]` may
panic. -/
def renderWhere (c : compilerContext) (fuel : Nat) (sel : Select) : M Unit :=
  if sel.Rel.Typ = RelType.RelNone ∧ sel.Where.Exp.isNone then pure ()
  else do
    write " WHERE ("
    let pid0 ←
      (if sel.Typ = SelType.SelTypeMember then
        match selectAt c.qc.Selects sel.ParentID with
        | none => panicM
        | some psel => pure psel.ParentID
      else pure sel.ParentID : M Int)
    let pid := if sel.Joins.length != 0 then -1 else pid0
    emit (c.h.renderRel sel.Ti sel.Rel pid sel.ArgMap)
    (match sel.Where.Exp with
    | some ex => do
      (if sel.Rel.Typ != RelType.RelNone then write " AND " else pure ())
      renderExp c fuel c.qc.Schema sel.Ti ex false
    | none => pure ())
    write ")"

/-- The function `renderBaseSelect` (lines 341-357). -/
def renderBaseSelect (c : compilerContext) (fuel : Nat) (sel : Select) : M Unit := do
  renderCursorCTE c sel
  write "SELECT "
  renderDistinctOn c sel
  emit (c.h.renderBaseColumns c.qc.Selects sel)
  renderFrom c sel
  renderJoinTables c sel
  (if sel.Rel.Typ != RelType.RelRecursive then renderWhere c fuel sel else pure ())
  renderGroupBy c sel
  renderOrderBy c sel
  renderLimit c sel

/-- The function `renderRecursiveBaseSelect` (lines 398-416);
`c.qc.Selects[sel.ParentID]` may panic. -/
def renderRecursiveBaseSelect (c : compilerContext) (fuel : Nat) (sel : Select) : M Unit :=
  match selectAt c.qc.Selects sel.ParentID with
  | none => panicM
  | some psel => do
    write "(SELECT "
    emit (c.h.renderBaseColumns c.qc.Selects sel)
    renderFrom c psel
    write " WHERE ("
    write (c.h.colWithTable sel.Table sel.Ti.PrimaryCol.Name)
    write ") = ("
    write (c.h.colWithTableID psel.Table psel.ID sel.Ti.PrimaryCol.Name)
    write ") LIMIT 1) UNION ALL "
    write "SELECT "
    emit (c.h.renderBaseColumns c.qc.Selects sel)
    renderFrom c psel
    write ", "
    write (c.h.quoted ("_rcte_" ++ sel.Rel.Right.Ti.Name))
    renderWhere c fuel sel

/-- The function `renderRecursiveCTE` (lines 390-396). -/
def renderRecursiveCTE (c : compilerContext) (fuel : Nat) (sel : Select) : M Unit := do
  write "WITH RECURSIVE "
  write (c.h.quoted ("_rcte_" ++ sel.Rel.Right.Ti.Name))
  write " AS ("
  renderRecursiveBaseSelect c fuel sel
  write ") "

/-- The function `renderSelect` (lines 246-298). -/
def renderSelect (c : compilerContext) (fuel : Nat) (sel : Select) : M Unit := do
  (if c.ct = "mysql" then do
    write "SELECT json_object("
    emit (c.h.renderJSONFields c.qc.Selects sel)
    write ") "
  else do
    write "SELECT to_jsonb(__sr_"
    write (c.h.int32String sel.ID)
    write ".*) "
    if sel.Paging.Cursor then
      forRange sel.OrderBy (fun i _ => do
        write "- '__cur_"
        write (c.h.int32String i)
        write "' ")
    else pure ())
  write "AS json "
  (if sel.Paging.Cursor then
    forRange sel.OrderBy (fun i _ => do
      write ", __cur_"
      write (c.h.int32String i)
      write " ")
  else pure ())
  write "FROM (SELECT "
  emit (c.h.renderColumns c.qc.Selects sel)
  (if sel.Paging.Cursor then
    forRange sel.OrderBy (fun i ob => do
      write ", LAST_VALUE("
      write (c.h.colWithTableID sel.Table sel.ID ob.Col.Name)
      write ") OVER() AS __cur_"
      write (c.h.int32String i))
  else pure ())
  write " FROM ("
  renderBaseSelect c fuel sel
  write ")"
  write (c.h.aliasWithID sel.Table sel.ID)

/-- The function `renderSelectClose` (lines 300-308). -/
def renderSelectClose (c : compilerContext) (sel : Select) : M Unit := do
  write ")"
  write (c.h.aliasWithID "__sr" sel.ID)
  if !sel.Singular then do
    write ")"
    write (c.h.aliasWithID "__sj" sel.ID)
  else pure ()

/-- The function `renderLateralJoin` (lines 310-312). -/
def renderLateralJoin : M Unit :=
  write " LEFT OUTER JOIN LATERAL ("

/-- The function `renderLateralJoinClose` (lines 314-318). -/
def renderLateralJoinClose (c : compilerContext) (sel : Select) : M Unit := do
  write ")"
  write (c.h.aliasWithID "__sj" sel.ID)
  write " ON true"

/-! ## Traversal driver and entry points (`query.go`, lines 57-215) -/

/-- Modelled from the spec: the `IntStack` of the traversal, an explicit stack of
selection ids; the head of the list is the top. -/
abbrev IntStack := List Int

/-- Modelled from the spec: `IntStack.Push`. -/
def IntStack.Push (st : IntStack) (v : Int) : IntStack := v :: st

/-- The loop over `sel.Children` in `renderQuery` (lines 195-204): `none` is the
panic of `c.qc.Selects[cid]`. -/
def pushSelChildren (selects : List Select) : List Int → IntStack → Option IntStack
  | [], st => some st
  | cid :: rest, st =>
    match selectAt selects cid with
    | none => none
    | some child =>
      if child.SkipRender != SkipType.SkipTypeNone then pushSelChildren selects rest st
      else
        pushSelChildren selects rest
          ((st.Push (wrap32 (child.ID + closeBlock))).Push child.ID)

/-- The open event of `renderQuery` (lines 183-193): the text of one selection. -/
def renderOpen (c : compilerContext) (fuel : Nat) (multi : Bool) (sel : Select) : M Unit :=
  if sel.Typ != SelType.SelTypeUnion then do
    (if sel.Rel.Typ != RelType.RelNone || multi then renderLateralJoin else pure ())
    (if sel.Rel.Typ = RelType.RelRecursive then renderRecursiveCTE c fuel sel else pure ())
    renderPluralSelect c sel
    renderSelect c fuel sel
  else pure ()

/-- The close event of `renderQuery` (lines 206-212). -/
def renderClose (c : compilerContext) (multi : Bool) (sel : Select) : M Unit :=
  if sel.Typ != SelType.SelTypeUnion then do
    renderSelectClose c sel
    if sel.Rel.Typ != RelType.RelNone || multi then renderLateralJoinClose c sel
    else pure ()
  else pure ()

/-- The function `renderQuery` (lines 166-215): `expFuel` is the fuel of the
expression loops, the first explicit argument the fuel of this loop. -/
def renderQuery (c : compilerContext) (expFuel : Nat) (multi : Bool) :
    Nat → IntStack → M Unit
  | 0, [] => pure ()
  | 0, _ :: _ => outOfFuelM
  | _ + 1, [] => pure ()
  | fuel + 1, id :: st =>
    if id < closeBlock then
      match selectAt c.qc.Selects id with
      | none => panicM
      | some sel => do
        renderOpen c expFuel multi sel
        match pushSelChildren c.qc.Selects sel.Children st with
        | none => panicM
        | some st2 => renderQuery c expFuel multi fuel st2
    else
      match selectAt c.qc.Selects (id - closeBlock) with
      | none => panicM
      | some sel => do
        renderClose c multi sel
        renderQuery c expFuel multi fuel st

/-- The loop over `qc.Roots` in `CompileQuery` (lines 118-157), at index `i` with
stack `st`; it returns the stack. -/
def rootsLoop (c : compilerContext) : Nat → List Int → IntStack → M IntStack
  | _, [], st => pure st
  | i, id :: rest, st => do
    (if i != 0 then write ", " else pure ())
    match selectAt c.qc.Selects id with
    | none => panicM
    | some sel =>
      if sel.SkipRender = SkipType.SkipTypeUserNeeded then do
        write "'"
        write sel.FieldName
        write "', NULL"
        (if sel.Paging.Cursor then do
          write ", '"
          write sel.FieldName
          write "_cursor', NULL"
        else pure ())
        rootsLoop c (i + 1) rest st
      else do
        write "'"
        write sel.FieldName
        write "', __sj_"
        write (c.h.int32String sel.ID)
        write ".json"
        (if sel.Paging.Cursor then do
          write ", '"
          write sel.FieldName
          write "_cursor', "
          write "__sj_"
          write (c.h.int32String sel.ID)
          write ".__cursor"
        else pure ())
        rootsLoop c (i + 1) rest ((st.Push (wrap32 (sel.ID + closeBlock))).Push sel.ID)

/-- The function `CompileQuery` (lines 92-164). -/
def CompileQuery (c : compilerContext) (fuel : Nat) : M Unit := do
  (if c.qc.Typ = QType.QTSubscription then modifyMd (fun md => { md with poll := true })
  else pure ())
  modifyMd (fun md => { md with ct := c.qc.Schema.Typ })
  (if c.ct = "mysql" then write "SELECT json_object("
  else write "SELECT jsonb_build_object(")
  let st ← rootsLoop c 0 c.qc.Roots []
  write ") AS __root FROM ((SELECT true)) AS __root_x"
  renderQuery c fuel true fuel st

/-- The errors that `Compile` returns. -/
inductive CompileError where
  | nilQCode
  | unknownOperationType (t : QType)
deriving DecidableEq, Repr, Inhabited

/-- What `Compile` returns: the caller's buffer afterwards, the metadata and the
error. -/
structure Compiled where
  w : String
  md : Metadata
  err : Option CompileError
deriving DecidableEq, Repr, Inhabited

/-- A compile step run on the zero metadata, its text appended to the buffer `w`. -/
def runOn (w : String) (step : M Unit) : Res Compiled :=
  match step {} with
  | Res.ok r => Res.ok { w := w ++ r.text, md := r.md, err := none }
  | Res.panic => Res.panic
  | Res.outOfFuel => Res.outOfFuel

/-- The function `Compile` (lines 67-90); a nil `qc` is `none`. -/
def Compile (h : Helpers) (co : Compiler) (fuel : Nat) (w : String) :
    Option QCode → Res Compiled
  | none => Res.ok { w := w, md := {}, err := some CompileError.nilQCode }
  | some qc =>
    match qc.Typ with
    | QType.QTQuery => runOn w (CompileQuery ⟨h, qc, co⟩ fuel)
    | QType.QTSubscription => runOn w (CompileQuery ⟨h, qc, co⟩ fuel)
    | QType.QTMutation => runOn w (h.compileMutation qc)
    | t => Res.ok { w := w, md := {}, err := some (CompileError.unknownOperationType t) }

/-- What `CompileEx` returns: the metadata, the SQL bytes (`none` is nil) and the
error. -/
structure CompiledEx where
  md : Metadata
  sql : Option String
  err : Option CompileError
deriving DecidableEq, Repr, Inhabited

/-- The function `CompileEx` (lines 57-65). -/
def CompileEx (h : Helpers) (co : Compiler) (fuel : Nat) (qc : Option QCode) :
    Res CompiledEx :=
  match Compile h co fuel "" qc with
  | Res.ok r =>
    if r.err.isSome then Res.ok { md := r.md, sql := none, err := r.err }
    else Res.ok { md := r.md, sql := some r.w, err := none }
  | Res.panic => Res.panic
  | Res.outOfFuel => Res.outOfFuel

/-! ## One instance of the rest of the package, and the scenario S1 -/

/-- Modelled from the spec: the parameter recorder `renderParam`.  A parameter
is recorded at its first appearance and a repeated name reuses its slot; the
placeholder is `$N` (`?` on MySQL). -/
def specRenderParam (ct : String) (p : Param) : Emit := fun md =>
  match md.pindex.lookup p.Name with
  | some slot => (md, if ct = "mysql" then "?" else "$" ++ toString slot)
  | none =>
    let slot := md.params.length + 1
    ({ md with params := md.params ++ [p], pindex := md.pindex ++ [(p.Name, slot)] },
      if ct = "mysql" then "?" else "$" ++ toString slot)

/-- Modelled from the spec: `colWithTableID`, the aliased form of a column
reference; a negative id refers to the unqualified table. -/
def specColWithTableID (table : String) (id : Int) (col : String) : String :=
  if id < 0 then "\"" ++ table ++ "\".\"" ++ col ++ "\""
  else "\"" ++ table ++ "_" ++ toString id ++ "\".\"" ++ col ++ "\""

/-- Modelled from the spec: the relation predicate `renderRel`, an equality
between the child column and the parent column. -/
def specRenderRel (ti : TInfo) (rel : DBRel) (pid : Int) (_args : ArgMap) : Emit := fun md =>
  if rel.Typ = RelType.RelNone then (md, "")
  else
    (md, "(\"" ++ ti.Name ++ "\".\"" ++ rel.Left.Col.Name ++ "\") = ("
      ++ specColWithTableID rel.Right.Col.Table pid rel.Right.Col.Name ++ ")")

/-- Modelled from the spec: the writer helpers (identifiers double-quoted and
table-qualified, literals single-quoted, aliases with the selection id
appended), the parameter recorder, the column lists taken from the base columns
of the selection, and a mutation compiler that emits nothing (mutations are out
of scope). -/
def specHelpers (ct : String) : Helpers where
  int32String := fun n => toString n
  quoted := fun s => "\"" ++ s ++ "\""
  squoted := fun s => "'" ++ s ++ "'"
  colWithTable := fun table col => "\"" ++ table ++ "\".\"" ++ col ++ "\""
  colWithTableID := specColWithTableID
  aliasWithID := fun name id => " \"" ++ name ++ "_" ++ toString id ++ "\""
  renderParam := specRenderParam ct
  renderVar := fun s md => (md, s)
  renderColumns := fun _ sel md =>
    (md, ", ".intercalate
      (sel.BCols.map (fun col => specColWithTableID sel.Table sel.ID col.Col.Name)))
  renderBaseColumns := fun _ sel md =>
    (md, ", ".intercalate
      (sel.BCols.map (fun col => "\"" ++ sel.Table ++ "\".\"" ++ col.Col.Name ++ "\"")))
  renderJSONFields := fun _ sel md =>
    (md, ", ".intercalate
      (sel.BCols.map (fun col =>
        "'" ++ col.Col.Name ++ "', " ++ specColWithTableID sel.Table sel.ID col.Col.Name)))
  renderRel := specRenderRel
  compileMutation := fun _ => pure ()

/-- A Postgres compiler with no static variables. -/
def pgCompiler : Compiler := { svars := [], ct := "postgres", cv := 110000 }

/-- The table `users(id int pk, name text)` of the scenarios. -/
def usersTable : TInfo :=
  { Name := "users",
    Columns := [{ Name := "id", Typ := "integer", Table := "users" },
                { Name := "name", Typ := "text", Table := "users" }],
    PrimaryCol := { Name := "id", Typ := "integer", Table := "users" } }

/-- The selection of scenario S1: a plural root `users` with id 0, columns id and
name, literal limit 20. -/
def usersSel : Select :=
  { ID := 0, FieldName := "users", Table := "users", Ti := usersTable,
    BCols := [{ Col := { Name := "id", Typ := "integer", Table := "users" } },
              { Col := { Name := "name", Typ := "text", Table := "users" } }],
    Paging := { Limit := 20 } }

/-- The query of scenario S1. -/
def qcS1 : QCode :=
  { Typ := QType.QTQuery, Schema := { Typ := "postgres" }, Roots := [0],
    Selects := [usersSel] }

/-- The SQL text that the specification gives for scenario S1. -/
def sqlS1 : String :=
  "SELECT jsonb_build_object('users', __sj_0.json) AS __root FROM ((SELECT true)) AS __root_x LEFT OUTER JOIN LATERAL (SELECT COALESCE(jsonb_agg(__sj_0.json), '[]') AS json FROM (SELECT to_jsonb(__sr_0.*) AS json FROM (SELECT \"users\".\"id\", \"users\".\"name\" FROM \"users\" LIMIT 20) \"users_0\") \"__sr_0\") \"__sj_0\" ON true"

/-- The SQL text that the compiler emits for scenario S1: the row wrapper selects
the columns from a further sub-select around the base SELECT, so that four
parenthesised levels follow LATERAL. -/
def sqlS1Emitted : String :=
  "SELECT jsonb_build_object('users', __sj_0.json) AS __root FROM ((SELECT true)) AS __root_x LEFT OUTER JOIN LATERAL (SELECT COALESCE(jsonb_agg(__sj_0.json), '[]') AS json FROM (SELECT to_jsonb(__sr_0.*) AS json FROM (SELECT \"users_0\".\"id\", \"users_0\".\"name\" FROM (SELECT \"users\".\"id\", \"users\".\"name\" FROM \"users\" LIMIT 20) \"users_0\") \"__sr_0\") \"__sj_0\") \"__sj_0\" ON true"

/-! ## Definitions used to state the theorems -/

/-- The result `r` with the text `t` put in front of its text. -/
def Res.shift {α : Type} (t : String) : Res (Emitted α) → Res (Emitted α)
  | Res.ok r => Res.ok ⟨r.val, r.md, t ++ r.text⟩
  | Res.panic => Res.panic
  | Res.outOfFuel => Res.outOfFuel


/-- The spelling of the ordinary comparison operators, as the operator table of
the specification gives it. -/
def opSpelling : ExpOp → Option String
  | ExpOp.OpEquals => some "="
  | ExpOp.OpNotEquals => some "!="
  | ExpOp.OpNotDistinct => some "IS NOT DISTINCT FROM"
  | ExpOp.OpDistinct => some "IS DISTINCT FROM"
  | ExpOp.OpGreaterThan => some ">"
  | ExpOp.OpLesserThan => some "<"
  | ExpOp.OpGreaterOrEquals => some ">="
  | ExpOp.OpLesserOrEquals => some "<="
  | ExpOp.OpIn => some "= ANY"
  | ExpOp.OpNotIn => some "!= ALL"
  | ExpOp.OpLike => some "LIKE"
  | ExpOp.OpNotLike => some "NOT LIKE"
  | ExpOp.OpILike => some "ILIKE"
  | ExpOp.OpNotILike => some "NOT ILIKE"
  | ExpOp.OpSimilar => some "SIMILAR TO"
  | ExpOp.OpNotSimilar => some "NOT SIMILAR TO"
  | ExpOp.OpRegex => some "~"
  | ExpOp.OpNotRegex => some "!~"
  | ExpOp.OpIRegex => some "~*"
  | ExpOp.OpNotIRegex => some "!~*"
  | ExpOp.OpContains => some "@>"
  | ExpOp.OpContainedIn => some "<@"
  | ExpOp.OpHasKey => some "?"
  | ExpOp.OpHasKeyAny => some "?|"
  | ExpOp.OpHasKeyAll => some "?&"
  | _ => none

/-- A literal value: a string, a number or a boolean (not a list, a variable or
a column reference). -/
def isLiteral (t : ValType) : Prop :=
  t = ValType.ValStr ∨ t = ValType.ValNum ∨ t = ValType.ValBool

/-- The entry of a root selection in the root wrapper, as the specification gives
it: `'<field_name>', NULL` for a UserNeeded root and `'<field_name>', __sj_<id>.json`
otherwise, followed by the `_cursor` key when the root has cursor paging. -/
def rootEntry (h : Helpers) (sel : Select) : String :=
  if sel.SkipRender = SkipType.SkipTypeUserNeeded then
    "'" ++ sel.FieldName ++ "', NULL"
      ++ (if sel.Paging.Cursor then ", '" ++ sel.FieldName ++ "_cursor', NULL" else "")
  else
    "'" ++ sel.FieldName ++ "', __sj_" ++ h.int32String sel.ID ++ ".json"
      ++ (if sel.Paging.Cursor then
            ", '" ++ sel.FieldName ++ "_cursor', __sj_" ++ h.int32String sel.ID ++ ".__cursor"
          else "")

/-- The root selections of a query, in `Roots` order. -/
def rootSelects (qc : QCode) : List Select := qc.Roots.filterMap (selectAt qc.Selects)

/-- The root wrapper of a query, as the specification gives it. -/
def rootWrapper (h : Helpers) (co : Compiler) (qc : QCode) : String :=
  (if co.ct = "mysql" then "SELECT json_object(" else "SELECT jsonb_build_object(")
    ++ ", ".intercalate ((rootSelects qc).map (rootEntry h))
    ++ ") AS __root FROM ((SELECT true)) AS __root_x"

/-- The stack after the loop over the roots: every root that is not UserNeeded
has pushed its close event and then its open event. -/
def scheduleRoots : List Select → IntStack → IntStack
  | [], st => st
  | sel :: rest, st =>
    if sel.SkipRender = SkipType.SkipTypeUserNeeded then scheduleRoots rest st
    else scheduleRoots rest (sel.ID :: wrap32 (sel.ID + closeBlock) :: st)

/-- The metadata with which `CompileQuery` starts the traversal. -/
def rootMd (qc : QCode) (md : Metadata) : Metadata :=
  { (if qc.Typ = QType.QTSubscription then { md with poll := true } else md) with
    ct := qc.Schema.Typ }

/-- Every string of the list with the separator in front, concatenated. -/
def sepAll (sep : String) : List String → String
  | [] => ""
  | a :: rest => sep ++ a ++ sepAll sep rest

/-- The text of the root entries from index `i` on, each but the very first
with `, ` in front. -/
def entriesText (h : Helpers) : Nat → List Select → String
  | _, [] => ""
  | i, sel :: rest =>
    (if i != 0 then ", " else "") ++ rootEntry h sel ++ entriesText h (i + 1) rest

/-- The emitter `y` returns whatever `x` returns: wherever `x` ends without a
panic and within its fuel, `y` ends with the same result. -/
def M.le {α : Type} (x y : M α) : Prop :=
  ∀ md r, x md = Res.ok r → y md = Res.ok r

/-- The stack segment of one scheduled selection: its open event on top of its
close event. -/
def block (sel : Select) : IntStack := [sel.ID, wrap32 (sel.ID + closeBlock)]

/-- The renderable children of a selection, in `Children` order: those with
skip_render None. -/
def renderableChildren (selects : List Select) (sel : Select) : List Select :=
  (sel.Children.filterMap (selectAt selects)).filter
    (fun child => child.SkipRender = SkipType.SkipTypeNone)

/-- The rendered roots of a query, in `Roots` order: those that are not
UserNeeded. -/
def renderedRoots (qc : QCode) : List Select :=
  (rootSelects qc).filter (fun sel => sel.SkipRender ≠ SkipType.SkipTypeUserNeeded)

/-- The emitters of a list, one after the other. -/
def seqAll : List (M Unit) → M Unit
  | [] => pure ()
  | x :: rest => x >>= fun _ => seqAll rest

/-- The sub-selects of the selections `sibs`, one after the other in the order of
the list: for each the traversal of its own stack segment. -/
def subSelects (c : compilerContext) (ef : Nat) (multi : Bool) (fuel : Nat)
    (sibs : List Select) : M Unit :=
  seqAll (sibs.map (fun sel => renderQuery c ef multi fuel (block sel)))

/-- The table `posts(id int pk, user_id int fk, title text)` of the scenarios. -/
def postsTable : TInfo :=
  { Name := "posts",
    Columns := [{ Name := "id", Typ := "integer", Table := "posts" },
                { Name := "user_id", Typ := "integer", Table := "posts" },
                { Name := "title", Typ := "text", Table := "posts" }],
    FullText := [{ Name := "title", Typ := "text", Table := "posts" }],
    PrimaryCol := { Name := "id", Typ := "integer", Table := "posts" } }

/-- A plural root `posts` with id 1, columns id and title, literal limit 20. -/
def postsSel : Select :=
  { ID := 1, FieldName := "posts", Table := "posts", Ti := postsTable,
    BCols := [{ Col := { Name := "id", Typ := "integer", Table := "posts" } },
              { Col := { Name := "title", Typ := "text", Table := "posts" } }],
    Paging := { Limit := 20 } }

/-- A query with the two roots `users` (id 0) and `posts` (id 1), in this order. -/
def qcTwoRoots : QCode :=
  { Typ := QType.QTQuery, Schema := { Typ := "postgres" }, Roots := [0, 1],
    Selects := [usersSel, postsSel] }

/-- The compiler context of the two-root query on Postgres. -/
def cTwoRoots : compilerContext := ⟨specHelpers "postgres", qcTwoRoots, pgCompiler⟩

/-- The sub-select of the root `users` of the two-root query. -/
def lateralUsers : String :=
  " LEFT OUTER JOIN LATERAL (SELECT COALESCE(jsonb_agg(__sj_0.json), '[]') AS json FROM (SELECT to_jsonb(__sr_0.*) AS json FROM (SELECT \"users_0\".\"id\", \"users_0\".\"name\" FROM (SELECT \"users\".\"id\", \"users\".\"name\" FROM \"users\" LIMIT 20) \"users_0\") \"__sr_0\") \"__sj_0\") \"__sj_0\" ON true"

/-- The sub-select of the root `posts` of the two-root query. -/
def lateralPosts : String :=
  " LEFT OUTER JOIN LATERAL (SELECT COALESCE(jsonb_agg(__sj_1.json), '[]') AS json FROM (SELECT to_jsonb(__sr_1.*) AS json FROM (SELECT \"posts_1\".\"id\", \"posts_1\".\"title\" FROM (SELECT \"posts\".\"id\", \"posts\".\"title\" FROM \"posts\" LIMIT 20) \"posts_1\") \"__sr_1\") \"__sj_1\") \"__sj_1\" ON true"

/-- The root wrapper of the two-root query. -/
def wrapperTwoRoots : String :=
  "SELECT jsonb_build_object('users', __sj_0.json, 'posts', __sj_1.json) AS __root FROM ((SELECT true)) AS __root_x"

/-- The relation of `posts` to its parent `users`: `posts.user_id = users.id`. -/
def postsUsersRel : DBRel :=
  { Typ := RelType.RelOneToMany,
    Left := { Col := { Name := "user_id", Typ := "integer", Table := "posts" }, Ti := postsTable },
    Right := { Col := { Name := "id", Typ := "integer", Table := "users" }, Ti := usersTable } }

/-- The root `users` with the two children `posts` (id 1) and `drafts` (id 2). -/
def usersNested : Select := { usersSel with Children := [1, 2] }

/-- The child `posts` of `users`, with id 1. -/
def postsChild : Select := { postsSel with ParentID := 0, Rel := postsUsersRel }

/-- The child `drafts` of `users`, with id 2, over the table `posts` as well. -/
def draftsChild : Select :=
  { postsSel with ID := 2, FieldName := "drafts", ParentID := 0, Rel := postsUsersRel }

/-- The nested query `{ users { id name posts { id title } drafts { id title } } }`. -/
def qcNested : QCode :=
  { Typ := QType.QTQuery, Schema := { Typ := "postgres" }, Roots := [0],
    Selects := [usersNested, postsChild, draftsChild] }

/-- The compiler context of the nested query on Postgres. -/
def cNested : compilerContext := ⟨specHelpers "postgres", qcNested, pgCompiler⟩

/-- A query with the two roots `users` and `posts`, of which `users` is UserNeeded. -/
def qcUserNeeded : QCode :=
  { Typ := QType.QTQuery, Schema := { Typ := "postgres" }, Roots := [0, 1],
    Selects := [{ usersSel with SkipRender := SkipType.SkipTypeUserNeeded }, postsSel] }

/-- The rendering of a leaf of the WHERE tree: the nested-EXISTS form when the leaf
has relations and `skipNested` is false (its inner expression is the leaf's
operator rendering), the leaf's operator rendering otherwise. -/
def leafRender (c : compilerContext) (schema : DBSchema) (ti : TInfo) (skipNested : Bool)
    (ex : Exp) : M Unit :=
  if !skipNested && ex.Rels.length != 0 then
    renderNestedWhere c (fun ti2 ex2 => renderOp c schema ti2 ex2) ti ex
  else
    renderOp c schema ti ex

mutual
/-- The recursive reference renderer R of the specification:
R(AND[c1..cn]) = `(` R(c1) ` AND ` ... ` AND ` R(cn) `)`, the same with ` OR ` for OR,
R(NOT[c]) = `NOT ` R(c), R(FALSE) = `false`, R(leaf) = the rendering of the leaf.
It is not defined (`panicM`) on a NOT node that has not exactly one child. -/
def refRender (c : compilerContext) (schema : DBSchema) (ti : TInfo) (skipNested : Bool) :
    Exp → M Unit
  | Exp.node n cs =>
    match n.Op with
    | ExpOp.OpAnd => do
      write "("
      refRenderSep c schema ti skipNested " AND " cs
      write ")"
    | ExpOp.OpOr => do
      write "("
      refRenderSep c schema ti skipNested " OR " cs
      write ")"
    | ExpOp.OpNot =>
      match cs with
      | [child] => do
        write "NOT "
        refRender c schema ti skipNested child
      | _ => panicM
    | ExpOp.OpFalse => write "false"
    | _ => leafRender c schema ti skipNested (Exp.node n cs)
/-- The renderings of the expressions of a list, left to right, with the
operator token between two neighbours. -/
def refRenderSep (c : compilerContext) (schema : DBSchema) (ti : TInfo) (skipNested : Bool)
    (sep : String) : List Exp → M Unit
  | [] => pure ()
  | [e] => refRender c schema ti skipNested e
  | e :: e2 :: rest => do
    refRender c schema ti skipNested e
    write sep
    refRenderSep c schema ti skipNested sep (e2 :: rest)
end

mutual
/-- A tree of the grammar of the reference renderer: every NOT node has exactly
one child (looked at below AND, OR and NOT nodes; a leaf has no operands in the
tree). -/
def wellFormed : Exp → Bool
  | Exp.node n cs =>
    match n.Op with
    | ExpOp.OpAnd => wellFormedAll cs
    | ExpOp.OpOr => wellFormedAll cs
    | ExpOp.OpNot =>
      match cs with
      | [child] => wellFormed child
      | _ => false
    | _ => true
/-- Every tree of the list is well formed. -/
def wellFormedAll : List Exp → Bool
  | [] => true
  | e :: rest => wellFormed e && wellFormedAll rest
end

mutual
/-- The number of iterations that the loop of `renderExp` spends on a tree. -/
def loopSteps : Exp → Nat
  | Exp.node n cs =>
    match n.Op with
    | ExpOp.OpAnd => 3 + loopStepsSep cs
    | ExpOp.OpOr => 3 + loopStepsSep cs
    | ExpOp.OpNot =>
      match cs with
      | [child] => 2 + loopSteps child
      | _ => 1
    | ExpOp.OpFalse => 2
    | _ => 1
/-- The number of iterations spent on the children of a group and the operator
tokens between them. -/
def loopStepsSep : List Exp → Nat
  | [] => 0
  | [e] => loopSteps e
  | e :: e2 :: rest => loopSteps e + 1 + loopStepsSep (e2 :: rest)
end

/-- The frames of the children of a group, top first: the children left to
right with the operator token between two neighbours. -/
def interleave (op : ExpOp) : List Exp → List Frame
  | [] => []
  | [e] => [Frame.exp e]
  | e :: e2 :: rest => Frame.exp e :: Frame.op op :: interleave op (e2 :: rest)

/-- An operator that `renderExp` treats as a leaf: none of AND, OR, NOT, FALSE. -/
def isLeafOp (op : ExpOp) : Bool :=
  op != ExpOp.OpAnd && op != ExpOp.OpOr && op != ExpOp.OpNot && op != ExpOp.OpFalse

/-- The compiler context of scenario S1 on Postgres. -/
def cS1 : compilerContext := ⟨specHelpers "postgres", qcS1, pgCompiler⟩

/-- The leaf `id = '1'` over `users`. -/
def expIdEq : Exp :=
  Exp.node { Op := ExpOp.OpEquals, Col := { Name := "id", Typ := "integer", Table := "users" },
             Val := "1", Typ := ValType.ValNum } []

/-- The leaf `name LIKE 'a%'` over `users`. -/
def expNameLike : Exp :=
  Exp.node { Op := ExpOp.OpLike, Col := { Name := "name", Typ := "text", Table := "users" },
             Val := "a%", Typ := ValType.ValStr } []

/-- The leaf `id > '5'` over `users`. -/
def expIdGt : Exp :=
  Exp.node { Op := ExpOp.OpGreaterThan,
             Col := { Name := "id", Typ := "integer", Table := "users" },
             Val := "5", Typ := ValType.ValNum } []

/-- The tree `AND [id = 1, NOT [name LIKE a%], OR [FALSE, id > 5]]`. -/
def expSample : Exp :=
  Exp.node { Op := ExpOp.OpAnd }
    [expIdEq,
     Exp.node { Op := ExpOp.OpNot } [expNameLike],
     Exp.node { Op := ExpOp.OpOr } [Exp.node { Op := ExpOp.OpFalse } [], expIdGt]]

/-- The operator tokens among the frames of a list. -/
def opFrames (frames : List Frame) : List ExpOp :=
  frames.filterMap (fun f => match f with | Frame.op v => some v | _ => none)

/-- The expression nodes among the frames of a list, in the order of the list. -/
def expFrames (frames : List Frame) : List Exp :=
  frames.filterMap (fun f => match f with | Frame.exp v => some v | _ => none)

/-- A tree in which the traversal of `renderExp` reaches a NOT node that has no
children: the node itself, or below the first child of a NOT node, or below any
child of an AND/OR node. -/
inductive Malformed : Exp → Prop where
  | notEmpty (val : Exp) :
      val.Op = ExpOp.OpNot → val.Children = [] → Malformed val
  | inNot (val child : Exp) (rest : List Exp) :
      val.Op = ExpOp.OpNot → val.Children = child :: rest → Malformed child → Malformed val
  | inGroup (val child : Exp) :
      (val.Op = ExpOp.OpAnd ∨ val.Op = ExpOp.OpOr) → child ∈ val.Children →
        Malformed child → Malformed val

/-- The emitter never returns: on every metadata it panics or runs out of fuel. -/
def M.neverOk {α : Type} (x : M α) : Prop :=
  ∀ md r, x md ≠ Res.ok r

/-- The WHERE tree `NOT []`: a NOT node with an empty children list. -/
def expNotEmpty : Exp := Exp.node { Op := ExpOp.OpNot } []

/-- The query of scenario S1 with the WHERE tree `NOT []` on its root. -/
def qcNotEmpty : QCode :=
  { Typ := QType.QTQuery, Schema := { Typ := "postgres" }, Roots := [0],
    Selects := [{ usersSel with Where := { Exp := some expNotEmpty } }] }

/-- The number of parentheses that a text leaves open: its opening parentheses
minus its closing ones. -/
def balance (s : String) : Int :=
  (s.data.count '(' : Int) - (s.data.count ')' : Int)

/-- Every run of the emitter that returns has appended a text that leaves `k`
parentheses open. -/
def M.leavesOpen {α : Type} (x : M α) (k : Int) : Prop :=
  ∀ md r, x md = Res.ok r → balance r.text = k

/-- The emitter returns on every metadata: it neither panics nor runs out of
fuel. -/
def M.returns {α : Type} (x : M α) : Prop :=
  ∀ md, ∃ r, x md = Res.ok r

/-- The condition of `renderQuery` under which the lateral join of a selection
is opened, and closed. -/
def lateralOpened (sel : Select) (multi : Bool) : Bool :=
  sel.Rel.Typ != RelType.RelNone || multi

/-- The close sequence of a selection, as the specification gives it: `) __sr_<id>`,
then `) __sj_<id>` if the selection is not singular, then `) __sj_<id> ON true` if the
lateral join was opened. -/
def closeText (h : Helpers) (sel : Select) (multi : Bool) : String :=
  ")" ++ h.aliasWithID "__sr" sel.ID
    ++ (if sel.Singular then "" else ")" ++ h.aliasWithID "__sj" sel.ID)
    ++ (if lateralOpened sel multi then ")" ++ h.aliasWithID "__sj" sel.ID ++ " ON true"
        else "")

/-- The number of parentheses that the open sequence of a selection leaves open,
as the specification gives it: one for the row wrapper, one for the plural
wrapper unless the selection is singular, one for the lateral join if opened. -/
def openDepth (sel : Select) (multi : Bool) : Int :=
  1 + (if sel.Singular then 0 else 1) + (if lateralOpened sel multi then 1 else 0)

/-- The SQL text that the compiler emits for the nested query on Postgres: inside
the sub-select of `users`, the sub-select of `drafts` (id 2) comes before that of
`posts` (id 1). -/
def sqlNested : String :=
  "SELECT jsonb_build_object('users', __sj_0.json) AS __root FROM ((SELECT true)) AS __root_x LEFT OUTER JOIN LATERAL (SELECT COALESCE(jsonb_agg(__sj_0.json), '[]') AS json FROM (SELECT to_jsonb(__sr_0.*) AS json FROM (SELECT \"users_0\".\"id\", \"users_0\".\"name\" FROM (SELECT \"users\".\"id\", \"users\".\"name\" FROM \"users\" LIMIT 20) \"users_0\" LEFT OUTER JOIN LATERAL (SELECT COALESCE(jsonb_agg(__sj_2.json), '[]') AS json FROM (SELECT to_jsonb(__sr_2.*) AS json FROM (SELECT \"posts_2\".\"id\", \"posts_2\".\"title\" FROM (SELECT \"posts\".\"id\", \"posts\".\"title\" FROM \"posts\" WHERE ((\"posts\".\"user_id\") = (\"users_0\".\"id\")) LIMIT 20) \"posts_2\") \"__sr_2\") \"__sj_2\") \"__sj_2\" ON true LEFT OUTER JOIN LATERAL (SELECT COALESCE(jsonb_agg(__sj_1.json), '[]') AS json FROM (SELECT to_jsonb(__sr_1.*) AS json FROM (SELECT \"posts_1\".\"id\", \"posts_1\".\"title\" FROM (SELECT \"posts\".\"id\", \"posts\".\"title\" FROM \"posts\" WHERE ((\"posts\".\"user_id\") = (\"users_0\".\"id\")) LIMIT 20) \"posts_1\") \"__sr_1\") \"__sj_1\") \"__sj_1\" ON true) \"__sr_0\") \"__sj_0\") \"__sj_0\" ON true"

/-- The root wrapper of the query whose root `users` is UserNeeded. -/
def wrapperUserNeeded : String :=
  "SELECT jsonb_build_object('users', NULL, 'posts', __sj_1.json) AS __root FROM ((SELECT true)) AS __root_x"

/-- The number of positions of a list of characters at which the pattern `p`
starts. -/
def occurrences (p : List Char) : List Char → Nat
  | [] => 0
  | x :: s => (if p.isPrefixOf (x :: s) then 1 else 0) + occurrences p s

/-- The number of occurrences of the pattern `p` in the text `s`. -/
def occ (p s : String) : Nat := occurrences p.data s.data

/-- Every run of the emitter that returns has appended a text with at least `k`
occurrences of the pattern `p`. -/
def M.emitsAtLeast {α : Type} (p : String) (x : M α) (k : Nat) : Prop :=
  ∀ md r, x md = Res.ok r → k ≤ occ p r.text

/-- The left-hand side that `renderOp` writes in front of the operator of a leaf
whose value is not a column reference: `((<table>.<col>) ` when the column name is
not empty, nothing otherwise. -/
def lhsText (h : Helpers) (ti : TInfo) (ex : Exp) : String :=
  if ex.Col.Name = "" then "" else "((" ++ h.colWithTable ti.Name ex.Col.Name ++ ") "

/-- A MySQL compiler with no static variables. -/
def mysqlCompiler : Compiler := { svars := [], ct := "mysql", cv := 80000 }

/-- The static variables of the examples: `ids` is a raw SQL fragment, `uid` a
plain value. -/
def staticVars : List (String × String) :=
  [("ids", "sql:SELECT id FROM admins"), ("uid", "42")]

/-- The compiler context of scenario S1 on MySQL. -/
def cMy : compilerContext := ⟨specHelpers "mysql", qcS1, mysqlCompiler⟩

/-- The compiler context of scenario S1 on MySQL, with the static variables. -/
def cMyStatic : compilerContext :=
  ⟨specHelpers "mysql", qcS1, { mysqlCompiler with svars := staticVars }⟩

/-- The compiler context of scenario S1 on Postgres, with the static variables. -/
def cPgStatic : compilerContext :=
  ⟨specHelpers "postgres", qcS1, { pgCompiler with svars := staticVars }⟩

/-- The attributes of a leaf over the column `id` of `users` whose value is the
variable `ids`; the operator is filled in by the examples. -/
def nodeIds : ExpNode :=
  { Col := { Name := "id", Typ := "integer", Table := "users" }, Val := "ids",
    Typ := ValType.ValVar }

/-- The leaf `id IN $ids` over `users`. -/
def expIdsIn : Exp := Exp.node { nodeIds with Op := ExpOp.OpIn } []

/-- The metadata after a `for ... range` loop whose body, at index `i` on the
element `x`, takes the metadata `md` to `g i x md`. -/
def loopMd {α : Type} (g : Nat → α → Metadata → Metadata) :
    Nat → List α → Metadata → Metadata
  | _, [], md => md
  | i, x :: rest, md => loopMd g (i + 1) rest (g i x md)

/-- The text of a `for ... range` loop whose body, at index `i` on the element `x`
from the metadata `md`, appends `t i x md` and leaves the metadata `g i x md`. -/
def loopText {α : Type} (g : Nat → α → Metadata → Metadata)
    (t : Nat → α → Metadata → String) : Nat → List α → Metadata → String
  | _, [], _ => ""
  | i, x :: rest, md => t i x md ++ loopText g t (i + 1) rest (g i x md)

/-- The full-text function of Postgres: `websearch_to_tsquery` from version 11
(110000) on, `to_tsquery` before. -/
def tsFunction (cv : Int) : String :=
  if cv ≥ 110000 then "websearch_to_tsquery" else "to_tsquery"

/-- The texts that the parameter recorder writes for `n` successive appearances
of the parameter `p`, from the metadata `md` on. -/
def paramTexts (h : Helpers) (p : Param) : Nat → Metadata → List String
  | 0, _ => []
  | n + 1, md => (h.renderParam p md).2 :: paramTexts h p n (h.renderParam p md).1

/-- The metadata after `n` successive appearances of the parameter `p`. -/
def paramMd (h : Helpers) (p : Param) : Nat → Metadata → Metadata
  | 0, md => md
  | n + 1, md => paramMd h p n (h.renderParam p md).1

/-- One disjunct of the full-text predicate of Postgres:
`(<col>) @@ <function>(<param>)`. -/
def tsItem (h : Helpers) (cv : Int) (table : String) (col : DBColumn) (pt : String) : String :=
  "(" ++ h.colWithTable table col.Name ++ ") @@ " ++ tsFunction cv ++ "(" ++ pt ++ ")"

/-- The full-text predicate of Postgres, as the specification gives it: the
disjuncts of the full-text columns joined by ` OR `, in parentheses. -/
def tsQueryPg (h : Helpers) (cv : Int) (ti : TInfo) (pts : List String) : String :=
  "(" ++ " OR ".intercalate (List.zipWith (tsItem h cv ti.Name) ti.FullText pts) ++ ")"

/-- The full-text predicate of MySQL, as the specification gives it. -/
def tsQueryMysql (h : Helpers) (ti : TInfo) (pt : String) : String :=
  "(MATCH(" ++ ", ".intercalate (ti.FullText.map (fun col => h.colWithTable ti.Name col.Name))
    ++ ") AGAINST (" ++ pt ++ " IN NATURAL LANGUAGE MODE))"

/-- The leaf of the full-text search `search: $q`: a TsQuery over no column, its
value the variable `q`. -/
def expSearch : Exp :=
  Exp.node { Op := ExpOp.OpTsQuery, Val := "q", Typ := ValType.ValVar } []

/-- The table `posts` with the two full-text columns `title` and `body`. -/
def postsTwoFullText : TInfo :=
  { postsTable with
    FullText := [{ Name := "title", Typ := "text", Table := "posts" },
                 { Name := "body", Typ := "text", Table := "posts" }] }

/-- The LIMIT clause, as the specification gives it, by strict priority:
`no_limit` suppresses it; otherwise `singular` forces ` LIMIT 1`; otherwise a
variable limit gives ` LIMIT LEAST(<param>, <limit>)` with the parameter of type
integer and the literal limit as hard cap; otherwise the literal limit. -/
def limitClause (h : Helpers) (sel : Select) : Emit := fun md =>
  if sel.Paging.NoLimit = true then (md, "")
  else if sel.Singular = true then (md, " LIMIT 1")
  else if sel.Paging.LimitVar ≠ "" then
    ((h.renderParam { Name := sel.Paging.LimitVar, Typ := "integer" } md).1,
      " LIMIT LEAST(" ++ (h.renderParam { Name := sel.Paging.LimitVar, Typ := "integer" } md).2
        ++ ", " ++ h.int32String sel.Paging.Limit ++ ")")
  else (md, " LIMIT " ++ h.int32String sel.Paging.Limit)

/-- The OFFSET clause, as the specification gives it: a variable offset gives
` OFFSET <param>` with the parameter of type integer; otherwise a non-zero literal
offset gives ` OFFSET <n>`; otherwise there is none. -/
def offsetClause (h : Helpers) (sel : Select) : Emit := fun md =>
  if sel.Paging.OffsetVar ≠ "" then
    ((h.renderParam { Name := sel.Paging.OffsetVar, Typ := "integer" } md).1,
      " OFFSET " ++ (h.renderParam { Name := sel.Paging.OffsetVar, Typ := "integer" } md).2)
  else if sel.Paging.Offset ≠ 0 then (md, " OFFSET " ++ h.int32String sel.Paging.Offset)
  else (md, "")

/-- A plural selection over `users` with the limit variable `lim`, the literal
limit 20 as cap and the literal offset 5. -/
def usersLimitVar : Select :=
  { usersSel with Paging := { Limit := 20, LimitVar := "lim", Offset := 5 } }

/-- The Postgres spelling of the directions of an order-by column, as the
specification gives it. -/
def orderSpelling : Order → String
  | Order.OrderAsc => " ASC"
  | Order.OrderDesc => " DESC"
  | Order.OrderAscNullsFirst => " ASC NULLS FIRST"
  | Order.OrderDescNullsFirst => " DESC NULLS FIRST"
  | Order.OrderAscNullsLast => " ASC NULLS LAST"
  | Order.OrderDescNullsLast => " DESC NULLS LAST"

/-- The spelling of the directions that `renderOrderBy` writes (lines 807-820). -/
def orderSpellingEmitted : Order → String
  | Order.OrderAsc => " ASC"
  | Order.OrderDesc => " DESC"
  | Order.OrderAscNullsFirst => " ASC NULLS FIRST"
  | Order.OrderDescNullsFirst => " DESC NULLLS FIRST"
  | Order.OrderAscNullsLast => " ASC NULLS LAST"
  | Order.OrderDescNullsLast => " DESC NULLS LAST"

/-- The ORDER BY clause of a selection for a given spelling of the directions:
nothing for an empty order_by, otherwise ` ORDER BY ` and the entries in order,
separated by `, `, each the table-qualified column followed by its direction. -/
def orderByText (h : Helpers) (sel : Select) (spelling : Order → String) : String :=
  if sel.OrderBy = [] then ""
  else " ORDER BY " ++ ", ".intercalate
    (sel.OrderBy.map (fun ob => h.colWithTable sel.Table ob.Col.Name ++ spelling ob.Order))

/-- A plural selection over `users` ordered by `name` ascending and then by `id`
descending with nulls first. -/
def usersDescNullsFirst : Select :=
  { usersSel with
    OrderBy := [{ Col := { Name := "name", Typ := "text", Table := "users" },
                  Order := Order.OrderAsc },
                { Col := { Name := "id", Typ := "integer", Table := "users" },
                  Order := Order.OrderDescNullsFirst }] }

/-- The strings of a list, concatenated in order. -/
def joinAll : List String → String
  | [] => ""
  | a :: rest => a ++ joinAll rest

/-- The head of the plural wrapper of a selection: the aggregation of the rows'
JSON, `jsonb_agg` (`json_arrayagg` on MySQL). -/
def pluralHead (h : Helpers) (ct : String) (sel : Select) : String :=
  if ct = "mysql" then
    "SELECT CAST(COALESCE(json_arrayagg(__sj_" ++ h.int32String sel.ID
      ++ ".json), '[]') AS JSON) AS json"
  else "SELECT COALESCE(jsonb_agg(__sj_" ++ h.int32String sel.ID ++ ".json), '[]') AS json"

/-- The indices of the cursor columns of a selection: 0, ..., n-1 for n order_by
columns, in increasing order. -/
def cursorIndices (sel : Select) : List Nat := List.range sel.OrderBy.length

/-- The cursor value of the plural wrapper: `max(__cur_<i>)` for every cursor
index, inside `CONCAT_WS`. -/
def cursorAggregate (h : Helpers) (sel : Select) : String :=
  ", CONCAT_WS(','"
    ++ joinAll ((cursorIndices sel).map (fun i : Nat => ", max(__cur_" ++ h.int32String i ++ ")"))
    ++ ") as __cursor"

/-- The subtraction of the cursor columns from the row JSON (Postgres):
`- '__cur_<i>' ` for every cursor index. -/
def cursorSubtraction (h : Helpers) (sel : Select) : String :=
  joinAll ((cursorIndices sel).map (fun i : Nat => "- '__cur_" ++ h.int32String i ++ "' "))

/-- The cursor columns passed through by the row wrapper: `, __cur_<i> ` for
every cursor index. -/
def cursorPassThrough (h : Helpers) (sel : Select) : String :=
  joinAll ((cursorIndices sel).map (fun i : Nat => ", __cur_" ++ h.int32String i ++ " "))

/-- The cursor columns defined in the row projection:
`, LAST_VALUE(<sort_col>) OVER() AS __cur_<i>` for the i-th order_by column. -/
def cursorProjection (h : Helpers) (sel : Select) : String :=
  joinAll (sel.OrderBy.enum.map (fun p : Nat × OrderBy =>
    ", LAST_VALUE(" ++ h.colWithTableID sel.Table sel.ID p.2.Col.Name ++ ") OVER() AS __cur_"
      ++ h.int32String p.1))

/-- The columns of the cursor CTE: the i-th is taken from position i+1 of the
comma-separated cursor string and named after the i-th order_by column. -/
def cursorColumns (h : Helpers) (ct : String) (sel : Select) : List String :=
  sel.OrderBy.enum.map (fun p : Nat × OrderBy =>
    if ct = "mysql" then
      "SUBSTRING_INDEX(SUBSTRING_INDEX(a.i, ',', " ++ h.int32String (p.1 + 1)
        ++ "), ',', -1) AS " ++ h.quoted p.2.Col.Name
    else
      "a[" ++ h.int32String (p.1 + 1) ++ "] :: " ++ p.2.Col.Typ ++ " as "
        ++ h.quoted p.2.Col.Name)

/-- The cursor CTE, as the specification gives it, around the text `pt` of the
`cursor` parameter. -/
def cursorCTE (h : Helpers) (ct : String) (sel : Select) (pt : String) : String :=
  "WITH __cur AS (SELECT " ++ ", ".intercalate (cursorColumns h ct sel)
    ++ (if ct = "mysql" then " FROM ((SELECT " ++ pt ++ " AS i)) as a) "
        else " FROM string_to_array(" ++ pt ++ ", ',') as a) ")

/-- The selection of scenario S4: the plural root `users` ordered by `id`
ascending, first 10, with cursor paging. -/
def usersCursor : Select :=
  { usersSel with
    BCols := [{ Col := { Name := "id", Typ := "integer", Table := "users" } }],
    OrderBy := [{ Col := { Name := "id", Typ := "integer", Table := "users" },
                  Order := Order.OrderAsc }],
    Paging := { Limit := 10, Cursor := true } }

/-- The query of scenario S4. -/
def qcS4 : QCode :=
  { Typ := QType.QTQuery, Schema := { Typ := "postgres" }, Roots := [0],
    Selects := [usersCursor] }

/-- The compiler context of scenario S4 on Postgres. -/
def cS4 : compilerContext := ⟨specHelpers "postgres", qcS4, pgCompiler⟩

/-- The relations of a nested-EXISTS leaf that are joined: `rels[1], ..., rels[n-2]`,
all but the first and the last. -/
def middleRels (rels : List DBRel) : List DBRel := rels.tail.dropLast

/-- The table `comments(id int pk, post_id int fk, body text)`. -/
def commentsTable : TInfo :=
  { Name := "comments",
    Columns := [{ Name := "id", Typ := "integer", Table := "comments" },
                { Name := "post_id", Typ := "integer", Table := "comments" },
                { Name := "body", Typ := "text", Table := "comments" }],
    PrimaryCol := { Name := "id", Typ := "integer", Table := "comments" } }

/-- The table `likes(id int pk, comment_id int fk)`. -/
def likesTable : TInfo :=
  { Name := "likes",
    Columns := [{ Name := "id", Typ := "integer", Table := "likes" },
                { Name := "comment_id", Typ := "integer", Table := "likes" }],
    PrimaryCol := { Name := "id", Typ := "integer", Table := "likes" } }

/-- The relation of `comments` to `posts`: `comments.post_id = posts.id`. -/
def commentsPostsRel : DBRel :=
  { Typ := RelType.RelOneToMany,
    Left := { Col := { Name := "post_id", Typ := "integer", Table := "comments" },
              Ti := commentsTable },
    Right := { Col := { Name := "id", Typ := "integer", Table := "posts" }, Ti := postsTable } }

/-- The relation of `likes` to `comments`: `likes.comment_id = comments.id`. -/
def likesCommentsRel : DBRel :=
  { Typ := RelType.RelOneToMany,
    Left := { Col := { Name := "comment_id", Typ := "integer", Table := "likes" },
              Ti := likesTable },
    Right := { Col := { Name := "id", Typ := "integer", Table := "comments" },
               Ti := commentsTable } }

/-- The attributes of the leaf `id = '7'` with the relations `rels`. -/
def nodeNested (rels : List DBRel) : ExpNode :=
  { Op := ExpOp.OpEquals, Col := { Name := "id", Typ := "integer" }, Val := "7",
    Typ := ValType.ValNum, Rels := rels }

/-- An event of the traversal driver: the open or the close of a selection. -/
inductive Event where
  | opened (sel : Select)
  | closed (sel : Select)
deriving Repr, Inhabited

/-- The loop of `renderQuery` (lines 166-215) with the rendering left out: the
events in the order in which the loop handles them.  The loop ends only when the
stack is empty; `none` stands for a panic of `c.qc.Selects[...]` or for running
out of fuel. -/
def traverse (selects : List Select) : Nat → IntStack → Option (List Event)
  | 0, [] => some []
  | 0, _ :: _ => none
  | _ + 1, [] => some []
  | fuel + 1, id :: st =>
    if id < closeBlock then
      match selectAt selects id with
      | none => none
      | some sel =>
        match pushSelChildren selects sel.Children st with
        | none => none
        | some st2 => (traverse selects fuel st2).map (fun evs => Event.opened sel :: evs)
    else
      match selectAt selects (id - closeBlock) with
      | none => none
      | some sel => (traverse selects fuel st).map (fun evs => Event.closed sel :: evs)

/-- What `renderQuery` does at an event (lines 183-212). -/
def renderEvent (c : compilerContext) (ef : Nat) (multi : Bool) : Event → M Unit
  | Event.opened sel => renderOpen c ef multi sel
  | Event.closed sel => renderClose c multi sel

/-- The event sequences of a list, concatenated, if all of them are defined. -/
def seqOpt : List (Option (List Event)) → Option (List Event)
  | [] => some []
  | none :: _ => none
  | some a :: rest => (seqOpt rest).map (fun b => a ++ b)

/-- The bracket sequence of the tree below a selection, unfolded to the depth `d`:
the open event of the selection, the bracket sequences of its renderable
children, last child first, and the close event of the selection.  It is `none`
when the tree is deeper than `d`. -/
def brackets (selects : List Select) : Nat → Select → Option (List Event)
  | 0, _ => none
  | d + 1, sel =>
    (seqOpt ((renderableChildren selects sel).reverse.map (brackets selects d))).map
      (fun inner => Event.opened sel :: inner ++ [Event.closed sel])

/-- The ids of the selections opened by a sequence of events, in order. -/
def openedIds (evs : List Event) : List Int :=
  evs.filterMap (fun e => match e with | Event.opened sel => some sel.ID | _ => none)

/-- The ids of the selections closed by a sequence of events, in order. -/
def closedIds (evs : List Event) : List Int :=
  evs.filterMap (fun e => match e with | Event.closed sel => some sel.ID | _ => none)

/-- The well-nested bracket sequences: the empty sequence, a well-nested sequence
between the open and the close event of one selection, and two well-nested
sequences one after the other. -/
inductive WellNested : List Event → Prop where
  | nil : WellNested []
  | wrap (sel : Select) (inner : List Event) :
      WellNested inner → WellNested (Event.opened sel :: inner ++ [Event.closed sel])
  | append (a b : List Event) : WellNested a → WellNested b → WellNested (a ++ b)

/-- The selection `s` is `sel` or is reached from `sel` through renderable
children (children with skip_render None). -/
inductive ReachFrom (selects : List Select) : Select → Select → Prop where
  | refl (sel : Select) : ReachFrom selects sel sel
  | step (sel child s : Select) :
      child ∈ renderableChildren selects sel → ReachFrom selects child s →
        ReachFrom selects sel s

/-- The selection of an event. -/
def Event.sel : Event → Select
  | Event.opened sel => sel
  | Event.closed sel => sel

/-- The selections that the traversal of a query reaches: the rendered roots and
what is reached from them through renderable children. -/
def Reachable (qc : QCode) (s : Select) : Prop :=
  ∃ root ∈ renderedRoots qc, ReachFrom qc.Selects root s

/-- The stack with which `CompileQuery` starts the traversal driver. -/
def rootStack (qc : QCode) : IntStack := scheduleRoots (rootSelects qc) []
/-- A Union selection `media` with id 0 and the two members with ids 1 and 2. -/
def unionSel : Select :=
  { ID := 0, FieldName := "media", Typ := SelType.SelTypeUnion, Children := [1, 2] }

/-- The member `users` of the union, with id 1. -/
def memberUsers : Select :=
  { usersSel with ID := 1, ParentID := 0, Typ := SelType.SelTypeMember }

/-- The member `posts` of the union, with id 2. -/
def memberPosts : Select :=
  { postsSel with ID := 2, ParentID := 0, Typ := SelType.SelTypeMember }

/-- A query whose only root is the union. -/
def qcUnion : QCode :=
  { Typ := QType.QTQuery, Schema := { Typ := "postgres" }, Roots := [0],
    Selects := [unionSel, memberUsers, memberPosts] }

/-- The compiler context of the union query on Postgres. -/
def cUnion : compilerContext := ⟨specHelpers "postgres", qcUnion, pgCompiler⟩

/-! ## Dialect isolation (C16) -/

/-! ## Dialect tokens and the two modes of a text -/

/-- The tokens of the Postgres dialect, which MySQL output must not contain. -/
def mysqlForbidden : List String := ["jsonb_", "::"]

/-- The tokens of the MySQL dialect, which the output for any other db type
must not contain. -/
def otherForbidden : List String := ["json_object", "json_arrayagg", "JSON_TABLE", "JSON_CONTAINS"]

/-- The tokens that the SQL for the db type `ct` must not contain. -/
def forbidden (ct : String) : List String :=
  if ct = "mysql" then mysqlForbidden else otherForbidden

/-- Some non-empty suffix of the list satisfies `f`. -/
def anySuffix (f : List Char → Bool) : List Char → Bool
  | [] => false
  | x :: q => f (x :: q) || anySuffix f q

/-- The text `s` ends with a non-empty proper prefix of the pattern `p`. -/
def endsOpen (p s : List Char) : Bool :=
  anySuffix (fun q => q.isPrefixOf p && !p.isPrefixOf q) s

/-- A text in one of two modes for the pattern `p`.  In both the text has no
occurrence of `p`; in the closed mode (`z` true) it also does not end with a
non-empty proper prefix of `p`, so that no continuation can complete `p` across
the boundary. -/
def inMode (p : List Char) (z : Bool) (a : List Char) : Prop :=
  occurrences p a = 0 ∧ (z = true → endsOpen p a = false)

/-- The checks on a literal piece `t` for the pattern `p` that is written after a
text in mode `z1` and is to leave the text in mode `z2`: `t` has no occurrence of
`p`; after an open text no proper suffix of `p` starts `t`; to leave a closed text
`t` does not end with a proper prefix of `p`, and after an open text `t` is not
itself the start of a proper suffix of `p`. -/
def pieceOK (p : List Char) (z1 z2 : Bool) (t : List Char) : Bool :=
  (occurrences p t == 0) &&
  (z1 || !anySuffix (fun q => q.isPrefixOf t) p.tail) &&
  (!z2 || (!endsOpen p t && (z1 || !anySuffix (fun q => t.isPrefixOf q) p.tail)))

/-- No token of `toks` occurs in `s`. -/
def tokenFree (toks : List String) (s : String) : Prop :=
  ∀ p ∈ toks, occ p s = 0

/-- The text `s` does not end with a non-empty proper prefix of a token of `toks`. -/
def closedEnd (toks : List String) (s : String) : Prop :=
  ∀ p ∈ toks, endsOpen p.data s.data = false

/-- The text `a` is in mode `z` for every token of `toks`. -/
def textOK (toks : List String) (z : Bool) (a : String) : Prop :=
  ∀ p ∈ toks, inMode p.data z a.data

/-- The literal `s` passes the checks of `pieceOK` for every token of `toks`. -/
def litOK (toks : List String) (z1 z2 : Bool) (s : String) : Bool :=
  toks.all (fun p => pieceOK p.data z1 z2 s.data)

/-- Every run of the emitter that returns takes a buffer in mode `z1` to a buffer
in mode `z2`. -/
def M.flows {α : Type} (toks : List String) (z1 : Bool) (x : M α) (z2 : Bool) : Prop :=
  ∀ md r, x md = Res.ok r → ∀ a : String, textOK toks z1 a → textOK toks z2 (a ++ r.text)

instance tokenFree.decidable (toks : List String) (s : String) : Decidable (tokenFree toks s) := by
  unfold tokenFree
  exact inferInstance

instance closedEnd.decidable (toks : List String) (s : String) : Decidable (closedEnd toks s) := by
  unfold closedEnd
  exact inferInstance

mutual
/-- The leaves of a WHERE tree that `renderExp` renders: all the children of an
AND or OR node are visited, the first child of a NOT node, and nothing below a
FALSE node. -/
def leaves : Exp → List Exp
  | Exp.node n cs =>
    match n.Op with
    | ExpOp.OpAnd => leavesAll cs
    | ExpOp.OpOr => leavesAll cs
    | ExpOp.OpNot =>
      match cs with
      | [] => []
      | child :: _ => leaves child
    | ExpOp.OpFalse => []
    | _ => [Exp.node n cs]
/-- The rendered leaves of the trees of a list. -/
def leavesAll : List Exp → List Exp
  | [] => []
  | e :: rest => leaves e ++ leavesAll rest
end

/-- No token occurs in the name, the type or the table of a column. -/
structure QuietCol (toks : List String) (col : DBColumn) : Prop where
  name : tokenFree toks col.Name
  typ : tokenFree toks col.Typ
  table : tokenFree toks col.Table

/-- No token occurs in a string of a table info. -/
structure QuietTi (toks : List String) (ti : TInfo) : Prop where
  name : tokenFree toks ti.Name
  typ : tokenFree toks ti.Typ
  columns : ∀ col ∈ ti.Columns, QuietCol toks col
  fullText : ∀ col ∈ ti.FullText, QuietCol toks col
  primary : QuietCol toks ti.PrimaryCol

/-- No token occurs in a string of a relation. -/
structure QuietRel (toks : List String) (rel : DBRel) : Prop where
  leftCol : QuietCol toks rel.Left.Col
  leftTi : QuietTi toks rel.Left.Ti
  rightCol : QuietCol toks rel.Right.Col
  rightTi : QuietTi toks rel.Right.Ti

/-- No token occurs in a text that the column, variable and literal helpers
produce for the leaf `ex` rendered against the table `ti`. -/
structure QuietOp (toks : List String) (c : compilerContext) (ti : TInfo) (ex : Exp) :
    Prop where
  col : tokenFree toks (c.h.colWithTable ti.Name ex.Col.Name)
  refCol : tokenFree toks (c.h.colWithTable ex.Table ex.Col.Name)
  fullText : ∀ col ∈ ti.FullText, tokenFree toks (c.h.colWithTable ti.Name col.Name)
  literal : tokenFree toks (c.h.squoted ex.Val)
  staticVar : ∀ val, c.svars.lookup ex.Val = some val →
    ∀ md, tokenFree toks (c.h.renderVar val md).2
  staticSql : ∀ val, c.svars.lookup ex.Val = some val →
    ∀ md, tokenFree toks (c.h.renderVar (sliceFrom val 4) md).2

/-- No token occurs in an input string of the leaf `ex` of a WHERE tree of a
selection over the table `ti`, nor in a helper text for it: the leaf itself, and
for a nested leaf the relations of its path. -/
structure QuietLeaf (toks : List String) (c : compilerContext) (ti : TInfo) (ex : Exp) :
    Prop where
  col : QuietCol toks ex.Col
  val : tokenFree toks ex.Val
  listVal : ∀ v ∈ ex.ListVal, tokenFree toks v
  rels : ∀ rel ∈ ex.Rels, QuietRel toks rel
  table : tokenFree toks ex.Table
  op : QuietOp toks c ti ex
  relOp : ∀ rel ∈ ex.Rels, QuietOp toks c rel.Left.Ti ex
  relJoin : ∀ rel ∈ ex.Rels, ∀ md, tokenFree toks (c.h.renderRel rel.Left.Ti rel (-1) [] md).2
  relOuter : ∀ rel ∈ ex.Rels, ∀ md, tokenFree toks (c.h.renderRel ti rel (-1) [] md).2

/-- No token occurs in an input string of the selection `sel` (field, table and
column names, column types, the strings of its relations and of the leaves of its
WHERE tree), nor in a text that a helper produces for it. -/
structure QuietSel (toks : List String) (c : compilerContext) (sel : Select) : Prop where
  fieldName : tokenFree toks sel.FieldName
  table : tokenFree toks sel.Table
  ti : QuietTi toks sel.Ti
  rel : QuietRel toks sel.Rel
  orderBy : ∀ ob ∈ sel.OrderBy, QuietCol toks ob.Col
  distinctOn : ∀ col ∈ sel.DistinctOn, QuietCol toks col
  bcols : ∀ col ∈ sel.BCols, QuietCol toks col.Col
  joins : ∀ rel ∈ sel.Joins, QuietRel toks rel
  limitVar : tokenFree toks sel.Paging.LimitVar
  offsetVar : tokenFree toks sel.Paging.OffsetVar
  argMap : ∀ a ∈ sel.ArgMap, tokenFree toks a.1 ∧ tokenFree toks a.2
  jsonFields : ∀ md, tokenFree toks (c.h.renderJSONFields c.qc.Selects sel md).2
  columns : ∀ md, tokenFree toks (c.h.renderColumns c.qc.Selects sel md).2
  baseColumns : ∀ md, tokenFree toks (c.h.renderBaseColumns c.qc.Selects sel md).2
  cursorCol : ∀ ob ∈ sel.OrderBy,
    tokenFree toks (c.h.colWithTableID sel.Table sel.ID ob.Col.Name)
  cursorName : ∀ ob ∈ sel.OrderBy, tokenFree toks (c.h.quoted ob.Col.Name)
  orderCol : ∀ ob ∈ sel.OrderBy, tokenFree toks (c.h.colWithTable sel.Table ob.Col.Name)
  distinctCol : ∀ col ∈ sel.DistinctOn, tokenFree toks (c.h.colWithTable sel.Table col.Name)
  groupCol : ∀ col ∈ sel.BCols, tokenFree toks (c.h.colWithTable sel.Table col.Col.Name)
  tableAlias : tokenFree toks (c.h.aliasWithID sel.Table sel.ID)
  rowAlias : tokenFree toks (c.h.aliasWithID "__sr" sel.ID)
  listAlias : tokenFree toks (c.h.aliasWithID "__sj" sel.ID)
  fromTable : tokenFree toks (c.h.quoted sel.Table)
  embedded : tokenFree toks (c.h.colWithTable sel.Rel.Left.Col.Table sel.Rel.Left.Col.Name)
  recursive : tokenFree toks (c.h.quoted ("_rcte_" ++ sel.Rel.Right.Ti.Name))
  primary : tokenFree toks (c.h.colWithTable sel.Table sel.Ti.PrimaryCol.Name)
  parentPrimary : ∀ psel, selectAt c.qc.Selects sel.ParentID = some psel →
    tokenFree toks (c.h.colWithTableID psel.Table psel.ID sel.Ti.PrimaryCol.Name)
  joinRel : ∀ rel ∈ sel.Joins, ∀ pid md,
    tokenFree toks (c.h.renderRel rel.Left.Ti rel pid [] md).2
  whereRel : ∀ pid md, tokenFree toks (c.h.renderRel sel.Ti sel.Rel pid sel.ArgMap md).2
  leaves : ∀ ex, sel.Where.Exp = some ex → ∀ l ∈ leaves ex, QuietLeaf toks c sel.Ti l

/-- The proviso of the dialect isolation: no token of `toks` occurs in an input
string of the query (the strings of its selections, the static variables) nor in
a text produced by a helper (the integer writer and the parameter helper for any
argument, the other helpers for the arguments that the query gives them). -/
structure QuietQuery (toks : List String) (c : compilerContext) : Prop where
  selects : ∀ sel ∈ c.qc.Selects, QuietSel toks c sel
  svars : ∀ kv ∈ c.svars, tokenFree toks kv.1 ∧ tokenFree toks kv.2
  int32 : ∀ n, tokenFree toks (c.h.int32String n)
  param : ∀ p md, tokenFree toks (c.h.renderParam p md).2

/-- The two places where a variable text meets a literal that can complete a
token: the cursor key `<field name>_cursor` of a root has no occurrence of a
token, and the text of the relation helper for a selection without a relation,
which the WHERE tree follows directly, does not end with a non-empty proper
prefix of a token. -/
structure QuietSeams (toks : List String) (c : compilerContext) : Prop where
  cursorKey : ∀ id ∈ c.qc.Roots, ∀ sel, selectAt c.qc.Selects id = some sel →
    sel.Paging.Cursor = true → tokenFree toks (sel.FieldName ++ "_cursor")
  whereRel : ∀ sel ∈ c.qc.Selects, sel.Rel.Typ = RelType.RelNone →
    ∀ pid md, closedEnd toks (c.h.renderRel sel.Ti sel.Rel pid sel.ArgMap md).2

/-- What the loop of `renderExp` over the table `ti` needs of a leaf: with
`skipNested` true the quiet texts of its operator rendering, otherwise the
whole of `QuietLeaf`. -/
def LeafQuiet (toks : List String) (c : compilerContext) (sn : Bool) (ti : TInfo)
    (l : Exp) : Prop :=
  (sn = true → QuietOp toks c ti l ∧ tokenFree toks l.Col.Typ ∧
    ∀ v ∈ l.ListVal, tokenFree toks v) ∧
  (sn = false → QuietLeaf toks c ti l)

/-- The dialect isolation of a text emitted for the db type `ct`: with `mysql` no
occurrence of `jsonb_` or `::`, with any other db type no occurrence of
`json_object`, `json_arrayagg`, `JSON_TABLE` or `JSON_CONTAINS`. -/
def dialectIsolated (ct : String) (s : String) : Prop :=
  (ct = "mysql" → occ "jsonb_" s = 0 ∧ occ "::" s = 0) ∧
  (ct ≠ "mysql" → occ "json_object" s = 0 ∧ occ "json_arrayagg" s = 0 ∧
    occ "JSON_TABLE" s = 0 ∧ occ "JSON_CONTAINS" s = 0)

instance QuietCol.decidable (toks : List String) (col : DBColumn) :
    Decidable (QuietCol toks col) :=
  decidable_of_iff
    (tokenFree toks col.Name ∧ tokenFree toks col.Typ ∧ tokenFree toks col.Table)
    ⟨fun h => ⟨h.1, h.2.1, h.2.2⟩, fun h => ⟨h.name, h.typ, h.table⟩⟩

instance QuietTi.decidable (toks : List String) (ti : TInfo) : Decidable (QuietTi toks ti) :=
  decidable_of_iff
    (tokenFree toks ti.Name ∧ tokenFree toks ti.Typ ∧ (∀ col ∈ ti.Columns, QuietCol toks col) ∧
      (∀ col ∈ ti.FullText, QuietCol toks col) ∧ QuietCol toks ti.PrimaryCol)
    ⟨fun h => ⟨h.1, h.2.1, h.2.2.1, h.2.2.2.1, h.2.2.2.2⟩,
      fun h => ⟨h.name, h.typ, h.columns, h.fullText, h.primary⟩⟩

instance QuietRel.decidable (toks : List String) (rel : DBRel) :
    Decidable (QuietRel toks rel) :=
  decidable_of_iff
    (QuietCol toks rel.Left.Col ∧ QuietTi toks rel.Left.Ti ∧ QuietCol toks rel.Right.Col ∧
      QuietTi toks rel.Right.Ti)
    ⟨fun h => ⟨h.1, h.2.1, h.2.2.1, h.2.2.2⟩,
      fun h => ⟨h.leftCol, h.leftTi, h.rightCol, h.rightTi⟩⟩

/-- A cursor-paged root `users` filtered by `id = '1'`, under the field name `fn`. -/
def usersFiltered (fn : String) : Select :=
  { usersCursor with FieldName := fn, Where := { Exp := some expIdEq } }

/-- The query of the one root `usersFiltered fn` for the schema type `ct`. -/
def qcFiltered (ct fn : String) : QCode :=
  { Typ := QType.QTQuery, Schema := { Typ := ct }, Roots := [0],
    Selects := [usersFiltered fn] }

/-- The SQL that MySQL gets for `qcFiltered "mysql" "jsonb"`: the cursor key of
the root `jsonb` is `jsonb_cursor`. -/
def sqlJsonbCursor : String :=
  "SELECT json_object('jsonb', __sj_0.json, 'jsonb_cursor', __sj_0.__cursor) AS __root FROM ((SELECT true)) AS __root_x LEFT OUTER JOIN LATERAL (SELECT CAST(COALESCE(json_arrayagg(__sj_0.json), '[]') AS JSON) AS json, CONCAT_WS(',', max(__cur_0)) as __cursor FROM (SELECT json_object('id', \"users_0\".\"id\") AS json , __cur_0 FROM (SELECT \"users_0\".\"id\", LAST_VALUE(\"users_0\".\"id\") OVER() AS __cur_0 FROM (WITH __cur AS (SELECT SUBSTRING_INDEX(SUBSTRING_INDEX(a.i, ',', 1), ',', -1) AS \"id\" FROM ((SELECT ? AS i)) as a) SELECT \"users\".\"id\" FROM \"users\", __cur WHERE (((\"users\".\"id\") = '1')) ORDER BY \"users\".\"id\" ASC LIMIT 10) \"users_0\") \"__sr_0\") \"__sj_0\") \"__sj_0\" ON true"

/-- The SQL that MySQL gets for `qcFiltered "mysql" "users"`. -/
def sqlFilteredMysql : String :=
  "SELECT json_object('users', __sj_0.json, 'users_cursor', __sj_0.__cursor) AS __root FROM ((SELECT true)) AS __root_x LEFT OUTER JOIN LATERAL (SELECT CAST(COALESCE(json_arrayagg(__sj_0.json), '[]') AS JSON) AS json, CONCAT_WS(',', max(__cur_0)) as __cursor FROM (SELECT json_object('id', \"users_0\".\"id\") AS json , __cur_0 FROM (SELECT \"users_0\".\"id\", LAST_VALUE(\"users_0\".\"id\") OVER() AS __cur_0 FROM (WITH __cur AS (SELECT SUBSTRING_INDEX(SUBSTRING_INDEX(a.i, ',', 1), ',', -1) AS \"id\" FROM ((SELECT ? AS i)) as a) SELECT \"users\".\"id\" FROM \"users\", __cur WHERE (((\"users\".\"id\") = '1')) ORDER BY \"users\".\"id\" ASC LIMIT 10) \"users_0\") \"__sr_0\") \"__sj_0\") \"__sj_0\" ON true"

/-- The SQL that Postgres gets for `qcFiltered "postgres" "users"`. -/
def sqlFilteredPostgres : String :=
  "SELECT jsonb_build_object('users', __sj_0.json, 'users_cursor', __sj_0.__cursor) AS __root FROM ((SELECT true)) AS __root_x LEFT OUTER JOIN LATERAL (SELECT COALESCE(jsonb_agg(__sj_0.json), '[]') AS json, CONCAT_WS(',', max(__cur_0)) as __cursor FROM (SELECT to_jsonb(__sr_0.*) - '__cur_0' AS json , __cur_0 FROM (SELECT \"users_0\".\"id\", LAST_VALUE(\"users_0\".\"id\") OVER() AS __cur_0 FROM (WITH __cur AS (SELECT a[1] :: integer as \"id\" FROM string_to_array($1, ',') as a) SELECT \"users\".\"id\" FROM \"users\", __cur WHERE (((\"users\".\"id\") = '1')) ORDER BY \"users\".\"id\" ASC LIMIT 10) \"users_0\") \"__sr_0\") \"__sj_0\") \"__sj_0\" ON true"

/-- What `CompileEx` returns for `qcFiltered ct fn`: the one parameter `cursor`
and the SQL. -/
def compiledFiltered (ct sql : String) : CompiledEx :=
  { md := { ct := ct, params := [{ Name := "cursor", Typ := "text" }],
            pindex := [("cursor", 1)] },
    sql := some sql, err := none }

/-- The characters of a placeholder or of a number. -/
def plainChar (ch : Char) : Bool :=
  ch.isDigit || ch == '-' || ch == '$' || ch == '?'

/-- The helpers of `specHelpers "postgres"` with another relation helper, whose
text `JSON_CONTAIN` has no occurrence of a token and ends with the beginning of
one. -/
def seamHelpers : Helpers :=
  { specHelpers "postgres" with renderRel := fun _ _ _ _ md => (md, "JSON_CONTAIN") }

/-- The leaf `SIMILAR TO 'a%'` without a column. -/
def expSimilar : Exp :=
  Exp.node { Op := ExpOp.OpSimilar, Val := "a%", Typ := ValType.ValStr } []

/-- The root `users` of scenario S1 filtered by `expSimilar`. -/
def usersSimilar : Select := { usersSel with Where := { Exp := some expSimilar } }

/-- The query of the one root `usersSimilar`. -/
def qcSimilar : QCode :=
  { Typ := QType.QTQuery, Schema := { Typ := "postgres" }, Roots := [0],
    Selects := [usersSimilar] }

/-- The SQL that Postgres gets for `qcSimilar` with the helpers `seamHelpers`. -/
def sqlSimilar : String :=
  "SELECT jsonb_build_object('users', __sj_0.json) AS __root FROM ((SELECT true)) AS __root_x LEFT OUTER JOIN LATERAL (SELECT COALESCE(jsonb_agg(__sj_0.json), '[]') AS json FROM (SELECT to_jsonb(__sr_0.*) AS json FROM (SELECT \"users_0\".\"id\", \"users_0\".\"name\" FROM (SELECT \"users\".\"id\", \"users\".\"name\" FROM \"users\" WHERE (JSON_CONTAINSIMILAR TO 'a%')) LIMIT 20) \"users_0\") \"__sr_0\") \"__sj_0\") \"__sj_0\" ON true"

/-! ## The cursor column of a root (C21) -/

/-- The token `__cursor`, as a list of tokens. -/
def cursorToken : List String := ["__cursor"]

/-- The part of `renderSelect` between `SELECT ` and `FROM (SELECT ` (lines
247-276): the select list of the row wrapper. -/
def rowColumns (c : compilerContext) (sel : Select) : M Unit := do
  (if c.ct = "mysql" then do
    write "json_object("
    emit (c.h.renderJSONFields c.qc.Selects sel)
    write ") "
  else do
    write "to_jsonb(__sr_"
    write (c.h.int32String sel.ID)
    write ".*) "
    if sel.Paging.Cursor then
      forRange sel.OrderBy (fun i _ => do
        write "- '__cur_"
        write (c.h.int32String i)
        write "' ")
    else pure ())
  write "AS json "
  (if sel.Paging.Cursor then
    forRange sel.OrderBy (fun i _ => do
      write ", __cur_"
      write (c.h.int32String i)
      write " ")
  else pure ())

/-- The part of `renderSelect` after `FROM (SELECT ` (lines 279-297): the row
projection over the base select, and the alias of the selection. -/
def rowBody (c : compilerContext) (fuel : Nat) (sel : Select) : M Unit := do
  emit (c.h.renderColumns c.qc.Selects sel)
  (if sel.Paging.Cursor then
    forRange sel.OrderBy (fun i ob => do
      write ", LAST_VALUE("
      write (c.h.colWithTableID sel.Table sel.ID ob.Col.Name)
      write ") OVER() AS __cur_"
      write (c.h.int32String i))
  else pure ())
  write " FROM ("
  renderBaseSelect c fuel sel
  write ")"
  write (c.h.aliasWithID sel.Table sel.ID)

/-- The root `media` of the union query with cursor paging: a Union selection,
not singular. -/
def unionCursor : Select := { unionSel with Paging := { Cursor := true } }

/-- The union query with cursor paging on its root. -/
def qcUnionCursor : QCode :=
  { Typ := QType.QTQuery, Schema := { Typ := "postgres" }, Roots := [0],
    Selects := [unionCursor, memberUsers, memberPosts] }

/-- The root `users` of scenario S4 as a singular selection. -/
def usersCursorOne : Select := { usersCursor with Singular := true }

/-- The query of the one singular cursor-paged root `users`. -/
def qcCursorOne : QCode :=
  { Typ := QType.QTQuery, Schema := { Typ := "postgres" }, Roots := [0],
    Selects := [usersCursorOne] }

/-- The compiler context of the singular cursor-paged root on Postgres. -/
def cCursorOne : compilerContext := ⟨specHelpers "postgres", qcCursorOne, pgCompiler⟩

/-- The compiler context of the union query with cursor paging on Postgres. -/
def cUnionCursor : compilerContext := ⟨specHelpers "postgres", qcUnionCursor, pgCompiler⟩

/-- The SQL text that the compiler emits for the singular cursor-paged root `users`
on Postgres. -/
def sqlCursorOne : String :=
  "SELECT jsonb_build_object('users', __sj_0.json, 'users_cursor', __sj_0.__cursor) AS __root FROM ((SELECT true)) AS __root_x LEFT OUTER JOIN LATERAL (SELECT to_jsonb(__sr_0.*) - '__cur_0' AS json , __cur_0 FROM (SELECT \"users_0\".\"id\", LAST_VALUE(\"users_0\".\"id\") OVER() AS __cur_0 FROM (WITH __cur AS (SELECT a[1] :: integer as \"id\" FROM string_to_array($1, ',') as a) SELECT \"users\".\"id\" FROM \"users\", __cur ORDER BY \"users\".\"id\" ASC LIMIT 1) \"users_0\") \"__sr_0\") \"__sj_0\" ON true"

/-- The SQL text that the compiler emits for the union query with cursor paging on
its root, on Postgres. -/
def sqlUnionCursor : String :=
  "SELECT jsonb_build_object('media', __sj_0.json, 'media_cursor', __sj_0.__cursor) AS __root FROM ((SELECT true)) AS __root_x LEFT OUTER JOIN LATERAL (SELECT COALESCE(jsonb_agg(__sj_2.json), '[]') AS json FROM (SELECT to_jsonb(__sr_2.*) AS json FROM (SELECT \"posts_2\".\"id\", \"posts_2\".\"title\" FROM (SELECT \"posts\".\"id\", \"posts\".\"title\" FROM \"posts\" LIMIT 20) \"posts_2\") \"__sr_2\") \"__sj_2\") \"__sj_2\" ON true LEFT OUTER JOIN LATERAL (SELECT COALESCE(jsonb_agg(__sj_1.json), '[]') AS json FROM (SELECT to_jsonb(__sr_1.*) AS json FROM (SELECT \"users_1\".\"id\", \"users_1\".\"name\" FROM (SELECT \"users\".\"id\", \"users\".\"name\" FROM \"users\" LIMIT 20) \"users_1\") \"__sr_1\") \"__sj_1\") \"__sj_1\" ON true"

/-- The SQL text that the compiler emits for scenario S4 on Postgres: the plural
cursor-paged root `users`. -/
def sqlCursorMany : String :=
  "SELECT jsonb_build_object('users', __sj_0.json, 'users_cursor', __sj_0.__cursor) AS __root FROM ((SELECT true)) AS __root_x LEFT OUTER JOIN LATERAL (SELECT COALESCE(jsonb_agg(__sj_0.json), '[]') AS json, CONCAT_WS(',', max(__cur_0)) as __cursor FROM (SELECT to_jsonb(__sr_0.*) - '__cur_0' AS json , __cur_0 FROM (SELECT \"users_0\".\"id\", LAST_VALUE(\"users_0\".\"id\") OVER() AS __cur_0 FROM (WITH __cur AS (SELECT a[1] :: integer as \"id\" FROM string_to_array($1, ',') as a) SELECT \"users\".\"id\" FROM \"users\", __cur ORDER BY \"users\".\"id\" ASC LIMIT 10) \"users_0\") \"__sr_0\") \"__sj_0\") \"__sj_0\" ON true"

/-! ## The descendants of a root (C5) -/

/-- The selection `s` is `sel` or a descendant of it: it is reached from `sel`
through `Children`, whatever the skip_render of the selections on the way. -/
inductive Descends (selects : List Select) (sel : Select) : Select → Prop where
  | refl : Descends selects sel sel
  | step (p s : Select) (cid : Int) :
      Descends selects sel p → cid ∈ p.Children → selectAt selects cid = some s →
        Descends selects sel s

/-- The data model of the selections of a query: the id of a selection is its
index in `Selects` and lies below the close offset 500, the children of a selection
index the array, `ParentID` of a child is the id of the selection that lists it,
and `ParentID` of a root is a sentinel below 0. -/
structure TreeShaped (qc : QCode) : Prop where
  index : ∀ (i : Nat) (s : Select), qc.Selects.get? i = some s → s.ID = (i : Int)
  bound : (qc.Selects.length : Int) ≤ closeBlock
  children : ∀ s ∈ qc.Selects, ∀ cid ∈ s.Children, (selectAt qc.Selects cid).isSome = true
  parent : ∀ p ∈ qc.Selects, ∀ cid ∈ p.Children, ∀ s,
    selectAt qc.Selects cid = some s → s.ParentID = p.ID
  sentinel : ∀ rid ∈ qc.Roots, ∀ r, selectAt qc.Selects rid = some r → r.ParentID < 0

/-- The root `users` with skip_render UserNeeded and the child `drafts` (id 2). -/
def usersElided : Select :=
  { usersSel with SkipRender := SkipType.SkipTypeUserNeeded, Children := [2] }

/-- The query of the two roots `users` (UserNeeded, with the child `drafts`) and
`posts`. -/
def qcElided : QCode :=
  { Typ := QType.QTQuery, Schema := { Typ := "postgres" }, Roots := [0, 1],
    Selects := [usersElided, postsSel, draftsChild] }

/-! ## Runs that end (C8) -/

/-- The emitter does not run out of fuel: its run ends, with a result or with a
panic. -/
def M.halts {α : Type} (x : M α) : Prop :=
  ∀ md, x md ≠ Res.outOfFuel

mutual
/-- A bound on the iterations that the loop of `renderExp` spends on a tree,
whatever its shape: three for the node and one more for every child. -/
def expSteps : Exp → Nat
  | Exp.node _ cs => 3 + expStepsAll cs
/-- The bound for the trees of a list. -/
def expStepsAll : List Exp → Nat
  | [] => 0
  | e :: rest => expSteps e + 1 + expStepsAll rest
end

/-- The bound for one element of the stack of `renderExp`. -/
def frameSteps : Frame → Nat
  | Frame.chr _ => 1
  | Frame.op _ => 1
  | Frame.exp e => expSteps e

/-- The bound for a stack of `renderExp`. -/
def stackSteps : List Frame → Nat
  | [] => 0
  | f :: st => frameSteps f + stackSteps st

/-- The bound for the WHERE tree of a selection. -/
def whereSteps (sel : Select) : Nat :=
  match sel.Where.Exp with
  | some ex => expSteps ex
  | none => 0

/-! # Lemmas and theorems -/

/-! ## Running emitters -/

theorem run_pure {α : Type} (a : α) (md : Metadata) :
    (pure a : M α) md = Res.ok ⟨a, md, ""⟩ := rfl

theorem run_bind {α β : Type} (x : M α) (f : α → M β) (md : Metadata) :
    (x >>= f) md =
      match x md with
      | Res.ok r => Res.shift r.text (f r.val r.md)
      | Res.panic => Res.panic
      | Res.outOfFuel => Res.outOfFuel := by
  show M.bind x f md = _
  unfold M.bind
  cases x md with
  | ok r => simp only []; cases f r.val r.md <;> rfl
  | panic => rfl
  | outOfFuel => rfl

theorem run_write_bind {β : Type} (s : String) (f : Unit → M β) (md : Metadata) :
    (write s >>= f) md = Res.shift s (f () md) := by
  rw [run_bind]; rfl

theorem run_emit_bind {β : Type} (e : Emit) (f : Unit → M β) (md : Metadata) :
    (emit e >>= f) md = Res.shift (e md).2 (f () (e md).1) := by
  rw [run_bind]; rfl

theorem run_write (s : String) (md : Metadata) : write s md = Res.ok ⟨(), md, s⟩ := rfl

theorem run_emit (e : Emit) (md : Metadata) : emit e md = Res.ok ⟨(), (e md).1, (e md).2⟩ := rfl

theorem shift_ok {α : Type} (t : String) (r : Emitted α) :
    Res.shift t (Res.ok r) = Res.ok ⟨r.val, r.md, t ++ r.text⟩ := rfl

/-! ## Operator rendering of a literal leaf (C10) -/

theorem renderValPrefix_literal (c : compilerContext) (ti : TInfo) (ex : Exp)
    (hlit : isLiteral ex.Typ) : renderValPrefix c ti ex = pure false := by
  unfold renderValPrefix
  rcases hlit with h | h | h <;> simp [h]

theorem renderVal_literal (c : compilerContext) (ti : TInfo) (ex : Exp)
    (hlit : isLiteral ex.Typ) : renderVal c ti ex = write (c.h.squoted ex.Val) := by
  unfold renderVal
  rcases hlit with h | h | h <;> simp [h]

/-- Claim C10: a leaf with a non-empty column name, a literal value and an
ordinary comparison operator renders as `((<table>.<col>) <op> <rhs>)`, the column
qualified by the table info's name, the value single-quoted and the operator
spelled as in the operator table; an IsNull leaf renders as
`((<table>.<col>) IS NULL)` when its value equals `true` ignoring case and as
`((<table>.<col>) IS NOT NULL)` otherwise; a Nop leaf renders as nothing.  The
metadata is left as it was. -/
theorem C10_renderOp_literal (c : compilerContext) (schema : DBSchema) (ti : TInfo)
    (ex : Exp) (md : Metadata) :
    (∀ s, ex.Col.Name ≠ "" → isLiteral ex.Typ → opSpelling ex.Op = some s →
      renderOp c schema ti ex md = Res.ok ⟨(), md,
        "((" ++ c.h.colWithTable ti.Name ex.Col.Name ++ ") " ++ s ++ " "
          ++ c.h.squoted ex.Val ++ ")"⟩) ∧
    (ex.Col.Name ≠ "" → isLiteral ex.Typ → ex.Op = ExpOp.OpIsNull →
      renderOp c schema ti ex md = Res.ok ⟨(), md,
        "((" ++ c.h.colWithTable ti.Name ex.Col.Name ++ ") "
          ++ (if equalFold ex.Val "true" then "IS NULL)" else "IS NOT NULL)")⟩) ∧
    (ex.Op = ExpOp.OpNop → renderOp c schema ti ex md = Res.ok ⟨(), md, ""⟩) := by
  refine ⟨?_, ?_, ?_⟩
  · intro s hcol hlit hop
    have hlist : ex.Typ ≠ ValType.ValList := by
      rcases hlit with h | h | h <;> simp [h]
    have hnotref : ¬ (ex.Typ = ValType.ValRef ∧ ex.Op = ExpOp.OpIsNull) := by
      rcases hlit with h | h | h <;> simp [h]
    unfold renderOp
    rw [renderValPrefix_literal c ti ex hlit, renderVal_literal c ti ex hlit]
    cases hop2 : ex.Op <;> rw [hop2] at hop <;> simp [opSpelling] at hop <;>
      subst hop <;>
      simp [renderOpSwitch, hop2, hcol, hlist, run_bind, run_write, run_pure, Res.shift, -String.reduceAppend,
        String.append_assoc]
  · intro hcol hlit hop
    have hnotref : ¬ (ex.Typ = ValType.ValRef) := by
      rcases hlit with h | h | h <;> simp [h]
    unfold renderOp
    rw [renderValPrefix_literal c ti ex hlit]
    by_cases hf : equalFold ex.Val "true" = true <;>
      simp [renderOpSwitch, hop, hcol, hnotref, hf, run_bind, run_write, run_pure, Res.shift, -String.reduceAppend,
        String.append_assoc]
  · intro hop
    simp [renderOp, hop, run_pure]

/-- Claim C10, witness: the leaf `id = '1'` over `users` on Postgres. -/
theorem C10_renderOp_literal_witness :
    (expIdEq.Col.Name ≠ "" ∧ isLiteral expIdEq.Typ ∧ opSpelling expIdEq.Op = some "=") ∧
    renderOp cS1 {} usersTable expIdEq {} =
      Res.ok ⟨(), {}, "((" ++ cS1.h.colWithTable usersTable.Name expIdEq.Col.Name ++ ") " ++ "="
        ++ " " ++ cS1.h.squoted expIdEq.Val ++ ")"⟩ ∧
    renderOp cS1 {} usersTable expIdEq {} = Res.ok ⟨(), {}, "((\"users\".\"id\") = '1')"⟩ :=
  ⟨⟨by decide, Or.inr (Or.inl rfl), rfl⟩,
    (C10_renderOp_literal cS1 {} usersTable expIdEq {}).1 "=" (by decide)
      (Or.inr (Or.inl rfl)) rfl,
    by decide!⟩

/-! ## Errors of `Compile` (C6, C7) -/

theorem runOn_err_none (w : String) (step : M Unit) (r : Compiled)
    (hr : runOn w step = Res.ok r) : r.err = none := by
  unfold runOn at hr
  cases hs : step {} with
  | ok e => rw [hs] at hr; injection hr with hr; rw [← hr]
  | panic => rw [hs] at hr; cases hr
  | outOfFuel => rw [hs] at hr; cases hr

/-- Claim C6, counterexample: it is not so that `Compile` returns an error exactly
when the operation type is neither Query nor Subscription: a QCode of type
Mutation is handed to the mutation compiler and no error is returned. -/
theorem C6_counterexample_mutation :
    ¬ ∀ (h : Helpers) (co : Compiler) (fuel : Nat) (w : String) (qc : QCode),
      ((∃ r, Compile h co fuel w (some qc) = Res.ok r ∧ r.err.isSome = true) ↔
        (qc.Typ ≠ QType.QTQuery ∧ qc.Typ ≠ QType.QTSubscription)) := by
  intro hall
  have hm := (hall (specHelpers "postgres") pgCompiler 0 ""
    { Typ := QType.QTMutation }).mpr ⟨by decide, by decide⟩
  obtain ⟨r, hr, herr⟩ := hm
  have hc : Compile (specHelpers "postgres") pgCompiler 0 "" (some { Typ := QType.QTMutation })
      = runOn "" ((specHelpers "postgres").compileMutation { Typ := QType.QTMutation }) := rfl
  rw [hc] at hr
  rw [runOn_err_none _ _ r hr] at herr
  cases herr

theorem Compile_error_cases (h : Helpers) (co : Compiler) (fuel : Nat) (w : String)
    (qc : QCode) :
    ((∃ r, Compile h co fuel w (some qc) = Res.ok r ∧ r.err.isSome = true) ↔
      (qc.Typ ≠ QType.QTQuery ∧ qc.Typ ≠ QType.QTSubscription ∧
        qc.Typ ≠ QType.QTMutation)) ∧
    (∀ r, Compile h co fuel w (some qc) = Res.ok r → r.err.isSome = true →
      r.err = some (CompileError.unknownOperationType qc.Typ)) ∧
    (qc.Typ = QType.QTMutation →
      Compile h co fuel w (some qc) = runOn w (h.compileMutation qc) ∧
      ∀ r, Compile h co fuel w (some qc) = Res.ok r → r.err = none) := by
  cases ht : qc.Typ with
  | QTQuery =>
    have hc : Compile h co fuel w (some qc) = runOn w (CompileQuery ⟨h, qc, co⟩ fuel) := by
      simp [Compile, ht]
    refine ⟨⟨?_, ?_⟩, ?_, ?_⟩
    · rintro ⟨r, hr, herr⟩
      rw [hc] at hr
      rw [runOn_err_none _ _ r hr] at herr
      cases herr
    · rintro ⟨h1, _⟩
      exact absurd rfl h1
    · intro r hr herr
      rw [hc] at hr
      rw [runOn_err_none _ _ r hr] at herr
      cases herr
    · intro h1
      cases h1
  | QTSubscription =>
    have hc : Compile h co fuel w (some qc) = runOn w (CompileQuery ⟨h, qc, co⟩ fuel) := by
      simp [Compile, ht]
    refine ⟨⟨?_, ?_⟩, ?_, ?_⟩
    · rintro ⟨r, hr, herr⟩
      rw [hc] at hr
      rw [runOn_err_none _ _ r hr] at herr
      cases herr
    · rintro ⟨_, h2, _⟩
      exact absurd rfl h2
    · intro r hr herr
      rw [hc] at hr
      rw [runOn_err_none _ _ r hr] at herr
      cases herr
    · intro h1
      cases h1
  | QTMutation =>
    have hc : Compile h co fuel w (some qc) = runOn w (h.compileMutation qc) := by
      simp [Compile, ht]
    refine ⟨⟨?_, ?_⟩, ?_, ?_⟩
    · rintro ⟨r, hr, herr⟩
      rw [hc] at hr
      rw [runOn_err_none _ _ r hr] at herr
      cases herr
    · rintro ⟨_, _, h3⟩
      exact absurd rfl h3
    · intro r hr herr
      rw [hc] at hr
      rw [runOn_err_none _ _ r hr] at herr
      cases herr
    · intro _
      refine ⟨hc, ?_⟩
      intro r hr
      rw [hc] at hr
      exact runOn_err_none _ _ r hr
  | QTOther code =>
    have hc : Compile h co fuel w (some qc) = Res.ok
        { w := w, md := {}, err := some (CompileError.unknownOperationType (QType.QTOther code)) } := by
      simp [Compile, ht]
    refine ⟨⟨?_, ?_⟩, ?_, ?_⟩
    · intro _
      exact ⟨by simp, by simp, by simp⟩
    · intro _
      exact ⟨_, hc, rfl⟩
    · intro r hr _
      rw [hc] at hr
      injection hr with hr
      rw [← hr]
    · intro h1
      cases h1

/-- Claim C6, amended: for a non-nil QCode, `Compile` returns an error if and only
if the operation type is none of Query, Subscription and Mutation, and the error
is then the unknown-operation-type error of that type; a QCode of type Mutation
is not rejected: the result is that of the mutation compiler, with no error. -/
theorem C6_compile_error_iff (h : Helpers) (co : Compiler) (fuel : Nat) (w : String)
    (qc : QCode) :
    ((∃ r, Compile h co fuel w (some qc) = Res.ok r ∧ r.err.isSome = true) ↔
      (qc.Typ ≠ QType.QTQuery ∧ qc.Typ ≠ QType.QTSubscription ∧
        qc.Typ ≠ QType.QTMutation)) ∧
    (∀ r, Compile h co fuel w (some qc) = Res.ok r → r.err.isSome = true →
      r.err = some (CompileError.unknownOperationType qc.Typ)) ∧
    (qc.Typ = QType.QTMutation →
      Compile h co fuel w (some qc) = runOn w (h.compileMutation qc) ∧
      ∀ r, Compile h co fuel w (some qc) = Res.ok r → r.err = none) :=
  Compile_error_cases h co fuel w qc

/-- Claim C7: there are no partial successes.  Whenever `Compile` returns an
error, the caller's buffer is as it was and the returned metadata is the zero
value, and `CompileEx` on the same QCode returns that error with no SQL bytes
and the zero metadata; and a nil QCode always yields the nil-QCode error. -/
theorem C7_no_partial_success (h : Helpers) (co : Compiler) (fuel : Nat) (w : String)
    (qc : Option QCode) (r : Compiled)
    (hrun : Compile h co fuel w qc = Res.ok r) (herr : r.err.isSome = true) :
    r.w = w ∧ r.md = {} ∧
    CompileEx h co fuel qc = Res.ok { md := {}, sql := none, err := r.err } ∧
    Compile h co fuel w none =
      Res.ok { w := w, md := {}, err := some CompileError.nilQCode } := by
  have hnil : Compile h co fuel w none =
      Res.ok { w := w, md := {}, err := some CompileError.nilQCode } := rfl
  cases qc with
  | none =>
    rw [hnil] at hrun
    injection hrun with hrun
    subst hrun
    exact ⟨rfl, rfl, rfl, hnil⟩
  | some q =>
    have h6 := Compile_error_cases h co fuel w q
    cases ht : q.Typ with
    | QTQuery =>
      exact absurd ht ((h6.1.mp ⟨r, hrun, herr⟩).1)
    | QTSubscription =>
      exact absurd ht ((h6.1.mp ⟨r, hrun, herr⟩).2.1)
    | QTMutation =>
      exact absurd ht ((h6.1.mp ⟨r, hrun, herr⟩).2.2)
    | QTOther code =>
      have hc : ∀ w2, Compile h co fuel w2 (some q) = Res.ok
          { w := w2, md := {},
            err := some (CompileError.unknownOperationType (QType.QTOther code)) } := by
        intro w2
        simp [Compile, ht]
      rw [hc w] at hrun
      injection hrun with hrun
      subst hrun
      refine ⟨rfl, rfl, ?_, hnil⟩
      simp [CompileEx, hc ""]

/-- Claim C7, witness: the nil QCode, compiled into a buffer that already holds
text. -/
theorem C7_no_partial_success_witness :
    (Compile (specHelpers "postgres") pgCompiler 5 "-- " none =
        Res.ok { w := "-- ", md := {}, err := some CompileError.nilQCode }) ∧
    (("-- " : String) = "-- " ∧ ({} : Metadata) = {} ∧
      CompileEx (specHelpers "postgres") pgCompiler 5 none =
        Res.ok { md := {}, sql := none, err := some CompileError.nilQCode } ∧
      Compile (specHelpers "postgres") pgCompiler 5 "-- " none =
        Res.ok { w := "-- ", md := {}, err := some CompileError.nilQCode }) :=
  ⟨rfl, C7_no_partial_success (specHelpers "postgres") pgCompiler 5 "-- " none
    { w := "-- ", md := {}, err := some CompileError.nilQCode } rfl rfl⟩

/-! ## The root wrapper (C1) -/

theorem intercalate_go_eq (sep : String) (rest : List String) (acc : String) :
    String.intercalate.go acc sep rest = acc ++ sepAll sep rest := by
  induction rest generalizing acc with
  | nil => simp [String.intercalate.go, sepAll]
  | cons a rest ih =>
    simp [String.intercalate.go, sepAll, ih, String.append_assoc]

theorem entriesText_succ (h : Helpers) (i : Nat) (sels : List Select) :
    entriesText h (i + 1) sels = sepAll ", " (sels.map (rootEntry h)) := by
  induction sels generalizing i with
  | nil => rfl
  | cons sel rest ih =>
    simp [entriesText, sepAll, ih, String.append_assoc]

theorem entriesText_zero (h : Helpers) (sels : List Select) :
    entriesText h 0 sels = ", ".intercalate (sels.map (rootEntry h)) := by
  cases sels with
  | nil => rfl
  | cons sel rest =>
    simp [entriesText, String.intercalate, intercalate_go_eq, entriesText_succ]

theorem rootsLoop_run (c : compilerContext) (roots : List Int)
    (hroots : ∀ id ∈ roots, (selectAt c.qc.Selects id).isSome = true)
    (i : Nat) (st : IntStack) (md : Metadata) :
    rootsLoop c i roots st md = Res.ok
      ⟨scheduleRoots (roots.filterMap (selectAt c.qc.Selects)) st, md,
        entriesText c.h i (roots.filterMap (selectAt c.qc.Selects))⟩ := by
  induction roots generalizing i st md with
  | nil => rfl
  | cons id rest ih =>
    have hid := hroots id (List.mem_cons_self _ _)
    have hrest : ∀ id2 ∈ rest, (selectAt c.qc.Selects id2).isSome = true :=
      fun id2 h2 => hroots id2 (List.mem_cons_of_mem _ h2)
    obtain ⟨sel, hsel⟩ := Option.isSome_iff_exists.mp hid
    unfold rootsLoop
    by_cases hi : i = 0 <;> by_cases hu : sel.SkipRender = SkipType.SkipTypeUserNeeded <;>
      by_cases hc : sel.Paging.Cursor = true <;>
      simp [hsel, hi, hu, hc, run_bind, run_write, run_pure, Res.shift, ih hrest,
        scheduleRoots, entriesText, rootEntry, IntStack.Push, String.append_assoc,
        -String.reduceAppend] <;>
      (apply String.ext; simp [String.data_append])

theorem shift_shift {α : Type} (s t : String) (r : Res (Emitted α)) :
    Res.shift s (Res.shift t r) = Res.shift (s ++ t) r := by
  cases r <;> simp [Res.shift, String.append_assoc]

theorem shift_empty {α : Type} (r : Res (Emitted α)) : Res.shift "" r = r := by
  cases r <;> simp [Res.shift]

theorem run_pure_bind {α β : Type} (a : α) (f : α → M β) (md : Metadata) :
    (pure a >>= f) md = f a md := by
  rw [run_bind, run_pure]
  exact shift_empty _

theorem run_modify_bind {β : Type} (g : Metadata → Metadata) (f : Unit → M β)
    (md : Metadata) : (modifyMd g >>= f) md = f () (g md) := by
  rw [run_bind]
  exact shift_empty _

theorem run_bind_of_ok {α β : Type} {x : M α} {md : Metadata} {r : Emitted α}
    (hx : x md = Res.ok r) (f : α → M β) :
    (x >>= f) md = Res.shift r.text (f r.val r.md) := by
  rw [run_bind, hx]

theorem CompileQuery_run (c : compilerContext) (fuel : Nat) (md : Metadata)
    (hroots : ∀ id ∈ c.qc.Roots, (selectAt c.qc.Selects id).isSome = true) :
    CompileQuery c fuel md =
      Res.shift (rootWrapper c.h c.co c.qc)
        (renderQuery c fuel true fuel (scheduleRoots (rootSelects c.qc) [])
          (rootMd c.qc md)) := by
  unfold CompileQuery
  have hloop := fun md2 => rootsLoop_run c c.qc.Roots hroots 0 [] md2
  by_cases hsub : c.qc.Typ = QType.QTSubscription <;>
    by_cases hmy : c.co.ct = "mysql" <;>
    simp only [hsub, hmy, compilerContext.ct, if_true, if_false, run_write_bind,
      run_modify_bind, run_pure_bind, run_bind_of_ok (hloop _), shift_shift,
      rootWrapper, rootMd, rootSelects, entriesText_zero, String.append_assoc]

/-- Claim C1: for a Query or Subscription QCode whose roots index the selection
array, `Compile` runs the traversal on the scheduled roots and, when the
traversal returns, the caller's buffer holds the root wrapper followed by the
text of the traversal: `SELECT jsonb_build_object(` (`SELECT json_object(` on
MySQL), one entry per root in `Roots` order separated by `, `, and
`) AS __root FROM ((SELECT true)) AS __root_x`; the entry of a root is
`'<field_name>', NULL` for a UserNeeded root and `'<field_name>', __sj_<id>.json`
otherwise, followed by `, '<field_name>_cursor', NULL` or
`, '<field_name>_cursor', __sj_<id>.__cursor` when the root has cursor paging. -/
theorem C1_root_wrapper (h : Helpers) (co : Compiler) (fuel : Nat) (w : String)
    (qc : QCode)
    (hty : qc.Typ = QType.QTQuery ∨ qc.Typ = QType.QTSubscription)
    (hroots : ∀ id ∈ qc.Roots, (selectAt qc.Selects id).isSome = true) :
    Compile h co fuel w (some qc) =
      match renderQuery ⟨h, qc, co⟩ fuel true fuel (scheduleRoots (rootSelects qc) [])
          (rootMd qc {}) with
      | Res.ok r =>
        Res.ok { w := w ++ (rootWrapper h co qc ++ r.text), md := r.md, err := none }
      | Res.panic => Res.panic
      | Res.outOfFuel => Res.outOfFuel := by
  have hc : Compile h co fuel w (some qc) = runOn w (CompileQuery ⟨h, qc, co⟩ fuel) := by
    rcases hty with ht | ht <;> simp [Compile, ht]
  rw [hc]
  unfold runOn
  rw [CompileQuery_run ⟨h, qc, co⟩ fuel {} hroots]
  cases renderQuery ⟨h, qc, co⟩ fuel true fuel (scheduleRoots (rootSelects qc) [])
      (rootMd qc {}) <;> simp [Res.shift]

/-- Claim C1, witness: the query of scenario S1 on Postgres; the wrapper is
`SELECT jsonb_build_object('users', __sj_0.json) AS __root FROM ((SELECT true)) AS
__root_x`. -/
theorem C1_root_wrapper_witness :
    (rootWrapper (specHelpers "postgres") pgCompiler qcS1 =
      "SELECT jsonb_build_object('users', __sj_0.json) AS __root FROM ((SELECT true)) AS __root_x" ∧
    Compile (specHelpers "postgres") pgCompiler 5 "" (some qcS1) =
      Res.ok { w := sqlS1Emitted, md := { ct := "postgres" }, err := none }) ∧
    Compile (specHelpers "postgres") pgCompiler 5 "" (some qcS1) =
      match renderQuery ⟨specHelpers "postgres", qcS1, pgCompiler⟩ 5 true 5
          (scheduleRoots (rootSelects qcS1) []) (rootMd qcS1 {}) with
      | Res.ok r =>
        Res.ok { w := "" ++ (rootWrapper (specHelpers "postgres") pgCompiler qcS1 ++ r.text),
                 md := r.md, err := none }
      | Res.panic => Res.panic
      | Res.outOfFuel => Res.outOfFuel :=
  ⟨⟨by decide!, by decide!⟩, C1_root_wrapper (specHelpers "postgres") pgCompiler 5 "" qcS1
    (Or.inl rfl) (by decide!)⟩

/-! ## Laws of the emitter monad and monotonicity in the fuel -/

theorem bind_assoc_eq {α β γ : Type} (x : M α) (f : α → M β) (g : β → M γ) :
    ((x >>= f) >>= g) = (x >>= fun a => f a >>= g) := by
  funext md
  simp only [run_bind]
  cases x md with
  | ok r =>
    simp only []
    cases f r.val r.md with
    | ok r2 =>
      simp only [Res.shift]
      cases g r2.val r2.md <;> simp [Res.shift, String.append_assoc]
    | panic => rfl
    | outOfFuel => rfl
  | panic => rfl
  | outOfFuel => rfl

theorem pure_bind_eq {α β : Type} (a : α) (f : α → M β) : (pure a >>= f) = f a := by
  funext md
  exact run_pure_bind a f md

theorem bind_pure_eq {α : Type} (x : M α) : (x >>= fun a => pure a) = x := by
  funext md
  simp only [run_bind]
  cases x md with
  | ok r =>
    show Res.shift r.text (Res.ok ⟨r.val, r.md, ""⟩) = Res.ok r
    simp [Res.shift]
  | panic => rfl
  | outOfFuel => rfl

theorem bind_unit_pure {x : M Unit} : (x >>= fun _ => pure ()) = x :=
  bind_pure_eq x

theorem M.le_refl {α : Type} (x : M α) : M.le x x := fun _ _ h => h

theorem M.le_trans {α : Type} {x y z : M α} (h1 : M.le x y) (h2 : M.le y z) : M.le x z :=
  fun md r h => h2 md r (h1 md r h)

theorem M.le_of_eq {α : Type} {x y : M α} (h : x = y) : M.le x y := h ▸ M.le_refl x

theorem M.panic_le {α : Type} (y : M α) : M.le panicM y := by
  intro md r h
  cases h

theorem M.outOfFuel_le {α : Type} (y : M α) : M.le outOfFuelM y := by
  intro md r h
  cases h

theorem M.le_bind {α β : Type} {x x2 : M α} {f f2 : α → M β}
    (hx : M.le x x2) (hf : ∀ a, M.le (f a) (f2 a)) : M.le (x >>= f) (x2 >>= f2) := by
  intro md r h
  rw [run_bind] at h
  cases hxm : x md with
  | ok r1 =>
    rw [hxm] at h
    simp only [] at h
    rw [run_bind, hx md r1 hxm]
    simp only []
    cases hfm : f r1.val r1.md with
    | ok r2 =>
      rw [hfm] at h
      rw [hf r1.val r1.md r2 hfm]
      exact h
    | panic => rw [hfm] at h; cases h
    | outOfFuel => rw [hfm] at h; cases h
  | panic => rw [hxm] at h; cases h
  | outOfFuel => rw [hxm] at h; cases h

theorem M.le_bind_right {α β : Type} (x : M α) {f f2 : α → M β}
    (hf : ∀ a, M.le (f a) (f2 a)) : M.le (x >>= f) (x >>= f2) :=
  M.le_bind (M.le_refl x) hf

theorem M.le_bind_left {α β : Type} {x x2 : M α} (f : α → M β)
    (hx : M.le x x2) : M.le (x >>= f) (x2 >>= f) :=
  M.le_bind hx (fun a => M.le_refl (f a))

theorem renderExpLoop_nil (c : compilerContext) (schema : DBSchema) (fuel : Nat)
    (ti : TInfo) (sn : Bool) : renderExpLoop c schema fuel ti sn [] = pure () := by
  cases fuel <;> rfl

theorem renderNestedWhere_mono (c : compilerContext) (rec1 rec2 : TInfo → Exp → M Unit)
    (hrec : ∀ ti ex, M.le (rec1 ti ex) (rec2 ti ex)) (ti : TInfo) (ex : Exp) :
    M.le (renderNestedWhere c rec1 ti ex) (renderNestedWhere c rec2 ti ex) := by
  unfold renderNestedWhere
  cases ex.Rels with
  | nil => exact M.le_refl _
  | cons firstRel rest =>
    simp only []
    refine M.le_bind_right _ (fun _ => M.le_bind_right _ (fun _ => M.le_bind_right _
      (fun _ => M.le_bind_right _ (fun _ => ?_))))
    cases (firstRel :: rest).get? ((firstRel :: rest).length - 1) with
    | none => exact M.le_refl _
    | some lastRel =>
      simp only []
      exact M.le_bind_left _ (hrec _ _)

theorem renderExpLoop_mono (c : compilerContext) (schema : DBSchema) :
    ∀ (fuel fuel2 : Nat), fuel ≤ fuel2 → ∀ (ti : TInfo) (sn : Bool) (st : List Frame),
      M.le (renderExpLoop c schema fuel ti sn st) (renderExpLoop c schema fuel2 ti sn st) := by
  intro fuel
  induction fuel with
  | zero =>
    intro fuel2 _ ti sn st
    cases st with
    | nil => rw [renderExpLoop_nil, renderExpLoop_nil]; exact M.le_refl _
    | cons f st => exact M.outOfFuel_le _
  | succ n ih =>
    intro fuel2 hle ti sn st
    obtain ⟨m, rfl⟩ : ∃ m, fuel2 = m + 1 := ⟨fuel2 - 1, by omega⟩
    have hnm : n ≤ m := by omega
    cases st with
    | nil => rw [renderExpLoop_nil, renderExpLoop_nil]; exact M.le_refl _
    | cons f st =>
      cases f with
      | chr v =>
        simp only [renderExpLoop]
        exact M.le_bind_right _ (fun _ => ih m hnm ti sn st)
      | op v =>
        simp only [renderExpLoop]
        exact M.le_bind_right _ (fun _ => ih m hnm ti sn st)
      | exp val =>
        simp only [renderExpLoop]
        split
        · exact ih m hnm _ _ _
        · exact ih m hnm _ _ _
        · exact ih m hnm _ _ _
        · split
          · exact M.le_refl _
          · exact ih m hnm _ _ _
        · refine M.le_bind ?_ (fun _ => ih m hnm ti sn st)
          split
          · exact renderNestedWhere_mono c _ _ (fun ti2 ex2 => ih m hnm ti2 true _) ti val
          · exact M.le_refl _

theorem renderExp_mono (c : compilerContext) (fuel fuel2 : Nat) (hle : fuel ≤ fuel2)
    (schema : DBSchema) (ti : TInfo) (ex : Exp) (sn : Bool) :
    M.le (renderExp c fuel schema ti ex sn) (renderExp c fuel2 schema ti ex sn) :=
  renderExpLoop_mono c schema fuel fuel2 hle ti sn _

theorem renderWhere_mono (c : compilerContext) (fuel fuel2 : Nat) (hle : fuel ≤ fuel2)
    (sel : Select) : M.le (renderWhere c fuel sel) (renderWhere c fuel2 sel) := by
  unfold renderWhere
  split
  · exact M.le_refl _
  · refine M.le_bind_right _ (fun _ => M.le_bind_right _ (fun pid0 =>
      M.le_bind_right _ (fun _ => M.le_bind_left _ ?_)))
    cases sel.Where.Exp with
    | none => exact M.le_refl _
    | some ex => exact M.le_bind_right _ (fun _ => renderExp_mono c fuel fuel2 hle _ _ _ _)

theorem renderBaseSelect_mono (c : compilerContext) (fuel fuel2 : Nat) (hle : fuel ≤ fuel2)
    (sel : Select) : M.le (renderBaseSelect c fuel sel) (renderBaseSelect c fuel2 sel) := by
  unfold renderBaseSelect
  refine M.le_bind_right _ (fun _ => M.le_bind_right _ (fun _ => M.le_bind_right _ (fun _ =>
    M.le_bind_right _ (fun _ => M.le_bind_right _ (fun _ => M.le_bind_right _ (fun _ =>
    M.le_bind_left _ ?_))))))
  split
  · exact renderWhere_mono c fuel fuel2 hle sel
  · exact M.le_refl _

theorem renderRecursiveBaseSelect_mono (c : compilerContext) (fuel fuel2 : Nat)
    (hle : fuel ≤ fuel2) (sel : Select) :
    M.le (renderRecursiveBaseSelect c fuel sel) (renderRecursiveBaseSelect c fuel2 sel) := by
  unfold renderRecursiveBaseSelect
  cases selectAt c.qc.Selects sel.ParentID with
  | none => exact M.le_refl _
  | some psel =>
    simp only []
    refine M.le_bind_right _ (fun _ => M.le_bind_right _ (fun _ => M.le_bind_right _ (fun _ =>
      M.le_bind_right _ (fun _ => M.le_bind_right _ (fun _ => M.le_bind_right _ (fun _ =>
      M.le_bind_right _ (fun _ => M.le_bind_right _ (fun _ => M.le_bind_right _ (fun _ =>
      M.le_bind_right _ (fun _ => M.le_bind_right _ (fun _ => M.le_bind_right _ (fun _ =>
      M.le_bind_right _ (fun _ => ?_)))))))))))))
    exact renderWhere_mono c fuel fuel2 hle sel

theorem renderRecursiveCTE_mono (c : compilerContext) (fuel fuel2 : Nat) (hle : fuel ≤ fuel2)
    (sel : Select) : M.le (renderRecursiveCTE c fuel sel) (renderRecursiveCTE c fuel2 sel) := by
  unfold renderRecursiveCTE
  exact M.le_bind_right _ (fun _ => M.le_bind_right _ (fun _ => M.le_bind_right _ (fun _ =>
    M.le_bind_left _ (renderRecursiveBaseSelect_mono c fuel fuel2 hle sel))))

theorem renderSelect_mono (c : compilerContext) (fuel fuel2 : Nat) (hle : fuel ≤ fuel2)
    (sel : Select) : M.le (renderSelect c fuel sel) (renderSelect c fuel2 sel) := by
  unfold renderSelect
  exact M.le_bind_right _ (fun _ => M.le_bind_right _ (fun _ => M.le_bind_right _ (fun _ =>
    M.le_bind_right _ (fun _ => M.le_bind_right _ (fun _ => M.le_bind_right _ (fun _ =>
    M.le_bind_right _ (fun _ =>
    M.le_bind_left _ (renderBaseSelect_mono c fuel fuel2 hle sel))))))))

theorem renderOpen_mono (c : compilerContext) (fuel fuel2 : Nat) (hle : fuel ≤ fuel2)
    (multi : Bool) (sel : Select) :
    M.le (renderOpen c fuel multi sel) (renderOpen c fuel2 multi sel) := by
  unfold renderOpen
  split
  · refine M.le_bind_right _ (fun _ => M.le_bind ?_ (fun _ => M.le_bind_right _ (fun _ =>
      renderSelect_mono c fuel fuel2 hle sel)))
    split
    · exact renderRecursiveCTE_mono c fuel fuel2 hle sel
    · exact M.le_refl _
  · exact M.le_refl _

theorem renderQuery_nil (c : compilerContext) (ef : Nat) (multi : Bool) (fuel : Nat) :
    renderQuery c ef multi fuel [] = pure () := by
  cases fuel <;> rfl

theorem renderQuery_mono (c : compilerContext) (ef ef2 : Nat) (hef : ef ≤ ef2) (multi : Bool) :
    ∀ (fuel fuel2 : Nat), fuel ≤ fuel2 → ∀ (st : IntStack),
      M.le (renderQuery c ef multi fuel st) (renderQuery c ef2 multi fuel2 st) := by
  intro fuel
  induction fuel with
  | zero =>
    intro fuel2 _ st
    cases st with
    | nil => rw [renderQuery_nil, renderQuery_nil]; exact M.le_refl _
    | cons id st => exact M.outOfFuel_le _
  | succ n ih =>
    intro fuel2 hle st
    obtain ⟨m, rfl⟩ : ∃ m, fuel2 = m + 1 := ⟨fuel2 - 1, by omega⟩
    have hnm : n ≤ m := by omega
    cases st with
    | nil => rw [renderQuery_nil, renderQuery_nil]; exact M.le_refl _
    | cons id st =>
      simp only [renderQuery]
      split
      · cases selectAt c.qc.Selects id with
        | none => exact M.le_refl _
        | some sel =>
          simp only []
          refine M.le_bind (renderOpen_mono c ef ef2 hef multi sel) (fun _ => ?_)
          cases pushSelChildren c.qc.Selects sel.Children st with
          | none => exact M.le_refl _
          | some st2 => exact ih m hnm st2
      · cases selectAt c.qc.Selects (id - closeBlock) with
        | none => exact M.le_refl _
        | some sel => exact M.le_bind_right _ (fun _ => ih m hnm st)

theorem CompileQuery_mono (c : compilerContext) (fuel fuel2 : Nat) (hle : fuel ≤ fuel2) :
    M.le (CompileQuery c fuel) (CompileQuery c fuel2) := by
  unfold CompileQuery
  exact M.le_bind_right _ (fun _ => M.le_bind_right _ (fun _ => M.le_bind_right _ (fun _ =>
    M.le_bind_right _ (fun st => M.le_bind_right _ (fun _ =>
      renderQuery_mono c fuel fuel2 hle true fuel fuel2 hle st)))))

theorem runOn_mono (w : String) (x y : M Unit) (hxy : M.le x y) (r : Compiled)
    (hr : runOn w x = Res.ok r) : runOn w y = Res.ok r := by
  unfold runOn at hr ⊢
  cases hx : x {} with
  | ok e => rw [hxy _ e hx]; rw [hx] at hr; exact hr
  | panic => rw [hx] at hr; cases hr
  | outOfFuel => rw [hx] at hr; cases hr

theorem Compile_mono (h : Helpers) (co : Compiler) (fuel fuel2 : Nat) (hle : fuel ≤ fuel2)
    (w : String) (qc : Option QCode) (r : Compiled)
    (hr : Compile h co fuel w qc = Res.ok r) : Compile h co fuel2 w qc = Res.ok r := by
  cases qc with
  | none => exact hr
  | some q =>
    cases ht : q.Typ with
    | QTQuery =>
      simp only [Compile, ht] at hr ⊢
      exact runOn_mono w _ _ (CompileQuery_mono _ fuel fuel2 hle) r hr
    | QTSubscription =>
      simp only [Compile, ht] at hr ⊢
      exact runOn_mono w _ _ (CompileQuery_mono _ fuel fuel2 hle) r hr
    | QTMutation =>
      simp only [Compile, ht] at hr ⊢
      exact hr
    | QTOther code =>
      simp only [Compile, ht] at hr ⊢
      exact hr

theorem CompileEx_mono (h : Helpers) (co : Compiler) (fuel fuel2 : Nat) (hle : fuel ≤ fuel2)
    (qc : Option QCode) (r : CompiledEx)
    (hr : CompileEx h co fuel qc = Res.ok r) : CompileEx h co fuel2 qc = Res.ok r := by
  unfold CompileEx at hr ⊢
  cases hc : Compile h co fuel "" qc with
  | ok e => rw [Compile_mono h co fuel fuel2 hle "" qc e hc]; rw [hc] at hr; exact hr
  | panic => rw [hc] at hr; cases hr
  | outOfFuel => rw [hc] at hr; cases hr

/-! ## Scenario S1 (C2) -/

theorem CompileEx_S1_two :
    CompileEx (specHelpers "postgres") pgCompiler 2 (some qcS1) =
      Res.ok { md := { ct := "postgres" }, sql := some sqlS1Emitted, err := none } := by
  decide!

theorem CompileEx_S1 (n : Nat) :
    CompileEx (specHelpers "postgres") pgCompiler (n + 2) (some qcS1) =
      Res.ok { md := { ct := "postgres" }, sql := some sqlS1Emitted, err := none } :=
  CompileEx_mono _ _ 2 (n + 2) (by omega) _ _ CompileEx_S1_two

/-! ## Scenario S1 for arbitrary helpers: occurrences of `FROM (` -/

theorem occurrences_append (p a b : List Char) :
    occurrences p a + occurrences p b ≤ occurrences p (a ++ b) := by
  induction a with
  | nil => simp [occurrences]
  | cons x rest ih =>
    simp only [List.cons_append, occurrences, List.append_eq]
    have hpre : p.isPrefixOf (x :: rest) = true → p.isPrefixOf (x :: (rest ++ b)) = true := by
      intro hp
      rw [List.isPrefixOf_iff_prefix] at hp ⊢
      exact hp.trans (List.prefix_append (x :: rest) b)
    by_cases hp : p.isPrefixOf (x :: rest) = true
    · rw [if_pos hp, if_pos (hpre hp)]
      omega
    · rw [if_neg hp]
      split <;> omega

theorem occ_append (p a b : String) : occ p a + occ p b ≤ occ p (a ++ b) := by
  unfold occ
  rw [String.data_append]
  exact occurrences_append p.data a.data b.data

theorem emitsAtLeast_zero {α : Type} (p : String) (x : M α) : M.emitsAtLeast p x 0 :=
  fun _ _ _ => Nat.zero_le _

theorem emitsAtLeast_write (p s : String) (k : Nat) (hk : k ≤ occ p s) :
    M.emitsAtLeast p (write s) k := by
  intro md r h
  rw [run_write] at h
  injection h with h
  rw [← h]
  exact hk

theorem emitsAtLeast_bind {α β : Type} {p : String} {x : M α} {f : α → M β} {a b : Nat}
    (hx : M.emitsAtLeast p x a) (hf : ∀ v, M.emitsAtLeast p (f v) b) :
    M.emitsAtLeast p (x >>= f) (a + b) := by
  intro md r h
  rw [run_bind] at h
  cases hxm : x md with
  | ok r1 =>
    rw [hxm] at h
    simp only [] at h
    cases hfm : f r1.val r1.md with
    | ok r2 =>
      rw [hfm] at h
      simp only [Res.shift] at h
      injection h with h
      rw [← h]
      show a + b ≤ occ p (r1.text ++ r2.text)
      have h1 := hx md r1 hxm
      have h2 := hf r1.val r1.md r2 hfm
      have h3 := occ_append p r1.text r2.text
      omega
    | panic => rw [hfm] at h; cases h
    | outOfFuel => rw [hfm] at h; cases h
  | panic => rw [hxm] at h; cases h
  | outOfFuel => rw [hxm] at h; cases h

theorem emitsAtLeast_skip {α β : Type} {p : String} (x : M α) {f : α → M β} {b : Nat}
    (hf : ∀ v, M.emitsAtLeast p (f v) b) : M.emitsAtLeast p (x >>= f) b := by
  have h := emitsAtLeast_bind (emitsAtLeast_zero p x) hf
  rw [Nat.zero_add] at h
  exact h

theorem renderOpen_from_count (c : compilerContext) (fuel : Nat) (multi : Bool) (sel : Select)
    (hty : sel.Typ ≠ SelType.SelTypeUnion) (hs : sel.Singular = false) :
    M.emitsAtLeast "FROM (" (renderOpen c fuel multi sel) 3 := by
  unfold renderOpen
  have hcond : (sel.Typ != SelType.SelTypeUnion) = true := by simp [hty]
  rw [if_pos hcond]
  refine emitsAtLeast_skip _ (fun _ => emitsAtLeast_skip _ (fun _ =>
    emitsAtLeast_bind (a := 1) (b := 2) ?_ (fun _ => ?_)))
  · unfold renderPluralSelect
    simp only [hs, Bool.false_eq_true, if_false]
    exact emitsAtLeast_skip _ (fun _ => emitsAtLeast_skip _ (fun _ =>
      emitsAtLeast_write _ _ 1 (by decide!)))
  · unfold renderSelect
    refine emitsAtLeast_skip _ (fun _ => emitsAtLeast_skip _ (fun _ =>
      emitsAtLeast_skip _ (fun _ =>
      emitsAtLeast_bind (a := 1) (b := 1) (emitsAtLeast_write _ _ 1 (by decide!)) (fun _ =>
      emitsAtLeast_skip _ (fun _ => emitsAtLeast_skip _ (fun _ =>
      emitsAtLeast_bind (a := 1) (b := 0) (emitsAtLeast_write _ _ 1 (by decide!)) (fun _ =>
      emitsAtLeast_zero _ _)))))))

theorem CompileEx_S1_from_count (h : Helpers) (co : Compiler) (fuel : Nat) (r : CompiledEx)
    (hr : CompileEx h co fuel (some qcS1) = Res.ok r) :
    ∃ t, r.sql = some t ∧ 4 ≤ occ "FROM (" t := by
  have hroots : ∀ id ∈ qcS1.Roots, (selectAt qcS1.Selects id).isSome = true := by decide!
  have hc : Compile h co fuel "" (some qcS1) = runOn "" (CompileQuery ⟨h, qcS1, co⟩ fuel) := rfl
  have hq := CompileQuery_run ⟨h, qcS1, co⟩ fuel {} hroots
  have hst : scheduleRoots (rootSelects qcS1) [] = [0, 500] := by decide!
  simp only [compilerContext.qc, compilerContext.h, compilerContext.co] at hq
  rw [hst] at hq
  unfold CompileEx at hr
  rw [hc] at hr
  unfold runOn at hr
  rw [hq] at hr
  cases hrq : renderQuery ⟨h, qcS1, co⟩ fuel true fuel [0, 500] (rootMd qcS1 {}) with
  | ok r2 =>
    rw [hrq] at hr
    simp only [Res.shift, Option.isSome_none, Bool.false_eq_true, if_false] at hr
    injection hr with hr
    refine ⟨"" ++ (rootWrapper h co qcS1 ++ r2.text), by rw [← hr], ?_⟩
    have hw : 1 ≤ occ "FROM (" (rootWrapper h co qcS1) := by
      unfold rootWrapper
      have h1 := occ_append "FROM ("
        ((if co.ct = "mysql" then "SELECT json_object(" else "SELECT jsonb_build_object(")
          ++ ", ".intercalate ((rootSelects qcS1).map (rootEntry h)))
        ") AS __root FROM ((SELECT true)) AS __root_x"
      have h2 : occ "FROM (" ") AS __root FROM ((SELECT true)) AS __root_x" = 1 := by decide!
      omega
    have ht : 3 ≤ occ "FROM (" r2.text := by
      cases fuel with
      | zero => cases hrq
      | succ n =>
        have hsel : selectAt qcS1.Selects 0 = some usersSel := rfl
        have hlt : (0 : Int) < closeBlock := by decide
        simp only [renderQuery, hlt, if_true, compilerContext.qc, hsel] at hrq
        exact emitsAtLeast_bind (b := 0)
          (renderOpen_from_count ⟨h, qcS1, co⟩ (n + 1) true usersSel (by decide) rfl)
          (fun _ => emitsAtLeast_zero _ _) _ r2 hrq
    have h3 := occ_append "FROM (" (rootWrapper h co qcS1) r2.text
    have h4 := occ_append "FROM (" "" (rootWrapper h co qcS1 ++ r2.text)
    omega
  | panic => rw [hrq] at hr; cases hr
  | outOfFuel => rw [hrq] at hr; cases hr

/-- Claim C2, counterexample: whatever the writer helpers emit, whatever the
dialect and the fuel, the compiler never returns the SQL text that scenario S1
gives for its query: that text has three occurrences of `FROM (`, and the code
writes four (root wrapper, plural wrapper, row wrapper, and the sub-select around
the base SELECT). On Postgres, with the writer helpers of the specification, two
steps of fuel give the text `sqlS1Emitted`, which differs from that of S1. -/
theorem C2_counterexample_S1 :
    (¬ ∃ h co fuel r, CompileEx h co fuel (some qcS1) = Res.ok r ∧ r.sql = some sqlS1) ∧
    CompileEx (specHelpers "postgres") pgCompiler 2 (some qcS1) =
      Res.ok { md := { ct := "postgres" }, sql := some sqlS1Emitted, err := none } ∧
    sqlS1Emitted ≠ sqlS1 := by
  refine ⟨?_, CompileEx_S1 0, by decide!⟩
  rintro ⟨h, co, fuel, r, hr, hsql⟩
  obtain ⟨t, ht, hocc⟩ := CompileEx_S1_from_count h co fuel r hr
  rw [hsql] at ht
  injection ht with ht
  rw [← ht] at hocc
  have h3 : occ "FROM (" sqlS1 = 3 := by decide!
  omega

/-- Claim C2, amended: on Postgres, with the writer helpers of the specification,
compiling the Query of scenario S1 yields the root wrapper, one lateral join, the
jsonb_agg plural wrapper and the to_jsonb row wrapper, which selects the aliased
columns from a further parenthesised sub-select around the base SELECT:
`... AS json FROM (SELECT "users_0"."id", "users_0"."name" FROM (SELECT "users"."id",
"users"."name" FROM "users" LIMIT 20) "users_0") "__sr_0") "__sj_0") "__sj_0" ON true`
(four nested parenthesised levels after LATERAL, closed by four aliases); the
traversal needs two steps, so this holds for every fuel from 2 on. -/
theorem C2_S1_emitted (n : Nat) :
    CompileEx (specHelpers "postgres") pgCompiler (n + 2) (some qcS1) =
      Res.ok { md := { ct := "postgres" }, sql := some sqlS1Emitted, err := none } :=
  CompileEx_S1 n

/-! ## The traversal handles its stack segment by segment -/

theorem pushSelChildren_append (selects : List Select) (cs : List Int) (a b : IntStack) :
    pushSelChildren selects cs (a ++ b) = (pushSelChildren selects cs a).map (· ++ b) := by
  induction cs generalizing a with
  | nil => rfl
  | cons cid rest ih =>
    simp only [pushSelChildren]
    cases selectAt selects cid with
    | none => rfl
    | some child =>
      simp only []
      split
      · exact ih a
      · exact ih (child.ID :: wrap32 (child.ID + closeBlock) :: a)

theorem pushSelChildren_eq (selects : List Select) (cs : List Int)
    (hcs : ∀ cid ∈ cs, (selectAt selects cid).isSome = true) (st : IntStack) :
    pushSelChildren selects cs st =
      some ((((cs.filterMap (selectAt selects)).filter
        (fun child => child.SkipRender = SkipType.SkipTypeNone)).reverse.map block).flatten
          ++ st) := by
  induction cs generalizing st with
  | nil => rfl
  | cons cid rest ih =>
    have hrest : ∀ cid2 ∈ rest, (selectAt selects cid2).isSome = true :=
      fun cid2 h2 => hcs cid2 (List.mem_cons_of_mem _ h2)
    obtain ⟨child, hchild⟩ := Option.isSome_iff_exists.mp (hcs cid (List.mem_cons_self _ _))
    simp only [pushSelChildren, hchild, List.filterMap_cons]
    by_cases hskip : child.SkipRender = SkipType.SkipTypeNone
    · simp [hskip, ih hrest, IntStack.Push, block, List.filter_cons]
    · simp [hskip, ih hrest, List.filter_cons]

theorem scheduleRoots_eq (sels : List Select) (st : IntStack) :
    scheduleRoots sels st =
      ((sels.filter (fun sel => sel.SkipRender ≠ SkipType.SkipTypeUserNeeded)).reverse.map
        block).flatten ++ st := by
  induction sels generalizing st with
  | nil => rfl
  | cons sel rest ih =>
    simp only [scheduleRoots]
    by_cases hskip : sel.SkipRender = SkipType.SkipTypeUserNeeded
    · simp [hskip, ih, List.filter_cons]
    · simp [hskip, ih, block, List.filter_cons]

theorem renderQuery_append (c : compilerContext) (ef : Nat) (multi : Bool) :
    ∀ (fuel : Nat) (a b : IntStack),
      M.le (renderQuery c ef multi fuel (a ++ b))
        (renderQuery c ef multi fuel a >>= fun _ => renderQuery c ef multi fuel b) := by
  intro fuel
  induction fuel with
  | zero =>
    intro a b
    cases a with
    | nil =>
      rw [renderQuery_nil, pure_bind_eq]
      exact M.le_refl _
    | cons id a => exact M.outOfFuel_le _
  | succ n ih =>
    intro a b
    cases a with
    | nil =>
      rw [renderQuery_nil, pure_bind_eq]
      exact M.le_refl _
    | cons id a =>
      have hb : M.le (renderQuery c ef multi n b) (renderQuery c ef multi (n + 1) b) :=
        renderQuery_mono c ef ef (Nat.le_refl _) multi n (n + 1) (Nat.le_succ _) b
      simp only [List.cons_append, renderQuery, List.append_eq]
      split
      · cases selectAt c.qc.Selects id with
        | none => exact M.panic_le _
        | some sel =>
          simp only []
          rw [bind_assoc_eq]
          refine M.le_bind_right _ (fun _ => ?_)
          rw [pushSelChildren_append]
          cases pushSelChildren c.qc.Selects sel.Children a with
          | none => exact M.panic_le _
          | some st2 =>
            simp only [Option.map_some']
            exact M.le_trans (ih st2 b) (M.le_bind_right _ (fun _ => hb))
      · cases selectAt c.qc.Selects (id - closeBlock) with
        | none => exact M.panic_le _
        | some sel =>
          simp only []
          rw [bind_assoc_eq]
          refine M.le_bind_right _ (fun _ => ?_)
          exact M.le_trans (ih a b) (M.le_bind_right _ (fun _ => hb))

theorem renderQuery_blocks (c : compilerContext) (ef : Nat) (multi : Bool) (fuel : Nat)
    (blocks : List IntStack) (st : IntStack) :
    M.le (renderQuery c ef multi fuel (blocks.flatten ++ st))
      (seqAll (blocks.map (renderQuery c ef multi fuel)) >>= fun _ =>
        renderQuery c ef multi fuel st) := by
  induction blocks with
  | nil =>
    simp only [List.flatten_nil, List.nil_append, List.map_nil, seqAll]
    rw [pure_bind_eq]
    exact M.le_refl _
  | cons b rest ih =>
    simp only [List.flatten_cons, List.append_assoc, List.map_cons, seqAll]
    rw [bind_assoc_eq]
    exact M.le_trans (renderQuery_append c ef multi fuel b _) (M.le_bind_right _ (fun _ => ih))

/-! ## Order of the sub-selects of siblings (C4) -/

theorem subSelects_eq (c : compilerContext) (ef : Nat) (multi : Bool) (fuel : Nat)
    (sibs : List Select) :
    subSelects c ef multi fuel sibs =
      seqAll ((sibs.map block).map (renderQuery c ef multi fuel)) := by
  simp [subSelects, List.map_map, Function.comp_def]

theorem renderQuery_open_children (c : compilerContext) (ef : Nat) (multi : Bool)
    (fuel : Nat) (id : Int) (sel : Select) (st : IntStack)
    (hid : id < closeBlock) (hsel : selectAt c.qc.Selects id = some sel)
    (hch : ∀ cid ∈ sel.Children, (selectAt c.qc.Selects cid).isSome = true) :
    M.le (renderQuery c ef multi (fuel + 1) (id :: st))
      (renderOpen c ef multi sel >>= fun _ =>
        subSelects c ef multi fuel (renderableChildren c.qc.Selects sel).reverse >>= fun _ =>
          renderQuery c ef multi fuel st) := by
  simp only [renderQuery, hid, if_true, hsel, pushSelChildren_eq _ _ hch st]
  refine M.le_bind_right _ (fun _ => ?_)
  rw [subSelects_eq]
  exact renderQuery_blocks c ef multi fuel _ st

theorem CompileQuery_roots (c : compilerContext) (fuel : Nat)
    (hroots : ∀ id ∈ c.qc.Roots, (selectAt c.qc.Selects id).isSome = true)
    (md : Metadata) (r : Emitted Unit) (hr : CompileQuery c fuel md = Res.ok r) :
    ∃ r2, subSelects c fuel true fuel (renderedRoots c.qc).reverse (rootMd c.qc md) = Res.ok r2 ∧
      r.text = rootWrapper c.h c.co c.qc ++ r2.text ∧ r.md = r2.md := by
  rw [CompileQuery_run c fuel md hroots, scheduleRoots_eq] at hr
  cases hq : renderQuery c fuel true fuel
      (((List.filter (fun sel => sel.SkipRender ≠ SkipType.SkipTypeUserNeeded)
        (rootSelects c.qc)).reverse.map block).flatten ++ []) (rootMd c.qc md) with
  | ok r2 =>
    rw [hq] at hr
    simp only [Res.shift] at hr
    injection hr with hr
    have hb := renderQuery_blocks c fuel true fuel _ [] _ r2 hq
    rw [renderQuery_nil, bind_unit_pure, ← subSelects_eq] at hb
    refine ⟨r2, hb, ?_, ?_⟩
    · rw [← hr]
    · rw [← hr]
  | panic => rw [hq] at hr; cases hr
  | outOfFuel => rw [hq] at hr; cases hr

theorem CompileQuery_twoRoots :
    CompileQuery cTwoRoots 4 {} =
      Res.ok ⟨(), { ct := "postgres" }, wrapperTwoRoots ++ lateralPosts ++ lateralUsers⟩ := by
  decide!

theorem subSelects_twoRoots_in_order :
    subSelects cTwoRoots 4 true 4 (renderedRoots cTwoRoots.qc) (rootMd cTwoRoots.qc {}) =
      Res.ok ⟨(), { ct := "postgres" }, lateralUsers ++ lateralPosts⟩ := by
  decide!

/-- Claim C4, counterexample: it is not so that the text after the root wrapper
is always the sub-selects of the rendered roots in `Roots` order.  For the
two-root query with roots `users`, `posts` the compiler emits the sub-select of
`posts` first and that of `users` second. -/
theorem C4_counterexample_two_roots :
    ¬ ∀ (c : compilerContext) (fuel : Nat) (md : Metadata) (r : Emitted Unit),
      CompileQuery c fuel md = Res.ok r →
        ∃ r2, subSelects c fuel true fuel (renderedRoots c.qc) (rootMd c.qc md) = Res.ok r2 ∧
          r.text = rootWrapper c.h c.co c.qc ++ r2.text := by
  intro hall
  obtain ⟨r2, h2, htext⟩ := hall cTwoRoots 4 {} _ CompileQuery_twoRoots
  rw [subSelects_twoRoots_in_order] at h2
  injection h2 with h2
  subst h2
  revert htext
  decide!

/-- Claim C4, amended: the traversal reverses source order among siblings.  When
the open event of a selection whose children index the selection array is
popped, the run continues as: the open text of the selection, then the
sub-selects of its renderable children c1, ..., ck in the order ck, ..., c1 (each
the traversal of that child's own open and close events), then the rest of the
stack; likewise, after the root wrapper, `CompileQuery` emits the sub-selects of
the rendered roots in the reverse of `Roots` order. -/
theorem C4_siblings_reversed (c : compilerContext) (ef : Nat) (multi : Bool)
    (fuel : Nat) (id : Int) (sel : Select) (st : IntStack)
    (hid : id < closeBlock) (hsel : selectAt c.qc.Selects id = some sel)
    (hch : ∀ cid ∈ sel.Children, (selectAt c.qc.Selects cid).isSome = true)
    (hroots : ∀ rid ∈ c.qc.Roots, (selectAt c.qc.Selects rid).isSome = true) :
    M.le (renderQuery c ef multi (fuel + 1) (id :: st))
      (renderOpen c ef multi sel >>= fun _ =>
        subSelects c ef multi fuel (renderableChildren c.qc.Selects sel).reverse >>= fun _ =>
          renderQuery c ef multi fuel st) ∧
    (∀ md r, CompileQuery c fuel md = Res.ok r →
      ∃ r2, subSelects c fuel true fuel (renderedRoots c.qc).reverse (rootMd c.qc md)
          = Res.ok r2 ∧
        r.text = rootWrapper c.h c.co c.qc ++ r2.text ∧ r.md = r2.md) :=
  ⟨renderQuery_open_children c ef multi fuel id sel st hid hsel hch,
    fun md r hr => CompileQuery_roots c fuel hroots md r hr⟩

/-- Claim C4, witness: the nested query, at the open event of the root `users`
with the children `posts` and `drafts`: the renderable children are `posts`,
`drafts`, and the sub-select of `drafts` comes first. -/
theorem C4_siblings_reversed_witness :
    ((0 : Int) < closeBlock ∧ selectAt cNested.qc.Selects 0 = some usersNested ∧
      renderableChildren cNested.qc.Selects usersNested = [postsChild, draftsChild] ∧
      CompileQuery cNested 6 {} = Res.ok ⟨(), { ct := "postgres" }, sqlNested⟩) ∧
    (M.le (renderQuery cNested 6 true (6 + 1) (0 :: [500]))
      (renderOpen cNested 6 true usersNested >>= fun _ =>
        subSelects cNested 6 true 6
          (renderableChildren cNested.qc.Selects usersNested).reverse >>= fun _ =>
          renderQuery cNested 6 true 6 [500]) ∧
    (∀ md r, CompileQuery cNested 6 md = Res.ok r →
      ∃ r2, subSelects cNested 6 true 6 (renderedRoots cNested.qc).reverse
          (rootMd cNested.qc md) = Res.ok r2 ∧
        r.text = rootWrapper cNested.h cNested.co cNested.qc ++ r2.text ∧ r.md = r2.md)) :=
  ⟨⟨by decide, rfl, rfl, by decide!⟩,
    C4_siblings_reversed cNested 6 true 6 0 usersNested [500] (by decide) rfl
      (by decide!) (by decide!)⟩

/-! ## The traversal does not read `Roots` -/

theorem renderExpLoop_roots (h : Helpers) (co : Compiler) (qc : QCode) (r : List Int)
    (schema : DBSchema) :
    ∀ (fuel : Nat) (ti : TInfo) (sn : Bool) (st : List Frame),
      renderExpLoop ⟨h, { qc with Roots := r }, co⟩ schema fuel ti sn st =
        renderExpLoop ⟨h, qc, co⟩ schema fuel ti sn st := by
  intro fuel
  induction fuel with
  | zero =>
    intro ti sn st
    cases st <;> rfl
  | succ n ih =>
    intro ti sn st
    cases st with
    | nil => rfl
    | cons f st =>
      cases f with
      | chr v => simp only [renderExpLoop, ih]
      | op v => simp only [renderExpLoop, ih]
      | exp val =>
        simp only [renderExpLoop, ih]
        rfl

theorem renderWhere_roots (h : Helpers) (co : Compiler) (qc : QCode) (r : List Int)
    (fuel : Nat) (sel : Select) :
    renderWhere ⟨h, { qc with Roots := r }, co⟩ fuel sel = renderWhere ⟨h, qc, co⟩ fuel sel := by
  simp only [renderWhere, renderExp, renderExpLoop_roots]

theorem renderBaseSelect_roots (h : Helpers) (co : Compiler) (qc : QCode) (r : List Int)
    (fuel : Nat) (sel : Select) :
    renderBaseSelect ⟨h, { qc with Roots := r }, co⟩ fuel sel =
      renderBaseSelect ⟨h, qc, co⟩ fuel sel := by
  simp only [renderBaseSelect, renderWhere_roots]
  rfl

theorem renderRecursiveCTE_roots (h : Helpers) (co : Compiler) (qc : QCode) (r : List Int)
    (fuel : Nat) (sel : Select) :
    renderRecursiveCTE ⟨h, { qc with Roots := r }, co⟩ fuel sel =
      renderRecursiveCTE ⟨h, qc, co⟩ fuel sel := by
  simp only [renderRecursiveCTE, renderRecursiveBaseSelect, renderWhere_roots]
  rfl

theorem renderSelect_roots (h : Helpers) (co : Compiler) (qc : QCode) (r : List Int)
    (fuel : Nat) (sel : Select) :
    renderSelect ⟨h, { qc with Roots := r }, co⟩ fuel sel =
      renderSelect ⟨h, qc, co⟩ fuel sel := by
  simp only [renderSelect, renderBaseSelect_roots]
  rfl

theorem renderOpen_roots (h : Helpers) (co : Compiler) (qc : QCode) (r : List Int)
    (ef : Nat) (multi : Bool) (sel : Select) :
    renderOpen ⟨h, { qc with Roots := r }, co⟩ ef multi sel =
      renderOpen ⟨h, qc, co⟩ ef multi sel := by
  simp only [renderOpen, renderSelect_roots, renderRecursiveCTE_roots]
  rfl

theorem renderQuery_roots (h : Helpers) (co : Compiler) (qc : QCode) (r : List Int)
    (ef : Nat) (multi : Bool) :
    ∀ (fuel : Nat) (st : IntStack),
      renderQuery ⟨h, { qc with Roots := r }, co⟩ ef multi fuel st =
        renderQuery ⟨h, qc, co⟩ ef multi fuel st := by
  intro fuel
  induction fuel with
  | zero =>
    intro st
    cases st <;> rfl
  | succ n ih =>
    intro st
    cases st with
    | nil => rfl
    | cons id st =>
      simp only [renderQuery, ih, renderOpen_roots]
      rfl

/-! ## UserNeeded roots (C5) -/

theorem scheduleRoots_skip (pre post : List Select) (sel : Select)
    (hskip : sel.SkipRender = SkipType.SkipTypeUserNeeded) (st : IntStack) :
    scheduleRoots (pre ++ sel :: post) st = scheduleRoots (pre ++ post) st := by
  rw [scheduleRoots_eq, scheduleRoots_eq]
  simp [List.filter_append, List.filter_cons, hskip]

/-! ## The expression loop against the recursive reference renderer (C9) -/

theorem interleave_snoc (op : ExpOp) (l : List Exp) (e : Exp) :
    interleave op (l ++ [e]) =
      if l.length > 0 then interleave op l ++ [Frame.op op, Frame.exp e] else [Frame.exp e] := by
  induction l with
  | nil => rfl
  | cons a rest ih =>
    cases rest with
    | nil => rfl
    | cons b rest2 =>
      have ih2 := ih
      simp only [List.length_cons, gt_iff_lt, Nat.zero_lt_succ, if_true] at ih2
      simp only [List.cons_append, interleave, List.length_cons, gt_iff_lt, Nat.zero_lt_succ,
        if_true, List.append_eq]
      exact congrArg (fun l => Frame.exp a :: Frame.op op :: l) ih2

theorem pushChildren_eq (op : ExpOp) (l : List Exp) (st : List Frame) :
    pushChildren op l st = interleave op l.reverse ++ st := by
  induction l generalizing st with
  | nil => rfl
  | cons e rest ih =>
    simp only [pushChildren, List.reverse_cons, interleave_snoc, List.length_reverse]
    rw [ih]
    by_cases hlen : rest.length > 0
    · simp [hlen]
    · have hnil : rest = [] := by
        cases rest with
        | nil => rfl
        | cons a b => simp at hlen
      subst hnil
      rfl

theorem pushChildren_reverse (op : ExpOp) (cs : List Exp) (st : List Frame) :
    pushChildren op cs.reverse st = interleave op cs ++ st := by
  rw [pushChildren_eq, List.reverse_reverse]

theorem renderExpLoop_leaf_skip (c : compilerContext) (schema : DBSchema) (fuel : Nat)
    (ti : TInfo) (val : Exp) (hleaf : isLeafOp val.Op = true) :
    renderExpLoop c schema (fuel + 1) ti true [Frame.exp val] = renderOp c schema ti val := by
  simp only [renderExpLoop]
  cases hop : val.Op <;> simp [isLeafOp, hop] at hleaf <;>
    simp [renderExpLoop_nil, bind_unit_pure]

theorem renderNestedWhere_congr (c : compilerContext) (rec1 rec2 : TInfo → Exp → M Unit)
    (ti : TInfo) (ex : Exp) (hrec : ∀ ti2, rec1 ti2 ex = rec2 ti2 ex) :
    renderNestedWhere c rec1 ti ex = renderNestedWhere c rec2 ti ex := by
  unfold renderNestedWhere
  simp only [hrec]

theorem renderExpLoop_leaf (c : compilerContext) (schema : DBSchema) (fuel : Nat)
    (ti : TInfo) (sn : Bool) (val : Exp) (st : List Frame) (hleaf : isLeafOp val.Op = true) :
    renderExpLoop c schema (fuel + 1 + 1) ti sn (Frame.exp val :: st) =
      (leafRender c schema ti sn val >>= fun _ =>
        renderExpLoop c schema (fuel + 1) ti sn st) := by
  have hn : renderNestedWhere c
      (fun ti2 ex2 => renderExpLoop c schema (fuel + 1) ti2 true [Frame.exp ex2]) ti val =
      renderNestedWhere c (fun ti2 ex2 => renderOp c schema ti2 ex2) ti val :=
    renderNestedWhere_congr c _ _ ti val
      (fun ti2 => renderExpLoop_leaf_skip c schema fuel ti2 val hleaf)
  rw [renderExpLoop]
  simp only [leafRender]
  cases hop : val.Op <;> simp [isLeafOp, hop] at hleaf <;> simp only [hn]

theorem refRender_node (c : compilerContext) (schema : DBSchema) (ti : TInfo) (sn : Bool)
    (n : ExpNode) (cs : List Exp) :
    refRender c schema ti sn (Exp.node n cs) =
      match n.Op with
      | ExpOp.OpAnd => do
        write "("
        refRenderSep c schema ti sn " AND " cs
        write ")"
      | ExpOp.OpOr => do
        write "("
        refRenderSep c schema ti sn " OR " cs
        write ")"
      | ExpOp.OpNot =>
        match cs with
        | [child] => do
          write "NOT "
          refRender c schema ti sn child
        | _ => panicM
      | ExpOp.OpFalse => write "false"
      | _ => leafRender c schema ti sn (Exp.node n cs) := by
  obtain ⟨op, col, val, typ, lt, lv, rels, tbl⟩ := n
  cases op <;> first | rfl | (cases cs with
    | nil => rfl
    | cons a rest => cases rest <;> rfl)

theorem loopSteps_node (n : ExpNode) (cs : List Exp) :
    loopSteps (Exp.node n cs) =
      match n.Op with
      | ExpOp.OpAnd => 3 + loopStepsSep cs
      | ExpOp.OpOr => 3 + loopStepsSep cs
      | ExpOp.OpNot =>
        match cs with
        | [child] => 2 + loopSteps child
        | _ => 1
      | ExpOp.OpFalse => 2
      | _ => 1 := by
  obtain ⟨op, col, val, typ, lt, lv, rels, tbl⟩ := n
  cases op <;> first | rfl | (cases cs with
    | nil => rfl
    | cons a rest => cases rest <;> rfl)

theorem wellFormed_node (n : ExpNode) (cs : List Exp) :
    wellFormed (Exp.node n cs) =
      match n.Op with
      | ExpOp.OpAnd => wellFormedAll cs
      | ExpOp.OpOr => wellFormedAll cs
      | ExpOp.OpNot =>
        match cs with
        | [child] => wellFormed child
        | _ => false
      | _ => true := by
  obtain ⟨op, col, val, typ, lt, lv, rels, tbl⟩ := n
  cases op <;> first | rfl | (cases cs with
    | nil => rfl
    | cons a rest => cases rest <;> rfl)

theorem refRenderSep_cons2 (c : compilerContext) (schema : DBSchema) (ti : TInfo) (sn : Bool)
    (sep : String) (e e2 : Exp) (rest : List Exp) :
    refRenderSep c schema ti sn sep (e :: e2 :: rest) =
      (refRender c schema ti sn e >>= fun _ => write sep >>= fun _ =>
        refRenderSep c schema ti sn sep (e2 :: rest)) := rfl

theorem refRenderSep_one (c : compilerContext) (schema : DBSchema) (ti : TInfo) (sn : Bool)
    (sep : String) (e : Exp) :
    refRenderSep c schema ti sn sep [e] = refRender c schema ti sn e := rfl

theorem refRenderSep_nil (c : compilerContext) (schema : DBSchema) (ti : TInfo) (sn : Bool)
    (sep : String) : refRenderSep c schema ti sn sep [] = pure () := rfl

theorem loop_chr_open (c : compilerContext) (schema : DBSchema) (fuel : Nat) (ti : TInfo)
    (sn : Bool) (st : List Frame) :
    renderExpLoop c schema (fuel + 1) ti sn (Frame.chr '(' :: st) =
      (write "(" >>= fun _ => renderExpLoop c schema fuel ti sn st) := by
  rw [renderExpLoop]
  simp

theorem loop_chr_close (c : compilerContext) (schema : DBSchema) (fuel : Nat) (ti : TInfo)
    (sn : Bool) (st : List Frame) :
    renderExpLoop c schema (fuel + 1) ti sn (Frame.chr ')' :: st) =
      (write ")" >>= fun _ => renderExpLoop c schema fuel ti sn st) := by
  rw [renderExpLoop]
  simp

theorem loop_op_and (c : compilerContext) (schema : DBSchema) (fuel : Nat) (ti : TInfo)
    (sn : Bool) (st : List Frame) :
    renderExpLoop c schema (fuel + 1) ti sn (Frame.op ExpOp.OpAnd :: st) =
      (write " AND " >>= fun _ => renderExpLoop c schema fuel ti sn st) := by
  rw [renderExpLoop]

theorem loop_op_or (c : compilerContext) (schema : DBSchema) (fuel : Nat) (ti : TInfo)
    (sn : Bool) (st : List Frame) :
    renderExpLoop c schema (fuel + 1) ti sn (Frame.op ExpOp.OpOr :: st) =
      (write " OR " >>= fun _ => renderExpLoop c schema fuel ti sn st) := by
  rw [renderExpLoop]

theorem loop_op_not (c : compilerContext) (schema : DBSchema) (fuel : Nat) (ti : TInfo)
    (sn : Bool) (st : List Frame) :
    renderExpLoop c schema (fuel + 1) ti sn (Frame.op ExpOp.OpNot :: st) =
      (write "NOT " >>= fun _ => renderExpLoop c schema fuel ti sn st) := by
  rw [renderExpLoop]

theorem loop_op_false (c : compilerContext) (schema : DBSchema) (fuel : Nat) (ti : TInfo)
    (sn : Bool) (st : List Frame) :
    renderExpLoop c schema (fuel + 1) ti sn (Frame.op ExpOp.OpFalse :: st) =
      (write "false" >>= fun _ => renderExpLoop c schema fuel ti sn st) := by
  rw [renderExpLoop]

theorem loop_exp_and (c : compilerContext) (schema : DBSchema) (fuel : Nat) (ti : TInfo)
    (sn : Bool) (val : Exp) (st : List Frame) (hop : val.Op = ExpOp.OpAnd) :
    renderExpLoop c schema (fuel + 1) ti sn (Frame.exp val :: st) =
      renderExpLoop c schema fuel ti sn
        (Frame.chr '(' :: (interleave ExpOp.OpAnd val.Children ++ Frame.chr ')' :: st)) := by
  rw [renderExpLoop]
  simp only [hop, pushChildren_reverse]

theorem loop_exp_or (c : compilerContext) (schema : DBSchema) (fuel : Nat) (ti : TInfo)
    (sn : Bool) (val : Exp) (st : List Frame) (hop : val.Op = ExpOp.OpOr) :
    renderExpLoop c schema (fuel + 1) ti sn (Frame.exp val :: st) =
      renderExpLoop c schema fuel ti sn
        (Frame.chr '(' :: (interleave ExpOp.OpOr val.Children ++ Frame.chr ')' :: st)) := by
  rw [renderExpLoop]
  simp only [hop, pushChildren_reverse]

theorem loop_exp_not (c : compilerContext) (schema : DBSchema) (fuel : Nat) (ti : TInfo)
    (sn : Bool) (val : Exp) (st : List Frame) (child : Exp) (rest : List Exp)
    (hop : val.Op = ExpOp.OpNot) (hcs : val.Children = child :: rest) :
    renderExpLoop c schema (fuel + 1) ti sn (Frame.exp val :: st) =
      renderExpLoop c schema fuel ti sn (Frame.op ExpOp.OpNot :: Frame.exp child :: st) := by
  rw [renderExpLoop]
  simp only [hop, hcs]

theorem loop_exp_not_nil (c : compilerContext) (schema : DBSchema) (fuel : Nat) (ti : TInfo)
    (sn : Bool) (val : Exp) (st : List Frame)
    (hop : val.Op = ExpOp.OpNot) (hcs : val.Children = []) :
    renderExpLoop c schema (fuel + 1) ti sn (Frame.exp val :: st) = panicM := by
  rw [renderExpLoop]
  simp only [hop, hcs]

theorem loop_exp_false (c : compilerContext) (schema : DBSchema) (fuel : Nat) (ti : TInfo)
    (sn : Bool) (val : Exp) (st : List Frame) (hop : val.Op = ExpOp.OpFalse) :
    renderExpLoop c schema (fuel + 1) ti sn (Frame.exp val :: st) =
      renderExpLoop c schema fuel ti sn (Frame.op ExpOp.OpFalse :: st) := by
  rw [renderExpLoop]
  simp only [hop]

theorem refRender_leaf (c : compilerContext) (schema : DBSchema) (ti : TInfo) (sn : Bool)
    (n : ExpNode) (cs : List Exp) (hleaf : isLeafOp n.Op = true) :
    refRender c schema ti sn (Exp.node n cs) = leafRender c schema ti sn (Exp.node n cs) := by
  rw [refRender_node]
  cases hop : n.Op <;> simp [isLeafOp, hop] at hleaf <;> rfl

theorem loopSteps_leaf (n : ExpNode) (cs : List Exp) (hleaf : isLeafOp n.Op = true) :
    loopSteps (Exp.node n cs) = 1 := by
  rw [loopSteps_node]
  cases hop : n.Op <;> simp [isLeafOp, hop] at hleaf <;> rfl

mutual
theorem loop_refRender (c : compilerContext) (schema : DBSchema) (ti : TInfo) (sn : Bool) :
    ∀ (ex : Exp), wellFormed ex = true → ∀ (k : Nat) (st : List Frame),
      renderExpLoop c schema (loopSteps ex + k + 1) ti sn (Frame.exp ex :: st) =
        (refRender c schema ti sn ex >>= fun _ => renderExpLoop c schema (k + 1) ti sn st)
  | Exp.node n cs, hwf, k, st => by
    rw [wellFormed_node] at hwf
    rw [loopSteps_node, refRender_node]
    by_cases hleaf : isLeafOp n.Op = true
    · have h1 := renderExpLoop_leaf c schema k ti sn (Exp.node n cs) st hleaf
      have h2 := refRender_leaf c schema ti sn n cs hleaf
      have h3 := loopSteps_leaf n cs hleaf
      rw [refRender_node] at h2
      rw [loopSteps_node] at h3
      rw [h2, h3, show 1 + k + 1 = k + 1 + 1 by omega, h1]
    · cases hop : n.Op <;> simp [isLeafOp, hop] at hleaf
      · -- AND
        simp only [hop] at hwf ⊢
        have hl := loop_refRenderSep c schema ti sn cs hwf ExpOp.OpAnd " AND "
          (loop_op_and c schema · ti sn ·) (k + 1) (Frame.chr ')' :: st)
        rw [show 3 + loopStepsSep cs + k + 1 = (loopStepsSep cs + (k + 1) + 1) + 1 + 1 by omega,
          loop_exp_and c schema _ ti sn (Exp.node n cs) st hop, loop_chr_open]
        rw [show (Exp.node n cs).Children = cs from rfl, hl, loop_chr_close]
        simp only [bind_assoc_eq]
      · -- OR
        simp only [hop] at hwf ⊢
        have hl := loop_refRenderSep c schema ti sn cs hwf ExpOp.OpOr " OR "
          (loop_op_or c schema · ti sn ·) (k + 1) (Frame.chr ')' :: st)
        rw [show 3 + loopStepsSep cs + k + 1 = (loopStepsSep cs + (k + 1) + 1) + 1 + 1 by omega,
          loop_exp_or c schema _ ti sn (Exp.node n cs) st hop, loop_chr_open]
        rw [show (Exp.node n cs).Children = cs from rfl, hl, loop_chr_close]
        simp only [bind_assoc_eq]
      · -- NOT
        simp only [hop] at hwf ⊢
        match cs, hwf with
        | [child], hwf =>
          simp only [] at hwf ⊢
          have hl := loop_refRender c schema ti sn child hwf k st
          rw [show 2 + loopSteps child + k + 1 = (loopSteps child + k + 1) + 1 + 1 by omega,
            loop_exp_not c schema _ ti sn (Exp.node n [child]) st child [] hop rfl,
            loop_op_not, hl]
          simp only [bind_assoc_eq]
      · -- FALSE
        simp only [hop]
        rw [show 2 + k + 1 = (k + 1) + 1 + 1 by omega,
          loop_exp_false c schema _ ti sn (Exp.node n cs) st hop, loop_op_false]
theorem loop_refRenderSep (c : compilerContext) (schema : DBSchema) (ti : TInfo) (sn : Bool) :
    ∀ (cs : List Exp), wellFormedAll cs = true → ∀ (op : ExpOp) (sep : String),
      (∀ (fuel : Nat) (st : List Frame),
        renderExpLoop c schema (fuel + 1) ti sn (Frame.op op :: st) =
          (write sep >>= fun _ => renderExpLoop c schema fuel ti sn st)) →
      ∀ (k : Nat) (st : List Frame),
        renderExpLoop c schema (loopStepsSep cs + k + 1) ti sn (interleave op cs ++ st) =
          (refRenderSep c schema ti sn sep cs >>= fun _ =>
            renderExpLoop c schema (k + 1) ti sn st)
  | [], _, op, sep, _, k, st => by
    rw [refRenderSep_nil, pure_bind_eq]
    show renderExpLoop c schema (0 + k + 1) ti sn ([] ++ st) = _
    rw [Nat.zero_add, List.nil_append]
  | [e], hwf, op, sep, _, k, st => by
    have hwe : wellFormed e = true := by
      simp only [wellFormedAll, Bool.and_true] at hwf
      exact hwf
    exact loop_refRender c schema ti sn e hwe k st
  | e :: e2 :: rest, hwf, op, sep, hsep, k, st => by
    have hw : wellFormed e = true ∧ wellFormedAll (e2 :: rest) = true := by
      rw [wellFormedAll, Bool.and_eq_true] at hwf
      exact hwf
    have h1 := loop_refRender c schema ti sn e hw.1 (loopStepsSep (e2 :: rest) + k + 1)
      (Frame.op op :: (interleave op (e2 :: rest) ++ st))
    have h2 := loop_refRenderSep c schema ti sn (e2 :: rest) hw.2 op sep hsep k st
    rw [refRenderSep_cons2]
    show renderExpLoop c schema (loopSteps e + 1 + loopStepsSep (e2 :: rest) + k + 1) ti sn
      (Frame.exp e :: Frame.op op :: (interleave op (e2 :: rest) ++ st)) = _
    rw [show loopSteps e + 1 + loopStepsSep (e2 :: rest) + k + 1 =
      loopSteps e + (loopStepsSep (e2 :: rest) + k + 1) + 1 by omega, h1, hsep, h2]
    simp only [bind_assoc_eq]
end

theorem renderExp_eq_refRender (c : compilerContext) (schema : DBSchema) (ti : TInfo)
    (ex : Exp) (sn : Bool) (fuel : Nat) (hwf : wellFormed ex = true)
    (hfuel : loopSteps ex + 1 ≤ fuel) :
    renderExp c fuel schema ti ex sn = refRender c schema ti sn ex := by
  obtain ⟨k, rfl⟩ : ∃ k, fuel = loopSteps ex + k + 1 := ⟨fuel - (loopSteps ex + 1), by omega⟩
  unfold renderExp
  rw [loop_refRender c schema ti sn ex hwf k [], renderExpLoop_nil, bind_unit_pure]

theorem interleave_frames (op : ExpOp) (cs : List Exp) :
    expFrames (interleave op cs) = cs ∧
      opFrames (interleave op cs) = List.replicate (cs.length - 1) op := by
  induction cs with
  | nil => exact ⟨rfl, rfl⟩
  | cons e rest ih =>
    cases rest with
    | nil => exact ⟨rfl, rfl⟩
    | cons e2 rest2 =>
      obtain ⟨ih1, ih2⟩ := ih
      constructor
      · show e :: expFrames (interleave op (e2 :: rest2)) = _
        rw [ih1]
      · show op :: opFrames (interleave op (e2 :: rest2)) = _
        rw [ih2]
        rfl

/-- Claim C9: on every expression tree of the grammar of the reference renderer
(every NOT node has exactly one child), the iterative, stack-based `renderExp`
with enough fuel (one more than the iterations the tree needs) is the recursive
reference renderer R: R(AND[c1..cn]) = `(` R(c1) ` AND ` ... ` AND ` R(cn) `)`, the
same with ` OR ` for OR, R(NOT[c]) = `NOT ` R(c), R(FALSE) = `false`, R(leaf) = the
rendering of the leaf.  The frames that an AND/OR group pushes between its two
parentheses are its n children left to right with n-1 operator tokens between
them. -/
theorem C9_renderExp_refines (c : compilerContext) (schema : DBSchema) (ti : TInfo)
    (ex : Exp) (sn : Bool) (fuel : Nat) (hwf : wellFormed ex = true)
    (hfuel : loopSteps ex + 1 ≤ fuel) :
    renderExp c fuel schema ti ex sn = refRender c schema ti sn ex ∧
    (∀ (op : ExpOp) (cs : List Exp) (st : List Frame),
      pushChildren op cs.reverse st = interleave op cs ++ st ∧
      expFrames (interleave op cs) = cs ∧
      opFrames (interleave op cs) = List.replicate (cs.length - 1) op) :=
  ⟨renderExp_eq_refRender c schema ti ex sn fuel hwf hfuel,
    fun op cs st => ⟨pushChildren_reverse op cs st, interleave_frames op cs⟩⟩

/-- Claim C9, witness: the tree `AND [id = 1, NOT [name LIKE a%], OR [FALSE, id > 5]]`
over `users`, rendered with fuel 20. -/
theorem C9_renderExp_refines_witness :
    (wellFormed expSample = true ∧ loopSteps expSample + 1 ≤ 20 ∧
      renderExp cS1 20 {} usersTable expSample false {} = Res.ok ⟨(), {},
        "(((\"users\".\"id\") = '1') AND NOT ((\"users\".\"name\") LIKE 'a%') AND (false OR ((\"users\".\"id\") > '5')))"⟩) ∧
    (renderExp cS1 20 {} usersTable expSample false =
        refRender cS1 {} usersTable false expSample ∧
      (∀ (op : ExpOp) (cs : List Exp) (st : List Frame),
        pushChildren op cs.reverse st = interleave op cs ++ st ∧
        expFrames (interleave op cs) = cs ∧
        opFrames (interleave op cs) = List.replicate (cs.length - 1) op)) :=
  ⟨⟨by decide!, by decide!, by decide!⟩,
    C9_renderExp_refines cS1 {} usersTable expSample false 20 (by decide!) (by decide!)⟩

/-! ## Malformed expression nodes (C8) -/

theorem M.neverOk_panic {α : Type} : M.neverOk (panicM : M α) := by
  intro md r h
  cases h

theorem M.neverOk_outOfFuel {α : Type} : M.neverOk (outOfFuelM : M α) := by
  intro md r h
  cases h

theorem M.neverOk_bind_right {α β : Type} (x : M α) {f : α → M β}
    (hf : ∀ a, M.neverOk (f a)) : M.neverOk (x >>= f) := by
  intro md r h
  rw [run_bind] at h
  cases hx : x md with
  | ok r1 =>
    rw [hx] at h
    simp only [] at h
    cases hfm : f r1.val r1.md with
    | ok r2 => exact hf r1.val r1.md r2 hfm
    | panic => rw [hfm] at h; cases h
    | outOfFuel => rw [hfm] at h; cases h
  | panic => rw [hx] at h; cases h
  | outOfFuel => rw [hx] at h; cases h

theorem M.neverOk_bind_left {α β : Type} {x : M α} (f : α → M β)
    (hx : M.neverOk x) : M.neverOk (x >>= f) := by
  intro md r h
  rw [run_bind] at h
  cases hxm : x md with
  | ok r1 => exact hx md r1 hxm
  | panic => rw [hxm] at h; cases h
  | outOfFuel => rw [hxm] at h; cases h

theorem M.neverOk_of_le {α : Type} {x y : M α} (hle : M.le x y) (hy : M.neverOk y) :
    M.neverOk x :=
  fun md r h => hy md r (hle md r h)

theorem mem_interleave (op : ExpOp) (cs : List Exp) (child : Exp) (hmem : child ∈ cs) :
    Frame.exp child ∈ interleave op cs := by
  induction cs with
  | nil => cases hmem
  | cons e rest ih =>
    cases rest with
    | nil =>
      rcases List.mem_cons.mp hmem with h | h
      · subst h
        exact List.mem_cons_self _ _
      · cases h
    | cons e2 rest2 =>
      rcases List.mem_cons.mp hmem with h | h
      · subst h
        exact List.mem_cons_self _ _
      · exact List.mem_cons_of_mem _ (List.mem_cons_of_mem _ (ih h))

theorem renderExpLoop_malformed (c : compilerContext) (schema : DBSchema) :
    ∀ (fuel : Nat) (ti : TInfo) (sn : Bool) (st : List Frame),
      (∃ e, Frame.exp e ∈ st ∧ Malformed e) →
        M.neverOk (renderExpLoop c schema fuel ti sn st) := by
  intro fuel
  induction fuel with
  | zero =>
    intro ti sn st hst
    cases st with
    | nil =>
      obtain ⟨e, hmem, _⟩ := hst
      cases hmem
    | cons f st => exact M.neverOk_outOfFuel
  | succ n ih =>
    intro ti sn st hst
    obtain ⟨e, hmem, hmal⟩ := hst
    cases st with
    | nil => cases hmem
    | cons f st =>
      cases f with
      | chr v =>
        simp only [renderExpLoop]
        refine M.neverOk_bind_right _ (fun _ => ih ti sn st ⟨e, ?_, hmal⟩)
        rcases List.mem_cons.mp hmem with h | h
        · cases h
        · exact h
      | op v =>
        simp only [renderExpLoop]
        refine M.neverOk_bind_right _ (fun _ => ih ti sn st ⟨e, ?_, hmal⟩)
        rcases List.mem_cons.mp hmem with h | h
        · cases h
        · exact h
      | exp val =>
        rcases List.mem_cons.mp hmem with h | h
        · injection h with h
          subst h
          cases hmal with
          | notEmpty _ hop hcs =>
            rw [loop_exp_not_nil c schema n ti sn e st hop hcs]
            exact M.neverOk_panic
          | inNot _ child rest hop hcs hchild =>
            rw [loop_exp_not c schema n ti sn e st child rest hop hcs]
            exact ih ti sn _ ⟨child, List.mem_cons_of_mem _ (List.mem_cons_self _ _), hchild⟩
          | inGroup _ child hop hcm hchild =>
            rcases hop with hop | hop
            · rw [loop_exp_and c schema n ti sn e st hop]
              exact ih ti sn _ ⟨child, List.mem_cons_of_mem _
                (List.mem_append_left _ (mem_interleave _ _ child hcm)), hchild⟩
            · rw [loop_exp_or c schema n ti sn e st hop]
              exact ih ti sn _ ⟨child, List.mem_cons_of_mem _
                (List.mem_append_left _ (mem_interleave _ _ child hcm)), hchild⟩
        · simp only [renderExpLoop]
          split
          · exact ih ti sn _ ⟨e, List.mem_cons_of_mem _ h, hmal⟩
          · rw [pushChildren_reverse]
            exact ih ti sn _ ⟨e, List.mem_cons_of_mem _
              (List.mem_append_right _ (List.mem_cons_of_mem _ h)), hmal⟩
          · rw [pushChildren_reverse]
            exact ih ti sn _ ⟨e, List.mem_cons_of_mem _
              (List.mem_append_right _ (List.mem_cons_of_mem _ h)), hmal⟩
          · split
            · exact M.neverOk_panic
            · exact ih ti sn _ ⟨e, List.mem_cons_of_mem _ (List.mem_cons_of_mem _ h), hmal⟩
          · exact M.neverOk_bind_right _ (fun _ => ih ti sn st ⟨e, h, hmal⟩)

theorem renderWhere_malformed (c : compilerContext) (fuel : Nat) (sel : Select) (ex : Exp)
    (hex : sel.Where.Exp = some ex) (hmal : Malformed ex) :
    M.neverOk (renderWhere c fuel sel) := by
  unfold renderWhere
  have hcond : ¬ (sel.Rel.Typ = RelType.RelNone ∧ sel.Where.Exp.isNone = true) := by
    simp [hex]
  rw [if_neg hcond]
  refine M.neverOk_bind_right _ (fun _ => M.neverOk_bind_right _ (fun pid0 =>
    M.neverOk_bind_right _ (fun _ => M.neverOk_bind_left _ ?_)))
  rw [hex]
  exact M.neverOk_bind_right _ (fun _ =>
    renderExpLoop_malformed c _ fuel _ _ _ ⟨ex, List.mem_cons_self _ _, hmal⟩)

theorem renderOpen_malformed (c : compilerContext) (fuel : Nat) (multi : Bool) (sel : Select)
    (ex : Exp) (hty : sel.Typ ≠ SelType.SelTypeUnion)
    (hex : sel.Where.Exp = some ex) (hmal : Malformed ex) :
    M.neverOk (renderOpen c fuel multi sel) := by
  have hw := renderWhere_malformed c fuel sel ex hex hmal
  unfold renderOpen
  have hcond : (sel.Typ != SelType.SelTypeUnion) = true := by simp [hty]
  rw [if_pos hcond]
  refine M.neverOk_bind_right _ (fun _ => ?_)
  by_cases hrec : sel.Rel.Typ = RelType.RelRecursive
  · refine M.neverOk_bind_left _ ?_
    rw [if_pos hrec]
    unfold renderRecursiveCTE
    refine M.neverOk_bind_right _ (fun _ => M.neverOk_bind_right _ (fun _ =>
      M.neverOk_bind_right _ (fun _ => M.neverOk_bind_left _ ?_)))
    unfold renderRecursiveBaseSelect
    cases selectAt c.qc.Selects sel.ParentID with
    | none => exact M.neverOk_panic
    | some psel =>
      simp only []
      exact M.neverOk_bind_right _ (fun _ => M.neverOk_bind_right _ (fun _ =>
        M.neverOk_bind_right _ (fun _ => M.neverOk_bind_right _ (fun _ =>
        M.neverOk_bind_right _ (fun _ => M.neverOk_bind_right _ (fun _ =>
        M.neverOk_bind_right _ (fun _ => M.neverOk_bind_right _ (fun _ =>
        M.neverOk_bind_right _ (fun _ => M.neverOk_bind_right _ (fun _ =>
        M.neverOk_bind_right _ (fun _ => M.neverOk_bind_right _ (fun _ =>
        M.neverOk_bind_right _ (fun _ => hw)))))))))))))
  · refine M.neverOk_bind_right _ (fun _ => M.neverOk_bind_right _ (fun _ => ?_))
    unfold renderSelect
    refine M.neverOk_bind_right _ (fun _ => M.neverOk_bind_right _ (fun _ =>
      M.neverOk_bind_right _ (fun _ => M.neverOk_bind_right _ (fun _ =>
      M.neverOk_bind_right _ (fun _ => M.neverOk_bind_right _ (fun _ =>
      M.neverOk_bind_right _ (fun _ => M.neverOk_bind_left _ ?_)))))))
    unfold renderBaseSelect
    refine M.neverOk_bind_right _ (fun _ => M.neverOk_bind_right _ (fun _ =>
      M.neverOk_bind_right _ (fun _ => M.neverOk_bind_right _ (fun _ =>
      M.neverOk_bind_right _ (fun _ => M.neverOk_bind_right _ (fun _ =>
      M.neverOk_bind_left _ ?_))))))
    have hcond2 : (sel.Rel.Typ != RelType.RelRecursive) = true := by simp [hrec]
    rw [if_pos hcond2]
    exact hw

theorem renderQuery_head_malformed (c : compilerContext) (ef : Nat) (multi : Bool)
    (id : Int) (sel : Select) (ex : Exp)
    (hid : id < closeBlock) (hsel : selectAt c.qc.Selects id = some sel)
    (hty : sel.Typ ≠ SelType.SelTypeUnion)
    (hex : sel.Where.Exp = some ex) (hmal : Malformed ex) (fuel : Nat) (st : IntStack) :
    M.neverOk (renderQuery c ef multi fuel (id :: st)) := by
  cases fuel with
  | zero => exact M.neverOk_outOfFuel
  | succ n =>
    simp only [renderQuery, hid, if_true, hsel]
    exact M.neverOk_bind_left _ (renderOpen_malformed c ef multi sel ex hty hex hmal)

theorem renderQuery_mem_malformed (c : compilerContext) (ef : Nat) (multi : Bool)
    (id : Int) (sel : Select) (ex : Exp)
    (hid : id < closeBlock) (hsel : selectAt c.qc.Selects id = some sel)
    (hty : sel.Typ ≠ SelType.SelTypeUnion)
    (hex : sel.Where.Exp = some ex) (hmal : Malformed ex) (fuel : Nat) (st : IntStack)
    (hmem : id ∈ st) :
    M.neverOk (renderQuery c ef multi fuel st) := by
  obtain ⟨a, b, rfl⟩ := List.append_of_mem hmem
  exact M.neverOk_of_le (renderQuery_append c ef multi fuel a (id :: b))
    (M.neverOk_bind_right _ (fun _ =>
      renderQuery_head_malformed c ef multi id sel ex hid hsel hty hex hmal fuel b))

theorem Compile_malformed (h : Helpers) (co : Compiler) (fuel : Nat) (w : String)
    (qc : QCode) (id : Int) (sel : Select) (ex : Exp)
    (hqt : qc.Typ = QType.QTQuery ∨ qc.Typ = QType.QTSubscription)
    (hroots : ∀ rid ∈ qc.Roots, (selectAt qc.Selects rid).isSome = true)
    (hroot : id ∈ qc.Roots) (hid : id < closeBlock)
    (hsel : selectAt qc.Selects id = some sel) (hself : sel.ID = id)
    (hskip : sel.SkipRender ≠ SkipType.SkipTypeUserNeeded)
    (hty : sel.Typ ≠ SelType.SelTypeUnion)
    (hex : sel.Where.Exp = some ex) (hmal : Malformed ex) :
    ¬ ∃ r, Compile h co fuel w (some qc) = Res.ok r := by
  rintro ⟨r, hr⟩
  have hc : Compile h co fuel w (some qc) = runOn w (CompileQuery ⟨h, qc, co⟩ fuel) := by
    rcases hqt with ht | ht <;> simp [Compile, ht]
  rw [hc] at hr
  unfold runOn at hr
  rw [CompileQuery_run ⟨h, qc, co⟩ fuel {} hroots, scheduleRoots_eq] at hr
  have hmem : id ∈ ((List.filter (fun s => s.SkipRender ≠ SkipType.SkipTypeUserNeeded)
      (rootSelects qc)).reverse.map block).flatten ++ [] := by
    apply List.mem_append_left
    rw [List.mem_flatten]
    refine ⟨block sel, ?_, ?_⟩
    · apply List.mem_map_of_mem
      rw [List.mem_reverse, List.mem_filter]
      refine ⟨?_, by simp [hskip]⟩
      unfold rootSelects
      rw [List.mem_filterMap]
      exact ⟨id, hroot, hsel⟩
    · rw [← hself]
      exact List.mem_cons_self _ _
  have hnever := renderQuery_mem_malformed ⟨h, qc, co⟩ fuel true id sel ex hid hsel hty hex
    hmal fuel _ hmem
  cases hq : renderQuery ⟨h, qc, co⟩ fuel true fuel
      (((List.filter (fun s => s.SkipRender ≠ SkipType.SkipTypeUserNeeded)
        (rootSelects qc)).reverse.map block).flatten ++ []) (rootMd qc {}) with
  | ok r2 => exact hnever _ r2 hq
  | panic =>
    simp only [compilerContext.qc] at hq hr
    rw [hq] at hr
    cases hr
  | outOfFuel =>
    simp only [compilerContext.qc] at hq hr
    rw [hq] at hr
    cases hr

theorem malformed_expNotEmpty : Malformed expNotEmpty :=
  Malformed.notEmpty expNotEmpty rfl rfl

/-- Claim C8, counterexample: for the query of scenario S1 with the WHERE tree
`NOT []` the compiler returns no error value: on Postgres, with the writer
helpers of the specification, the run panics, and whatever the writer helpers,
the dialect and the fuel, `Compile` does not return. -/
theorem C8_counterexample_not_empty :
    Compile (specHelpers "postgres") pgCompiler 5 "" (some qcNotEmpty) = Res.panic ∧
    ¬ ∃ h co fuel r, Compile h co fuel "" (some qcNotEmpty) = Res.ok r := by
  refine ⟨by decide!, ?_⟩
  rintro ⟨h, co, fuel, r, hr⟩
  exact Compile_malformed h co fuel "" qcNotEmpty 0
    { usersSel with Where := { Exp := some expNotEmpty } } expNotEmpty
    (Or.inl rfl) (by decide!) (by decide!) (by decide) rfl rfl (by decide) (by decide) rfl
    malformed_expNotEmpty ⟨r, hr⟩

/-! ## The close sequence mirrors the open sequence (C3) -/

theorem balance_append (a b : String) : balance (a ++ b) = balance a + balance b := by
  unfold balance
  rw [String.data_append, List.count_append, List.count_append]
  push_cast
  ring

theorem balance_empty : balance "" = 0 := rfl

theorem leavesOpen_pure {α : Type} (a : α) : M.leavesOpen (pure a : M α) 0 := by
  intro md r h
  rw [run_pure] at h
  injection h with h
  rw [← h]
  rfl

theorem leavesOpen_write (s : String) : M.leavesOpen (write s) (balance s) := by
  intro md r h
  rw [run_write] at h
  injection h with h
  rw [← h]

theorem leavesOpen_write_of {s : String} {k : Int} (hs : balance s = k) :
    M.leavesOpen (write s) k :=
  hs ▸ leavesOpen_write s

theorem leavesOpen_emit (e : Emit) (k : Int) (he : ∀ md, balance (e md).2 = k) :
    M.leavesOpen (emit e) k := by
  intro md r h
  rw [run_emit] at h
  injection h with h
  rw [← h]
  exact he md

theorem leavesOpen_bind {α β : Type} {x : M α} {f : α → M β} {k1 k2 : Int}
    (hx : M.leavesOpen x k1) (hf : ∀ a, M.leavesOpen (f a) k2) :
    M.leavesOpen (x >>= f) (k1 + k2) := by
  intro md r h
  rw [run_bind] at h
  cases hxm : x md with
  | ok r1 =>
    rw [hxm] at h
    simp only [] at h
    cases hfm : f r1.val r1.md with
    | ok r2 =>
      rw [hfm] at h
      simp only [Res.shift] at h
      injection h with h
      rw [← h]
      show balance (r1.text ++ r2.text) = k1 + k2
      rw [balance_append, hx md r1 hxm, hf r1.val r1.md r2 hfm]
    | panic => rw [hfm] at h; cases h
    | outOfFuel => rw [hfm] at h; cases h
  | panic => rw [hxm] at h; cases h
  | outOfFuel => rw [hxm] at h; cases h

theorem leavesOpen_bind_of {α β : Type} {x : M α} {f : α → M β} {p q k : Int}
    (hx : M.leavesOpen x p) (hf : ∀ a, M.leavesOpen (f a) q) (hk : p + q = k) :
    M.leavesOpen (x >>= f) k :=
  hk ▸ leavesOpen_bind hx hf

theorem leavesOpen_forRangeFrom {α : Type} (body : Nat → α → M Unit) (xs : List α) :
    ∀ (i : Nat), (∀ (j : Nat) (hj : j < xs.length), M.leavesOpen (body (i + j) (xs.get ⟨j, hj⟩)) 0) →
      M.leavesOpen (forRangeFrom body i xs) 0 := by
  induction xs with
  | nil =>
    intro i _
    exact leavesOpen_pure ()
  | cons x rest ih =>
    intro i hbody
    simp only [forRangeFrom]
    refine leavesOpen_bind_of (hbody 0 (Nat.zero_lt_succ _)) (fun _ => ih (i + 1) ?_) (by simp)
    intro j hj
    have := hbody (j + 1) (Nat.succ_lt_succ hj)
    rw [show i + (j + 1) = i + 1 + j by omega] at this
    exact this

theorem leavesOpen_forRange {α : Type} (xs : List α) (body : Nat → α → M Unit)
    (hbody : ∀ (j : Nat) (hj : j < xs.length), M.leavesOpen (body j (xs.get ⟨j, hj⟩)) 0) :
    M.leavesOpen (forRange xs body) 0 := by
  unfold forRange
  refine leavesOpen_forRangeFrom body xs 0 (fun j hj => ?_)
  rw [Nat.zero_add]
  exact hbody j hj

theorem leavesOpen_ite {α : Type} {p : Prop} [Decidable p] {x y : M α} {k : Int}
    (hx : p → M.leavesOpen x k) (hy : ¬ p → M.leavesOpen y k) :
    M.leavesOpen (if p then x else y) k := by
  by_cases hp : p
  · rw [if_pos hp]; exact hx hp
  · rw [if_neg hp]; exact hy hp

theorem renderPluralSelect_open (c : compilerContext) (sel : Select)
    (hID : balance (c.h.int32String sel.ID) = 0)
    (hIdx : ∀ i : Nat, i < sel.OrderBy.length → balance (c.h.int32String i) = 0) :
    M.leavesOpen (renderPluralSelect c sel) (if sel.Singular then 0 else 1) := by
  unfold renderPluralSelect
  by_cases hs : sel.Singular = true
  · simp only [hs, if_true]
    exact leavesOpen_pure ()
  · simp only [hs, if_false, Bool.false_eq_true]
    refine leavesOpen_bind_of (p := 0) (q := 1) ?_ (fun _ =>
      leavesOpen_bind_of (p := 0) (q := 1) ?_
        (fun _ => leavesOpen_write_of (by decide!)) (by decide)) (by decide)
    · refine leavesOpen_ite (fun _ => ?_) (fun _ => ?_)
      · exact leavesOpen_bind_of (leavesOpen_write_of (k := 3) (by decide!)) (fun _ =>
          leavesOpen_bind_of (leavesOpen_write_of hID) (fun _ =>
            leavesOpen_write_of (k := -3) (by decide!)) rfl) (by decide)
      · exact leavesOpen_bind_of (leavesOpen_write_of (k := 2) (by decide!)) (fun _ =>
          leavesOpen_bind_of (leavesOpen_write_of hID) (fun _ =>
            leavesOpen_write_of (k := -2) (by decide!)) rfl) (by decide)
    · refine leavesOpen_ite (fun _ => ?_) (fun _ => leavesOpen_pure ())
      refine leavesOpen_bind_of (leavesOpen_write_of (k := 1) (by decide!)) (fun _ =>
        leavesOpen_bind_of (p := 0) ?_ (fun _ =>
          leavesOpen_write_of (k := -1) (by decide!)) rfl) (by decide)
      refine leavesOpen_forRange _ _ (fun j hj => ?_)
      exact leavesOpen_bind_of (leavesOpen_write_of (k := 1) (by decide!)) (fun _ =>
        leavesOpen_bind_of (leavesOpen_write_of (hIdx j hj)) (fun _ =>
          leavesOpen_write_of (k := -1) (by decide!)) rfl) (by decide)

theorem renderSelect_open (c : compilerContext) (fuel : Nat) (sel : Select)
    (hID : balance (c.h.int32String sel.ID) = 0)
    (hIdx : ∀ i : Nat, i < sel.OrderBy.length → balance (c.h.int32String i) = 0)
    (hCols : ∀ md, balance (c.h.renderColumns c.qc.Selects sel md).2 = 0)
    (hFields : ∀ md, balance (c.h.renderJSONFields c.qc.Selects sel md).2 = 0)
    (hObCol : ∀ (j : Nat) (hj : j < sel.OrderBy.length),
      balance (c.h.colWithTableID sel.Table sel.ID (sel.OrderBy.get ⟨j, hj⟩).Col.Name) = 0)
    (hAlias : balance (c.h.aliasWithID sel.Table sel.ID) = 0)
    (hBase : M.leavesOpen (renderBaseSelect c fuel sel) 0) :
    M.leavesOpen (renderSelect c fuel sel) 1 := by
  unfold renderSelect
  refine leavesOpen_bind_of (p := 0) (q := 1) ?_ (fun _ =>
    leavesOpen_bind_of (leavesOpen_write_of (k := 0) (by decide!)) (fun _ =>
    leavesOpen_bind_of (p := 0) (q := 1) ?_ (fun _ =>
    leavesOpen_bind_of (leavesOpen_write_of (k := 1) (by decide!)) (fun _ =>
    leavesOpen_bind_of (leavesOpen_emit _ 0 hCols) (fun _ =>
    leavesOpen_bind_of (p := 0) (q := 0) ?_ (fun _ =>
    leavesOpen_bind_of (leavesOpen_write_of (k := 1) (by decide!)) (fun _ =>
    leavesOpen_bind_of hBase (fun _ =>
    leavesOpen_bind_of (leavesOpen_write_of (k := -1) (by decide!)) (fun _ =>
      leavesOpen_write_of hAlias)
    (show (-1 : Int) + 0 = -1 from rfl))
    (show (0 : Int) + -1 = -1 from rfl))
    (show (1 : Int) + -1 = 0 from rfl))
    (show (0 : Int) + 0 = 0 from rfl))
    (show (0 : Int) + 0 = 0 from rfl))
    (show (1 : Int) + 0 = 1 from rfl))
    (show (0 : Int) + 1 = 1 from rfl))
    (show (0 : Int) + 1 = 1 from rfl))
    (show (0 : Int) + 1 = 1 from rfl)
  · refine leavesOpen_ite (fun _ => ?_) (fun _ => ?_)
    · exact leavesOpen_bind_of (leavesOpen_write_of (k := 1) (by decide!)) (fun _ =>
        leavesOpen_bind_of (leavesOpen_emit _ 0 hFields) (fun _ =>
          leavesOpen_write_of (k := -1) (by decide!)) rfl) (by decide)
    · refine leavesOpen_bind_of (leavesOpen_write_of (k := 1) (by decide!)) (fun _ =>
        leavesOpen_bind_of (leavesOpen_write_of hID) (fun _ =>
          leavesOpen_bind_of (leavesOpen_write_of (k := -1) (by decide!)) (fun _ => ?_)
            (show (-1 : Int) + 0 = -1 from rfl))
          (show (0 : Int) + -1 = -1 from rfl)) (by decide)
      refine leavesOpen_ite (fun _ => ?_) (fun _ => leavesOpen_pure ())
      refine leavesOpen_forRange _ _ (fun j hj => ?_)
      exact leavesOpen_bind_of (leavesOpen_write_of (k := 0) (by decide!)) (fun _ =>
        leavesOpen_bind_of (leavesOpen_write_of (hIdx j hj)) (fun _ =>
          leavesOpen_write_of (k := 0) (by decide!)) rfl) (by decide)
  · refine leavesOpen_ite (fun _ => ?_) (fun _ => leavesOpen_pure ())
    refine leavesOpen_forRange _ _ (fun j hj => ?_)
    exact leavesOpen_bind_of (leavesOpen_write_of (k := 0) (by decide!)) (fun _ =>
      leavesOpen_bind_of (leavesOpen_write_of (hIdx j hj)) (fun _ =>
        leavesOpen_write_of (k := 0) (by decide!)) rfl) (by decide)
  · refine leavesOpen_ite (fun _ => ?_) (fun _ => leavesOpen_pure ())
    refine leavesOpen_forRange _ _ (fun j hj => ?_)
    exact leavesOpen_bind_of (leavesOpen_write_of (k := 1) (by decide!)) (fun _ =>
      leavesOpen_bind_of (leavesOpen_write_of (hObCol j hj)) (fun _ =>
        leavesOpen_bind_of (leavesOpen_write_of (k := -1) (by decide!)) (fun _ =>
          leavesOpen_write_of (hIdx j hj)) (show (-1 : Int) + 0 = -1 from rfl))
        (show (0 : Int) + -1 = -1 from rfl)) (by decide)

theorem renderRecursiveCTE_open (c : compilerContext) (fuel : Nat) (sel : Select)
    (hQuoted : balance (c.h.quoted ("_rcte_" ++ sel.Rel.Right.Ti.Name)) = 0)
    (hRecBase : M.leavesOpen (renderRecursiveBaseSelect c fuel sel) 0) :
    M.leavesOpen (renderRecursiveCTE c fuel sel) 0 := by
  unfold renderRecursiveCTE
  exact leavesOpen_bind_of (leavesOpen_write_of (k := 0) (by decide!)) (fun _ =>
    leavesOpen_bind_of (leavesOpen_write_of hQuoted) (fun _ =>
    leavesOpen_bind_of (leavesOpen_write_of (k := 1) (by decide!)) (fun _ =>
    leavesOpen_bind_of hRecBase (fun _ =>
      leavesOpen_write_of (k := -1) (by decide!))
    (show (0 : Int) + -1 = -1 from rfl))
    (show (1 : Int) + -1 = 0 from rfl))
    (show (0 : Int) + 0 = 0 from rfl))
    (show (0 : Int) + 0 = 0 from rfl)

theorem renderClose_run (c : compilerContext) (multi : Bool) (sel : Select)
    (hty : sel.Typ ≠ SelType.SelTypeUnion) (md : Metadata) :
    renderClose c multi sel md = Res.ok ⟨(), md, closeText c.h sel multi⟩ := by
  unfold renderClose renderSelectClose renderLateralJoinClose closeText lateralOpened
  have hcond : (sel.Typ != SelType.SelTypeUnion) = true := by simp [hty]
  rw [if_pos hcond]
  by_cases hs : sel.Singular = true <;>
    by_cases hl : (sel.Rel.Typ != RelType.RelNone || multi) = true <;>
    simp only [hs, hl, if_true, if_false, Bool.not_true, Bool.not_false, Bool.false_eq_true,
      run_write_bind, run_write, run_pure, run_pure_bind, run_bind, Res.shift,
      String.append_assoc, String.append_empty]

theorem balance_closeText (h : Helpers) (sel : Select) (multi : Bool)
    (hSr : balance (h.aliasWithID "__sr" sel.ID) = 0)
    (hSj : balance (h.aliasWithID "__sj" sel.ID) = 0) :
    balance (closeText h sel multi) = - openDepth sel multi := by
  have hp : balance ")" = -1 := by decide!
  have ho : balance " ON true" = 0 := by decide!
  unfold closeText openDepth
  by_cases hs : sel.Singular = true <;> by_cases hl : lateralOpened sel multi = true <;>
    simp only [hs, hl, if_true, if_false, Bool.false_eq_true, balance_append, hSr, hSj, hp, ho,
      balance_empty] <;> rfl

theorem renderOpen_open (c : compilerContext) (fuel : Nat) (multi : Bool) (sel : Select)
    (hty : sel.Typ ≠ SelType.SelTypeUnion)
    (hPlural : M.leavesOpen (renderPluralSelect c sel) (if sel.Singular then 0 else 1))
    (hSelect : M.leavesOpen (renderSelect c fuel sel) 1)
    (hRec : sel.Rel.Typ = RelType.RelRecursive →
      M.leavesOpen (renderRecursiveCTE c fuel sel) 0) :
    M.leavesOpen (renderOpen c fuel multi sel) (openDepth sel multi) := by
  unfold renderOpen openDepth lateralOpened
  have hcond : (sel.Typ != SelType.SelTypeUnion) = true := by simp [hty]
  rw [if_pos hcond]
  have hlat : M.leavesOpen
      (if (sel.Rel.Typ != RelType.RelNone || multi) = true then renderLateralJoin else pure ())
      (if (sel.Rel.Typ != RelType.RelNone || multi) = true then 1 else 0) := by
    by_cases hl : (sel.Rel.Typ != RelType.RelNone || multi) = true
    · rw [if_pos hl, if_pos hl]
      exact leavesOpen_write_of (by decide!)
    · rw [if_neg hl, if_neg hl]
      exact leavesOpen_pure ()
  have hcte : M.leavesOpen
      (if sel.Rel.Typ = RelType.RelRecursive then renderRecursiveCTE c fuel sel else pure ())
      0 :=
    leavesOpen_ite hRec (fun _ => leavesOpen_pure ())
  refine leavesOpen_bind_of hlat (fun _ => leavesOpen_bind hcte (fun _ =>
    leavesOpen_bind hPlural (fun _ => hSelect))) ?_
  by_cases hs : sel.Singular = true <;>
    by_cases hl : (sel.Rel.Typ != RelType.RelNone || multi) = true <;>
    simp only [hs, hl, if_true, if_false, Bool.false_eq_true] <;> rfl

theorem returns_pure {α : Type} (a : α) : M.returns (pure a : M α) :=
  fun md => ⟨_, run_pure a md⟩

theorem returns_write (s : String) : M.returns (write s) :=
  fun md => ⟨_, run_write s md⟩

theorem returns_emit (e : Emit) : M.returns (emit e) :=
  fun md => ⟨_, run_emit e md⟩

theorem returns_bind {α β : Type} {x : M α} {f : α → M β}
    (hx : M.returns x) (hf : ∀ a, M.returns (f a)) : M.returns (x >>= f) := by
  intro md
  obtain ⟨r1, h1⟩ := hx md
  obtain ⟨r2, h2⟩ := hf r1.val r1.md
  refine ⟨⟨r2.val, r2.md, r1.text ++ r2.text⟩, ?_⟩
  rw [run_bind, h1]
  simp only [h2, Res.shift]

theorem returns_ite {α : Type} {p : Prop} [Decidable p] {x y : M α}
    (hx : p → M.returns x) (hy : ¬ p → M.returns y) : M.returns (if p then x else y) := by
  by_cases hp : p
  · rw [if_pos hp]; exact hx hp
  · rw [if_neg hp]; exact hy hp

theorem returns_forRangeFrom {α : Type} (body : Nat → α → M Unit)
    (hbody : ∀ i x, M.returns (body i x)) (xs : List α) :
    ∀ (i : Nat), M.returns (forRangeFrom body i xs) := by
  induction xs with
  | nil =>
    intro i
    exact returns_pure ()
  | cons x rest ih =>
    intro i
    simp only [forRangeFrom]
    exact returns_bind (hbody i x) (fun _ => ih (i + 1))

theorem returns_forRange {α : Type} (xs : List α) (body : Nat → α → M Unit)
    (hbody : ∀ i x, M.returns (body i x)) : M.returns (forRange xs body) :=
  returns_forRangeFrom body hbody xs 0

theorem renderPluralSelect_returns (c : compilerContext) (sel : Select) :
    M.returns (renderPluralSelect c sel) := by
  unfold renderPluralSelect
  refine returns_ite (fun _ => returns_pure ()) (fun _ => ?_)
  refine returns_bind ?_ (fun _ => returns_bind ?_ (fun _ => returns_write _))
  · exact returns_ite
      (fun _ => returns_bind (returns_write _) (fun _ =>
        returns_bind (returns_write _) (fun _ => returns_write _)))
      (fun _ => returns_bind (returns_write _) (fun _ =>
        returns_bind (returns_write _) (fun _ => returns_write _)))
  · refine returns_ite (fun _ => ?_) (fun _ => returns_pure ())
    exact returns_bind (returns_write _) (fun _ =>
      returns_bind (returns_forRange _ _ (fun _ _ =>
        returns_bind (returns_write _) (fun _ =>
          returns_bind (returns_write _) (fun _ => returns_write _))))
        (fun _ => returns_write _))

theorem renderSelect_returns (c : compilerContext) (fuel : Nat) (sel : Select)
    (hBase : M.returns (renderBaseSelect c fuel sel)) :
    M.returns (renderSelect c fuel sel) := by
  unfold renderSelect
  refine returns_bind ?_ (fun _ => returns_bind (returns_write _) (fun _ =>
    returns_bind ?_ (fun _ => returns_bind (returns_write _) (fun _ =>
    returns_bind (returns_emit _) (fun _ => returns_bind ?_ (fun _ =>
    returns_bind (returns_write _) (fun _ => returns_bind hBase (fun _ =>
    returns_bind (returns_write _) (fun _ => returns_write _)))))))))
  · refine returns_ite (fun _ => ?_) (fun _ => ?_)
    · exact returns_bind (returns_write _) (fun _ =>
        returns_bind (returns_emit _) (fun _ => returns_write _))
    · refine returns_bind (returns_write _) (fun _ =>
        returns_bind (returns_write _) (fun _ => returns_bind (returns_write _) (fun _ => ?_)))
      exact returns_ite (fun _ => returns_forRange _ _ (fun _ _ =>
        returns_bind (returns_write _) (fun _ =>
          returns_bind (returns_write _) (fun _ => returns_write _))))
        (fun _ => returns_pure ())
  · exact returns_ite (fun _ => returns_forRange _ _ (fun _ _ =>
      returns_bind (returns_write _) (fun _ =>
        returns_bind (returns_write _) (fun _ => returns_write _))))
      (fun _ => returns_pure ())
  · exact returns_ite (fun _ => returns_forRange _ _ (fun _ _ =>
      returns_bind (returns_write _) (fun _ =>
        returns_bind (returns_write _) (fun _ =>
          returns_bind (returns_write _) (fun _ => returns_write _)))))
      (fun _ => returns_pure ())

theorem renderOpen_returns (c : compilerContext) (fuel : Nat) (multi : Bool) (sel : Select)
    (hBase : M.returns (renderBaseSelect c fuel sel))
    (hRecBase : sel.Rel.Typ = RelType.RelRecursive →
      M.returns (renderRecursiveBaseSelect c fuel sel)) :
    M.returns (renderOpen c fuel multi sel) := by
  unfold renderOpen
  refine returns_ite (fun _ => ?_) (fun _ => returns_pure ())
  refine returns_bind ?_ (fun _ => returns_bind ?_ (fun _ =>
    returns_bind (renderPluralSelect_returns c sel) (fun _ =>
      renderSelect_returns c fuel sel hBase)))
  · exact returns_ite (fun _ => returns_write _) (fun _ => returns_pure ())
  · refine returns_ite (fun hrec => ?_) (fun _ => returns_pure ())
    unfold renderRecursiveCTE
    exact returns_bind (returns_write _) (fun _ => returns_bind (returns_write _) (fun _ =>
      returns_bind (returns_write _) (fun _ =>
        returns_bind (hRecBase hrec) (fun _ => returns_write _))))

/-- Claim C3: the close sequence mirrors the open sequence.  For a selection that
is not a Union, when the texts of the id, cursor-index, column and alias helpers
and of the base SELECT (and, for a recursive relation, of the CTE name and the
recursive base SELECT) are parenthesis-balanced, every open sequence that
returns leaves open exactly 1 + [not singular] + [lateral opened] parentheses;
the close sequence emits `)` and the `__sr` alias, then `)` and the `__sj` alias iff
the selection is not singular, then `)`, the `__sj` alias and ` ON true` iff the
lateral join was opened, and closes exactly that many; one and the same condition
(`rel != None or multi`) decides the lateral open and the lateral close.  The open
sequence returns whenever the base SELECT (and, for a recursive relation, the
recursive base SELECT) does. -/
theorem C3_close_mirrors_open (c : compilerContext) (fuel : Nat) (multi : Bool)
    (sel : Select)
    (hty : sel.Typ ≠ SelType.SelTypeUnion)
    (hID : balance (c.h.int32String sel.ID) = 0)
    (hIdx : ∀ i : Nat, i < sel.OrderBy.length → balance (c.h.int32String i) = 0)
    (hCols : ∀ md, balance (c.h.renderColumns c.qc.Selects sel md).2 = 0)
    (hFields : ∀ md, balance (c.h.renderJSONFields c.qc.Selects sel md).2 = 0)
    (hObCol : ∀ (j : Nat) (hj : j < sel.OrderBy.length),
      balance (c.h.colWithTableID sel.Table sel.ID (sel.OrderBy.get ⟨j, hj⟩).Col.Name) = 0)
    (hAlias : balance (c.h.aliasWithID sel.Table sel.ID) = 0)
    (hSr : balance (c.h.aliasWithID "__sr" sel.ID) = 0)
    (hSj : balance (c.h.aliasWithID "__sj" sel.ID) = 0)
    (hBase : M.leavesOpen (renderBaseSelect c fuel sel) 0)
    (hQuoted : sel.Rel.Typ = RelType.RelRecursive →
      balance (c.h.quoted ("_rcte_" ++ sel.Rel.Right.Ti.Name)) = 0)
    (hRecBase : sel.Rel.Typ = RelType.RelRecursive →
      M.leavesOpen (renderRecursiveBaseSelect c fuel sel) 0) :
    M.leavesOpen (renderOpen c fuel multi sel) (openDepth sel multi) ∧
    (∀ md, renderClose c multi sel md = Res.ok ⟨(), md, closeText c.h sel multi⟩) ∧
    balance (closeText c.h sel multi) = - openDepth sel multi ∧
    (M.returns (renderBaseSelect c fuel sel) →
      (sel.Rel.Typ = RelType.RelRecursive →
        M.returns (renderRecursiveBaseSelect c fuel sel)) →
      M.returns (renderOpen c fuel multi sel)) :=
  ⟨renderOpen_open c fuel multi sel hty (renderPluralSelect_open c sel hID hIdx)
      (renderSelect_open c fuel sel hID hIdx hCols hFields hObCol hAlias hBase)
      (fun hrec => renderRecursiveCTE_open c fuel sel (hQuoted hrec) (hRecBase hrec)),
    fun md => renderClose_run c multi sel hty md,
    balance_closeText c.h sel multi hSr hSj,
    fun hb hr => renderOpen_returns c fuel multi sel hb hr⟩

theorem renderBaseSelect_S1 (md : Metadata) :
    renderBaseSelect cS1 2 usersSel md =
      Res.ok ⟨(), md, "SELECT \"users\".\"id\", \"users\".\"name\" FROM \"users\" LIMIT 20"⟩ :=
  rfl

theorem renderBaseSelect_S1_balanced : M.leavesOpen (renderBaseSelect cS1 2 usersSel) 0 := by
  intro md r h
  rw [renderBaseSelect_S1 md] at h
  injection h with h
  rw [← h]
  exact (by decide! :
    balance "SELECT \"users\".\"id\", \"users\".\"name\" FROM \"users\" LIMIT 20" = 0)

/-- Claim C3, witness: the root of scenario S1 (plural, opened with a lateral
join): its open sequence leaves three parentheses open and its close sequence
` ) "__sr_0") "__sj_0") "__sj_0" ON true` closes three. -/
theorem C3_close_mirrors_open_witness :
    (openDepth usersSel true = 3 ∧
      closeText cS1.h usersSel true = ") \"__sr_0\") \"__sj_0\") \"__sj_0\" ON true" ∧
      renderOpen cS1 2 true usersSel {} = Res.ok ⟨(), {},
        " LEFT OUTER JOIN LATERAL (SELECT COALESCE(jsonb_agg(__sj_0.json), '[]') AS json FROM (SELECT to_jsonb(__sr_0.*) AS json FROM (SELECT \"users_0\".\"id\", \"users_0\".\"name\" FROM (SELECT \"users\".\"id\", \"users\".\"name\" FROM \"users\" LIMIT 20) \"users_0\""⟩) ∧
    (M.leavesOpen (renderOpen cS1 2 true usersSel) (openDepth usersSel true) ∧
    (∀ md, renderClose cS1 true usersSel md =
      Res.ok ⟨(), md, closeText cS1.h usersSel true⟩) ∧
    balance (closeText cS1.h usersSel true) = - openDepth usersSel true ∧
    (M.returns (renderBaseSelect cS1 2 usersSel) →
      (usersSel.Rel.Typ = RelType.RelRecursive →
        M.returns (renderRecursiveBaseSelect cS1 2 usersSel)) →
      M.returns (renderOpen cS1 2 true usersSel))) :=
  ⟨⟨by decide!, by decide!, by decide!⟩,
    C3_close_mirrors_open cS1 2 true usersSel (by decide) (by decide!)
      (fun i hi => absurd hi (Nat.not_lt_zero i))
      (fun _ => (by decide! :
        balance (", ".intercalate (usersSel.BCols.map
          (fun col => specColWithTableID usersSel.Table usersSel.ID col.Col.Name))) = 0))
      (fun _ => (by decide! :
        balance (", ".intercalate (usersSel.BCols.map (fun col =>
          "'" ++ col.Col.Name ++ "', "
            ++ specColWithTableID usersSel.Table usersSel.ID col.Col.Name))) = 0))
      (fun j hj => absurd hj (Nat.not_lt_zero j))
      (by decide!) (by decide!) (by decide!) renderBaseSelect_S1_balanced
      (fun hrec => absurd hrec (by decide)) (fun hrec => absurd hrec (by decide))⟩

/-! ## Variable values (C11, C20) -/

theorem write_write_bind {β : Type} (a b : String) (f : Unit → M β) :
    (write a >>= fun _ => write b >>= f) = (write (a ++ b) >>= f) := by
  funext md
  simp only [run_write_bind, shift_shift]

theorem write_write (a b : String) :
    (write a >>= fun _ => write b) = write (a ++ b) := by
  funext md
  simp only [run_write_bind, run_write, Res.shift]

theorem write_empty_bind {β : Type} (f : Unit → M β) : (write "" >>= f) = f () := by
  funext md
  rw [run_write_bind, shift_empty]

theorem renderValPrefix_mysql_in (c : compilerContext) (ti : TInfo) (ex : Exp) (md : Metadata)
    (hct : c.ct = "mysql") (hty : ex.Typ = ValType.ValVar)
    (hop : ex.Op = ExpOp.OpIn ∨ ex.Op = ExpOp.OpNotIn) :
    renderValPrefix c ti ex md = Res.ok ⟨true,
      (c.h.renderParam { Name := ex.Val, Typ := ex.Col.Typ, IsArray := true } md).1,
      "JSON_CONTAINS("
        ++ (c.h.renderParam { Name := ex.Val, Typ := ex.Col.Typ, IsArray := true } md).2
        ++ ", CAST(" ++ c.h.colWithTable ti.Name ex.Col.Name ++ " AS JSON), '$')"⟩ := by
  unfold renderValPrefix renderValVarPrefix
  rw [if_pos hty, if_pos hop, if_pos hct]
  simp only [run_write_bind, run_emit_bind, run_pure, Res.shift, String.append_assoc,
    String.append_empty]

theorem renderOp_mysql_in (c : compilerContext) (schema : DBSchema) (ti : TInfo) (ex : Exp)
    (md : Metadata) (hct : c.ct = "mysql") (hty : ex.Typ = ValType.ValVar)
    (hop : ex.Op = ExpOp.OpIn ∨ ex.Op = ExpOp.OpNotIn) :
    renderOp c schema ti ex md = Res.ok ⟨(),
      (c.h.renderParam { Name := ex.Val, Typ := ex.Col.Typ, IsArray := true } md).1,
      "JSON_CONTAINS("
        ++ (c.h.renderParam { Name := ex.Val, Typ := ex.Col.Typ, IsArray := true } md).2
        ++ ", CAST(" ++ c.h.colWithTable ti.Name ex.Col.Name ++ " AS JSON), '$')"⟩ := by
  have hnop : ex.Op ≠ ExpOp.OpNop := by
    rcases hop with h | h <;> simp [h]
  unfold renderOp
  rw [if_neg hnop, run_bind, renderValPrefix_mysql_in c ti ex md hct hty hop]
  simp only [if_true, run_pure, Res.shift, String.append_empty]

theorem renderOp_mysql_in_notin (c : compilerContext) (schema : DBSchema) (ti : TInfo)
    (n : ExpNode) (cs : List Exp) (hct : c.ct = "mysql") (hty : n.Typ = ValType.ValVar) :
    renderOp c schema ti (Exp.node { n with Op := ExpOp.OpIn } cs) =
      renderOp c schema ti (Exp.node { n with Op := ExpOp.OpNotIn } cs) := by
  funext md
  rw [renderOp_mysql_in c schema ti (Exp.node { n with Op := ExpOp.OpIn } cs) md hct hty
      (Or.inl rfl),
    renderOp_mysql_in c schema ti (Exp.node { n with Op := ExpOp.OpNotIn } cs) md hct hty
      (Or.inr rfl)]
  rfl

theorem renderExpLoop_mysql_in_notin (c : compilerContext) (schema : DBSchema)
    (n : ExpNode) (cs : List Exp) (hct : c.ct = "mysql") (hty : n.Typ = ValType.ValVar)
    (fuel : Nat) : ∀ (ti : TInfo) (sn : Bool) (st : List Frame),
    renderExpLoop c schema fuel ti sn (Frame.exp (Exp.node { n with Op := ExpOp.OpIn } cs) :: st) =
      renderExpLoop c schema fuel ti sn
        (Frame.exp (Exp.node { n with Op := ExpOp.OpNotIn } cs) :: st) := by
  induction fuel with
  | zero => intro ti sn st; rfl
  | succ f ih =>
    intro ti sn st
    have hrec : ∀ ti2,
        (fun ti2 ex2 => renderExpLoop c schema f ti2 true [Frame.exp ex2]) ti2
            (Exp.node { n with Op := ExpOp.OpIn } cs) =
          (fun ti2 ex2 => renderExpLoop c schema f ti2 true [Frame.exp ex2]) ti2
            (Exp.node { n with Op := ExpOp.OpNotIn } cs) := fun ti2 => ih ti2 true []
    have hnest : ∀ (rec : TInfo → Exp → M Unit),
        (∀ ti2, rec ti2 (Exp.node { n with Op := ExpOp.OpIn } cs) =
          rec ti2 (Exp.node { n with Op := ExpOp.OpNotIn } cs)) →
        renderNestedWhere c rec ti (Exp.node { n with Op := ExpOp.OpIn } cs) =
          renderNestedWhere c rec ti (Exp.node { n with Op := ExpOp.OpNotIn } cs) := by
      intro rec hr
      unfold renderNestedWhere
      simp only [Exp.Rels, Exp.attrs, hr]
    simp only [renderExpLoop, Exp.Op, Exp.attrs, Exp.Rels]
    rw [renderOp_mysql_in_notin c schema ti n cs hct hty]
    have h2 := hnest (fun ti2 ex2 => renderExpLoop c schema f ti2 true [Frame.exp ex2]) hrec
    simp only [Exp.Rels, Exp.attrs] at h2 ⊢
    rw [h2]

/-- Claim C20: on MySQL, for every column and variable, the In leaf and the NotIn
leaf over the column with the Variable value render to the same text,
`JSON_CONTAINS(<param>, CAST(<table>.<col> AS JSON), '$')`, and hand the same
parameter (name the variable, type the column type, is_array true) to the
recorder: `renderOp` returns after the prefix, before the operator is written.
The two leaves also render the same through `renderExp`, whatever the fuel and
`skipNested`. -/
theorem C20_mysql_in_notin_identical (c : compilerContext) (schema : DBSchema) (ti : TInfo)
    (n : ExpNode) (cs : List Exp) (md : Metadata) (fuel : Nat) (sn : Bool)
    (hct : c.ct = "mysql") (hty : n.Typ = ValType.ValVar) :
    renderOp c schema ti (Exp.node { n with Op := ExpOp.OpIn } cs) md = Res.ok ⟨(),
      (c.h.renderParam { Name := n.Val, Typ := n.Col.Typ, IsArray := true } md).1,
      "JSON_CONTAINS("
        ++ (c.h.renderParam { Name := n.Val, Typ := n.Col.Typ, IsArray := true } md).2
        ++ ", CAST(" ++ c.h.colWithTable ti.Name n.Col.Name ++ " AS JSON), '$')"⟩ ∧
    renderOp c schema ti (Exp.node { n with Op := ExpOp.OpNotIn } cs) md =
      renderOp c schema ti (Exp.node { n with Op := ExpOp.OpIn } cs) md ∧
    renderExp c fuel schema ti (Exp.node { n with Op := ExpOp.OpNotIn } cs) sn =
      renderExp c fuel schema ti (Exp.node { n with Op := ExpOp.OpIn } cs) sn :=
  ⟨renderOp_mysql_in c schema ti (Exp.node { n with Op := ExpOp.OpIn } cs) md hct hty
      (Or.inl rfl),
    (congrFun (renderOp_mysql_in_notin c schema ti n cs hct hty) md).symm,
    (renderExpLoop_mysql_in_notin c schema n cs hct hty fuel ti sn []).symm⟩

/-- Claim C20, witness: on MySQL the leaves `id IN $ids` and `id NOT IN $ids` over
`users` both render as `JSON_CONTAINS(?, CAST("users"."id" AS JSON), '$')` and
record the parameter `ids` of type integer as an array. -/
theorem C20_mysql_in_notin_identical_witness :
    (cMy.ct = "mysql" ∧ nodeIds.Typ = ValType.ValVar) ∧
    (renderOp cMy {} usersTable (Exp.node { nodeIds with Op := ExpOp.OpIn } []) {} =
        Res.ok ⟨(), { params := [{ Name := "ids", Typ := "integer", IsArray := true }],
                      pindex := [("ids", 1)] },
          "JSON_CONTAINS(?, CAST(\"users\".\"id\" AS JSON), '$')"⟩ ∧
      renderExp cMy 3 {} usersTable (Exp.node { nodeIds with Op := ExpOp.OpNotIn } []) false {} =
        Res.ok ⟨(), { params := [{ Name := "ids", Typ := "integer", IsArray := true }],
                      pindex := [("ids", 1)] },
          "JSON_CONTAINS(?, CAST(\"users\".\"id\" AS JSON), '$')"⟩) ∧
    (renderOp cMy {} usersTable (Exp.node { nodeIds with Op := ExpOp.OpNotIn } []) {} =
        renderOp cMy {} usersTable (Exp.node { nodeIds with Op := ExpOp.OpIn } []) {} ∧
      renderExp cMy 3 {} usersTable (Exp.node { nodeIds with Op := ExpOp.OpNotIn } []) false =
        renderExp cMy 3 {} usersTable (Exp.node { nodeIds with Op := ExpOp.OpIn } []) false) :=
  ⟨⟨rfl, rfl⟩, ⟨by decide!, by decide!⟩,
    (C20_mysql_in_notin_identical cMy {} usersTable nodeIds [] {} 3 false rfl rfl).2⟩

theorem renderValPrefix_var_false (c : compilerContext) (ti : TInfo) (ex : Exp)
    (hpre : ¬ (c.ct = "mysql" ∧ (ex.Op = ExpOp.OpIn ∨ ex.Op = ExpOp.OpNotIn))) :
    renderValPrefix c ti ex = pure false := by
  unfold renderValPrefix renderValVarPrefix
  by_cases hty : ex.Typ = ValType.ValVar
  · rw [if_pos hty]
    by_cases hop : ex.Op = ExpOp.OpIn ∨ ex.Op = ExpOp.OpNotIn
    · rw [if_pos hop, if_neg (fun hct => hpre ⟨hct, hop⟩)]
    · rw [if_neg hop]
  · rw [if_neg hty]

theorem renderOp_var (c : compilerContext) (schema : DBSchema) (ti : TInfo) (ex : Exp)
    (s : String) (hty : ex.Typ = ValType.ValVar) (hop : opSpelling ex.Op = some s)
    (hpre : ¬ (c.ct = "mysql" ∧ (ex.Op = ExpOp.OpIn ∨ ex.Op = ExpOp.OpNotIn))) :
    renderOp c schema ti ex =
      (write (lhsText c.h ti ex ++ s ++ " ") >>= fun _ =>
        renderValVar c ti ex >>= fun _ => write ")") := by
  have hnop : ex.Op ≠ ExpOp.OpNop := by
    intro h; rw [h] at hop; simp [opSpelling] at hop
  have hnl : ex.Typ ≠ ValType.ValList := by rw [hty]; decide
  have hnr : ¬ (ex.Typ = ValType.ValRef ∧ ex.Op = ExpOp.OpIsNull) := by
    rw [hty]; simp
  unfold renderOp
  rw [if_neg hnop, renderValPrefix_var_false c ti ex hpre]
  have hval : renderVal c ti ex = renderValVar c ti ex := by
    unfold renderVal; rw [hty]
  rw [if_neg hnl, if_neg hnr, hval]
  by_cases hcol : ex.Col.Name = ""
  · cases hop2 : ex.Op <;> rw [hop2] at hop <;> simp [opSpelling] at hop <;>
      subst hop <;>
      simp [renderOpSwitch, lhsText, hop2, hcol, bind_assoc_eq, pure_bind_eq,
        write_write_bind, -String.reduceAppend]
  · cases hop2 : ex.Op <;> rw [hop2] at hop <;> simp [opSpelling] at hop <;>
      subst hop <;>
      simp [renderOpSwitch, lhsText, hop2, hcol, bind_assoc_eq, pure_bind_eq,
        write_write_bind, -String.reduceAppend, String.append_assoc]

theorem renderValVar_static_sql (c : compilerContext) (ti : TInfo) (ex : Exp) (val : String)
    (md : Metadata) (hl : c.svars.lookup ex.Val = some val) (hp : hasPrefix val "sql:" = true) :
    renderValVar c ti ex md = Res.ok ⟨(), (c.h.renderVar (sliceFrom val 4) md).1,
      "(" ++ (c.h.renderVar (sliceFrom val 4) md).2 ++ ")"⟩ := by
  unfold renderValVar
  rw [hl]
  simp only [hp, if_true, run_write_bind, run_emit_bind, run_write, Res.shift,
    String.append_assoc]

theorem renderValVar_static_quoted (c : compilerContext) (ti : TInfo) (ex : Exp) (val : String)
    (md : Metadata) (hl : c.svars.lookup ex.Val = some val) (hp : hasPrefix val "sql:" = false) :
    renderValVar c ti ex md = Res.ok ⟨(), (c.h.renderVar val md).1,
      "'" ++ (c.h.renderVar val md).2 ++ "'"⟩ := by
  unfold renderValVar
  rw [hl]
  simp only [hp, Bool.false_eq_true, if_false, run_write_bind, run_emit_bind, run_write,
    Res.shift, String.append_assoc]

theorem renderValVar_array (c : compilerContext) (ti : TInfo) (ex : Exp)
    (md : Metadata) (hl : c.svars.lookup ex.Val = none)
    (hop : ex.Op = ExpOp.OpIn ∨ ex.Op = ExpOp.OpNotIn) :
    renderValVar c ti ex md = Res.ok ⟨(),
      (c.h.renderParam { Name := ex.Val, Typ := ex.Col.Typ, IsArray := true } md).1,
      "(ARRAY(SELECT json_array_elements_text("
        ++ (c.h.renderParam { Name := ex.Val, Typ := ex.Col.Typ, IsArray := true } md).2
        ++ ")) :: " ++ ex.Col.Typ ++ "[])"⟩ := by
  unfold renderValVar
  rw [hl]
  simp only [hop, if_true, run_write_bind, run_emit_bind, run_write, Res.shift]
  congr 2
  apply String.ext
  simp [String.data_append]

theorem renderValVar_param (c : compilerContext) (ti : TInfo) (ex : Exp)
    (md : Metadata) (hl : c.svars.lookup ex.Val = none)
    (hop : ¬ (ex.Op = ExpOp.OpIn ∨ ex.Op = ExpOp.OpNotIn)) :
    renderValVar c ti ex md = Res.ok ⟨(),
      (c.h.renderParam { Name := ex.Val, Typ := ex.Col.Typ, IsArray := false } md).1,
      (c.h.renderParam { Name := ex.Val, Typ := ex.Col.Typ, IsArray := false } md).2⟩ := by
  unfold renderValVar
  rw [hl]
  simp only [hop, if_false, run_emit]

theorem run_write_bind_bind_write (t : String) (x : M Unit) (md md2 : Metadata) (u : String)
    (hx : x md = Res.ok ⟨(), md2, u⟩) :
    (write t >>= fun _ => x >>= fun _ => write ")") md = Res.ok ⟨(), md2, t ++ u ++ ")"⟩ := by
  rw [run_write_bind, run_bind, hx]
  simp only [run_write, Res.shift, String.append_assoc]

/-- Claim C11, counterexample: on MySQL the leaf `id IN $ids`, whose variable `ids`
is a key of the static variables, is not rendered with the static value: whatever
the helpers, `renderOp` writes `JSON_CONTAINS(<param>, CAST(<col> AS JSON), '$')`
with the parameter `ids` of the column's type as an array, and with the
parameter recorder of the specification that parameter is recorded. -/
theorem C11_counterexample_mysql_in :
    (expIdsIn.Typ = ValType.ValVar ∧ opSpelling expIdsIn.Op = some "= ANY" ∧
      cMyStatic.svars.lookup expIdsIn.Val = some "sql:SELECT id FROM admins") ∧
    renderOp cMyStatic {} usersTable expIdsIn {} =
      Res.ok ⟨(), { params := [{ Name := "ids", Typ := "integer", IsArray := true }],
                    pindex := [("ids", 1)] },
        "JSON_CONTAINS(?, CAST(\"users\".\"id\" AS JSON), '$')"⟩ ∧
    (∀ (h : Helpers) (qc : QCode) (md : Metadata),
      renderOp ⟨h, qc, { mysqlCompiler with svars := staticVars }⟩ {} usersTable expIdsIn md =
        Res.ok ⟨(), (h.renderParam { Name := "ids", Typ := "integer", IsArray := true } md).1,
          "JSON_CONTAINS("
            ++ (h.renderParam { Name := "ids", Typ := "integer", IsArray := true } md).2
            ++ ", CAST(" ++ h.colWithTable "users" "id" ++ " AS JSON), '$')"⟩) :=
  ⟨⟨rfl, rfl, by decide!⟩, by decide!,
    fun h qc md => renderOp_mysql_in ⟨h, qc, { mysqlCompiler with svars := staticVars }⟩ {}
      usersTable expIdsIn md rfl rfl (Or.inl rfl)⟩

/-- Claim C11, amended: for every comparison leaf whose value is a Variable, In and
NotIn on MySQL apart (those are rendered by the `JSON_CONTAINS` prefix, before
the static variables are looked at), `renderOp` writes the left-hand side, the
operator and then the value as follows.  If the name is a key of the static
variables, the static value goes through `renderVar` in place: between `(` and `)`
with the prefix `sql:` stripped when the value starts with `sql:`, between single
quotes otherwise, and the parameter recorder is not called; where `renderVar`
writes its argument and leaves the metadata alone, the text is `(<fragment>)` or
`'<value>'` and the metadata is unchanged.  If the name is not a key, In and NotIn
(on Postgres) write `(ARRAY(SELECT json_array_elements_text(<param>)) :: <col_type>[])`
with the parameter of the column's type as an array, and every other operator
writes the parameter of the column's type, not an array. -/
theorem C11_variable_value (c : compilerContext) (schema : DBSchema) (ti : TInfo)
    (ex : Exp) (s : String) (md : Metadata)
    (hty : ex.Typ = ValType.ValVar) (hop : opSpelling ex.Op = some s)
    (hpre : ¬ (c.ct = "mysql" ∧ (ex.Op = ExpOp.OpIn ∨ ex.Op = ExpOp.OpNotIn))) :
    (∀ val, c.svars.lookup ex.Val = some val → hasPrefix val "sql:" = true →
      renderOp c schema ti ex md = Res.ok ⟨(), (c.h.renderVar (sliceFrom val 4) md).1,
        lhsText c.h ti ex ++ s ++ " "
          ++ ("(" ++ (c.h.renderVar (sliceFrom val 4) md).2 ++ ")") ++ ")"⟩) ∧
    (∀ val, c.svars.lookup ex.Val = some val → hasPrefix val "sql:" = false →
      renderOp c schema ti ex md = Res.ok ⟨(), (c.h.renderVar val md).1,
        lhsText c.h ti ex ++ s ++ " " ++ ("'" ++ (c.h.renderVar val md).2 ++ "'") ++ ")"⟩) ∧
    ((∀ v m, c.h.renderVar v m = (m, v)) → ∀ val, c.svars.lookup ex.Val = some val →
      renderOp c schema ti ex md = Res.ok ⟨(), md,
        lhsText c.h ti ex ++ s ++ " "
          ++ (if hasPrefix val "sql:" = true then "(" ++ sliceFrom val 4 ++ ")"
              else "'" ++ val ++ "'") ++ ")"⟩) ∧
    (c.svars.lookup ex.Val = none → (ex.Op = ExpOp.OpIn ∨ ex.Op = ExpOp.OpNotIn) →
      renderOp c schema ti ex md = Res.ok ⟨(),
        (c.h.renderParam { Name := ex.Val, Typ := ex.Col.Typ, IsArray := true } md).1,
        lhsText c.h ti ex ++ s ++ " "
          ++ ("(ARRAY(SELECT json_array_elements_text("
            ++ (c.h.renderParam { Name := ex.Val, Typ := ex.Col.Typ, IsArray := true } md).2
            ++ ")) :: " ++ ex.Col.Typ ++ "[])") ++ ")"⟩) ∧
    (c.svars.lookup ex.Val = none → ¬ (ex.Op = ExpOp.OpIn ∨ ex.Op = ExpOp.OpNotIn) →
      renderOp c schema ti ex md = Res.ok ⟨(),
        (c.h.renderParam { Name := ex.Val, Typ := ex.Col.Typ, IsArray := false } md).1,
        lhsText c.h ti ex ++ s ++ " "
          ++ (c.h.renderParam { Name := ex.Val, Typ := ex.Col.Typ, IsArray := false } md).2
          ++ ")"⟩) := by
  rw [renderOp_var c schema ti ex s hty hop hpre]
  refine ⟨?_, ?_, ?_, ?_, ?_⟩
  · intro val hl hp
    exact run_write_bind_bind_write _ _ md _ _ (renderValVar_static_sql c ti ex val md hl hp)
  · intro val hl hp
    exact run_write_bind_bind_write _ _ md _ _ (renderValVar_static_quoted c ti ex val md hl hp)
  · intro hvar val hl
    by_cases hp : hasPrefix val "sql:" = true
    · have h1 := run_write_bind_bind_write (lhsText c.h ti ex ++ s ++ " ") _ md _ _
        (renderValVar_static_sql c ti ex val md hl hp)
      rw [hvar] at h1
      rw [if_pos hp]
      exact h1
    · have hp2 : hasPrefix val "sql:" = false := by
        cases hb : hasPrefix val "sql:" with
        | true => exact absurd hb hp
        | false => rfl
      have h1 := run_write_bind_bind_write (lhsText c.h ti ex ++ s ++ " ") _ md _ _
        (renderValVar_static_quoted c ti ex val md hl hp2)
      rw [hvar] at h1
      rw [if_neg hp]
      exact h1
  · intro hl hin
    exact run_write_bind_bind_write _ _ md _ _ (renderValVar_array c ti ex md hl hin)
  · intro hl hin
    exact run_write_bind_bind_write _ _ md _ _ (renderValVar_param c ti ex md hl hin)

/-- Claim C11, witness: on Postgres, with the static variables `ids` (a raw SQL
fragment) and `uid`, the leaf `id IN $ids` over `users` renders as
`(("users"."id") = ANY (SELECT id FROM admins))` and records no parameter. -/
theorem C11_variable_value_witness :
    (expIdsIn.Typ = ValType.ValVar ∧ opSpelling expIdsIn.Op = some "= ANY" ∧
      ¬ (cPgStatic.ct = "mysql" ∧
        (expIdsIn.Op = ExpOp.OpIn ∨ expIdsIn.Op = ExpOp.OpNotIn))) ∧
    renderOp cPgStatic {} usersTable expIdsIn {} =
      Res.ok ⟨(), {}, "((\"users\".\"id\") = ANY (SELECT id FROM admins))"⟩ ∧
    renderOp cPgStatic {} usersTable expIdsIn {} = Res.ok ⟨(), {},
      lhsText cPgStatic.h usersTable expIdsIn ++ "= ANY" ++ " "
        ++ (if hasPrefix "sql:SELECT id FROM admins" "sql:" = true then
              "(" ++ sliceFrom "sql:SELECT id FROM admins" 4 ++ ")"
            else "'" ++ "sql:SELECT id FROM admins" ++ "'") ++ ")"⟩ :=
  ⟨⟨rfl, rfl, by decide⟩, by decide!,
    (C11_variable_value cPgStatic {} usersTable expIdsIn "= ANY" {} rfl rfl (by decide)).2.2.1
      (fun _ _ => rfl) "sql:SELECT id FROM admins" (by decide!)⟩

/-! ## Loops over a list -/

theorem forRangeFrom_run {α : Type} (body : Nat → α → M Unit)
    (g : Nat → α → Metadata → Metadata) (t : Nat → α → Metadata → String)
    (hb : ∀ i x md, body i x md = Res.ok ⟨(), g i x md, t i x md⟩) :
    ∀ (xs : List α) (i : Nat) (md : Metadata),
      forRangeFrom body i xs md = Res.ok ⟨(), loopMd g i xs md, loopText g t i xs md⟩ := by
  intro xs
  induction xs with
  | nil => intro i md; rfl
  | cons x rest ih =>
    intro i md
    simp only [forRangeFrom, loopMd, loopText]
    rw [run_bind, hb i x md]
    simp only [ih (i + 1) (g i x md), Res.shift]

theorem forRange_run {α : Type} (xs : List α) (body : Nat → α → M Unit)
    (g : Nat → α → Metadata → Metadata) (t : Nat → α → Metadata → String)
    (hb : ∀ i x md, body i x md = Res.ok ⟨(), g i x md, t i x md⟩) (md : Metadata) :
    forRange xs body md = Res.ok ⟨(), loopMd g 0 xs md, loopText g t 0 xs md⟩ :=
  forRangeFrom_run body g t hb xs 0 md

theorem intercalate_cons (sep a : String) (rest : List String) :
    sep.intercalate (a :: rest) = a ++ sepAll sep rest := by
  show String.intercalate.go a sep rest = _
  exact intercalate_go_eq sep rest a

/-! ## Full-text search (C12) -/

theorem tsBody_run (c : compilerContext) (ti : TInfo) (p : Param) (i : Nat) (col : DBColumn)
    (md : Metadata) :
    (do
        (if i != 0 then write " OR (" else pure ())
        write (c.h.colWithTable ti.Name col.Name)
        (if c.cv ≥ 110000 then write ") @@ websearch_to_tsquery("
        else write ") @@ to_tsquery(")
        emit (c.h.renderParam p)
        write ")" : M Unit) md =
      Res.ok ⟨(), (c.h.renderParam p md).1,
        (if i = 0 then "" else " OR (") ++ c.h.colWithTable ti.Name col.Name ++ ") @@ "
          ++ tsFunction c.cv ++ "(" ++ (c.h.renderParam p md).2 ++ ")"⟩ := by
  by_cases hi : i = 0 <;> by_cases hcv : c.cv ≥ 110000 <;>
    simp only [hi, hcv, bne_self_eq_false, Bool.false_eq_true, if_true, if_false, bind_assoc_eq,
      pure_bind_eq, run_write_bind, run_emit_bind, run_write, Res.shift, tsItem, tsFunction,
      bne_iff_ne, ne_eq, not_false_eq_true, not_true_eq_false] <;>
    (congr 2; apply String.ext; simp [String.data_append])

theorem tsLoop_text (h : Helpers) (cv : Int) (table : String) (p : Param)
    (cols : List DBColumn) : ∀ (i : Nat) (md : Metadata), i ≠ 0 →
    loopMd (fun _ _ md => (h.renderParam p md).1) i cols md = paramMd h p cols.length md ∧
    loopText (fun _ _ md => (h.renderParam p md).1)
        (fun i col md => (if i = 0 then "" else " OR (") ++ h.colWithTable table col.Name
          ++ ") @@ " ++ tsFunction cv ++ "(" ++ (h.renderParam p md).2 ++ ")") i cols md =
      sepAll " OR " (List.zipWith (tsItem h cv table) cols (paramTexts h p cols.length md)) := by
  induction cols with
  | nil => intro i md _; exact ⟨rfl, rfl⟩
  | cons col rest ih =>
    intro i md hi
    obtain ⟨ih1, ih2⟩ := ih (i + 1) (h.renderParam p md).1 (Nat.succ_ne_zero i)
    constructor
    · simp only [loopMd, List.length_cons, paramMd, ih1]
    · simp only [loopText, List.length_cons, paramTexts, List.zipWith, sepAll, ih2, hi, if_false,
        tsItem]
      apply String.ext
      simp [String.data_append]
theorem loopMd_const {α : Type} (xs : List α) : ∀ (i : Nat) (md : Metadata),
    loopMd (fun _ _ md => md) i xs md = md := by
  induction xs with
  | nil => intro i md; rfl
  | cons x rest ih => intro i md; exact ih (i + 1) md

theorem loopText_sepAll {α : Type} (sep : String) (f : α → String) (xs : List α) :
    ∀ (i : Nat) (md : Metadata), i ≠ 0 →
      loopText (fun _ _ md => md) (fun i x _ => (if i = 0 then "" else sep) ++ f x) i xs md =
        sepAll sep (xs.map f) := by
  induction xs with
  | nil => intro i md _; rfl
  | cons x rest ih =>
    intro i md hi
    simp only [loopText, List.map, sepAll, ih (i + 1) md (Nat.succ_ne_zero i), hi, if_false,
      String.append_assoc]

theorem loopText_intercalate {α : Type} (sep : String) (f : α → String) (xs : List α)
    (md : Metadata) :
    loopText (fun _ _ md => md) (fun i x _ => (if i = 0 then "" else sep) ++ f x) 0 xs md =
      sep.intercalate (xs.map f) := by
  cases xs with
  | nil => rfl
  | cons x rest =>
    simp only [loopText, List.map, intercalate_cons, if_true,
      loopText_sepAll sep f rest 1 md (by decide), String.empty_append]

theorem sepBody_run {α : Type} (sep : String) (f : α → String) (i : Nat) (x : α)
    (md : Metadata) :
    (do
        (if i != 0 then write sep else pure ())
        write (f x) : M Unit) md =
      Res.ok ⟨(), md, (if i = 0 then "" else sep) ++ f x⟩ := by
  by_cases hi : i = 0
  · simp only [hi, bne_self_eq_false, Bool.false_eq_true, if_false, if_true, pure_bind_eq,
      run_write, String.empty_append]
  · have hi2 : (i != 0) = true := by simp [hi]
    simp only [hi, hi2, if_true, if_false, run_write_bind, run_write, Res.shift]

theorem renderOp_tsquery_switch (c : compilerContext) (schema : DBSchema) (ti : TInfo) (ex : Exp)
    (hop : ex.Op = ExpOp.OpTsQuery) (hcol : ex.Col.Name = "") :
    renderOp c schema ti ex = (renderOpSwitch c ti ex >>= fun _ => pure ()) := by
  have hnop : ex.Op ≠ ExpOp.OpNop := by rw [hop]; decide
  have hpre : ¬ (c.ct = "mysql" ∧ (ex.Op = ExpOp.OpIn ∨ ex.Op = ExpOp.OpNotIn)) := by
    rw [hop]; simp
  have hsw : renderOpSwitch c ti ex =
      (renderOpSwitch c ti ex >>= fun _ => pure true) := by
    simp only [renderOpSwitch, hop, bind_assoc_eq, pure_bind_eq]
  unfold renderOp
  rw [if_neg hnop, renderValPrefix_var_false c ti ex hpre, pure_bind_eq]
  simp only [Bool.false_eq_true, if_false, hcol, bne_self_eq_false, pure_bind_eq]
  rw [hsw]
  simp only [bind_assoc_eq, pure_bind_eq, if_true]

theorem renderOp_tsquery_pg (c : compilerContext) (schema : DBSchema) (ti : TInfo) (ex : Exp)
    (md : Metadata) (hop : ex.Op = ExpOp.OpTsQuery) (hcol : ex.Col.Name = "")
    (hne : ti.FullText ≠ []) (hct : c.ct ≠ "mysql") :
    renderOp c schema ti ex md = Res.ok ⟨(),
      paramMd c.h { Name := ex.Val, Typ := "text" } ti.FullText.length md,
      tsQueryPg c.h c.cv ti
        (paramTexts c.h { Name := ex.Val, Typ := "text" } ti.FullText.length md)⟩ := by
  rw [renderOp_tsquery_switch c schema ti ex hop hcol]
  simp only [renderOpSwitch, hop, hct, if_false, bind_assoc_eq, pure_bind_eq]
  rw [run_write_bind, run_bind,
    forRange_run ti.FullText _ _ _ (tsBody_run c ti { Name := ex.Val, Typ := "text" }) md]
  cases hft : ti.FullText with
  | nil => exact absurd hft hne
  | cons col rest =>
    obtain ⟨h1, h2⟩ := tsLoop_text c.h c.cv ti.Name { Name := ex.Val, Typ := "text" } rest 1
      (c.h.renderParam { Name := ex.Val, Typ := "text" } md).1 (by decide)
    simp only [loopMd, loopText, h1, h2, run_write_bind, run_pure, Res.shift, if_true,
      List.length_cons, paramMd, paramTexts, tsQueryPg, hft, List.zipWith, intercalate_cons,
      tsItem]
    congr 2

theorem renderOp_tsquery_mysql (c : compilerContext) (schema : DBSchema) (ti : TInfo) (ex : Exp)
    (md : Metadata) (hop : ex.Op = ExpOp.OpTsQuery) (hcol : ex.Col.Name = "")
    (hct : c.ct = "mysql") :
    renderOp c schema ti ex md = Res.ok ⟨(),
      (c.h.renderParam { Name := ex.Val, Typ := "text" } md).1,
      tsQueryMysql c.h ti (c.h.renderParam { Name := ex.Val, Typ := "text" } md).2⟩ := by
  rw [renderOp_tsquery_switch c schema ti ex hop hcol]
  simp only [renderOpSwitch, hop, hct, if_true, bind_assoc_eq, pure_bind_eq]
  rw [run_write_bind, run_bind,
    forRange_run ti.FullText _ _ _
      (sepBody_run ", " (fun col : DBColumn => c.h.colWithTable ti.Name col.Name)) md]
  simp only [loopMd_const, loopText_intercalate, run_write_bind, run_emit_bind, run_pure,
    run_write, Res.shift, tsQueryMysql]
  congr 2
  apply String.ext
  simp [String.data_append]

theorem balance_sepAll (sep : String) (items : List String) (hsep : balance sep = 0)
    (hitems : ∀ s ∈ items, balance s = 0) : balance (sepAll sep items) = 0 := by
  induction items with
  | nil => rfl
  | cons a rest ih =>
    simp only [sepAll, balance_append, hsep, hitems a (List.mem_cons_self a rest),
      ih (fun s hs => hitems s (List.mem_cons_of_mem a hs))]
    rfl

theorem balance_intercalate (sep : String) (items : List String) (hsep : balance sep = 0)
    (hitems : ∀ s ∈ items, balance s = 0) : balance (sep.intercalate items) = 0 := by
  cases items with
  | nil => rfl
  | cons a rest =>
    rw [intercalate_cons, balance_append, hitems a (List.mem_cons_self a rest),
      balance_sepAll sep rest hsep (fun s hs => hitems s (List.mem_cons_of_mem a hs))]
    rfl

theorem paramTexts_balanced (h : Helpers) (p : Param)
    (hp : ∀ m, balance (h.renderParam p m).2 = 0) :
    ∀ (n : Nat) (md : Metadata), ∀ pt ∈ paramTexts h p n md, balance pt = 0 := by
  intro n
  induction n with
  | zero => intro md pt hpt; cases hpt
  | succ k ih =>
    intro md pt hpt
    simp only [paramTexts, List.mem_cons] at hpt
    rcases hpt with rfl | hpt
    · exact hp md
    · exact ih _ pt hpt

theorem balance_tsFunction (cv : Int) : balance (tsFunction cv) = 0 := by
  unfold tsFunction
  split
  · exact (by decide! : balance "websearch_to_tsquery" = 0)
  · exact (by decide! : balance "to_tsquery" = 0)

theorem balance_tsQueryPg (h : Helpers) (cv : Int) (ti : TInfo) (pts : List String)
    (hcols : ∀ col ∈ ti.FullText, balance (h.colWithTable ti.Name col.Name) = 0)
    (hpts : ∀ pt ∈ pts, balance pt = 0) : balance (tsQueryPg h cv ti pts) = 0 := by
  have hitems : ∀ s ∈ List.zipWith (tsItem h cv ti.Name) ti.FullText pts, balance s = 0 := by
    intro s hs
    rw [List.mem_iff_get] at hs
    obtain ⟨⟨k, hk⟩, rfl⟩ := hs
    simp only [List.length_zipWith, lt_min_iff] at hk
    simp only [List.get_eq_getElem, List.getElem_zipWith, tsItem, balance_append,
      hcols _ (List.getElem_mem hk.1), hpts _ (List.getElem_mem hk.2), balance_tsFunction]
    decide!
  unfold tsQueryPg
  rw [balance_append, balance_append,
    balance_intercalate " OR " _ (by decide!) hitems]
  decide!

/-- Claim C12: a TsQuery leaf with an empty column name over a table with the
full-text columns f1..fn, n at least 1, is rendered on Postgres as
`((f1) @@ F(<param>) OR (f2) @@ F(<param>) ... OR (fn) @@ F(<param>))`, where F is
`websearch_to_tsquery` exactly when the db version is at least 110000 and
`to_tsquery` otherwise and every `<param>` is what the parameter recorder writes
for the parameter named by the leaf's value, of type text; that text is
parenthesis-balanced when the column references and the parameter texts are.  On
MySQL it is rendered as `(MATCH(f1, ..., fn) AGAINST (<param> IN NATURAL LANGUAGE MODE))`. -/
theorem C12_tsquery (c : compilerContext) (schema : DBSchema) (ti : TInfo) (ex : Exp)
    (md : Metadata) (hop : ex.Op = ExpOp.OpTsQuery) (hcol : ex.Col.Name = "")
    (hne : ti.FullText ≠ []) :
    (c.ct ≠ "mysql" →
      renderOp c schema ti ex md = Res.ok ⟨(),
        paramMd c.h { Name := ex.Val, Typ := "text" } ti.FullText.length md,
        tsQueryPg c.h c.cv ti
          (paramTexts c.h { Name := ex.Val, Typ := "text" } ti.FullText.length md)⟩ ∧
      ((∀ col ∈ ti.FullText, balance (c.h.colWithTable ti.Name col.Name) = 0) →
        (∀ m, balance (c.h.renderParam { Name := ex.Val, Typ := "text" } m).2 = 0) →
        balance (tsQueryPg c.h c.cv ti
          (paramTexts c.h { Name := ex.Val, Typ := "text" } ti.FullText.length md)) = 0)) ∧
    (c.ct = "mysql" →
      renderOp c schema ti ex md = Res.ok ⟨(),
        (c.h.renderParam { Name := ex.Val, Typ := "text" } md).1,
        tsQueryMysql c.h ti (c.h.renderParam { Name := ex.Val, Typ := "text" } md).2⟩) ∧
    (tsFunction c.cv = "websearch_to_tsquery" ↔ c.cv ≥ 110000) ∧
    (tsFunction c.cv = "to_tsquery" ↔ ¬ c.cv ≥ 110000) := by
  refine ⟨fun hct => ⟨renderOp_tsquery_pg c schema ti ex md hop hcol hne hct,
      fun hcols hp => balance_tsQueryPg c.h c.cv ti _ hcols
        (paramTexts_balanced c.h _ hp _ md)⟩,
    fun hct => renderOp_tsquery_mysql c schema ti ex md hop hcol hct, ?_, ?_⟩
  · unfold tsFunction
    by_cases hcv : c.cv ≥ 110000
    · simp [hcv]
    · simp only [hcv, if_false, iff_false]
      decide
  · unfold tsFunction
    by_cases hcv : c.cv ≥ 110000
    · simp only [hcv, if_true, not_true_eq_false, iff_false]
      decide
    · simp [hcv]

/-- Claim C12, witness: the full-text search of scenario S5 over `posts` on Postgres
11, with one full-text column and with two, and on MySQL. -/
theorem C12_tsquery_witness :
    (expSearch.Op = ExpOp.OpTsQuery ∧ expSearch.Col.Name = "" ∧
      postsTwoFullText.FullText ≠ []) ∧
    (renderOp cS1 {} postsTable expSearch {} =
        Res.ok ⟨(), { params := [{ Name := "q", Typ := "text" }], pindex := [("q", 1)] },
          "((\"posts\".\"title\") @@ websearch_to_tsquery($1))"⟩ ∧
      renderOp cS1 {} postsTwoFullText expSearch {} =
        Res.ok ⟨(), { params := [{ Name := "q", Typ := "text" }], pindex := [("q", 1)] },
          "((\"posts\".\"title\") @@ websearch_to_tsquery($1) OR (\"posts\".\"body\") @@ websearch_to_tsquery($1))"⟩ ∧
      renderOp cMy {} postsTwoFullText expSearch {} =
        Res.ok ⟨(), { params := [{ Name := "q", Typ := "text" }], pindex := [("q", 1)] },
          "(MATCH(\"posts\".\"title\", \"posts\".\"body\") AGAINST (? IN NATURAL LANGUAGE MODE))"⟩) ∧
    (renderOp cS1 {} postsTwoFullText expSearch {} = Res.ok ⟨(),
        paramMd cS1.h { Name := expSearch.Val, Typ := "text" } postsTwoFullText.FullText.length {},
        tsQueryPg cS1.h cS1.cv postsTwoFullText
          (paramTexts cS1.h { Name := expSearch.Val, Typ := "text" }
            postsTwoFullText.FullText.length {})⟩ ∧
      ((∀ col ∈ postsTwoFullText.FullText,
          balance (cS1.h.colWithTable postsTwoFullText.Name col.Name) = 0) →
        (∀ m, balance (cS1.h.renderParam { Name := expSearch.Val, Typ := "text" } m).2 = 0) →
        balance (tsQueryPg cS1.h cS1.cv postsTwoFullText
          (paramTexts cS1.h { Name := expSearch.Val, Typ := "text" }
            postsTwoFullText.FullText.length {})) = 0)) :=
  ⟨⟨rfl, rfl, by decide⟩, ⟨by decide!, by decide!, by decide!⟩,
    (C12_tsquery cS1 {} postsTwoFullText expSearch {} rfl rfl (by decide)).1 (by decide)⟩

/-! ## LIMIT and OFFSET (C14) -/

theorem renderLimit_run (c : compilerContext) (sel : Select) (md : Metadata) :
    renderLimit c sel md = Res.ok ⟨(),
      (offsetClause c.h sel (limitClause c.h sel md).1).1,
      (limitClause c.h sel md).2 ++ (offsetClause c.h sel (limitClause c.h sel md).1).2⟩ := by
  unfold renderLimit limitClause offsetClause
  by_cases hn : sel.Paging.NoLimit = true <;> by_cases hs : sel.Singular = true <;>
    by_cases hl : sel.Paging.LimitVar = "" <;> by_cases ho : sel.Paging.OffsetVar = "" <;>
    by_cases hz : sel.Paging.Offset = 0 <;>
    simp only [hn, hs, hl, ho, hz, bne_self_eq_false, Bool.false_eq_true, if_true, if_false,
      ne_eq, not_true_eq_false, not_false_eq_true, bne_iff_ne, bind_assoc_eq, pure_bind_eq,
      run_write_bind, run_emit_bind, run_write, run_emit, run_pure, Res.shift,
      String.append_empty, String.empty_append, String.append_assoc]

/-- Claim C14: `renderLimit` writes the LIMIT clause and then the OFFSET clause.
The LIMIT clause is decided by strict priority: `no_limit` writes no LIMIT at all
(also for a singular selection or with a limit variable); otherwise a singular
selection writes ` LIMIT 1`; otherwise a non-empty limit variable writes
` LIMIT LEAST(<param>, <limit>)` with the parameter of that name and type integer
and the literal limit as cap; otherwise ` LIMIT <limit>`.  Whatever the LIMIT
branch, a non-empty offset variable writes ` OFFSET <param>` (type integer),
otherwise a non-zero literal offset writes ` OFFSET <n>`, otherwise no OFFSET is
written.  The last part is the example of a limit variable `lim` with cap 20 and
literal offset 5 on Postgres. -/
theorem C14_limit_offset (c : compilerContext) (sel : Select) (md : Metadata) :
    renderLimit c sel md = Res.ok ⟨(),
      (offsetClause c.h sel (limitClause c.h sel md).1).1,
      (limitClause c.h sel md).2 ++ (offsetClause c.h sel (limitClause c.h sel md).1).2⟩ ∧
    (sel.Paging.NoLimit = true → limitClause c.h sel md = (md, "")) ∧
    (sel.Paging.NoLimit = false → sel.Singular = true →
      limitClause c.h sel md = (md, " LIMIT 1")) ∧
    (sel.Paging.NoLimit = false → sel.Singular = false → sel.Paging.LimitVar ≠ "" →
      limitClause c.h sel md =
        ((c.h.renderParam { Name := sel.Paging.LimitVar, Typ := "integer" } md).1,
          " LIMIT LEAST("
            ++ (c.h.renderParam { Name := sel.Paging.LimitVar, Typ := "integer" } md).2
            ++ ", " ++ c.h.int32String sel.Paging.Limit ++ ")")) ∧
    (sel.Paging.NoLimit = false → sel.Singular = false → sel.Paging.LimitVar = "" →
      limitClause c.h sel md = (md, " LIMIT " ++ c.h.int32String sel.Paging.Limit)) ∧
    (∀ m, sel.Paging.OffsetVar ≠ "" →
      offsetClause c.h sel m =
        ((c.h.renderParam { Name := sel.Paging.OffsetVar, Typ := "integer" } m).1,
          " OFFSET "
            ++ (c.h.renderParam { Name := sel.Paging.OffsetVar, Typ := "integer" } m).2)) ∧
    (∀ m, sel.Paging.OffsetVar = "" → sel.Paging.Offset ≠ 0 →
      offsetClause c.h sel m = (m, " OFFSET " ++ c.h.int32String sel.Paging.Offset)) ∧
    (∀ m, sel.Paging.OffsetVar = "" → sel.Paging.Offset = 0 →
      offsetClause c.h sel m = (m, "")) ∧
    renderLimit cS1 usersLimitVar {} =
      Res.ok ⟨(), { params := [{ Name := "lim", Typ := "integer" }], pindex := [("lim", 1)] },
        " LIMIT LEAST($1, 20) OFFSET 5"⟩ := by
  refine ⟨renderLimit_run c sel md, ?_, ?_, ?_, ?_, ?_, ?_, ?_, by decide!⟩
  · intro hn
    simp only [limitClause, hn, if_true]
  · intro hn hs
    simp only [limitClause, hn, hs, Bool.false_eq_true, if_false, if_true]
  · intro hn hs hl
    simp only [limitClause, hn, hs, hl, Bool.false_eq_true, if_false, if_true, ne_eq,
      not_false_eq_true]
  · intro hn hs hl
    simp only [limitClause, hn, hs, hl, Bool.false_eq_true, if_false, ne_eq, not_true_eq_false]
  · intro m ho
    simp only [offsetClause, ho, ne_eq, not_false_eq_true, if_true]
  · intro m ho hz
    simp only [offsetClause, ho, hz, ne_eq, not_true_eq_false, not_false_eq_true, if_false,
      if_true]
  · intro m ho hz
    simp only [offsetClause, ho, hz, ne_eq, not_true_eq_false, if_false]

/-! ## ORDER BY (C15) -/

theorem orderBody_run (c : compilerContext) (sel : Select) (i : Nat) (col : OrderBy)
    (md : Metadata) :
    (do
        (if i != 0 then write ", " else pure ())
        write (c.h.colWithTable sel.Table col.Col.Name)
        match col.Order with
        | Order.OrderAsc => write " ASC"
        | Order.OrderDesc => write " DESC"
        | Order.OrderAscNullsFirst => write " ASC NULLS FIRST"
        | Order.OrderDescNullsFirst => write " DESC NULLLS FIRST"
        | Order.OrderAscNullsLast => write " ASC NULLS LAST"
        | Order.OrderDescNullsLast => write " DESC NULLS LAST" : M Unit) md =
      Res.ok ⟨(), md, (if i = 0 then "" else ", ")
        ++ (c.h.colWithTable sel.Table col.Col.Name ++ orderSpellingEmitted col.Order)⟩ := by
  by_cases hi : i = 0 <;> cases col.Order <;>
    simp only [hi, bne_self_eq_false, bne_iff_ne, ne_eq, not_false_eq_true, Bool.false_eq_true,
      if_true, if_false, pure_bind_eq, run_write_bind, run_write, Res.shift,
      orderSpellingEmitted, String.empty_append]

theorem renderOrderBy_run (c : compilerContext) (sel : Select) (md : Metadata) :
    renderOrderBy c sel md = Res.ok ⟨(), md, orderByText c.h sel orderSpellingEmitted⟩ := by
  unfold renderOrderBy orderByText
  by_cases he : sel.OrderBy = []
  · simp only [he, List.length_nil, if_true, run_pure]
  · have hl : ¬ sel.OrderBy.length = 0 := fun h => he (List.length_eq_zero.mp h)
    have hloop := forRange_run sel.OrderBy _ _ _ (orderBody_run c sel) md
    rw [if_neg hl, if_neg he, run_write_bind]
    refine (congrArg (Res.shift " ORDER BY ") hloop).trans ?_
    simp only [loopMd_const, Res.shift,
      loopText_intercalate ", "
        (fun ob : OrderBy => c.h.colWithTable sel.Table ob.Col.Name
          ++ orderSpellingEmitted ob.Order)]

/-- Claim C15, the code at the failing input and in general: for every selection
`renderOrderBy` writes nothing when order_by is empty and otherwise ` ORDER BY `
followed by the entries in order separated by `, `, each the table-qualified
column followed by the direction as the code spells it; that spelling is the
Postgres spelling for every direction but DESC NULLS FIRST, for which the code
writes ` DESC NULLLS FIRST`.  For `users` ordered by `name` ascending and `id`
descending with nulls first the code writes
` ORDER BY "users"."name" ASC, "users"."id" DESC NULLLS FIRST`, which is not the
ORDER BY clause with the Postgres spelling. -/
theorem C15_order_by_spelling :
    (∀ (c : compilerContext) (sel : Select) (md : Metadata),
      renderOrderBy c sel md = Res.ok ⟨(), md, orderByText c.h sel orderSpellingEmitted⟩) ∧
    (∀ o, o ≠ Order.OrderDescNullsFirst → orderSpellingEmitted o = orderSpelling o) ∧
    (orderSpellingEmitted Order.OrderDescNullsFirst = " DESC NULLLS FIRST" ∧
      orderSpelling Order.OrderDescNullsFirst = " DESC NULLS FIRST") ∧
    renderOrderBy cS1 usersDescNullsFirst {} =
      Res.ok ⟨(), {}, " ORDER BY \"users\".\"name\" ASC, \"users\".\"id\" DESC NULLLS FIRST"⟩ ∧
    orderByText cS1.h usersDescNullsFirst orderSpelling =
      " ORDER BY \"users\".\"name\" ASC, \"users\".\"id\" DESC NULLS FIRST" ∧
    renderOrderBy cS1 usersDescNullsFirst {} ≠
      Res.ok ⟨(), {}, orderByText cS1.h usersDescNullsFirst orderSpelling⟩ := by
  refine ⟨renderOrderBy_run, ?_, ⟨rfl, rfl⟩, by decide!, by decide!, by decide!⟩
  intro o ho
  cases o <;> first | rfl | exact absurd rfl ho

/-! ## Cursor columns (C13) -/

theorem loopText_index {α : Type} (f : Nat → String) (xs : List α) :
    ∀ (k : Nat) (md : Metadata),
      loopText (fun _ _ md => md) (fun i (_ : α) _ => f i) k xs md =
        joinAll ((List.range' k xs.length).map f) := by
  induction xs with
  | nil => intro k md; rfl
  | cons x rest ih =>
    intro k md
    simp only [loopText, List.length_cons, List.range'_succ, List.map, joinAll,
      ih (k + 1) md]

theorem loopText_enum {α : Type} (f : Nat → α → String) (xs : List α) :
    ∀ (k : Nat) (md : Metadata),
      loopText (fun _ _ md => md) (fun i x _ => f i x) k xs md =
        joinAll ((xs.enumFrom k).map (fun p => f p.1 p.2)) := by
  induction xs with
  | nil => intro k md; rfl
  | cons x rest ih =>
    intro k md
    simp only [loopText, List.enumFrom, List.map, joinAll, ih (k + 1) md]

theorem loopText_enum_sepAll {α : Type} (sep : String) (f : Nat → α → String) (xs : List α) :
    ∀ (k : Nat) (md : Metadata), k ≠ 0 →
      loopText (fun _ _ md => md) (fun i x _ => (if i = 0 then "" else sep) ++ f i x) k xs md =
        sepAll sep ((xs.enumFrom k).map (fun p => f p.1 p.2)) := by
  induction xs with
  | nil => intro k md _; rfl
  | cons x rest ih =>
    intro k md hk
    simp only [loopText, List.enumFrom, List.map, sepAll, ih (k + 1) md (Nat.succ_ne_zero k),
      hk, if_false, String.append_assoc]

theorem loopText_enum_intercalate {α : Type} (sep : String) (f : Nat → α → String)
    (xs : List α) (md : Metadata) :
    loopText (fun _ _ md => md) (fun i x _ => (if i = 0 then "" else sep) ++ f i x) 0 xs md =
      sep.intercalate (xs.enum.map (fun p => f p.1 p.2)) := by
  cases xs with
  | nil => rfl
  | cons x rest =>
    simp only [loopText, List.enum, List.enumFrom, List.map, intercalate_cons, if_true,
      loopText_enum_sepAll sep f rest 1 md (by decide), String.empty_append]

theorem write3_run (a b d : String) (md : Metadata) :
    (do write a; write b; write d : M Unit) md = Res.ok ⟨(), md, a ++ b ++ d⟩ := by
  simp only [run_write_bind, run_write, Res.shift, String.append_assoc]

theorem write4_run (a b d e : String) (md : Metadata) :
    (do write a; write b; write d; write e : M Unit) md = Res.ok ⟨(), md, a ++ b ++ d ++ e⟩ := by
  simp only [run_write_bind, run_write, Res.shift, String.append_assoc]

theorem renderPluralSelect_cursor (c : compilerContext) (sel : Select) (md : Metadata)
    (hs : sel.Singular = false) (hcur : sel.Paging.Cursor = true) :
    renderPluralSelect c sel md = Res.ok ⟨(), md,
      pluralHead c.h c.ct sel ++ cursorAggregate c.h sel ++ " FROM ("⟩ := by
  have hloop := forRange_run sel.OrderBy
    (fun (i : Nat) (_ : OrderBy) => (do
      write ", max(__cur_"
      write (c.h.int32String i)
      write ")" : M Unit))
    (fun _ _ md => md)
    (fun (i : Nat) _ _ => ", max(__cur_" ++ c.h.int32String i ++ ")")
    (fun i _ md => write3_run _ _ _ md)
  unfold renderPluralSelect
  by_cases hct : c.ct = "mysql"
  · simp only [hs, hcur, hct, Bool.false_eq_true, if_false, if_true, bind_assoc_eq,
      run_write_bind, run_bind, hloop, loopMd_const, loopText_index, run_write, Res.shift,
      pluralHead, cursorAggregate, cursorIndices, List.range_eq_range']
    congr 2
    apply String.ext
    simp [String.data_append]
  · simp only [hs, hcur, hct, Bool.false_eq_true, if_false, if_true, bind_assoc_eq,
      run_write_bind, run_bind, hloop, loopMd_const, loopText_index, run_write, Res.shift,
      pluralHead, cursorAggregate, cursorIndices, List.range_eq_range']
    congr 2
    apply String.ext
    simp [String.data_append]

theorem forRange_index_write {α : Type} (xs : List α) (body : Nat → α → M Unit)
    (f : Nat → String) (hb : ∀ i x md, body i x md = Res.ok ⟨(), md, f i⟩) :
    forRange xs body = write (joinAll ((List.range xs.length).map f)) := by
  funext md
  rw [forRange_run xs body (fun _ _ md => md) (fun i _ _ => f i) hb md, loopMd_const,
    loopText_index, List.range_eq_range']
  rfl

theorem forRange_enum_write {α : Type} (xs : List α) (body : Nat → α → M Unit)
    (f : Nat → α → String) (hb : ∀ i x md, body i x md = Res.ok ⟨(), md, f i x⟩) :
    forRange xs body = write (joinAll (xs.enum.map (fun p => f p.1 p.2))) := by
  funext md
  rw [forRange_run xs body (fun _ _ md => md) (fun i x _ => f i x) hb md, loopMd_const,
    loopText_enum]
  rfl

theorem forRange_sep_write {α : Type} (xs : List α) (body : Nat → α → M Unit) (sep : String)
    (f : Nat → α → String)
    (hb : ∀ i x md, body i x md = Res.ok ⟨(), md, (if i = 0 then "" else sep) ++ f i x⟩) :
    forRange xs body = write (sep.intercalate (xs.enum.map (fun p => f p.1 p.2))) := by
  funext md
  rw [forRange_run xs body (fun _ _ md => md)
    (fun i x _ => (if i = 0 then "" else sep) ++ f i x) hb md, loopMd_const,
    loopText_enum_intercalate]
  rfl

theorem renderSelect_cursor (c : compilerContext) (fuel : Nat) (sel : Select)
    (hcur : sel.Paging.Cursor = true) :
    renderSelect c fuel sel = (do
      (if c.ct = "mysql" then do
        write "SELECT json_object("
        emit (c.h.renderJSONFields c.qc.Selects sel)
        write ") "
      else
        write ("SELECT to_jsonb(__sr_" ++ c.h.int32String sel.ID ++ ".*) "
          ++ cursorSubtraction c.h sel))
      write ("AS json " ++ cursorPassThrough c.h sel ++ "FROM (SELECT ")
      emit (c.h.renderColumns c.qc.Selects sel)
      write (cursorProjection c.h sel ++ " FROM (")
      renderBaseSelect c fuel sel
      write ")"
      write (c.h.aliasWithID sel.Table sel.ID)) := by
  have hsub : forRange sel.OrderBy (fun (i : Nat) (_ : OrderBy) => (do
        write "- '__cur_"
        write (c.h.int32String i)
        write "' " : M Unit)) = write (cursorSubtraction c.h sel) :=
    forRange_index_write sel.OrderBy _
      (fun i : Nat => "- '__cur_" ++ c.h.int32String i ++ "' ") (fun i _ md => write3_run _ _ _ md)
  have hpass : forRange sel.OrderBy (fun (i : Nat) (_ : OrderBy) => (do
        write ", __cur_"
        write (c.h.int32String i)
        write " " : M Unit)) = write (cursorPassThrough c.h sel) :=
    forRange_index_write sel.OrderBy _
      (fun i : Nat => ", __cur_" ++ c.h.int32String i ++ " ") (fun i _ md => write3_run _ _ _ md)
  have hproj : forRange sel.OrderBy (fun (i : Nat) (ob : OrderBy) => (do
        write ", LAST_VALUE("
        write (c.h.colWithTableID sel.Table sel.ID ob.Col.Name)
        write ") OVER() AS __cur_"
        write (c.h.int32String i) : M Unit)) = write (cursorProjection c.h sel) :=
    forRange_enum_write sel.OrderBy _
      (fun (i : Nat) (ob : OrderBy) => ", LAST_VALUE("
        ++ c.h.colWithTableID sel.Table sel.ID ob.Col.Name ++ ") OVER() AS __cur_"
        ++ c.h.int32String i) (fun i _ md => write4_run _ _ _ _ md)
  unfold renderSelect
  rw [hsub, hpass, hproj]
  by_cases hct : c.ct = "mysql"
  · simp only [hct, hcur, if_true, bind_assoc_eq, write_write_bind, String.append_assoc]
  · simp only [hct, hcur, if_true, if_false, bind_assoc_eq, write_write_bind, write_write,
      String.append_assoc]

theorem renderCursorCTE_run (c : compilerContext) (sel : Select) (md : Metadata)
    (hcur : sel.Paging.Cursor = true) :
    renderCursorCTE c sel md = Res.ok ⟨(),
      (c.h.renderParam { Name := "cursor", Typ := "text" } md).1,
      cursorCTE c.h c.ct sel (c.h.renderParam { Name := "cursor", Typ := "text" } md).2⟩ := by
  have hmy : forRange sel.OrderBy (fun (i : Nat) (ob : OrderBy) => (do
        (if i != 0 then write ", " else pure ())
        write "SUBSTRING_INDEX(SUBSTRING_INDEX(a.i, ',', "
        write (c.h.int32String (i + 1))
        write "), ',', -1) AS "
        write (c.h.quoted ob.Col.Name) : M Unit)) =
      write (", ".intercalate (sel.OrderBy.enum.map (fun p : Nat × OrderBy =>
        "SUBSTRING_INDEX(SUBSTRING_INDEX(a.i, ',', " ++ c.h.int32String (p.1 + 1)
          ++ "), ',', -1) AS " ++ c.h.quoted p.2.Col.Name))) := by
    refine forRange_sep_write sel.OrderBy _ ", "
      (fun (i : Nat) (ob : OrderBy) => "SUBSTRING_INDEX(SUBSTRING_INDEX(a.i, ',', "
        ++ c.h.int32String (i + 1) ++ "), ',', -1) AS " ++ c.h.quoted ob.Col.Name) ?_
    intro i ob md
    by_cases hi : i = 0
    · simp only [hi, bne_self_eq_false, Bool.false_eq_true, if_false, if_true, pure_bind_eq,
        run_write_bind, run_write, Res.shift, String.empty_append, String.append_assoc]
    · have hi2 : (i != 0) = true := by simp [hi]
      simp only [hi, hi2, if_true, if_false, run_write_bind, run_write, Res.shift,
        String.append_assoc]
  have hpg : forRange sel.OrderBy (fun (i : Nat) (ob : OrderBy) => (do
        (if i != 0 then write ", " else pure ())
        write "a["
        write (c.h.int32String (i + 1))
        write "] :: "
        write ob.Col.Typ
        write " as "
        write (c.h.quoted ob.Col.Name) : M Unit)) =
      write (", ".intercalate (sel.OrderBy.enum.map (fun p : Nat × OrderBy =>
        "a[" ++ c.h.int32String (p.1 + 1) ++ "] :: " ++ p.2.Col.Typ ++ " as "
          ++ c.h.quoted p.2.Col.Name))) := by
    refine forRange_sep_write sel.OrderBy _ ", "
      (fun (i : Nat) (ob : OrderBy) => "a[" ++ c.h.int32String (i + 1) ++ "] :: "
        ++ ob.Col.Typ ++ " as " ++ c.h.quoted ob.Col.Name) ?_
    intro i ob md
    by_cases hi : i = 0
    · simp only [hi, bne_self_eq_false, Bool.false_eq_true, if_false, if_true, pure_bind_eq,
        run_write_bind, run_write, Res.shift, String.empty_append, String.append_assoc]
    · have hi2 : (i != 0) = true := by simp [hi]
      simp only [hi, hi2, if_true, if_false, run_write_bind, run_write, Res.shift,
        String.append_assoc]
  unfold renderCursorCTE
  rw [hmy, hpg]
  by_cases hct : c.ct = "mysql"
  · simp only [hcur, hct, Bool.not_true, Bool.false_eq_true, if_false, if_true,
      run_write_bind, run_emit_bind, run_write, Res.shift, cursorCTE, cursorColumns,
      String.append_assoc]
  · simp only [hcur, hct, Bool.not_true, Bool.false_eq_true, if_false, if_true,
      run_write_bind, run_emit_bind, run_write, Res.shift, cursorCTE, cursorColumns,
      String.append_assoc]

/-- Claim C13: the cursor width equals len(order_by).  For every cursor-paged,
non-singular selection with n order_by columns, the plural wrapper aggregates
`max(__cur_<i>)` inside `CONCAT_WS`, the row wrapper subtracts `- '__cur_<i>'` from
the row JSON (Postgres) and passes `__cur_<i>` through, and the row projection
defines `LAST_VALUE(<i-th sort column>) OVER() AS __cur_<i>`, in each place for the
indices i = 0, ..., n-1 in increasing order; the cursor CTE defines exactly n
columns, the i-th taken from position i+1 of the comma-separated `cursor`
parameter (handed to the recorder with name `cursor` and type text) and named
after the i-th order_by column. -/
theorem C13_cursor_width (c : compilerContext) (fuel : Nat) (sel : Select) (md : Metadata)
    (hcur : sel.Paging.Cursor = true) (hs : sel.Singular = false) :
    (cursorIndices sel = List.range sel.OrderBy.length ∧
      sel.OrderBy.enum.map Prod.fst = cursorIndices sel ∧
      sel.OrderBy.enum.map Prod.snd = sel.OrderBy ∧
      (cursorColumns c.h c.ct sel).length = sel.OrderBy.length) ∧
    renderPluralSelect c sel md = Res.ok ⟨(), md,
      pluralHead c.h c.ct sel ++ cursorAggregate c.h sel ++ " FROM ("⟩ ∧
    renderSelect c fuel sel = (do
      (if c.ct = "mysql" then do
        write "SELECT json_object("
        emit (c.h.renderJSONFields c.qc.Selects sel)
        write ") "
      else
        write ("SELECT to_jsonb(__sr_" ++ c.h.int32String sel.ID ++ ".*) "
          ++ cursorSubtraction c.h sel))
      write ("AS json " ++ cursorPassThrough c.h sel ++ "FROM (SELECT ")
      emit (c.h.renderColumns c.qc.Selects sel)
      write (cursorProjection c.h sel ++ " FROM (")
      renderBaseSelect c fuel sel
      write ")"
      write (c.h.aliasWithID sel.Table sel.ID)) ∧
    renderCursorCTE c sel md = Res.ok ⟨(),
      (c.h.renderParam { Name := "cursor", Typ := "text" } md).1,
      cursorCTE c.h c.ct sel (c.h.renderParam { Name := "cursor", Typ := "text" } md).2⟩ :=
  ⟨⟨rfl, List.enum_map_fst sel.OrderBy, List.enum_map_snd sel.OrderBy,
      by simp [cursorColumns]⟩,
    renderPluralSelect_cursor c sel md hs hcur, renderSelect_cursor c fuel sel hcur,
    renderCursorCTE_run c sel md hcur⟩

/-- Claim C13, witness: the cursor query of scenario S4, `users` ordered by `id`,
on Postgres: one order_by column, one cursor column `__cur_0` in each place, and
one column in the cursor CTE, taken from position 1 of the cursor string. -/
theorem C13_cursor_width_witness :
    (usersCursor.Paging.Cursor = true ∧ usersCursor.Singular = false) ∧
    (cursorIndices usersCursor = [0] ∧
      renderPluralSelect cS4 usersCursor {} = Res.ok ⟨(), {},
        "SELECT COALESCE(jsonb_agg(__sj_0.json), '[]') AS json, CONCAT_WS(',', max(__cur_0)) as __cursor FROM ("⟩ ∧
      renderCursorCTE cS4 usersCursor {} = Res.ok ⟨(),
        { params := [{ Name := "cursor", Typ := "text" }], pindex := [("cursor", 1)] },
        "WITH __cur AS (SELECT a[1] :: integer as \"id\" FROM string_to_array($1, ',') as a) "⟩ ∧
      CompileEx (specHelpers "postgres") pgCompiler 5 (some qcS4) = Res.ok
        { md := { ct := "postgres", params := [{ Name := "cursor", Typ := "text" }],
                  pindex := [("cursor", 1)] },
          sql := some "SELECT jsonb_build_object('users', __sj_0.json, 'users_cursor', __sj_0.__cursor) AS __root FROM ((SELECT true)) AS __root_x LEFT OUTER JOIN LATERAL (SELECT COALESCE(jsonb_agg(__sj_0.json), '[]') AS json, CONCAT_WS(',', max(__cur_0)) as __cursor FROM (SELECT to_jsonb(__sr_0.*) - '__cur_0' AS json , __cur_0 FROM (SELECT \"users_0\".\"id\", LAST_VALUE(\"users_0\".\"id\") OVER() AS __cur_0 FROM (WITH __cur AS (SELECT a[1] :: integer as \"id\" FROM string_to_array($1, ',') as a) SELECT \"users\".\"id\" FROM \"users\", __cur ORDER BY \"users\".\"id\" ASC LIMIT 10) \"users_0\") \"__sr_0\") \"__sj_0\") \"__sj_0\" ON true",
          err := none }) ∧
    (renderPluralSelect cS4 usersCursor {} = Res.ok ⟨(), {},
        pluralHead cS4.h cS4.ct usersCursor ++ cursorAggregate cS4.h usersCursor ++ " FROM ("⟩ ∧
      renderCursorCTE cS4 usersCursor {} = Res.ok ⟨(),
        (cS4.h.renderParam { Name := "cursor", Typ := "text" } {}).1,
        cursorCTE cS4.h cS4.ct usersCursor
          (cS4.h.renderParam { Name := "cursor", Typ := "text" } {}).2⟩) :=
  ⟨⟨rfl, rfl⟩, ⟨by decide!, by decide!, by decide!, by decide!⟩,
    (C13_cursor_width cS4 5 usersCursor {} rfl rfl).2.1,
    (C13_cursor_width cS4 5 usersCursor {} rfl rfl).2.2.2⟩

/-! ## Nested EXISTS (C19) -/

theorem goSlice_middle (first : DBRel) (rest : List DBRel) (hlen : (first :: rest).length > 1) :
    goSlice (first :: rest) 1 ((first :: rest).length - 1) = some (middleRels (first :: rest)) := by
  cases rest with
  | nil => simp at hlen
  | cons r rest2 =>
    unfold goSlice middleRels
    have hcond : 1 ≤ (first :: r :: rest2).length - 1 ∧
        (first :: r :: rest2).length - 1 ≤ (first :: r :: rest2).length := by
      simp only [List.length_cons]; omega
    rw [if_pos hcond]
    simp only [List.length_cons, Nat.add_sub_cancel, List.take_succ_cons, List.drop_succ_cons,
      List.drop_zero, List.tail_cons, List.dropLast_eq_take, List.length_cons]

theorem get_last_cons (first : DBRel) (rest : List DBRel) :
    (first :: rest).get? ((first :: rest).length - 1) = some (rest.getLastD first) := by
  induction rest generalizing first with
  | nil => rfl
  | cons r rest2 ih =>
    have := ih r
    simp only [List.length_cons, Nat.add_sub_cancel] at this ⊢
    simp only [List.get?_cons_succ, List.getLastD_cons]
    exact this

theorem renderNestedWhere_eq (c : compilerContext) (rec : TInfo → Exp → M Unit) (ti : TInfo)
    (ex : Exp) (first : DBRel) (rest : List DBRel) (hrels : ex.Rels = first :: rest) :
    renderNestedWhere c rec ti ex = (do
      write "EXISTS (SELECT 1 FROM "
      write first.Left.Col.Table
      forRange (middleRels ex.Rels) (fun _ rel => renderJoin c rel (-1))
      write " WHERE "
      rec (rest.getLastD first).Left.Ti ex
      write " AND ("
      emit (c.h.renderRel ti first (-1) [])
      write "))") := by
  unfold renderNestedWhere
  rw [hrels]
  simp only [get_last_cons]
  by_cases hlen : (first :: rest).length > 1
  · simp only [hlen, if_true, goSlice_middle first rest hlen]
  · have hnil : rest = [] := by
      cases rest with
      | nil => rfl
      | cons r rest2 => simp at hlen
    subst hnil
    simp only [hlen, if_false]
    rfl

theorem renderExp_leaf (c : compilerContext) (schema : DBSchema) (ti : TInfo) (ex : Exp)
    (sn : Bool) (fuel : Nat) (hleaf : isLeafOp ex.Op = true) :
    renderExp c (fuel + 2) schema ti ex sn = leafRender c schema ti sn ex := by
  unfold renderExp
  rw [renderExpLoop_leaf c schema fuel ti sn ex [] hleaf, renderExpLoop_nil, bind_unit_pure]

theorem middleRels_short (rels : List DBRel) (hlen : rels.length ≤ 2) : middleRels rels = [] := by
  unfold middleRels
  match rels, hlen with
  | [], _ => rfl
  | [_], _ => rfl
  | [_, _], _ => rfl
  | _ :: _ :: _ :: _, h => simp at h

theorem rels_split (first : DBRel) (rest : List DBRel) (hlen : 2 ≤ (first :: rest).length) :
    first :: rest = first :: middleRels (first :: rest) ++ [rest.getLastD first] := by
  unfold middleRels
  cases rest with
  | nil => simp at hlen
  | cons r rest2 =>
    simp only [List.tail_cons, List.cons_append, List.cons.injEq, true_and]
    have hne : r :: rest2 ≠ [] := List.cons_ne_nil r rest2
    rw [List.getLastD_eq_getLast?, List.getLast?_eq_getLast _ hne]
    exact (List.dropLast_append_getLast hne).symm

/-- Claim C19: a leaf expression with n relations in `rels`, n at least 1, rendered
with `skipNested` false (and fuel for two iterations) is written as
`EXISTS (SELECT 1 FROM <table of rels[0]>`, then one `LEFT OUTER JOIN` (`renderJoin`)
for each of rels[1], ..., rels[n-2] in order, then ` WHERE `, then the leaf's own
operator (`renderOp`) against the table info of the last relation, then ` AND (`,
the predicate of the first relation and `))`.  There is no join when n is at
most 2, and for n at least 2 the relations are the first, the joined ones and the
last, so the last is never joined.  The slice `rels[1:n-1]` is taken only for
n > 1, where it is in range; the inner call of `renderExp` on the leaf with
`skipNested` true is the leaf's `renderOp`. -/
theorem C19_nested_exists (c : compilerContext) (schema : DBSchema) (ti : TInfo) (ex : Exp)
    (first : DBRel) (rest : List DBRel) (fuel : Nat)
    (hleaf : isLeafOp ex.Op = true) (hrels : ex.Rels = first :: rest) :
    renderExp c (fuel + 2) schema ti ex false = (do
      write "EXISTS (SELECT 1 FROM "
      write first.Left.Col.Table
      forRange (middleRels ex.Rels) (fun _ rel => renderJoin c rel (-1))
      write " WHERE "
      renderOp c schema (rest.getLastD first).Left.Ti ex
      write " AND ("
      emit (c.h.renderRel ti first (-1) [])
      write "))") ∧
    (ex.Rels.length ≤ 2 → middleRels ex.Rels = []) ∧
    (2 ≤ ex.Rels.length → ex.Rels = first :: middleRels ex.Rels ++ [rest.getLastD first]) ∧
    (ex.Rels.length > 1 →
      goSlice ex.Rels 1 (ex.Rels.length - 1) = some (middleRels ex.Rels)) ∧
    (∀ ti2, renderExp c (fuel + 1) schema ti2 ex true = renderOp c schema ti2 ex) := by
  refine ⟨?_, middleRels_short ex.Rels, ?_, ?_, ?_⟩
  · rw [renderExp_leaf c schema ti ex false fuel hleaf]
    have hn : (!false && ex.Rels.length != 0) = true := by
      rw [hrels]; rfl
    unfold leafRender
    rw [if_pos hn]
    exact renderNestedWhere_eq c _ ti ex first rest hrels
  · intro hlen
    rw [hrels] at hlen ⊢
    exact rels_split first rest hlen
  · intro hlen
    rw [hrels] at hlen ⊢
    exact goSlice_middle first rest hlen
  · intro ti2
    exact renderExpLoop_leaf_skip c schema fuel ti2 ex hleaf

/-- Claim C19, witness: the leaf `id = '7'` with the three relations posts-users,
comments-posts and likes-comments, inside a WHERE over `users` on Postgres: `posts`
is the table of the EXISTS, `comments` is joined, and the operator is rendered
against `likes`, which is not joined. -/
theorem C19_nested_exists_witness :
    (isLeafOp (Exp.node (nodeNested [postsUsersRel, commentsPostsRel, likesCommentsRel]) []).Op
        = true ∧
      (Exp.node (nodeNested [postsUsersRel, commentsPostsRel, likesCommentsRel]) []).Rels =
        postsUsersRel :: [commentsPostsRel, likesCommentsRel]) ∧
    (renderExp cS1 3 {} usersTable
        (Exp.node (nodeNested [postsUsersRel, commentsPostsRel, likesCommentsRel]) []) false {} =
      Res.ok ⟨(), {},
        "EXISTS (SELECT 1 FROM posts LEFT OUTER JOIN comments ON (((\"comments\".\"post_id\") = (\"posts\".\"id\"))) WHERE ((\"likes\".\"id\") = '7') AND ((\"users\".\"user_id\") = (\"users\".\"id\")))"⟩ ∧
      middleRels [postsUsersRel, commentsPostsRel, likesCommentsRel] = [commentsPostsRel] ∧
      renderExp cS1 3 {} usersTable (Exp.node (nodeNested [postsUsersRel]) []) false {} =
        Res.ok ⟨(), {},
          "EXISTS (SELECT 1 FROM posts WHERE ((\"posts\".\"id\") = '7') AND ((\"users\".\"user_id\") = (\"users\".\"id\")))"⟩) ∧
    renderExp cS1 (1 + 2) {} usersTable
        (Exp.node (nodeNested [postsUsersRel, commentsPostsRel, likesCommentsRel]) []) false = (do
      write "EXISTS (SELECT 1 FROM "
      write postsUsersRel.Left.Col.Table
      forRange
        (middleRels
          (Exp.node (nodeNested [postsUsersRel, commentsPostsRel, likesCommentsRel]) []).Rels)
        (fun _ rel => renderJoin cS1 rel (-1))
      write " WHERE "
      renderOp cS1 {} ([commentsPostsRel, likesCommentsRel].getLastD postsUsersRel).Left.Ti
        (Exp.node (nodeNested [postsUsersRel, commentsPostsRel, likesCommentsRel]) [])
      write " AND ("
      emit (cS1.h.renderRel usersTable postsUsersRel (-1) [])
      write "))") :=
  ⟨⟨rfl, rfl⟩, ⟨by decide!, by decide!, by decide!⟩,
    (C19_nested_exists cS1 {} usersTable
      (Exp.node (nodeNested [postsUsersRel, commentsPostsRel, likesCommentsRel]) [])
      postsUsersRel [commentsPostsRel, likesCommentsRel] 1 rfl rfl).1⟩

/-! ## The traversal driver as a sequence of events (C17, C18) -/

theorem traverse_nil (selects : List Select) (fuel : Nat) :
    traverse selects fuel [] = some [] := by
  cases fuel <;> rfl

theorem renderQuery_events (c : compilerContext) (ef : Nat) (multi : Bool) :
    ∀ (fuel : Nat) (st : IntStack) (evs : List Event),
      traverse c.qc.Selects fuel st = some evs →
        renderQuery c ef multi fuel st = seqAll (evs.map (renderEvent c ef multi)) := by
  intro fuel
  induction fuel with
  | zero =>
    intro st evs h
    cases st with
    | nil =>
      injection h with h
      subst h
      rfl
    | cons id st => cases h
  | succ n ih =>
    intro st evs h
    cases st with
    | nil =>
      injection h with h
      subst h
      rfl
    | cons id st =>
      simp only [traverse] at h
      simp only [renderQuery]
      split at h
      · rename_i hid
        rw [if_pos hid]
        cases hsel : selectAt c.qc.Selects id with
        | none => rw [hsel] at h; cases h
        | some sel =>
          rw [hsel] at h
          simp only [] at h ⊢
          cases hpush : pushSelChildren c.qc.Selects sel.Children st with
          | none => rw [hpush] at h; cases h
          | some st2 =>
            rw [hpush] at h
            simp only [] at h ⊢
            cases htr : traverse c.qc.Selects n st2 with
            | none => rw [htr] at h; cases h
            | some evs2 =>
              rw [htr] at h
              injection h with h
              subst h
              rw [ih st2 evs2 htr]
              rfl
      · rename_i hid
        rw [if_neg hid]
        cases hsel : selectAt c.qc.Selects (id - closeBlock) with
        | none => rw [hsel] at h; cases h
        | some sel =>
          rw [hsel] at h
          simp only [] at h ⊢
          cases htr : traverse c.qc.Selects n st with
          | none => rw [htr] at h; cases h
          | some evs2 =>
            rw [htr] at h
            injection h with h
            subst h
            rw [ih st evs2 htr]
            rfl

theorem traverse_mono (selects : List Select) :
    ∀ (fuel fuel2 : Nat) (st : IntStack) (evs : List Event), fuel ≤ fuel2 →
      traverse selects fuel st = some evs → traverse selects fuel2 st = some evs := by
  intro fuel
  induction fuel with
  | zero =>
    intro fuel2 st evs _ h
    cases st with
    | nil =>
      rw [traverse_nil]
      exact h
    | cons id st => cases h
  | succ n ih =>
    intro fuel2 st evs hle h
    obtain ⟨m, rfl⟩ : ∃ m, fuel2 = m + 1 := ⟨fuel2 - 1, by omega⟩
    cases st with
    | nil => exact h
    | cons id st =>
      simp only [traverse] at h ⊢
      split
      · rename_i hid
        rw [if_pos hid] at h
        cases hsel : selectAt selects id with
        | none => rw [hsel] at h; cases h
        | some sel =>
          rw [hsel] at h
          simp only [] at h ⊢
          cases hpush : pushSelChildren selects sel.Children st with
          | none => rw [hpush] at h; cases h
          | some st2 =>
            rw [hpush] at h
            simp only [] at h ⊢
            cases htr : traverse selects n st2 with
            | none => rw [htr] at h; cases h
            | some evs2 =>
              rw [htr] at h
              rw [ih m st2 evs2 (by omega) htr]
              exact h
      · rename_i hid
        rw [if_neg hid] at h
        cases hsel : selectAt selects (id - closeBlock) with
        | none => rw [hsel] at h; cases h
        | some sel =>
          rw [hsel] at h
          simp only [] at h ⊢
          cases htr : traverse selects n st with
          | none => rw [htr] at h; cases h
          | some evs2 =>
            rw [htr] at h
            rw [ih m st evs2 (by omega) htr]
            exact h

theorem traverse_append (selects : List Select) :
    ∀ (f1 f2 : Nat) (a b : IntStack) (e1 e2 : List Event),
      traverse selects f1 a = some e1 → traverse selects f2 b = some e2 →
        traverse selects (f1 + f2) (a ++ b) = some (e1 ++ e2) := by
  intro f1
  induction f1 with
  | zero =>
    intro f2 a b e1 e2 h1 h2
    cases a with
    | nil =>
      injection h1 with h1
      subst h1
      rw [Nat.zero_add]
      exact h2
    | cons id a => cases h1
  | succ n ih =>
    intro f2 a b e1 e2 h1 h2
    cases a with
    | nil =>
      injection h1 with h1
      subst h1
      exact traverse_mono selects f2 (n + 1 + f2) b e2 (by omega) h2
    | cons id a =>
      rw [show n + 1 + f2 = (n + f2) + 1 by omega]
      simp only [traverse, List.cons_append, List.append_eq] at h1 ⊢
      split
      · rename_i hid
        rw [if_pos hid] at h1
        cases hsel : selectAt selects id with
        | none => rw [hsel] at h1; cases h1
        | some sel =>
          rw [hsel] at h1
          simp only [] at h1 ⊢
          rw [pushSelChildren_append]
          cases hpush : pushSelChildren selects sel.Children a with
          | none => rw [hpush] at h1; cases h1
          | some st2 =>
            rw [hpush] at h1
            simp only [Option.map_some'] at h1 ⊢
            cases htr : traverse selects n st2 with
            | none => rw [htr] at h1; cases h1
            | some evs2 =>
              rw [htr] at h1
              injection h1 with h1
              subst h1
              rw [ih f2 st2 b evs2 e2 htr h2]
              rfl
      · rename_i hid
        rw [if_neg hid] at h1
        cases hsel : selectAt selects (id - closeBlock) with
        | none => rw [hsel] at h1; cases h1
        | some sel =>
          rw [hsel] at h1
          simp only [] at h1 ⊢
          cases htr : traverse selects n a with
          | none => rw [htr] at h1; cases h1
          | some evs2 =>
            rw [htr] at h1
            injection h1 with h1
            subst h1
            rw [ih f2 a b evs2 e2 htr h2]
            rfl

theorem wrap32_close (id : Int) (h0 : 0 ≤ id) (h1 : id < closeBlock) :
    wrap32 (id + closeBlock) = id + closeBlock := by
  unfold wrap32 closeBlock at *
  omega

theorem traverse_close (selects : List Select) (sel : Select)
    (hsel : selectAt selects sel.ID = some sel) (h0 : 0 ≤ sel.ID) (h1 : sel.ID < closeBlock) :
    traverse selects 1 [wrap32 (sel.ID + closeBlock)] = some [Event.closed sel] := by
  rw [wrap32_close sel.ID h0 h1]
  have hge : ¬ sel.ID + closeBlock < closeBlock := by omega
  have hsub : sel.ID + closeBlock - closeBlock = sel.ID := by omega
  simp only [traverse, hge, if_false, hsub, hsel]
  rfl

theorem traverse_block (selects : List Select) (sel : Select) (f : Nat) (inner : List Event)
    (hsel : selectAt selects sel.ID = some sel) (h0 : 0 ≤ sel.ID) (h1 : sel.ID < closeBlock)
    (hch : ∀ cid ∈ sel.Children, (selectAt selects cid).isSome = true)
    (hin : traverse selects f
      (((renderableChildren selects sel).reverse.map block).flatten) = some inner) :
    traverse selects (f + 2) (block sel) =
      some (Event.opened sel :: inner ++ [Event.closed sel]) := by
  have hrest := traverse_append selects f 1 _ _ inner [Event.closed sel] hin
    (traverse_close selects sel hsel h0 h1)
  unfold block
  rw [show f + 2 = (f + 1) + 1 by omega]
  simp only [traverse, h1, if_true, hsel, pushSelChildren_eq selects sel.Children hch]
  unfold renderableChildren at hrest
  rw [hrest]
  rfl

theorem selectAt_valid (selects : List Select) (id : Int) (sel : Select)
    (hidx : ∀ (i : Nat) (s : Select), selects.get? i = some s → s.ID = (i : Int))
    (hlen : (selects.length : Int) ≤ closeBlock)
    (hsel : selectAt selects id = some sel) :
    sel ∈ selects ∧ sel.ID = id ∧ selectAt selects sel.ID = some sel ∧ 0 ≤ sel.ID ∧
      sel.ID < closeBlock := by
  unfold selectAt at hsel
  by_cases hneg : id < 0
  · rw [if_pos hneg] at hsel; cases hsel
  · rw [if_neg hneg] at hsel
    have hid : sel.ID = id := by
      rw [hidx id.toNat sel hsel]
      omega
    have hlt : id.toNat < selects.length := by
      rcases Nat.lt_or_ge id.toNat selects.length with h | h
      · exact h
      · rw [List.get?_eq_none.mpr h] at hsel; cases hsel
    refine ⟨List.get?_mem hsel, hid, ?_, by omega, by omega⟩
    unfold selectAt
    rw [hid, if_neg hneg]
    exact hsel

theorem mem_renderableChildren (selects : List Select) (sel child : Select)
    (hmem : child ∈ renderableChildren selects sel) :
    ∃ cid ∈ sel.Children, selectAt selects cid = some child := by
  unfold renderableChildren at hmem
  rw [List.mem_filter, List.mem_filterMap] at hmem
  exact hmem.1

theorem seqOpt_cons_some (x : Option (List Event)) (rest : List (Option (List Event)))
    (e : List Event) (h : seqOpt (x :: rest) = some e) :
    ∃ a b, x = some a ∧ seqOpt rest = some b ∧ e = a ++ b := by
  cases x with
  | none => cases h
  | some a =>
    simp only [seqOpt] at h
    cases hr : seqOpt rest with
    | none => rw [hr] at h; cases h
    | some b =>
      rw [hr] at h
      injection h with h
      exact ⟨a, b, rfl, rfl, h.symm⟩

theorem traverse_seq (selects : List Select) (d : Nat)
    (hP : ∀ (sel : Select) (e : List Event), selectAt selects sel.ID = some sel →
      brackets selects d sel = some e → traverse selects e.length (block sel) = some e)
    (sels : List Select) :
    ∀ (e : List Event), (∀ s ∈ sels, selectAt selects s.ID = some s) →
      seqOpt (sels.map (brackets selects d)) = some e →
        traverse selects e.length ((sels.map block).flatten) = some e := by
  induction sels with
  | nil =>
    intro e _ h
    injection h with h
    subst h
    rfl
  | cons s rest ih =>
    intro e hvalid h
    obtain ⟨a, b, ha, hb, rfl⟩ := seqOpt_cons_some _ _ e h
    have h1 := hP s a (hvalid s (List.mem_cons_self s rest)) ha
    have h2 := ih b (fun s2 hs2 => hvalid s2 (List.mem_cons_of_mem s hs2)) hb
    rw [List.length_append]
    exact traverse_append selects a.length b.length _ _ a b h1 h2

theorem brackets_traverse (selects : List Select)
    (hidx : ∀ (i : Nat) (s : Select), selects.get? i = some s → s.ID = (i : Int))
    (hlen : (selects.length : Int) ≤ closeBlock)
    (hch : ∀ s ∈ selects, ∀ cid ∈ s.Children, (selectAt selects cid).isSome = true) :
    ∀ (d : Nat) (sel : Select) (e : List Event), selectAt selects sel.ID = some sel →
      brackets selects d sel = some e → traverse selects e.length (block sel) = some e := by
  intro d
  induction d with
  | zero => intro sel e _ h; cases h
  | succ n ih =>
    intro sel e hsel h
    obtain ⟨hmem, _, _, h0, h1⟩ := selectAt_valid selects sel.ID sel hidx hlen hsel
    simp only [brackets] at h
    cases hin : seqOpt ((renderableChildren selects sel).reverse.map (brackets selects n)) with
    | none => rw [hin] at h; cases h
    | some inner =>
      rw [hin] at h
      injection h with h
      subst h
      have hkids : ∀ s ∈ (renderableChildren selects sel).reverse,
          selectAt selects s.ID = some s := by
        intro s hs
        rw [List.mem_reverse] at hs
        obtain ⟨cid, _, hc⟩ := mem_renderableChildren selects sel s hs
        exact (selectAt_valid selects cid s hidx hlen hc).2.2.1
      have hinner := traverse_seq selects n ih _ inner hkids hin
      have hb := traverse_block selects sel inner.length inner hsel h0 h1 (hch sel hmem) hinner
      have hl : (Event.opened sel :: inner ++ [Event.closed sel]).length = inner.length + 2 := by
        simp
      rw [hl]
      exact hb

theorem seqOpt_split (xs : List (Option (List Event))) :
    ∀ (e : List Event), seqOpt xs = some e →
      ∀ a, some a ∈ xs → ∃ pre post, e = pre ++ a ++ post := by
  induction xs with
  | nil => intro e _ a ha; cases ha
  | cons x rest ih =>
    intro e h a ha
    obtain ⟨a0, b, hx, hb, rfl⟩ := seqOpt_cons_some x rest e h
    rw [List.mem_cons] at ha
    rcases ha with ha | ha
    · rw [hx] at ha
      injection ha with ha
      subst ha
      exact ⟨[], b, by simp⟩
    · obtain ⟨pre, post, hb2⟩ := ih b hb a ha
      exact ⟨a0 ++ pre, post, by rw [hb2]; simp⟩

theorem seqOpt_mem (xs : List (Option (List Event))) :
    ∀ (e : List Event), seqOpt xs = some e →
      ∀ ev, ev ∈ e → ∃ a, some a ∈ xs ∧ ev ∈ a := by
  induction xs with
  | nil =>
    intro e h ev hev
    injection h with h
    subst h
    cases hev
  | cons x rest ih =>
    intro e h ev hev
    obtain ⟨a0, b, hx, hb, rfl⟩ := seqOpt_cons_some x rest e h
    rw [List.mem_append] at hev
    rcases hev with hev | hev
    · exact ⟨a0, by rw [hx]; exact List.mem_cons_self _ _, hev⟩
    · obtain ⟨a, ha, hev2⟩ := ih b hb ev hev
      exact ⟨a, List.mem_cons_of_mem _ ha, hev2⟩

theorem seqOpt_wellNested (xs : List (Option (List Event))) :
    ∀ (e : List Event), seqOpt xs = some e → (∀ a, some a ∈ xs → WellNested a) →
      WellNested e := by
  induction xs with
  | nil =>
    intro e h _
    injection h with h
    subst h
    exact WellNested.nil
  | cons x rest ih =>
    intro e h hall
    obtain ⟨a0, b, hx, hb, rfl⟩ := seqOpt_cons_some x rest e h
    exact WellNested.append a0 b (hall a0 (by rw [hx]; exact List.mem_cons_self _ _))
      (ih b hb (fun a ha => hall a (List.mem_cons_of_mem _ ha)))

theorem brackets_succ (selects : List Select) (d : Nat) (sel : Select) (e : List Event)
    (h : brackets selects (d + 1) sel = some e) :
    ∃ inner, seqOpt ((renderableChildren selects sel).reverse.map (brackets selects d))
        = some inner ∧ e = Event.opened sel :: inner ++ [Event.closed sel] := by
  simp only [brackets] at h
  cases hin : seqOpt ((renderableChildren selects sel).reverse.map (brackets selects d)) with
  | none => rw [hin] at h; cases h
  | some inner =>
    rw [hin] at h
    injection h with h
    exact ⟨inner, rfl, h.symm⟩

theorem brackets_wellNested (selects : List Select) :
    ∀ (d : Nat) (sel : Select) (e : List Event), brackets selects d sel = some e →
      WellNested e := by
  intro d
  induction d with
  | zero => intro sel e h; cases h
  | succ n ih =>
    intro sel e h
    obtain ⟨inner, hin, rfl⟩ := brackets_succ selects n sel e h
    refine WellNested.wrap sel inner (seqOpt_wellNested _ inner hin ?_)
    intro a ha
    rw [List.mem_map] at ha
    obtain ⟨s, _, hs⟩ := ha
    exact ih s a hs

theorem openedIds_append (a b : List Event) :
    openedIds (a ++ b) = openedIds a ++ openedIds b := by
  simp [openedIds, List.filterMap_append]

theorem closedIds_append (a b : List Event) :
    closedIds (a ++ b) = closedIds a ++ closedIds b := by
  simp [closedIds, List.filterMap_append]

theorem seqOpt_perm (xs : List (Option (List Event))) :
    ∀ (e : List Event), seqOpt xs = some e →
      (∀ a, some a ∈ xs → (closedIds a).Perm (openedIds a)) →
        (closedIds e).Perm (openedIds e) := by
  induction xs with
  | nil =>
    intro e h _
    injection h with h
    subst h
    exact List.Perm.refl _
  | cons x rest ih =>
    intro e h hall
    obtain ⟨a0, b, hx, hb, rfl⟩ := seqOpt_cons_some x rest e h
    rw [openedIds_append, closedIds_append]
    exact List.Perm.append (hall a0 (by rw [hx]; exact List.mem_cons_self _ _))
      (ih b hb (fun a ha => hall a (List.mem_cons_of_mem _ ha)))

theorem brackets_perm (selects : List Select) :
    ∀ (d : Nat) (sel : Select) (e : List Event), brackets selects d sel = some e →
      (closedIds e).Perm (openedIds e) := by
  intro d
  induction d with
  | zero => intro sel e h; cases h
  | succ n ih =>
    intro sel e h
    obtain ⟨inner, hin, rfl⟩ := brackets_succ selects n sel e h
    have hinner : (closedIds inner).Perm (openedIds inner) := by
      refine seqOpt_perm _ inner hin ?_
      intro a ha
      rw [List.mem_map] at ha
      obtain ⟨s, _, hs⟩ := ha
      exact ih s a hs
    have ho : openedIds (Event.opened sel :: inner ++ [Event.closed sel]) =
        sel.ID :: openedIds inner := by
      simp [openedIds, List.filterMap_append, List.filterMap_cons]
    have hc : closedIds (Event.opened sel :: inner ++ [Event.closed sel]) =
        closedIds inner ++ [sel.ID] := by
      simp [closedIds, List.filterMap_append, List.filterMap_cons]
    rw [ho, hc]
    exact (List.perm_append_singleton sel.ID (closedIds inner)).trans (List.Perm.cons _ hinner)

theorem seqOpt_all_some (xs : List (Option (List Event))) :
    ∀ (e : List Event), seqOpt xs = some e → ∀ x ∈ xs, ∃ a, x = some a := by
  induction xs with
  | nil => intro e _ x hx; cases hx
  | cons x0 rest ih =>
    intro e h x hx
    obtain ⟨a0, b, hx0, hb, _⟩ := seqOpt_cons_some x0 rest e h
    rw [List.mem_cons] at hx
    rcases hx with hx | hx
    · exact ⟨a0, hx ▸ hx0⟩
    · exact ih b hb x hx

theorem brackets_sound (selects : List Select) :
    ∀ (d : Nat) (sel : Select) (e : List Event), brackets selects d sel = some e →
      ∀ ev ∈ e, ReachFrom selects sel ev.sel := by
  intro d
  induction d with
  | zero => intro sel e h; cases h
  | succ n ih =>
    intro sel e h ev hev
    obtain ⟨inner, hin, rfl⟩ := brackets_succ selects n sel e h
    simp only [List.cons_append, List.mem_cons, List.mem_append, List.not_mem_nil, or_false] at hev
    rcases hev with rfl | hev | rfl
    · exact ReachFrom.refl sel
    · obtain ⟨a, ha, heva⟩ := seqOpt_mem _ inner hin ev hev
      rw [List.mem_map] at ha
      obtain ⟨kid, hkid, hk⟩ := ha
      rw [List.mem_reverse] at hkid
      exact ReachFrom.step sel kid ev.sel hkid (ih kid a hk ev heva)
    · exact ReachFrom.refl sel

theorem brackets_complete (selects : List Select) (sel s : Select)
    (hreach : ReachFrom selects sel s) :
    ∀ (d : Nat) (e : List Event), brackets selects d sel = some e →
      Event.opened s ∈ e ∧ Event.closed s ∈ e := by
  induction hreach with
  | refl sel =>
    intro d e h
    cases d with
    | zero => cases h
    | succ n =>
      obtain ⟨inner, _, rfl⟩ := brackets_succ selects n sel e h
      exact ⟨List.mem_cons_self _ _, by simp⟩
  | step sel child s hchild _ ih =>
    intro d e h
    cases d with
    | zero => cases h
    | succ n =>
      obtain ⟨inner, hin, rfl⟩ := brackets_succ selects n sel e h
      have hmem : brackets selects n child ∈
          (renderableChildren selects sel).reverse.map (brackets selects n) :=
        List.mem_map_of_mem _ (List.mem_reverse.mpr hchild)
      obtain ⟨a, ha⟩ := seqOpt_all_some _ inner hin _ hmem
      obtain ⟨ho, hc⟩ := ih n a ha
      obtain ⟨pre, post, hsplit⟩ := seqOpt_split _ inner hin a (ha ▸ hmem)
      subst hsplit
      constructor
      · simp only [List.cons_append, List.mem_cons, List.mem_append]
        exact Or.inr (Or.inl (Or.inl (Or.inr ho)))
      · simp only [List.cons_append, List.mem_cons, List.mem_append]
        exact Or.inr (Or.inl (Or.inl (Or.inr hc)))

theorem brackets_segment (selects : List Select) :
    ∀ (d : Nat) (sel : Select) (e : List Event), brackets selects d sel = some e →
      ∀ s, Event.opened s ∈ e →
        ∃ d2 pre mid post, e = pre ++ (Event.opened s :: mid ++ [Event.closed s]) ++ post ∧
          brackets selects d2 s = some (Event.opened s :: mid ++ [Event.closed s]) := by
  intro d
  induction d with
  | zero => intro sel e h; cases h
  | succ n ih =>
    intro sel e h s hs
    obtain ⟨inner, hin, rfl⟩ := brackets_succ selects n sel e h
    simp only [List.cons_append, List.mem_cons, List.mem_append, List.not_mem_nil, or_false] at hs
    rcases hs with hs | hs | hs
    · injection hs with hs
      subst hs
      exact ⟨n + 1, [], inner, [], by simp, h⟩
    · obtain ⟨a, ha, hsa⟩ := seqOpt_mem _ inner hin _ hs
      obtain ⟨A, B, hsplit⟩ := seqOpt_split _ inner hin a ha
      rw [List.mem_map] at ha
      obtain ⟨kid, _, hk⟩ := ha
      obtain ⟨d2, pre, mid, post, he, hb⟩ := ih kid a hk s hsa
      refine ⟨d2, Event.opened sel :: A ++ pre, mid, post ++ B ++ [Event.closed sel], ?_, hb⟩
      rw [hsplit, he]
      simp
    · cases hs

theorem renderedRoots_valid (qc : QCode)
    (hidx : ∀ (i : Nat) (s : Select), qc.Selects.get? i = some s → s.ID = (i : Int))
    (hlen : (qc.Selects.length : Int) ≤ closeBlock) :
    ∀ s ∈ (renderedRoots qc).reverse, selectAt qc.Selects s.ID = some s := by
  intro s hs
  rw [List.mem_reverse] at hs
  unfold renderedRoots rootSelects at hs
  rw [List.mem_filter, List.mem_filterMap] at hs
  obtain ⟨⟨id, _, hsel⟩, _⟩ := hs
  exact (selectAt_valid qc.Selects id s hidx hlen hsel).2.2.1

theorem rootStack_eq (qc : QCode) :
    rootStack qc = ((renderedRoots qc).reverse.map block).flatten := by
  unfold rootStack renderedRoots
  rw [scheduleRoots_eq, List.append_nil]

theorem roots_traverse (qc : QCode) (d : Nat) (evs : List Event)
    (hidx : ∀ (i : Nat) (s : Select), qc.Selects.get? i = some s → s.ID = (i : Int))
    (hlen : (qc.Selects.length : Int) ≤ closeBlock)
    (hch : ∀ s ∈ qc.Selects, ∀ cid ∈ s.Children, (selectAt qc.Selects cid).isSome = true)
    (hunf : seqOpt ((renderedRoots qc).reverse.map (brackets qc.Selects d)) = some evs) :
    traverse qc.Selects evs.length (rootStack qc) = some evs := by
  rw [rootStack_eq]
  exact traverse_seq qc.Selects d (brackets_traverse qc.Selects hidx hlen hch d) _ evs
    (renderedRoots_valid qc hidx hlen) hunf

theorem roots_reach (qc : QCode) (d : Nat) (evs : List Event)
    (hunf : seqOpt ((renderedRoots qc).reverse.map (brackets qc.Selects d)) = some evs) :
    (∀ ev ∈ evs, Reachable qc ev.sel) ∧
    (∀ s, Reachable qc s → Event.opened s ∈ evs ∧ Event.closed s ∈ evs) := by
  constructor
  · intro ev hev
    obtain ⟨a, ha, heva⟩ := seqOpt_mem _ evs hunf ev hev
    rw [List.mem_map] at ha
    obtain ⟨root, hroot, hr⟩ := ha
    exact ⟨root, List.mem_reverse.mp hroot, brackets_sound qc.Selects d root a hr ev heva⟩
  · rintro s ⟨root, hroot, hreach⟩
    have hmem : brackets qc.Selects d root ∈
        (renderedRoots qc).reverse.map (brackets qc.Selects d) :=
      List.mem_map_of_mem _ (List.mem_reverse.mpr hroot)
    obtain ⟨a, ha⟩ := seqOpt_all_some _ evs hunf _ hmem
    obtain ⟨ho, hc⟩ := brackets_complete qc.Selects root s hreach d a ha
    obtain ⟨pre, post, hsplit⟩ := seqOpt_split _ evs hunf a (ha ▸ hmem)
    subst hsplit
    exact ⟨by simp [ho], by simp [hc]⟩

theorem roots_segment (qc : QCode) (d : Nat) (evs : List Event)
    (hunf : seqOpt ((renderedRoots qc).reverse.map (brackets qc.Selects d)) = some evs)
    (s : Select) (hs : Event.opened s ∈ evs) :
    ∃ d2 pre mid post, evs = pre ++ (Event.opened s :: mid ++ [Event.closed s]) ++ post ∧
      brackets qc.Selects d2 s = some (Event.opened s :: mid ++ [Event.closed s]) := by
  obtain ⟨a, ha, hsa⟩ := seqOpt_mem _ evs hunf _ hs
  obtain ⟨A, B, hsplit⟩ := seqOpt_split _ evs hunf a ha
  rw [List.mem_map] at ha
  obtain ⟨root, _, hr⟩ := ha
  obtain ⟨d2, pre, mid, post, he, hb⟩ := brackets_segment qc.Selects d root a hr s hsa
  refine ⟨d2, A ++ pre, mid, post ++ B, ?_, hb⟩
  rw [hsplit, he]
  simp

theorem roots_wellNested (qc : QCode) (d : Nat) (evs : List Event)
    (hunf : seqOpt ((renderedRoots qc).reverse.map (brackets qc.Selects d)) = some evs) :
    WellNested evs ∧ (closedIds evs).Perm (openedIds evs) := by
  constructor
  · refine seqOpt_wellNested _ evs hunf ?_
    intro a ha
    rw [List.mem_map] at ha
    obtain ⟨s, _, hs⟩ := ha
    exact brackets_wellNested qc.Selects d s a hs
  · refine seqOpt_perm _ evs hunf ?_
    intro a ha
    rw [List.mem_map] at ha
    obtain ⟨s, _, hs⟩ := ha
    exact brackets_perm qc.Selects d s a hs

theorem mem_openedIds (evs : List Event) (s : Select) (h : Event.opened s ∈ evs) :
    s.ID ∈ openedIds evs := by
  unfold openedIds
  rw [List.mem_filterMap]
  exact ⟨Event.opened s, h, rfl⟩

/-- Claim C18: for every QCode in which each selection's id is its index in
`Selects` and below the close offset 500, the children of every selection index
the array, and the selections below the rendered roots form a finite forest under
`Children` (the unfolding `brackets` of every rendered root through the renderable
children is defined at some depth and opens no selection twice), the traversal
driver, started on the stack that `CompileQuery` builds, terminates within as many
iterations as there are events, with an empty stack, and its sequence of events
is the bracket sequence of the forest: it is well nested; every selection reached
from a rendered root through children with skip_render None receives exactly one
open event and, later, exactly one close event, with between the two exactly the
bracket sequences of its renderable children; and every event is of such a
selection.  `renderQuery` calls `renderOpen` and `renderClose` in this order of
events. -/
theorem C18_traversal_well_nested (qc : QCode) (d : Nat) (evs : List Event) (fuel : Nat)
    (hidx : ∀ (i : Nat) (s : Select), qc.Selects.get? i = some s → s.ID = (i : Int))
    (hlen : (qc.Selects.length : Int) ≤ closeBlock)
    (hch : ∀ s ∈ qc.Selects, ∀ cid ∈ s.Children, (selectAt qc.Selects cid).isSome = true)
    (hunf : seqOpt ((renderedRoots qc).reverse.map (brackets qc.Selects d)) = some evs)
    (hnodup : (openedIds evs).Nodup) (hfuel : evs.length ≤ fuel) :
    traverse qc.Selects fuel (rootStack qc) = some evs ∧
    (∀ (h : Helpers) (co : Compiler) (ef : Nat) (multi : Bool),
      renderQuery ⟨h, qc, co⟩ ef multi fuel (rootStack qc) =
        seqAll (evs.map (renderEvent ⟨h, qc, co⟩ ef multi))) ∧
    WellNested evs ∧
    (∀ s, Reachable qc s ↔ Event.opened s ∈ evs) ∧
    (∀ s, Reachable qc s ↔ Event.closed s ∈ evs) ∧
    (∀ s, Reachable qc s →
      (openedIds evs).count s.ID = 1 ∧ (closedIds evs).count s.ID = 1 ∧
      ∃ d2 pre mid post,
        evs = pre ++ (Event.opened s :: mid ++ [Event.closed s]) ++ post ∧
        brackets qc.Selects d2 s = some (Event.opened s :: mid ++ [Event.closed s])) ∧
    (∀ ev ∈ evs, Reachable qc ev.sel) := by
  have htr := traverse_mono qc.Selects evs.length fuel (rootStack qc) evs hfuel
    (roots_traverse qc d evs hidx hlen hch hunf)
  obtain ⟨hsound, hcomplete⟩ := roots_reach qc d evs hunf
  obtain ⟨hwn, hperm⟩ := roots_wellNested qc d evs hunf
  refine ⟨htr, ?_, hwn, ?_, ?_, ?_, hsound⟩
  · intro h co ef multi
    exact renderQuery_events ⟨h, qc, co⟩ ef multi fuel (rootStack qc) evs htr
  · intro s
    exact ⟨fun hr => (hcomplete s hr).1, fun hm => hsound _ hm⟩
  · intro s
    exact ⟨fun hr => (hcomplete s hr).2, fun hm => hsound _ hm⟩
  · intro s hr
    have ho := (hcomplete s hr).1
    have hmem := mem_openedIds evs s ho
    refine ⟨List.count_eq_one_of_mem hnodup hmem, ?_, roots_segment qc d evs hunf s ho⟩
    rw [hperm.count_eq]
    exact List.count_eq_one_of_mem hnodup hmem

theorem qcNested_index (i : Nat) (s : Select) (h : qcNested.Selects.get? i = some s) :
    s.ID = (i : Int) := by
  match i, h with
  | 0, h => injection h with h; subst h; rfl
  | 1, h => injection h with h; subst h; rfl
  | 2, h => injection h with h; subst h; rfl
  | _ + 3, h => cases h

theorem qcNested_children (s : Select) (hs : s ∈ qcNested.Selects) (cid : Int)
    (hc : cid ∈ s.Children) : (selectAt qcNested.Selects cid).isSome = true := by
  simp only [qcNested, List.mem_cons, List.mem_singleton, List.not_mem_nil, or_false] at hs
  rcases hs with rfl | rfl | rfl
  · simp only [usersNested, List.mem_cons, List.not_mem_nil, or_false] at hc
    rcases hc with rfl | rfl <;> rfl
  · cases hc
  · cases hc

/-- Claim C18, witness: the nested query `users { posts drafts }`: the events are
the open of `users`, the open and the close of `drafts`, the open and the close of
`posts`, and the close of `users`, in six iterations. -/
theorem C18_traversal_well_nested_witness :
    ((∀ (i : Nat) (s : Select), qcNested.Selects.get? i = some s → s.ID = (i : Int)) ∧
      (qcNested.Selects.length : Int) ≤ closeBlock ∧
      (∀ s ∈ qcNested.Selects, ∀ cid ∈ s.Children,
        (selectAt qcNested.Selects cid).isSome = true) ∧
      seqOpt ((renderedRoots qcNested).reverse.map (brackets qcNested.Selects 2)) =
        some [Event.opened usersNested, Event.opened draftsChild, Event.closed draftsChild,
          Event.opened postsChild, Event.closed postsChild, Event.closed usersNested] ∧
      (openedIds [Event.opened usersNested, Event.opened draftsChild, Event.closed draftsChild,
          Event.opened postsChild, Event.closed postsChild, Event.closed usersNested]).Nodup) ∧
    rootStack qcNested = [0, 500] ∧
    traverse qcNested.Selects 6 (rootStack qcNested) =
      some [Event.opened usersNested, Event.opened draftsChild, Event.closed draftsChild,
        Event.opened postsChild, Event.closed postsChild, Event.closed usersNested] :=
  ⟨⟨qcNested_index, by decide, qcNested_children, rfl, by decide⟩, rfl,
    (C18_traversal_well_nested qcNested 2
      [Event.opened usersNested, Event.opened draftsChild, Event.closed draftsChild,
        Event.opened postsChild, Event.closed postsChild, Event.closed usersNested] 6
      qcNested_index (by decide) qcNested_children rfl (by decide) (by decide)).1⟩

/-! ## Union selections (C17) -/

theorem seqAll_append (xs ys : List (M Unit)) :
    seqAll (xs ++ ys) = (seqAll xs >>= fun _ => seqAll ys) := by
  induction xs with
  | nil => simp only [List.nil_append, seqAll]; rw [pure_bind_eq]
  | cons x rest ih =>
    simp only [List.cons_append, seqAll, List.append_eq, ih]
    rw [bind_assoc_eq]

theorem renderOpen_union (c : compilerContext) (ef : Nat) (multi : Bool) (sel : Select)
    (hty : sel.Typ = SelType.SelTypeUnion) : renderOpen c ef multi sel = pure () := by
  unfold renderOpen
  simp [hty]

theorem renderClose_union (c : compilerContext) (multi : Bool) (sel : Select)
    (hty : sel.Typ = SelType.SelTypeUnion) : renderClose c multi sel = pure () := by
  unfold renderClose
  simp [hty]

/-- Claim C17: a Union selection emits no wrapper of its own.  For every selection
of type Union the open event and the close event append nothing to the output and
leave the metadata alone, while its renderable children are scheduled as for any
other selection: on the stack segment of the union (its id its index and below
500, its children indexing the array) the driver produces the open event of the
union, the events of its renderable children and the close event of the union,
and `renderQuery` writes exactly what the events of the children write, each child
that is not itself a union through its own `renderOpen` and `renderClose`. -/
theorem C17_union_no_wrapper (c : compilerContext) (ef : Nat) (multi : Bool) (sel : Select)
    (f : Nat) (inner : List Event) (st : IntStack)
    (hty : sel.Typ = SelType.SelTypeUnion)
    (hsel : selectAt c.qc.Selects sel.ID = some sel) (h0 : 0 ≤ sel.ID)
    (h1 : sel.ID < closeBlock)
    (hch : ∀ cid ∈ sel.Children, (selectAt c.qc.Selects cid).isSome = true)
    (hin : traverse c.qc.Selects f
      (((renderableChildren c.qc.Selects sel).reverse.map block).flatten) = some inner) :
    (∀ md, renderOpen c ef multi sel md = Res.ok ⟨(), md, ""⟩ ∧
      renderClose c multi sel md = Res.ok ⟨(), md, ""⟩) ∧
    pushSelChildren c.qc.Selects sel.Children st =
      some (((renderableChildren c.qc.Selects sel).reverse.map block).flatten ++ st) ∧
    traverse c.qc.Selects (f + 2) (block sel) =
      some (Event.opened sel :: inner ++ [Event.closed sel]) ∧
    renderQuery c ef multi (f + 2) (block sel) =
      seqAll (inner.map (renderEvent c ef multi)) := by
  have htr := traverse_block c.qc.Selects sel f inner hsel h0 h1 hch hin
  refine ⟨fun md => ⟨?_, ?_⟩, pushSelChildren_eq c.qc.Selects sel.Children hch st, htr, ?_⟩
  · rw [renderOpen_union c ef multi sel hty]; rfl
  · rw [renderClose_union c multi sel hty]; rfl
  · rw [renderQuery_events c ef multi (f + 2) (block sel) _ htr]
    have hmap : (Event.opened sel :: inner ++ [Event.closed sel]).map (renderEvent c ef multi) =
        renderOpen c ef multi sel ::
          (inner.map (renderEvent c ef multi) ++ [renderClose c multi sel]) := by
      simp [renderEvent]
    have hlast : seqAll [renderClose c multi sel] = pure () := by
      simp only [seqAll, renderClose_union c multi sel hty]
      rw [pure_bind_eq]
    rw [hmap]
    simp only [seqAll]
    rw [renderOpen_union c ef multi sel hty, pure_bind_eq, seqAll_append, hlast, bind_unit_pure]

/-- Claim C17, witness: the union `media` with the members `users` (id 1) and
`posts` (id 2): its stack segment yields the sub-select of `posts` and then that
of `users`, and nothing for the union itself. -/
theorem C17_union_no_wrapper_witness :
    (unionSel.Typ = SelType.SelTypeUnion ∧
      selectAt cUnion.qc.Selects unionSel.ID = some unionSel ∧ 0 ≤ unionSel.ID ∧
      unionSel.ID < closeBlock ∧
      (∀ cid ∈ unionSel.Children, (selectAt cUnion.qc.Selects cid).isSome = true) ∧
      traverse cUnion.qc.Selects 4
        (((renderableChildren cUnion.qc.Selects unionSel).reverse.map block).flatten) =
          some [Event.opened memberPosts, Event.closed memberPosts,
            Event.opened memberUsers, Event.closed memberUsers]) ∧
    renderQuery cUnion 4 true 6 (block unionSel) {} = Res.ok ⟨(), {},
      " LEFT OUTER JOIN LATERAL (SELECT COALESCE(jsonb_agg(__sj_2.json), '[]') AS json FROM (SELECT to_jsonb(__sr_2.*) AS json FROM (SELECT \"posts_2\".\"id\", \"posts_2\".\"title\" FROM (SELECT \"posts\".\"id\", \"posts\".\"title\" FROM \"posts\" LIMIT 20) \"posts_2\") \"__sr_2\") \"__sj_2\") \"__sj_2\" ON true LEFT OUTER JOIN LATERAL (SELECT COALESCE(jsonb_agg(__sj_1.json), '[]') AS json FROM (SELECT to_jsonb(__sr_1.*) AS json FROM (SELECT \"users_1\".\"id\", \"users_1\".\"name\" FROM (SELECT \"users\".\"id\", \"users\".\"name\" FROM \"users\" LIMIT 20) \"users_1\") \"__sr_1\") \"__sj_1\") \"__sj_1\" ON true"⟩ ∧
    renderQuery cUnion 4 true (4 + 2) (block unionSel) =
      seqAll ([Event.opened memberPosts, Event.closed memberPosts,
        Event.opened memberUsers, Event.closed memberUsers].map (renderEvent cUnion 4 true)) :=
  ⟨⟨rfl, rfl, by decide, by decide, by decide, rfl⟩, by decide!,
    (C17_union_no_wrapper cUnion 4 true unionSel 4
      [Event.opened memberPosts, Event.closed memberPosts,
        Event.opened memberUsers, Event.closed memberUsers] []
      rfl rfl (by decide) (by decide) (by decide) rfl).2.2.2⟩

/-! ## Dialect isolation (C16): occurrences across a boundary -/

theorem anySuffix_false_iff (f : List Char → Bool) (q : List Char) :
    anySuffix f q = false ↔ ∀ j, j < q.length → f (q.drop j) = false := by
  induction q with
  | nil => simp [anySuffix]
  | cons x q ih =>
    simp only [anySuffix, Bool.or_eq_false_iff, ih, List.length_cons]
    constructor
    · rintro ⟨h0, hs⟩ j hj
      cases j with
      | zero => simpa using h0
      | succ j => simpa using hs j (by omega)
    · intro h
      refine ⟨by simpa using h 0 (by omega), fun j hj => ?_⟩
      simpa using h (j + 1) (by omega)

theorem anySuffix_tail_false (f : List Char → Bool) (p : List Char)
    (h : anySuffix f p.tail = false) (k : Nat) (h0 : 0 < k) (hk : k < p.length) :
    f (p.drop k) = false := by
  rw [anySuffix_false_iff] at h
  have := h (k - 1) (by rw [List.length_tail]; omega)
  rw [← List.drop_one, List.drop_drop] at this
  have hk1 : 1 + (k - 1) = k := by omega
  rwa [hk1] at this

theorem endsOpen_false_iff (p s : List Char) :
    endsOpen p s = false ↔ ∀ k, 0 < k → k < p.length → ¬ (p.take k <:+ s) := by
  unfold endsOpen
  rw [anySuffix_false_iff]
  constructor
  · intro h k h0 hk hsuf
    obtain ⟨u, hu⟩ := hsuf
    have hlen : u.length < s.length := by
      have := congrArg List.length hu
      rw [List.length_append, List.length_take, Nat.min_eq_left (Nat.le_of_lt hk)] at this
      omega
    have hd : s.drop u.length = p.take k := by
      rw [← hu, List.drop_left]
    have := h u.length hlen
    rw [hd] at this
    have h1 : (p.take k).isPrefixOf p = true := by
      rw [List.isPrefixOf_iff_prefix]
      exact List.take_prefix _ _
    have h2 : p.isPrefixOf (p.take k) = false := by
      rw [Bool.eq_false_iff, Ne, List.isPrefixOf_iff_prefix]
      intro hp
      have := hp.length_le
      rw [List.length_take, Nat.min_eq_left (Nat.le_of_lt hk)] at this
      omega
    simp [h1, h2] at this
  · intro h j hj
    rw [Bool.eq_false_iff, Ne, Bool.and_eq_true, Bool.not_eq_true', List.isPrefixOf_iff_prefix]
    rintro ⟨h1, h2⟩
    have hpos : 0 < (s.drop j).length := by rw [List.length_drop]; omega
    have hle : (s.drop j).length ≤ p.length := h1.length_le
    have hlt : (s.drop j).length < p.length := by
      rcases Nat.lt_or_eq_of_le hle with hh | hh
      · exact hh
      · exfalso
        have heq := List.IsPrefix.eq_of_length h1 hh
        rw [Bool.eq_false_iff, Ne, List.isPrefixOf_iff_prefix] at h2
        apply h2
        rw [heq]
    apply h (s.drop j).length hpos hlt
    rw [← List.prefix_iff_eq_take.mp h1]
    exact List.drop_suffix _ _

theorem occurrences_append_zero (p a t : List Char) (ha : occurrences p a = 0)
    (ht : occurrences p t = 0)
    (hs : ∀ k, 0 < k → k < p.length → p.take k <:+ a → ¬ (p.drop k <+: t)) :
    occurrences p (a ++ t) = 0 := by
  induction a with
  | nil => simpa using ht
  | cons x rest ih =>
    simp only [occurrences, Nat.add_eq_zero_iff] at ha
    have hrest : occurrences p (rest ++ t) = 0 := by
      apply ih ha.2
      intro k h0 hk hsuf
      exact hs k h0 hk (List.IsSuffix.trans hsuf (List.suffix_cons x rest))
    have hnot : ¬ (p <+: x :: rest) := by
      intro hp
      have := ha.1
      rw [← List.isPrefixOf_iff_prefix] at hp
      simp [hp] at this
    have hpre : ¬ (p <+: x :: (rest ++ t)) := by
      intro hp
      have hA : (x :: rest) <+: (x :: rest) ++ t := List.prefix_append _ _
      rcases List.prefix_or_prefix_of_prefix hp hA with h1 | h1
      · exact hnot h1
      · have hlen : (x :: rest).length ≤ p.length := h1.length_le
        have hk : (x :: rest).length < p.length := by
          rcases Nat.lt_or_eq_of_le hlen with h | h
          · exact h
          · exact absurd (by rw [List.IsPrefix.eq_of_length h1 h]) hnot
        have htake : p.take (x :: rest).length = x :: rest :=
          (List.prefix_iff_eq_take.mp h1).symm
        apply hs (x :: rest).length (by simp) hk
        · rw [htake]
        · have hp2 : (x :: rest) ++ p.drop (x :: rest).length <+: (x :: rest) ++ t := by
            have := List.take_append_drop (x :: rest).length p
            rw [htake] at this
            rw [this]
            exact hp
          exact (List.prefix_append_right_inj _).mp hp2
    simp only [List.cons_append, occurrences, List.append_eq]
    rw [hrest]
    have : p.isPrefixOf (x :: (rest ++ t)) = false := by
      rw [Bool.eq_false_iff, Ne, List.isPrefixOf_iff_prefix]
      exact hpre
    simp [this]

theorem suffix_append_cases (u a t : List Char) (h : u <:+ a ++ t) :
    u <:+ t ∨ ∃ v, v ≠ [] ∧ u = v ++ t ∧ v <:+ a := by
  have ht : t <:+ a ++ t := List.suffix_append _ _
  rcases List.suffix_or_suffix_of_suffix h ht with h1 | h1
  · exact Or.inl h1
  · obtain ⟨v, hv⟩ := h1
    by_cases hve : v = []
    · left
      rw [← hv, hve]
      exact List.suffix_refl _
    · right
      refine ⟨v, hve, hv.symm, ?_⟩
      obtain ⟨w, hw⟩ := h
      rw [← hv, ← List.append_assoc] at hw
      have := List.append_cancel_right hw
      exact ⟨w, this⟩

theorem closedEnd_append (p a t : List Char)
    (ht : endsOpen p t = false)
    (hs : ∀ j, 0 < j → j < p.length → p.take j <:+ a → ¬ (t <+: p.drop j)) :
    endsOpen p (a ++ t) = false := by
  rw [endsOpen_false_iff] at ht ⊢
  intro k h0 hk hsuf
  rcases suffix_append_cases _ _ _ hsuf with h1 | ⟨v, hve, huv, hva⟩
  · exact ht k h0 hk h1
  · have hvlen : v.length + t.length = k := by
      have := congrArg List.length huv
      rw [List.length_append, List.length_take, Nat.min_eq_left (Nat.le_of_lt hk)] at this
      exact this.symm
    have hvpos : 0 < v.length := List.length_pos.mpr hve
    have hvp : v = p.take v.length := by
      have h2 : v <+: p.take k := ⟨t, huv.symm⟩
      have h3 : v <+: p := List.IsPrefix.trans h2 (List.take_prefix _ _)
      exact List.prefix_iff_eq_take.mp h3
    have hjl : v.length < p.length := by omega
    apply hs v.length hvpos hjl
    · rw [← hvp]
      exact hva
    · have h4 : p.take k = p.take v.length ++ (p.drop v.length).take t.length := by
        rw [← hvlen, List.take_add]
      rw [← hvp, huv] at h4
      have h5 := List.append_cancel_left h4
      rw [h5]
      exact List.take_prefix _ _

theorem inMode_weaken (p a : List Char) (z : Bool) (h : inMode p true a) : inMode p z a :=
  ⟨h.1, fun _ => h.2 rfl⟩

theorem inMode_nil (p : List Char) (z : Bool) : inMode p z [] := by
  refine ⟨rfl, fun _ => ?_⟩
  rw [endsOpen_false_iff]
  intro k h0 hk hs
  have := List.IsSuffix.length_le hs
  rw [List.length_take, Nat.min_eq_left (Nat.le_of_lt hk)] at this
  simp at this
  omega

/-- A piece without an occurrence, written after a closed text. -/
theorem inMode_var (p a v : List Char) (ha : inMode p true a) (hv : occurrences p v = 0) :
    inMode p false (a ++ v) := by
  refine ⟨occurrences_append_zero p a v ha.1 hv ?_, fun h => absurd h (by decide)⟩
  intro k h0 hk hsuf
  exact absurd hsuf ((endsOpen_false_iff p a).mp (ha.2 rfl) k h0 hk)

/-- A closed piece written after a closed text. -/
theorem inMode_closed (p a v : List Char) (ha : inMode p true a) (hv : inMode p true v) :
    inMode p true (a ++ v) := by
  have hno := (endsOpen_false_iff p a).mp (ha.2 rfl)
  refine ⟨occurrences_append_zero p a v ha.1 hv.1 ?_, fun _ => ?_⟩
  · intro k h0 hk hsuf
    exact absurd hsuf (hno k h0 hk)
  · apply closedEnd_append p a v (hv.2 rfl)
    intro j h0 hj hsuf
    exact absurd hsuf (hno j h0 hj)

/-- A literal piece that passes the checks takes mode `z1` to mode `z2`. -/
theorem inMode_piece (p a t : List Char) (z1 z2 : Bool) (ha : inMode p z1 a)
    (ht : pieceOK p z1 z2 t = true) : inMode p z2 (a ++ t) := by
  unfold pieceOK at ht
  simp only [Bool.and_eq_true, Bool.or_eq_true, beq_iff_eq, Bool.not_eq_true'] at ht
  obtain ⟨⟨h1, h2⟩, h3⟩ := ht
  refine ⟨occurrences_append_zero p a t ha.1 h1 ?_, fun hz => ?_⟩
  · intro k h0 hk hsuf hpre
    rcases h2 with h2 | h2
    · exact absurd hsuf ((endsOpen_false_iff p a).mp (ha.2 h2) k h0 hk)
    · have h := anySuffix_tail_false _ p h2 k h0 hk
      rw [← List.isPrefixOf_iff_prefix] at hpre
      exact absurd (hpre.symm.trans h) (by decide)
  · rcases h3 with h3 | h3
    · rw [hz] at h3
      exact absurd h3 (by decide)
    · apply closedEnd_append p a t h3.1
      intro j h0 hj hsuf hpre
      rcases h3.2 with h4 | h4
      · exact absurd hsuf ((endsOpen_false_iff p a).mp (ha.2 h4) j h0 hj)
      · have h := anySuffix_tail_false _ p h4 j h0 hj
        rw [← List.isPrefixOf_iff_prefix] at hpre
        exact absurd (hpre.symm.trans h) (by decide)

/-! ## Dialect isolation (C16): the rules of the two-mode judgement -/

theorem textOK_empty (toks : List String) (z : Bool) : textOK toks z "" :=
  fun p _ => inMode_nil p.data z

theorem textOK_weaken {toks : List String} {a : String} (z1 z2 : Bool)
    (hz : z2 = true → z1 = true) (h : textOK toks z1 a) : textOK toks z2 a := by
  intro p hp
  refine ⟨(h p hp).1, fun h2 => (h p hp).2 (hz h2)⟩

theorem flows_mono {α : Type} {toks : List String} {x : M α} {z1 z2 : Bool} (y1 y2 : Bool)
    (h1 : z1 = true → y1 = true) (h2 : y2 = true → z2 = true)
    (h : M.flows toks z1 x z2) : M.flows toks y1 x y2 :=
  fun md r hr a ha => textOK_weaken z2 y2 h2 (h md r hr a (textOK_weaken y1 z1 h1 ha))

theorem flows_pure {α : Type} (toks : List String) (z1 z2 : Bool) (v : α)
    (hz : z2 = true → z1 = true) : M.flows toks z1 (pure v : M α) z2 := by
  intro md r hr a ha
  rw [run_pure] at hr
  injection hr with hr
  rw [← hr]
  simp only [String.append_empty]
  exact textOK_weaken z1 z2 hz ha

theorem flows_bind {α β : Type} {toks : List String} {x : M α} {f : α → M β} {z1 z2 z3 : Bool}
    (hx : M.flows toks z1 x z2) (hf : ∀ v, M.flows toks z2 (f v) z3) :
    M.flows toks z1 (x >>= f) z3 := by
  intro md r h a ha
  rw [run_bind] at h
  cases hxm : x md with
  | ok r1 =>
    rw [hxm] at h
    simp only [] at h
    cases hfm : f r1.val r1.md with
    | ok r2 =>
      rw [hfm, shift_ok] at h
      injection h with h
      rw [← h]
      simp only []
      rw [← String.append_assoc]
      exact hf r1.val r1.md r2 hfm _ (hx md r1 hxm a ha)
    | panic => rw [hfm] at h; exact absurd h (by simp [Res.shift])
    | outOfFuel => rw [hfm] at h; exact absurd h (by simp [Res.shift])
  | panic => rw [hxm] at h; exact absurd h (by simp)
  | outOfFuel => rw [hxm] at h; exact absurd h (by simp)

theorem textOK_lit {toks : List String} {z1 : Bool} (z2 : Bool) (a s : String)
    (h : litOK toks z1 z2 s = true) (ha : textOK toks z1 a) : textOK toks z2 (a ++ s) := by
  intro p hp
  rw [String.data_append]
  unfold litOK at h
  rw [List.all_eq_true] at h
  exact inMode_piece p.data a.data s.data z1 z2 (ha p hp) (h p hp)

theorem textOK_var {toks : List String} (a s : String) (h : tokenFree toks s)
    (ha : textOK toks true a) : textOK toks false (a ++ s) := by
  intro p hp
  rw [String.data_append]
  exact inMode_var p.data a.data s.data (ha p hp) (h p hp)

theorem textOK_closed {toks : List String} (a s : String) (h : tokenFree toks s)
    (hc : closedEnd toks s) (ha : textOK toks true a) : textOK toks true (a ++ s) := by
  intro p hp
  rw [String.data_append]
  exact inMode_closed p.data a.data s.data (ha p hp) ⟨h p hp, fun _ => hc p hp⟩

theorem flows_lit {toks : List String} {z1 : Bool} (z2 : Bool) (s : String)
    (h : litOK toks z1 z2 s = true) : M.flows toks z1 (write s) z2 := by
  intro md r hr a ha
  rw [run_write] at hr
  injection hr with hr
  rw [← hr]
  exact textOK_lit z2 a s h ha

theorem flows_var {toks : List String} (s : String) (h : tokenFree toks s) :
    M.flows toks true (write s) false := by
  intro md r hr a ha
  rw [run_write] at hr
  injection hr with hr
  rw [← hr]
  exact textOK_var a s h ha

theorem flows_emit {toks : List String} (e : Emit) (h : ∀ md, tokenFree toks (e md).2) :
    M.flows toks true (emit e) false := by
  intro md r hr a ha
  rw [run_emit] at hr
  injection hr with hr
  rw [← hr]
  exact textOK_var a _ (h md) ha

theorem flows_emit_closed {toks : List String} (e : Emit) (h : ∀ md, tokenFree toks (e md).2)
    (hc : ∀ md, closedEnd toks (e md).2) : M.flows toks true (emit e) true := by
  intro md r hr a ha
  rw [run_emit] at hr
  injection hr with hr
  rw [← hr]
  exact textOK_closed a _ (h md) (hc md) ha

theorem flows_modify (toks : List String) (z : Bool) (g : Metadata → Metadata) :
    M.flows toks z (modifyMd g) z := by
  intro md r hr a ha
  have : r.text = "" := by
    unfold modifyMd at hr
    injection hr with hr
    rw [← hr]
  rw [this, String.append_empty]
  exact ha

theorem flows_panic {α : Type} (toks : List String) (z1 z2 : Bool) :
    M.flows toks z1 (panicM : M α) z2 :=
  fun _ _ hr => absurd hr (by simp [panicM])

theorem flows_outOfFuel {α : Type} (toks : List String) (z1 z2 : Bool) :
    M.flows toks z1 (outOfFuelM : M α) z2 :=
  fun _ _ hr => absurd hr (by simp [outOfFuelM])

/-- A loop whose every iteration keeps the mode `z`. -/
theorem flows_forRangeFrom {α : Type} {toks : List String} (z : Bool)
    (body : Nat → α → M Unit) (xs : List α)
    (h : ∀ i x, x ∈ xs → M.flows toks z (body i x) z) (i : Nat) :
    M.flows toks z (forRangeFrom body i xs) z := by
  induction xs generalizing i with
  | nil => exact flows_pure toks z z () (fun h => h)
  | cons x rest ih =>
    simp only [forRangeFrom]
    exact flows_bind (h i x (List.mem_cons_self _ _))
      (fun _ => ih (fun j y hy => h j y (List.mem_cons_of_mem _ hy)) (i + 1))

theorem flows_forRange {α : Type} {toks : List String} (z : Bool)
    (xs : List α) (body : Nat → α → M Unit)
    (h : ∀ i x, x ∈ xs → M.flows toks z (body i x) z) :
    M.flows toks z (forRange xs body) z :=
  flows_forRangeFrom z body xs h 0

/-- A loop entered on a closed text whose first iteration may start with a
variable piece and whose later iterations start with a separator. -/
theorem flows_forRange_first {α : Type} {toks : List String}
    (xs : List α) (body : Nat → α → M Unit)
    (h0 : ∀ x, x ∈ xs → M.flows toks true (body 0 x) false)
    (hs : ∀ i x, x ∈ xs → i ≠ 0 → M.flows toks false (body i x) false) :
    M.flows toks true (forRange xs body) false := by
  cases xs with
  | nil => exact flows_pure toks true false () (fun h => absurd h (by decide))
  | cons x rest =>
    simp only [forRange, forRangeFrom]
    refine flows_bind (h0 x (List.mem_cons_self _ _)) (fun _ => ?_)
    have h2 : ∀ (ys : List α) (i : Nat), (∀ y, y ∈ ys → y ∈ x :: rest) →
        M.flows toks false (forRangeFrom body (i + 1) ys) false := by
      intro ys
      induction ys with
      | nil => intro i _; exact flows_pure toks false false () (fun h => h)
      | cons y ys ih =>
        intro i hsub
        simp only [forRangeFrom]
        exact flows_bind (hs (i + 1) y (hsub y (List.mem_cons_self _ _)) (Nat.succ_ne_zero i))
          (fun _ => ih (i + 1) (fun w hw => hsub w (List.mem_cons_of_mem _ hw)))
    exact h2 rest 0 (fun y hy => List.mem_cons_of_mem _ hy)

theorem flows_pre {α : Type} {toks : List String} {x : M α} {z2 : Bool} (z1 : Bool)
    (h : M.flows toks false x z2) : M.flows toks z1 x z2 :=
  flows_mono z1 z2 (fun h => absurd h (by decide)) (fun h => h) h

/-- Sequencing with the mode in between given first. -/
theorem flows_join {α β : Type} {toks : List String} {x : M α} {f : α → M β} {z1 z3 : Bool}
    (z2 : Bool) (hx : M.flows toks z1 x z2) (hf : ∀ v, M.flows toks z2 (f v) z3) :
    M.flows toks z1 (x >>= f) z3 :=
  flows_bind hx hf

theorem tokenFree_def (toks : List String) (s : String) :
    tokenFree toks s ↔ ∀ p ∈ toks, occ p s = 0 := Iff.rfl

theorem closedEnd_def (toks : List String) (s : String) :
    closedEnd toks s ↔ ∀ p ∈ toks, endsOpen p.data s.data = false := Iff.rfl

attribute [irreducible] tokenFree closedEnd

set_option linter.unusedTactic false
set_option linter.unreachableTactic false

theorem flows_post {α : Type} {toks : List String} {x : M α} {z1 : Bool} (z2 : Bool)
    (h : M.flows toks z1 x true) : M.flows toks z1 x z2 :=
  flows_mono z1 z2 (fun h => h) (fun _ => rfl) h

/-! ## Dialect isolation (C16): the expression emitter

Each emitter gets a lemma `flows_<name>`: entered on a buffer in the first mode,
it leaves the buffer in the second mode, for the tokens of the dialect.  The
proofs walk the emitter piece by piece: a literal is checked by evaluation
(`flows_lit`), a variable text needs a closed buffer in front of it and the
hypothesis that no token occurs in it (`flows_var`, `flows_emit`), and a call
uses the lemma of the callee. -/

theorem forbidden_cases (ct : String) :
    (ct = "mysql" ∧ forbidden ct = mysqlForbidden) ∨
      (ct ≠ "mysql" ∧ forbidden ct = otherForbidden) := by
  by_cases h : ct = "mysql"
  · exact Or.inl ⟨h, by simp [forbidden, h]⟩
  · exact Or.inr ⟨h, by simp [forbidden, h]⟩

theorem ite_bne_zero {α : Type} (x y : α) :
    (if ((0 : Nat) != 0) = true then x else y) = y := by simp

theorem ite_bne_pos {α : Type} (i : Nat) (hi : i ≠ 0) (x y : α) :
    (if (i != 0) = true then x else y) = x := by simp [hi]

theorem flows_renderList (toks : List String) (ct : String) (ex : Exp)
    (ht : toks = forbidden ct) (hlv : ∀ v ∈ ex.ListVal, tokenFree toks v) :
    M.flows toks false (renderList ex) true := by
  rcases forbidden_cases ct with ⟨_, hf⟩ | ⟨_, hf⟩ <;> rw [hf] at ht <;> subst ht <;>
  simp only [renderList, bind_assoc_eq, pure_bind_eq] <;>
  refine flows_bind (flows_lit true _ (by decide!)) (fun _ => ?_) <;>
  refine flows_join false (flows_forRange_first _ _ (fun v hv => ?_) (fun i v hv hi => ?_))
    (fun _ => ?_)
  all_goals first
    | rw [ite_bne_zero]
    | rw [ite_bne_pos _ hi]
    | skip
  all_goals
    repeat' (first
      | exact flows_pure _ _ _ _ (by decide)
      | refine flows_bind (flows_var _ (by first | assumption | exact hlv _ hv)) (fun _ => ?_)
      | refine flows_bind (flows_emit _ (by first | assumption | exact hlv _ hv)) (fun _ => ?_)
      | exact flows_var _ (by first | assumption | exact hlv _ hv)
      | exact flows_emit _ (by first | assumption | exact hlv _ hv)
      | refine flows_bind (flows_lit true _ (by decide!)) (fun _ => ?_)
      | refine flows_bind (flows_lit false _ (by decide!)) (fun _ => ?_)
      | exact flows_lit _ _ (by decide!)
      | simp only [bind_assoc_eq, pure_bind_eq]
      | split)

theorem flows_renderValPrefix (toks : List String) (c : compilerContext) (ti : TInfo)
    (ex : Exp) (ht : toks = forbidden c.ct) (hq : QuietQuery toks c)
    (ho : QuietOp toks c ti ex) :
    M.flows toks true (renderValPrefix c ti ex) true := by
  have hpar := hq.param
  have hcol := ho.col
  rcases forbidden_cases c.ct with ⟨hct, hf⟩ | ⟨hct, hf⟩ <;> rw [hf] at ht <;> subst ht <;>
  simp only [renderValPrefix, renderValVarPrefix, hct, if_true, if_false, bind_assoc_eq,
    pure_bind_eq] <;>
  repeat' (first
    | exact flows_pure _ _ _ _ (by decide)
    | refine flows_bind (flows_var _ (by first | assumption | exact hpar _ | exact hcol)) (fun _ => ?_)
    | refine flows_bind (flows_emit _ (by first | assumption | exact hpar _ | exact hcol)) (fun _ => ?_)
    | exact flows_var _ (by first | assumption | exact hpar _ | exact hcol)
    | exact flows_emit _ (by first | assumption | exact hpar _ | exact hcol)
    | refine flows_bind (flows_lit true _ (by decide!)) (fun _ => ?_)
    | refine flows_bind (flows_lit false _ (by decide!)) (fun _ => ?_)
    | exact flows_lit _ _ (by decide!)
    | simp only [bind_assoc_eq, pure_bind_eq]
    | split)

theorem flows_renderValVar (toks : List String) (c : compilerContext) (ti : TInfo)
    (ex : Exp) (ht : toks = forbidden c.ct) (hq : QuietQuery toks c)
    (ho : QuietOp toks c ti ex) (hty : tokenFree toks ex.Col.Typ)
    (hin : c.ct = "mysql" → ¬ (ex.Op = ExpOp.OpIn ∨ ex.Op = ExpOp.OpNotIn)) :
    M.flows toks true (renderValVar c ti ex) false := by
  have hpar := hq.param
  rcases forbidden_cases c.ct with ⟨hct, hf⟩ | ⟨hct, hf⟩
  · rw [hf] at ht
    subst ht
    have hno := hin hct
    simp only [renderValVar, hno, if_false, bind_assoc_eq, pure_bind_eq]
    repeat' (first
      | exact flows_pure _ _ _ _ (by decide)
      | refine flows_bind (flows_var _ (by first | assumption | exact hpar _ | exact ho.staticVar _ (by assumption) | exact ho.staticSql _ (by assumption))) (fun _ => ?_)
      | refine flows_bind (flows_emit _ (by first | assumption | exact hpar _ | exact ho.staticVar _ (by assumption) | exact ho.staticSql _ (by assumption))) (fun _ => ?_)
      | exact flows_var _ (by first | assumption | exact hpar _ | exact ho.staticVar _ (by assumption) | exact ho.staticSql _ (by assumption))
      | exact flows_emit _ (by first | assumption | exact hpar _ | exact ho.staticVar _ (by assumption) | exact ho.staticSql _ (by assumption))
      | refine flows_bind (flows_lit true _ (by decide!)) (fun _ => ?_)
      | refine flows_bind (flows_lit false _ (by decide!)) (fun _ => ?_)
      | exact flows_lit _ _ (by decide!)
      | simp only [bind_assoc_eq, pure_bind_eq]
      | split)
  · rw [hf] at ht
    subst ht
    simp only [renderValVar, bind_assoc_eq, pure_bind_eq]
    repeat' (first
      | exact flows_pure _ _ _ _ (by decide)
      | refine flows_bind (flows_var _ (by first | assumption | exact hpar _ | exact hty | exact ho.staticVar _ (by assumption) | exact ho.staticSql _ (by assumption))) (fun _ => ?_)
      | refine flows_bind (flows_emit _ (by first | assumption | exact hpar _ | exact hty | exact ho.staticVar _ (by assumption) | exact ho.staticSql _ (by assumption))) (fun _ => ?_)
      | exact flows_var _ (by first | assumption | exact hpar _ | exact hty | exact ho.staticVar _ (by assumption) | exact ho.staticSql _ (by assumption))
      | exact flows_emit _ (by first | assumption | exact hpar _ | exact hty | exact ho.staticVar _ (by assumption) | exact ho.staticSql _ (by assumption))
      | refine flows_bind (flows_lit true _ (by decide!)) (fun _ => ?_)
      | refine flows_bind (flows_lit false _ (by decide!)) (fun _ => ?_)
      | exact flows_lit _ _ (by decide!)
      | simp only [bind_assoc_eq, pure_bind_eq]
      | split)

theorem flows_renderVal (toks : List String) (c : compilerContext) (ti : TInfo)
    (ex : Exp) (ht : toks = forbidden c.ct) (hq : QuietQuery toks c)
    (ho : QuietOp toks c ti ex) (hty : tokenFree toks ex.Col.Typ)
    (hin : c.ct = "mysql" → ex.Typ = ValType.ValVar →
      ¬ (ex.Op = ExpOp.OpIn ∨ ex.Op = ExpOp.OpNotIn)) :
    M.flows toks true (renderVal c ti ex) false := by
  have h1 := ho.refCol
  have h2 := ho.literal
  unfold renderVal
  split
  · exact flows_renderValVar toks c ti ex ht hq ho hty (fun h => hin h (by assumption))
  · exact flows_var _ h1
  · exact flows_var _ h2

theorem flows_renderOpSwitch (toks : List String) (c : compilerContext) (ti : TInfo)
    (ex : Exp) (ht : toks = forbidden c.ct) (hq : QuietQuery toks c)
    (ho : QuietOp toks c ti ex) :
    M.flows toks true (renderOpSwitch c ti ex) true := by
  have hpar := hq.param
  have hft := ho.fullText
  rcases forbidden_cases c.ct with ⟨hct, hf⟩ | ⟨hct, hf⟩ <;> rw [hf] at ht <;> subst ht <;>
  simp only [renderOpSwitch, hct, if_true, if_false, bind_assoc_eq, pure_bind_eq] <;>
  split
  all_goals first
    | refine flows_bind (flows_lit true _ (by decide!)) (fun _ => ?_)
    | skip
  all_goals first
    | exact flows_pure _ _ _ _ (by decide)
    | refine flows_join false (flows_forRange_first _ _ (fun col hcol => ?_)
        (fun i col hcol hi => ?_)) (fun _ => ?_)
    | refine flows_join true (flows_forRange true _ _ (fun i col hcol => ?_)) (fun _ => ?_)
    | skip
  all_goals first
    | rw [ite_bne_zero]
    | rw [ite_bne_pos _ hi]
    | skip
  all_goals
    repeat' (first
      | exact flows_pure _ _ _ _ (by decide)
      | refine flows_bind (flows_var _ (by first | assumption | exact hpar _ | exact hft _ hcol)) (fun _ => ?_)
      | refine flows_bind (flows_emit _ (by first | assumption | exact hpar _ | exact hft _ hcol)) (fun _ => ?_)
      | exact flows_var _ (by first | assumption | exact hpar _ | exact hft _ hcol)
      | exact flows_emit _ (by first | assumption | exact hpar _ | exact hft _ hcol)
      | refine flows_bind (flows_lit true _ (by decide!)) (fun _ => ?_)
      | refine flows_bind (flows_lit false _ (by decide!)) (fun _ => ?_)
      | exact flows_lit _ _ (by decide!)
      | simp only [bind_assoc_eq, pure_bind_eq]
      | split)

theorem renderOp_json_contains (c : compilerContext) (schema : DBSchema) (ti : TInfo)
    (ex : Exp) (hct : c.ct = "mysql") (hty : ex.Typ = ValType.ValVar)
    (hop : ex.Op = ExpOp.OpIn ∨ ex.Op = ExpOp.OpNotIn) :
    renderOp c schema ti ex = (do
      write "JSON_CONTAINS("
      emit (c.h.renderParam { Name := ex.Val, Typ := ex.Col.Typ, IsArray := true })
      write ", CAST("
      write (c.h.colWithTable ti.Name ex.Col.Name)
      write " AS JSON), '$')") := by
  have hnop : ex.Op ≠ ExpOp.OpNop := by
    rcases hop with h | h <;> simp [h]
  unfold renderOp renderValPrefix renderValVarPrefix
  simp only [if_neg hnop, if_pos hty, if_pos hop, if_pos hct, bind_assoc_eq, pure_bind_eq,
    if_true, bind_unit_pure]

theorem flows_renderOp (toks : List String) (c : compilerContext) (schema : DBSchema)
    (ti : TInfo) (ex : Exp) (ht : toks = forbidden c.ct) (hq : QuietQuery toks c)
    (ho : QuietOp toks c ti ex) (hty : tokenFree toks ex.Col.Typ)
    (hlv : ∀ v ∈ ex.ListVal, tokenFree toks v) :
    M.flows toks true (renderOp c schema ti ex) true := by
  have hpar := hq.param
  have hcol := ho.col
  have href := ho.refCol
  by_cases hpre : c.ct = "mysql" ∧ ex.Typ = ValType.ValVar ∧
      (ex.Op = ExpOp.OpIn ∨ ex.Op = ExpOp.OpNotIn)
  · rw [renderOp_json_contains c schema ti ex hpre.1 hpre.2.1 hpre.2.2]
    have hf : forbidden c.ct = mysqlForbidden := by simp [forbidden, hpre.1]
    rw [hf] at ht
    subst ht
    repeat' (first
      | exact flows_pure _ _ _ _ (by decide)
      | refine flows_bind (flows_var _ (by first | assumption | exact hpar _ | exact hcol)) (fun _ => ?_)
      | refine flows_bind (flows_emit _ (by first | assumption | exact hpar _ | exact hcol)) (fun _ => ?_)
      | exact flows_var _ (by first | assumption | exact hpar _ | exact hcol)
      | exact flows_emit _ (by first | assumption | exact hpar _ | exact hcol)
      | refine flows_bind (flows_lit true _ (by decide!)) (fun _ => ?_)
      | refine flows_bind (flows_lit false _ (by decide!)) (fun _ => ?_)
      | exact flows_lit _ _ (by decide!)
      | simp only [bind_assoc_eq, pure_bind_eq]
      | split)
  · have hval := flows_renderVal toks c ti ex ht hq ho hty (fun h1 h2 h3 => hpre ⟨h1, h2, h3⟩)
    have hlist := flows_renderList toks c.ct ex ht hlv
    have hpfx := flows_renderValPrefix toks c ti ex ht hq ho
    have hsw := flows_renderOpSwitch toks c ti ex ht hq ho
    rcases forbidden_cases c.ct with ⟨hct, hf⟩ | ⟨hct, hf⟩ <;> rw [hf] at ht <;> subst ht <;>
    simp only [renderOp, bind_assoc_eq, pure_bind_eq] <;>
    split <;>
    first
      | exact flows_pure _ _ _ _ (by decide)
      | (refine flows_bind hpfx (fun done => ?_)
         split
         · exact flows_pure _ _ _ _ (by decide)
         · refine flows_join true ?_ (fun _ => ?_)
           · repeat' (first
               | exact flows_pure _ _ _ _ (by decide)
               | refine flows_bind (flows_var _ (by first | assumption | exact hcol | exact href)) (fun _ => ?_)
               | refine flows_bind (flows_emit _ (by first | assumption | exact hcol | exact href)) (fun _ => ?_)
               | exact flows_var _ (by first | assumption | exact hcol | exact href)
               | exact flows_emit _ (by first | assumption | exact hcol | exact href)
               | refine flows_bind (flows_lit true _ (by decide!)) (fun _ => ?_)
               | refine flows_bind (flows_lit false _ (by decide!)) (fun _ => ?_)
               | exact flows_lit _ _ (by decide!)
               | simp only [bind_assoc_eq, pure_bind_eq]
               | split)
           · refine flows_bind hsw (fun returned => ?_)
             repeat' (first
               | exact flows_pure _ _ _ _ (by decide)
               | refine flows_bind (flows_var _ (by first | assumption)) (fun _ => ?_)
               | refine flows_bind (flows_emit _ (by first | assumption)) (fun _ => ?_)
               | exact flows_var _ (by first | assumption)
               | exact flows_emit _ (by first | assumption)
               | refine flows_bind (hlist) (fun _ => ?_)
               | refine flows_bind (flows_pre _ (hlist)) (fun _ => ?_)
               | exact flows_mono _ _ (by decide) (by decide) (hlist)
               | refine flows_bind (hval) (fun _ => ?_)
               | refine flows_bind (flows_pre _ (hval)) (fun _ => ?_)
               | exact flows_mono _ _ (by decide) (by decide) (hval)
               | refine flows_bind (flows_lit true _ (by decide!)) (fun _ => ?_)
               | refine flows_bind (flows_lit false _ (by decide!)) (fun _ => ?_)
               | exact flows_lit _ _ (by decide!)
               | simp only [bind_assoc_eq, pure_bind_eq]
               | split))

theorem flows_renderJoin (toks : List String) (c : compilerContext) (rel : DBRel) (pid : Int)
    (ht : toks = forbidden c.ct) (hname : tokenFree toks rel.Left.Ti.Name)
    (hrel : ∀ md, tokenFree toks (c.h.renderRel rel.Left.Ti rel pid [] md).2) :
    M.flows toks false (renderJoin c rel pid) true := by
  rcases forbidden_cases c.ct with ⟨hct, hf⟩ | ⟨hct, hf⟩ <;> rw [hf] at ht <;> subst ht <;>
  simp only [renderJoin, bind_assoc_eq, pure_bind_eq] <;>
  repeat' (first
    | exact flows_pure _ _ _ _ (by decide)
    | refine flows_bind (flows_var _ (by first | assumption | exact hname | exact hrel)) (fun _ => ?_)
    | refine flows_bind (flows_emit _ (by first | assumption | exact hname | exact hrel)) (fun _ => ?_)
    | exact flows_var _ (by first | assumption | exact hname | exact hrel)
    | exact flows_emit _ (by first | assumption | exact hname | exact hrel)
    | refine flows_bind (flows_lit true _ (by decide!)) (fun _ => ?_)
    | refine flows_bind (flows_lit false _ (by decide!)) (fun _ => ?_)
    | exact flows_lit _ _ (by decide!)
    | simp only [bind_assoc_eq, pure_bind_eq]
    | split)

theorem mem_middleRels (rels : List DBRel) (rel : DBRel) (h : rel ∈ middleRels rels) :
    rel ∈ rels :=
  List.mem_of_mem_tail (List.mem_of_mem_dropLast h)

theorem getLastD_mem_cons (rest : List DBRel) :
    ∀ first : DBRel, rest.getLastD first ∈ first :: rest := by
  induction rest with
  | nil => intro first; simp
  | cons r rest2 ih =>
    intro first
    rw [List.getLastD_cons]
    exact List.mem_cons_of_mem _ (ih r)

theorem flows_renderNestedWhere (toks : List String) (c : compilerContext)
    (rec : TInfo → Exp → M Unit) (ti : TInfo) (ex : Exp) (ht : toks = forbidden c.ct)
    (hl : QuietLeaf toks c ti ex)
    (hrec : ∀ rel ∈ ex.Rels, M.flows toks true (rec rel.Left.Ti ex) true) :
    M.flows toks true (renderNestedWhere c rec ti ex) true := by
  cases hrels : ex.Rels with
  | nil =>
    unfold renderNestedWhere
    rw [hrels]
    exact flows_panic _ _ _
  | cons first rest =>
    rw [renderNestedWhere_eq c rec ti ex first rest hrels]
    have hfirst : first ∈ ex.Rels := by rw [hrels]; exact List.mem_cons_self _ _
    have hlast : rest.getLastD first ∈ ex.Rels := by
      rw [hrels]; exact getLastD_mem_cons rest first
    have h1 := (hl.rels first hfirst).leftCol.table
    have h2 := hl.relOuter first hfirst
    have hloop : M.flows toks false
        (forRange (middleRels ex.Rels) (fun _ rel => renderJoin c rel (-1))) false :=
      flows_forRange false _ _ (fun _ rel hrel => flows_post false
        (flows_renderJoin toks c rel (-1) ht
          (hl.rels rel (mem_middleRels _ _ hrel)).leftTi.name
          (hl.relJoin rel (mem_middleRels _ _ hrel))))
    have hr := hrec _ hlast
    rcases forbidden_cases c.ct with ⟨hct, hf⟩ | ⟨hct, hf⟩ <;> rw [hf] at ht <;> subst ht
    all_goals
      repeat' (first
        | exact flows_pure _ _ _ _ (by decide)
        | refine flows_bind (flows_var _ (by first | assumption | exact h1 | exact h2)) (fun _ => ?_)
        | refine flows_bind (flows_emit _ (by first | assumption | exact h1 | exact h2)) (fun _ => ?_)
        | exact flows_var _ (by first | assumption | exact h1 | exact h2)
        | exact flows_emit _ (by first | assumption | exact h1 | exact h2)
        | refine flows_bind (hloop) (fun _ => ?_)
        | refine flows_bind (flows_pre _ (hloop)) (fun _ => ?_)
        | exact flows_mono _ _ (by decide) (by decide) (hloop)
        | refine flows_bind (hr) (fun _ => ?_)
        | refine flows_bind (flows_pre _ (hr)) (fun _ => ?_)
        | exact flows_mono _ _ (by decide) (by decide) (hr)
        | refine flows_bind (flows_lit true _ (by decide!)) (fun _ => ?_)
        | refine flows_bind (flows_lit false _ (by decide!)) (fun _ => ?_)
        | exact flows_lit _ _ (by decide!)
        | simp only [bind_assoc_eq, pure_bind_eq]
        | split)

theorem flows_frameChr (toks : List String) (ct : String) (v : Char)
    (ht : toks = forbidden ct) :
    M.flows toks true
      (if v = '(' then write "(" else if v = ')' then write ")" else pure ()) true := by
  rcases forbidden_cases ct with ⟨_, hf⟩ | ⟨_, hf⟩ <;> rw [hf] at ht <;> subst ht <;>
  repeat' (first
    | exact flows_pure _ _ _ _ (by decide)
    | refine flows_bind (flows_var _ (by first | assumption)) (fun _ => ?_)
    | refine flows_bind (flows_emit _ (by first | assumption)) (fun _ => ?_)
    | exact flows_var _ (by first | assumption)
    | exact flows_emit _ (by first | assumption)
    | refine flows_bind (flows_lit true _ (by decide!)) (fun _ => ?_)
    | refine flows_bind (flows_lit false _ (by decide!)) (fun _ => ?_)
    | exact flows_lit _ _ (by decide!)
    | simp only [bind_assoc_eq, pure_bind_eq]
    | split)

theorem flows_frameOp (toks : List String) (ct : String) (v : ExpOp)
    (ht : toks = forbidden ct) :
    M.flows toks true
      (match v with
        | ExpOp.OpAnd => write " AND "
        | ExpOp.OpOr => write " OR "
        | ExpOp.OpNot => write "NOT "
        | ExpOp.OpFalse => write "false"
        | _ => pure ()) true := by
  rcases forbidden_cases ct with ⟨_, hf⟩ | ⟨_, hf⟩ <;> rw [hf] at ht <;> subst ht <;>
  repeat' (first
    | exact flows_pure _ _ _ _ (by decide)
    | refine flows_bind (flows_var _ (by first | assumption)) (fun _ => ?_)
    | refine flows_bind (flows_emit _ (by first | assumption)) (fun _ => ?_)
    | exact flows_var _ (by first | assumption)
    | exact flows_emit _ (by first | assumption)
    | refine flows_bind (flows_lit true _ (by decide!)) (fun _ => ?_)
    | refine flows_bind (flows_lit false _ (by decide!)) (fun _ => ?_)
    | exact flows_lit _ _ (by decide!)
    | simp only [bind_assoc_eq, pure_bind_eq]
    | split)

theorem leaves_node (n : ExpNode) (cs : List Exp) :
    leaves (Exp.node n cs) =
      match n.Op with
      | ExpOp.OpAnd => leavesAll cs
      | ExpOp.OpOr => leavesAll cs
      | ExpOp.OpNot =>
        match cs with
        | [] => []
        | child :: _ => leaves child
      | ExpOp.OpFalse => []
      | _ => [Exp.node n cs] := by
  obtain ⟨op, col, val, typ, lt, lv, rels, tbl⟩ := n
  cases op <;> first | rfl | (cases cs <;> rfl)

theorem leaves_group (ex : Exp) (hop : ex.Op = ExpOp.OpAnd ∨ ex.Op = ExpOp.OpOr) :
    leaves ex = leavesAll ex.Children := by
  cases ex with
  | node n cs =>
    rw [leaves_node]
    have h : n.Op = ExpOp.OpAnd ∨ n.Op = ExpOp.OpOr := hop
    rcases h with h | h <;> rw [h] <;> rfl

theorem leaves_not (ex child : Exp) (rest : List Exp) (hop : ex.Op = ExpOp.OpNot)
    (hcs : ex.Children = child :: rest) : leaves ex = leaves child := by
  cases ex with
  | node n cs =>
    rw [leaves_node]
    have h : n.Op = ExpOp.OpNot := hop
    have h2 : cs = child :: rest := hcs
    rw [h, h2]

theorem leaves_leaf (ex : Exp) (h1 : ex.Op ≠ ExpOp.OpFalse) (h2 : ex.Op ≠ ExpOp.OpAnd)
    (h3 : ex.Op ≠ ExpOp.OpOr) (h4 : ex.Op ≠ ExpOp.OpNot) : leaves ex = [ex] := by
  cases ex with
  | node n cs =>
    rw [leaves_node]
    have g1 : n.Op ≠ ExpOp.OpFalse := h1
    have g2 : n.Op ≠ ExpOp.OpAnd := h2
    have g3 : n.Op ≠ ExpOp.OpOr := h3
    have g4 : n.Op ≠ ExpOp.OpNot := h4
    split <;> first | rfl | contradiction

theorem mem_leavesAll (cs : List Exp) (e l : Exp) (he : e ∈ cs) (hl : l ∈ leaves e) :
    l ∈ leavesAll cs := by
  induction cs with
  | nil => cases he
  | cons x rest ih =>
    rw [leavesAll]
    rcases List.mem_cons.mp he with h | h
    · subst h
      exact List.mem_append_left _ hl
    · exact List.mem_append_right _ (ih h)

theorem exp_mem_interleave (op : ExpOp) (cs : List Exp) (e : Exp)
    (h : Frame.exp e ∈ interleave op cs) : e ∈ cs := by
  induction cs with
  | nil => simp [interleave] at h
  | cons x rest ih =>
    cases rest with
    | nil =>
      simp only [interleave, List.mem_singleton] at h
      injection h with h
      rw [h]
      exact List.mem_cons_self _ _
    | cons y rest2 =>
      simp only [interleave, List.mem_cons] at h
      rcases h with h | h | h
      · injection h with h
        rw [h]
        exact List.mem_cons_self _ _
      · cases h
      · exact List.mem_cons_of_mem _ (ih h)

theorem flows_renderExpLoop (toks : List String) (c : compilerContext) (schema : DBSchema)
    (ht : toks = forbidden c.ct) (hq : QuietQuery toks c) :
    ∀ (fuel : Nat) (ti : TInfo) (sn : Bool) (st : List Frame),
      (∀ ex, Frame.exp ex ∈ st → ∀ l ∈ leaves ex, LeafQuiet toks c sn ti l) →
      M.flows toks true (renderExpLoop c schema fuel ti sn st) true := by
  intro fuel
  induction fuel with
  | zero =>
    intro ti sn st _
    cases st with
    | nil => rw [renderExpLoop_nil]; exact flows_pure _ _ _ _ (fun h => h)
    | cons f st => exact flows_outOfFuel _ _ _
  | succ n ih =>
    intro ti sn st hst
    cases st with
    | nil => rw [renderExpLoop_nil]; exact flows_pure _ _ _ _ (fun h => h)
    | cons f st =>
      have hrest : ∀ ex, Frame.exp ex ∈ st → ∀ l ∈ leaves ex, LeafQuiet toks c sn ti l :=
        fun ex h => hst ex (List.mem_cons_of_mem _ h)
      cases f with
      | chr v =>
        simp only [renderExpLoop]
        exact flows_join true (flows_frameChr toks c.ct v ht) (fun _ => ih ti sn st hrest)
      | op v =>
        simp only [renderExpLoop]
        exact flows_join true (flows_frameOp toks c.ct v ht) (fun _ => ih ti sn st hrest)
      | exp val =>
        have hval := hst val (List.mem_cons_self _ _)
        have hgroup : ∀ op, (val.Op = ExpOp.OpAnd ∨ val.Op = ExpOp.OpOr) →
            ∀ ex, Frame.exp ex ∈ Frame.chr '(' ::
              (interleave op val.Children ++ Frame.chr ')' :: st) →
            ∀ l ∈ leaves ex, LeafQuiet toks c sn ti l := by
          intro op hop ex hmem l hl
          rcases List.mem_cons.mp hmem with h | h
          · cases h
          · rcases List.mem_append.mp h with h | h
            · apply hval
              rw [leaves_group val hop]
              exact mem_leavesAll _ ex l (exp_mem_interleave _ _ _ h) hl
            · rcases List.mem_cons.mp h with h | h
              · cases h
              · exact hrest ex h l hl
        simp only [renderExpLoop]
        split
        next hop =>
          apply ih
          intro ex hmem
          rcases List.mem_cons.mp hmem with h | h
          · cases h
          · exact hrest ex h
        next hop =>
          rw [pushChildren_reverse]
          exact ih ti sn _ (hgroup _ (Or.inl hop))
        next hop =>
          rw [pushChildren_reverse]
          exact ih ti sn _ (hgroup _ (Or.inr hop))
        next hop =>
          split
          next => exact flows_panic _ _ _
          next child rest hcs =>
            apply ih
            intro ex hmem l hl
            rcases List.mem_cons.mp hmem with h | h
            · cases h
            · rcases List.mem_cons.mp h with h | h
              · injection h with h
                subst h
                apply hval
                rw [leaves_not val ex rest hop hcs]
                exact hl
              · exact hrest ex h l hl
        next h1 h2 h3 h4 =>
          have hleaf : leaves val = [val] := leaves_leaf val h1 h2 h3 h4
          have hlq : LeafQuiet toks c sn ti val := by
            apply hval
            rw [hleaf]
            exact List.mem_singleton_self _
          refine flows_join true ?_ (fun _ => ih ti sn st hrest)
          split
          next hcond =>
            have hsn : sn = false := by
              cases sn
              · rfl
              · simp at hcond
            have hl := hlq.2 hsn
            apply flows_renderNestedWhere toks c _ ti val ht hl
            intro rel hrel
            apply ih
            intro ex hmem l hlm
            rcases List.mem_cons.mp hmem with h | h
            · injection h with h
              subst h
              rw [hleaf] at hlm
              rw [List.mem_singleton.mp hlm]
              exact ⟨fun _ => ⟨hl.relOp rel hrel, hl.col.typ, hl.listVal⟩,
                fun h => absurd h (by decide)⟩
            · cases h
          next hcond =>
            by_cases hsn : sn = true
            · obtain ⟨ho, hty, hlv⟩ := hlq.1 hsn
              exact flows_renderOp toks c schema ti val ht hq ho hty hlv
            · have hsn2 : sn = false := by
                cases sn
                · rfl
                · exact absurd rfl hsn
              have hl := hlq.2 hsn2
              exact flows_renderOp toks c schema ti val ht hq hl.op hl.col.typ hl.listVal

theorem flows_renderExp (toks : List String) (c : compilerContext) (fuel : Nat)
    (schema : DBSchema) (ti : TInfo) (ex : Exp) (ht : toks = forbidden c.ct)
    (hq : QuietQuery toks c) (hl : ∀ l ∈ leaves ex, QuietLeaf toks c ti l) :
    M.flows toks true (renderExp c fuel schema ti ex false) true := by
  unfold renderExp
  apply flows_renderExpLoop toks c schema ht hq
  intro e hmem l hlm
  rcases List.mem_cons.mp hmem with h | h
  · injection h with h
    subst h
    exact ⟨fun h => absurd h (by decide), fun _ => hl l hlm⟩
  · cases h

/-! ## Dialect isolation (C16): the select emitter -/

theorem flows_renderPluralSelect (toks : List String) (c : compilerContext) (sel : Select)
    (ht : toks = forbidden c.ct) (hq : QuietQuery toks c) :
    M.flows toks true (renderPluralSelect c sel) true := by
  have hint := hq.int32
  rcases forbidden_cases c.ct with ⟨hct, hf⟩ | ⟨hct, hf⟩ <;> rw [hf] at ht <;> subst ht <;>
  simp only [renderPluralSelect, hct, if_true, if_false, bind_assoc_eq, pure_bind_eq] <;>
  repeat' (first
    | exact flows_pure _ _ _ _ (by decide)
    | exact flows_panic _ _ _
    | refine flows_bind (flows_var _ (by first | assumption | exact hint _)) (fun _ => ?_)
    | refine flows_bind (flows_emit _ (by first | assumption | exact hint _)) (fun _ => ?_)
    | exact flows_var _ (by first | assumption | exact hint _)
    | exact flows_emit _ (by first | assumption | exact hint _)
    | refine flows_bind (flows_lit true _ (by decide!)) (fun _ => ?_)
    | refine flows_bind (flows_lit false _ (by decide!)) (fun _ => ?_)
    | exact flows_lit _ _ (by decide!)
    | refine flows_bind (flows_forRange true _ _ (fun i x hx => ?_)) (fun _ => ?_)
    | refine flows_mono _ _ (by decide) (by decide) (flows_forRange true _ _ (fun i x hx => ?_))
    | simp only [bind_assoc_eq, pure_bind_eq]
    | split)

theorem flows_renderDistinctOn (toks : List String) (c : compilerContext) (sel : Select)
    (ht : toks = forbidden c.ct) (hs : QuietSel toks c sel) :
    M.flows toks true (renderDistinctOn c sel) true := by
  have hcol := hs.distinctCol
  rcases forbidden_cases c.ct with ⟨hct, hf⟩ | ⟨hct, hf⟩ <;> rw [hf] at ht <;> subst ht <;>
  simp only [renderDistinctOn, bind_assoc_eq, pure_bind_eq] <;>
  repeat' (first
    | exact flows_pure _ _ _ _ (by decide)
    | exact flows_panic _ _ _
    | rw [ite_bne_zero]
    | rw [ite_bne_pos _ hi]
    | refine flows_bind (flows_var _ (by first | assumption | exact hcol _ hx)) (fun _ => ?_)
    | refine flows_bind (flows_emit _ (by first | assumption | exact hcol _ hx)) (fun _ => ?_)
    | exact flows_var _ (by first | assumption | exact hcol _ hx)
    | exact flows_emit _ (by first | assumption | exact hcol _ hx)
    | refine flows_bind (flows_lit true _ (by decide!)) (fun _ => ?_)
    | refine flows_bind (flows_lit false _ (by decide!)) (fun _ => ?_)
    | exact flows_lit _ _ (by decide!)
    | refine flows_bind (flows_forRange_first _ _ (fun x hx => ?_) (fun i x hx hi => ?_)) (fun _ => ?_)
    | refine flows_mono _ _ (by decide) (by decide) (flows_forRange_first _ _ (fun x hx => ?_) (fun i x hx hi => ?_))
    | simp only [bind_assoc_eq, pure_bind_eq]
    | split)

theorem flows_renderOrderBy (toks : List String) (c : compilerContext) (sel : Select)
    (ht : toks = forbidden c.ct) (hs : QuietSel toks c sel) :
    M.flows toks false (renderOrderBy c sel) false := by
  have hcol := hs.orderCol
  rcases forbidden_cases c.ct with ⟨hct, hf⟩ | ⟨hct, hf⟩ <;> rw [hf] at ht <;> subst ht <;>
  simp only [renderOrderBy, bind_assoc_eq, pure_bind_eq] <;>
  repeat' (first
    | exact flows_pure _ _ _ _ (by decide)
    | exact flows_panic _ _ _
    | refine flows_bind (flows_var _ (by first | assumption | exact hcol _ hx)) (fun _ => ?_)
    | refine flows_bind (flows_emit _ (by first | assumption | exact hcol _ hx)) (fun _ => ?_)
    | exact flows_var _ (by first | assumption | exact hcol _ hx)
    | exact flows_emit _ (by first | assumption | exact hcol _ hx)
    | refine flows_bind (flows_lit true _ (by decide!)) (fun _ => ?_)
    | refine flows_bind (flows_lit false _ (by decide!)) (fun _ => ?_)
    | exact flows_lit _ _ (by decide!)
    | refine flows_bind (flows_forRange true _ _ (fun i x hx => ?_)) (fun _ => ?_)
    | refine flows_mono _ _ (by decide) (by decide) (flows_forRange true _ _ (fun i x hx => ?_))
    | simp only [bind_assoc_eq, pure_bind_eq]
    | split)

theorem flows_renderGroupBy (toks : List String) (c : compilerContext) (sel : Select)
    (ht : toks = forbidden c.ct) (hs : QuietSel toks c sel) :
    M.flows toks false (renderGroupBy c sel) false := by
  have hcol := hs.groupCol
  rcases forbidden_cases c.ct with ⟨hct, hf⟩ | ⟨hct, hf⟩ <;> rw [hf] at ht <;> subst ht <;>
  simp only [renderGroupBy, bind_assoc_eq, pure_bind_eq] <;>
  repeat' (first
    | exact flows_pure _ _ _ _ (by decide)
    | exact flows_panic _ _ _
    | rw [ite_bne_zero]
    | rw [ite_bne_pos _ hi]
    | refine flows_bind (flows_var _ (by first | assumption | exact hcol _ hx)) (fun _ => ?_)
    | refine flows_bind (flows_emit _ (by first | assumption | exact hcol _ hx)) (fun _ => ?_)
    | exact flows_var _ (by first | assumption | exact hcol _ hx)
    | exact flows_emit _ (by first | assumption | exact hcol _ hx)
    | refine flows_bind (flows_lit true _ (by decide!)) (fun _ => ?_)
    | refine flows_bind (flows_lit false _ (by decide!)) (fun _ => ?_)
    | exact flows_lit _ _ (by decide!)
    | refine flows_bind (flows_forRange_first _ _ (fun x hx => ?_) (fun i x hx hi => ?_)) (fun _ => ?_)
    | refine flows_mono _ _ (by decide) (by decide) (flows_forRange_first _ _ (fun x hx => ?_) (fun i x hx hi => ?_))
    | simp only [bind_assoc_eq, pure_bind_eq]
    | split)

theorem flows_renderLimit (toks : List String) (c : compilerContext) (sel : Select)
    (ht : toks = forbidden c.ct) (hq : QuietQuery toks c) :
    M.flows toks false (renderLimit c sel) false := by
  have hint := hq.int32
  have hpar := hq.param
  rcases forbidden_cases c.ct with ⟨hct, hf⟩ | ⟨hct, hf⟩ <;> rw [hf] at ht <;> subst ht <;>
  simp only [renderLimit, bind_assoc_eq, pure_bind_eq] <;>
  refine flows_join false ?_ (fun _ => ?_) <;>
  repeat' (first
    | exact flows_pure _ _ _ _ (by decide)
    | exact flows_panic _ _ _
    | refine flows_bind (flows_var _ (by first | assumption | exact hint _ | exact hpar _)) (fun _ => ?_)
    | refine flows_bind (flows_emit _ (by first | assumption | exact hint _ | exact hpar _)) (fun _ => ?_)
    | exact flows_var _ (by first | assumption | exact hint _ | exact hpar _)
    | exact flows_emit _ (by first | assumption | exact hint _ | exact hpar _)
    | refine flows_bind (flows_lit true _ (by decide!)) (fun _ => ?_)
    | refine flows_bind (flows_lit false _ (by decide!)) (fun _ => ?_)
    | exact flows_lit _ _ (by decide!)
    | simp only [bind_assoc_eq, pure_bind_eq]
    | split)

theorem flows_renderCursorCTE (toks : List String) (c : compilerContext) (sel : Select)
    (ht : toks = forbidden c.ct) (hq : QuietQuery toks c) (hs : QuietSel toks c sel) :
    M.flows toks true (renderCursorCTE c sel) true := by
  have hint := hq.int32
  have hpar := hq.param
  have hname := hs.cursorName
  have hob := hs.orderBy
  rcases forbidden_cases c.ct with ⟨hct, hf⟩ | ⟨hct, hf⟩ <;> rw [hf] at ht <;> subst ht <;>
  simp only [renderCursorCTE, hct, if_true, if_false, bind_assoc_eq, pure_bind_eq] <;>
  repeat' (first
    | exact flows_pure _ _ _ _ (by decide)
    | exact flows_panic _ _ _
    | refine flows_bind (flows_var _ (by first | assumption | exact hint _ | exact hpar _ | exact hname _ hx | exact (hob _ hx).typ)) (fun _ => ?_)
    | refine flows_bind (flows_emit _ (by first | assumption | exact hint _ | exact hpar _ | exact hname _ hx | exact (hob _ hx).typ)) (fun _ => ?_)
    | exact flows_var _ (by first | assumption | exact hint _ | exact hpar _ | exact hname _ hx | exact (hob _ hx).typ)
    | exact flows_emit _ (by first | assumption | exact hint _ | exact hpar _ | exact hname _ hx | exact (hob _ hx).typ)
    | refine flows_bind (flows_lit true _ (by decide!)) (fun _ => ?_)
    | refine flows_bind (flows_lit false _ (by decide!)) (fun _ => ?_)
    | exact flows_lit _ _ (by decide!)
    | refine flows_bind (flows_pre _ (flows_forRange false _ _ (fun i x hx => ?_))) (fun _ => ?_)
    | refine flows_mono _ _ (by decide) (by decide) (flows_forRange false _ _ (fun i x hx => ?_))
    | simp only [bind_assoc_eq, pure_bind_eq]
    | split)

theorem flows_renderJSONTable (c : compilerContext) (sel : Select)
    (hs : QuietSel mysqlForbidden c sel) :
    M.flows mysqlForbidden false (renderJSONTable c sel) false := by
  have hemb := hs.embedded
  have htab := hs.fromTable
  have hcols := hs.ti.columns
  simp only [renderJSONTable, bind_assoc_eq, pure_bind_eq]
  repeat' (first
    | exact flows_pure _ _ _ _ (by decide)
    | exact flows_panic _ _ _
    | rw [ite_bne_zero]
    | rw [ite_bne_pos _ hi]
    | refine flows_bind (flows_var _ (by first | assumption | exact hemb | exact htab | exact (hcols _ hx).name | exact (hcols _ hx).typ)) (fun _ => ?_)
    | refine flows_bind (flows_emit _ (by first | assumption | exact hemb | exact htab | exact (hcols _ hx).name | exact (hcols _ hx).typ)) (fun _ => ?_)
    | exact flows_var _ (by first | assumption | exact hemb | exact htab | exact (hcols _ hx).name | exact (hcols _ hx).typ)
    | exact flows_emit _ (by first | assumption | exact hemb | exact htab | exact (hcols _ hx).name | exact (hcols _ hx).typ)
    | refine flows_bind (flows_lit true _ (by decide!)) (fun _ => ?_)
    | refine flows_bind (flows_lit false _ (by decide!)) (fun _ => ?_)
    | exact flows_lit _ _ (by decide!)
    | refine flows_bind (flows_forRange_first _ _ (fun x hx => ?_) (fun i x hx hi => ?_)) (fun _ => ?_)
    | refine flows_mono _ _ (by decide) (by decide) (flows_forRange_first _ _ (fun x hx => ?_) (fun i x hx hi => ?_))
    | simp only [bind_assoc_eq, pure_bind_eq]
    | split)

theorem flows_renderRecordSet (c : compilerContext) (sel : Select)
    (hs : QuietSel otherForbidden c sel) :
    M.flows otherForbidden true (renderRecordSet c sel) true := by
  have hemb := hs.embedded
  have htab := hs.fromTable
  have htyp := hs.ti.typ
  have hcols := hs.ti.columns
  simp only [renderRecordSet, bind_assoc_eq, pure_bind_eq]
  repeat' (first
    | exact flows_pure _ _ _ _ (by decide)
    | exact flows_panic _ _ _
    | rw [ite_bne_zero]
    | rw [ite_bne_pos _ hi]
    | refine flows_bind (flows_var _ (by first | assumption | exact hemb | exact htab | exact htyp | exact (hcols _ hx).name | exact (hcols _ hx).typ)) (fun _ => ?_)
    | refine flows_bind (flows_emit _ (by first | assumption | exact hemb | exact htab | exact htyp | exact (hcols _ hx).name | exact (hcols _ hx).typ)) (fun _ => ?_)
    | exact flows_var _ (by first | assumption | exact hemb | exact htab | exact htyp | exact (hcols _ hx).name | exact (hcols _ hx).typ)
    | exact flows_emit _ (by first | assumption | exact hemb | exact htab | exact htyp | exact (hcols _ hx).name | exact (hcols _ hx).typ)
    | refine flows_bind (flows_lit true _ (by decide!)) (fun _ => ?_)
    | refine flows_bind (flows_lit false _ (by decide!)) (fun _ => ?_)
    | exact flows_lit _ _ (by decide!)
    | refine flows_bind (flows_forRange_first _ _ (fun x hx => ?_) (fun i x hx hi => ?_)) (fun _ => ?_)
    | refine flows_mono _ _ (by decide) (by decide) (flows_forRange_first _ _ (fun x hx => ?_) (fun i x hx hi => ?_))
    | simp only [bind_assoc_eq, pure_bind_eq]
    | split)

theorem flows_renderFrom (toks : List String) (c : compilerContext) (sel : Select)
    (ht : toks = forbidden c.ct) (hs : QuietSel toks c sel) :
    M.flows toks false (renderFrom c sel) false := by
  have htab := hs.fromTable
  have hrec := hs.recursive
  have hleft := hs.rel.leftCol.table
  rcases forbidden_cases c.ct with ⟨hct, hf⟩ | ⟨hct, hf⟩ <;> rw [hf] at ht <;> subst ht <;>
  simp only [renderFrom, hct, if_true, if_false, bind_assoc_eq, pure_bind_eq] <;>
  repeat' (first
    | exact flows_pure _ _ _ _ (by decide)
    | exact flows_panic _ _ _
    | refine flows_bind (flows_var _ (by first | assumption | exact htab | exact hrec | exact hleft)) (fun _ => ?_)
    | refine flows_bind (flows_emit _ (by first | assumption | exact htab | exact hrec | exact hleft)) (fun _ => ?_)
    | exact flows_var _ (by first | assumption | exact htab | exact hrec | exact hleft)
    | exact flows_emit _ (by first | assumption | exact htab | exact hrec | exact hleft)
    | refine flows_bind (flows_renderJSONTable c sel hs) (fun _ => ?_)
    | refine flows_bind (flows_pre _ (flows_renderJSONTable c sel hs)) (fun _ => ?_)
    | exact flows_mono _ _ (by decide) (by decide) (flows_renderJSONTable c sel hs)
    | refine flows_bind (flows_renderRecordSet c sel hs) (fun _ => ?_)
    | refine flows_bind (flows_pre _ (flows_renderRecordSet c sel hs)) (fun _ => ?_)
    | exact flows_mono _ _ (by decide) (by decide) (flows_renderRecordSet c sel hs)
    | refine flows_bind (flows_lit true _ (by decide!)) (fun _ => ?_)
    | refine flows_bind (flows_lit false _ (by decide!)) (fun _ => ?_)
    | exact flows_lit _ _ (by decide!)
    | simp only [bind_assoc_eq, pure_bind_eq]
    | split)

theorem flows_renderJoinTables (toks : List String) (c : compilerContext) (sel : Select)
    (ht : toks = forbidden c.ct) (hs : QuietSel toks c sel) :
    M.flows toks false (renderJoinTables c sel) false := by
  unfold renderJoinTables
  exact flows_forRange false _ _ (fun i rel hrel => flows_post false
    (flows_renderJoin toks c rel _ ht (hs.joins rel hrel).leftTi.name
      (hs.joinRel rel hrel _)))

theorem flows_parentId (toks : List String) (c : compilerContext) (sel : Select) (z : Bool) :
    M.flows toks z
      (if sel.Typ = SelType.SelTypeMember then
        match selectAt c.qc.Selects sel.ParentID with
        | none => panicM
        | some psel => pure psel.ParentID
      else pure sel.ParentID : M Int) z := by
  split
  · split
    · exact flows_panic _ _ _
    · exact flows_pure _ _ _ _ (fun h => h)
  · exact flows_pure _ _ _ _ (fun h => h)

theorem flows_renderWhere (toks : List String) (c : compilerContext) (fuel : Nat)
    (sel : Select) (ht : toks = forbidden c.ct) (hq : QuietQuery toks c)
    (hs : QuietSel toks c sel)
    (hseam : sel.Rel.Typ = RelType.RelNone →
      ∀ pid md, closedEnd toks (c.h.renderRel sel.Ti sel.Rel pid sel.ArgMap md).2) :
    M.flows toks false (renderWhere c fuel sel) false := by
  have hpid := flows_parentId toks c sel true
  have hexp : ∀ ex, sel.Where.Exp = some ex →
      M.flows toks true (renderExp c fuel c.qc.Schema sel.Ti ex false) true :=
    fun ex hex => flows_renderExp toks c fuel c.qc.Schema sel.Ti ex ht hq (hs.leaves ex hex)
  by_cases hrel : sel.Rel.Typ = RelType.RelNone
  · have hemit : ∀ pid, M.flows toks true
        (emit (c.h.renderRel sel.Ti sel.Rel pid sel.ArgMap)) true :=
      fun pid => flows_emit_closed _ (hs.whereRel pid) (hseam hrel pid)
    rcases forbidden_cases c.ct with ⟨hct, hf⟩ | ⟨hct, hf⟩ <;> rw [hf] at ht <;> subst ht <;>
    simp only [renderWhere, hrel, bne_self_eq_false, Bool.false_eq_true, if_false,
      bind_assoc_eq, pure_bind_eq] <;>
    repeat' (first
      | exact flows_pure _ _ _ _ (by decide)
      | exact flows_panic _ _ _
      | refine flows_bind (flows_var _ (by first | assumption)) (fun _ => ?_)
      | refine flows_bind (flows_emit _ (by first | assumption)) (fun _ => ?_)
      | exact flows_var _ (by first | assumption)
      | exact flows_emit _ (by first | assumption)
      | refine flows_bind (hpid) (fun _ => ?_)
      | refine flows_bind (flows_pre _ (hpid)) (fun _ => ?_)
      | exact flows_mono _ _ (by decide) (by decide) (hpid)
      | refine flows_bind (hemit _) (fun _ => ?_)
      | refine flows_bind (flows_pre _ (hemit _)) (fun _ => ?_)
      | exact flows_mono _ _ (by decide) (by decide) (hemit _)
      | refine flows_bind (hexp _ (by assumption)) (fun _ => ?_)
      | refine flows_bind (flows_pre _ (hexp _ (by assumption))) (fun _ => ?_)
      | exact flows_mono _ _ (by decide) (by decide) (hexp _ (by assumption))
      | refine flows_bind (flows_lit true _ (by decide!)) (fun _ => ?_)
      | refine flows_bind (flows_lit false _ (by decide!)) (fun _ => ?_)
      | exact flows_lit _ _ (by decide!)
      | simp only [bind_assoc_eq, pure_bind_eq]
      | split)
  · have hemit := hs.whereRel
    have hne : (sel.Rel.Typ != RelType.RelNone) = true := by simp [hrel]
    rcases forbidden_cases c.ct with ⟨hct, hf⟩ | ⟨hct, hf⟩ <;> rw [hf] at ht <;> subst ht <;>
    simp only [renderWhere, hrel, hne, false_and, if_true, if_false, bind_assoc_eq,
      pure_bind_eq] <;>
    repeat' (first
      | exact flows_pure _ _ _ _ (by decide)
      | exact flows_panic _ _ _
      | refine flows_bind (flows_var _ (by first | assumption | exact hemit _)) (fun _ => ?_)
      | refine flows_bind (flows_emit _ (by first | assumption | exact hemit _)) (fun _ => ?_)
      | exact flows_var _ (by first | assumption | exact hemit _)
      | exact flows_emit _ (by first | assumption | exact hemit _)
      | refine flows_bind (hpid) (fun _ => ?_)
      | refine flows_bind (flows_pre _ (hpid)) (fun _ => ?_)
      | exact flows_mono _ _ (by decide) (by decide) (hpid)
      | refine flows_bind (hexp _ (by assumption)) (fun _ => ?_)
      | refine flows_bind (flows_pre _ (hexp _ (by assumption))) (fun _ => ?_)
      | exact flows_mono _ _ (by decide) (by decide) (hexp _ (by assumption))
      | refine flows_bind (flows_lit true _ (by decide!)) (fun _ => ?_)
      | refine flows_bind (flows_lit false _ (by decide!)) (fun _ => ?_)
      | exact flows_lit _ _ (by decide!)
      | simp only [bind_assoc_eq, pure_bind_eq]
      | split)

theorem selectAt_mem (selects : List Select) (id : Int) (sel : Select)
    (h : selectAt selects id = some sel) : sel ∈ selects := by
  unfold selectAt at h
  split at h
  · cases h
  · exact List.get?_mem h

theorem flows_renderBaseSelect (toks : List String) (c : compilerContext) (fuel : Nat)
    (sel : Select) (ht : toks = forbidden c.ct) (hq : QuietQuery toks c)
    (hs : QuietSel toks c sel)
    (hseam : sel.Rel.Typ = RelType.RelNone →
      ∀ pid md, closedEnd toks (c.h.renderRel sel.Ti sel.Rel pid sel.ArgMap md).2) :
    M.flows toks true (renderBaseSelect c fuel sel) false := by
  have h1 := flows_renderCursorCTE toks c sel ht hq hs
  have h2 := flows_renderDistinctOn toks c sel ht hs
  have h3 := hs.baseColumns
  have h4 := flows_renderFrom toks c sel ht hs
  have h5 := flows_renderJoinTables toks c sel ht hs
  have h6 := flows_renderWhere toks c fuel sel ht hq hs hseam
  have h7 := flows_renderGroupBy toks c sel ht hs
  have h8 := flows_renderOrderBy toks c sel ht hs
  have h9 := flows_renderLimit toks c sel ht hq
  rcases forbidden_cases c.ct with ⟨hct, hf⟩ | ⟨hct, hf⟩ <;> rw [hf] at ht <;> subst ht <;>
  simp only [renderBaseSelect, bind_assoc_eq, pure_bind_eq] <;>
  refine flows_bind h1 (fun _ => ?_) <;>
  refine flows_bind (flows_lit true _ (by decide!)) (fun _ => ?_) <;>
  refine flows_bind h2 (fun _ => ?_) <;>
  refine flows_bind (flows_emit _ h3) (fun _ => ?_) <;>
  refine flows_bind h4 (fun _ => ?_) <;>
  refine flows_bind h5 (fun _ => ?_) <;>
  refine flows_join false ?_ (fun _ => ?_)
  any_goals (split <;> first | exact h6 | exact flows_pure _ _ _ _ (by decide))
  all_goals exact flows_bind h7 (fun _ => flows_bind h8 (fun _ => h9))

theorem flows_renderRecursiveBaseSelect (toks : List String) (c : compilerContext)
    (fuel : Nat) (sel : Select) (ht : toks = forbidden c.ct) (hq : QuietQuery toks c)
    (hs : QuietSel toks c sel)
    (hseam : sel.Rel.Typ = RelType.RelNone →
      ∀ pid md, closedEnd toks (c.h.renderRel sel.Ti sel.Rel pid sel.ArgMap md).2) :
    M.flows toks false (renderRecursiveBaseSelect c fuel sel) false := by
  unfold renderRecursiveBaseSelect
  cases hp : selectAt c.qc.Selects sel.ParentID with
  | none => exact flows_panic _ _ _
  | some psel =>
    have hps := hq.selects psel (selectAt_mem _ _ _ hp)
    have h1 := hs.baseColumns
    have h2 := flows_renderFrom toks c psel ht hps
    have h3 := hs.primary
    have h4 := hs.parentPrimary psel hp
    have h5 := hs.recursive
    have h6 := flows_renderWhere toks c fuel sel ht hq hs hseam
    rcases forbidden_cases c.ct with ⟨hct, hf⟩ | ⟨hct, hf⟩ <;> rw [hf] at ht <;> subst ht <;>
    simp only [bind_assoc_eq, pure_bind_eq] <;>
    repeat' (first
      | exact flows_pure _ _ _ _ (by decide)
      | exact flows_panic _ _ _
      | refine flows_bind (flows_var _ (by first | assumption | exact h1 | exact h3 | exact h4 | exact h5)) (fun _ => ?_)
      | refine flows_bind (flows_emit _ (by first | assumption | exact h1 | exact h3 | exact h4 | exact h5)) (fun _ => ?_)
      | exact flows_var _ (by first | assumption | exact h1 | exact h3 | exact h4 | exact h5)
      | exact flows_emit _ (by first | assumption | exact h1 | exact h3 | exact h4 | exact h5)
      | refine flows_bind (h2) (fun _ => ?_)
      | refine flows_bind (flows_pre _ (h2)) (fun _ => ?_)
      | exact flows_mono _ _ (by decide) (by decide) (h2)
      | refine flows_bind (h6) (fun _ => ?_)
      | refine flows_bind (flows_pre _ (h6)) (fun _ => ?_)
      | exact flows_mono _ _ (by decide) (by decide) (h6)
      | refine flows_bind (flows_lit true _ (by decide!)) (fun _ => ?_)
      | refine flows_bind (flows_lit false _ (by decide!)) (fun _ => ?_)
      | exact flows_lit _ _ (by decide!)
      | simp only [bind_assoc_eq, pure_bind_eq]
      | split)

theorem flows_renderRecursiveCTE (toks : List String) (c : compilerContext)
    (fuel : Nat) (sel : Select) (ht : toks = forbidden c.ct) (hq : QuietQuery toks c)
    (hs : QuietSel toks c sel)
    (hseam : sel.Rel.Typ = RelType.RelNone →
      ∀ pid md, closedEnd toks (c.h.renderRel sel.Ti sel.Rel pid sel.ArgMap md).2) :
    M.flows toks false (renderRecursiveCTE c fuel sel) true := by
  have h1 := hs.recursive
  have h2 := flows_renderRecursiveBaseSelect toks c fuel sel ht hq hs hseam
  rcases forbidden_cases c.ct with ⟨hct, hf⟩ | ⟨hct, hf⟩ <;> rw [hf] at ht <;> subst ht <;>
  simp only [renderRecursiveCTE, bind_assoc_eq, pure_bind_eq] <;>
  repeat' (first
    | exact flows_pure _ _ _ _ (by decide)
    | exact flows_panic _ _ _
    | refine flows_bind (flows_var _ (by first | assumption | exact h1)) (fun _ => ?_)
    | refine flows_bind (flows_emit _ (by first | assumption | exact h1)) (fun _ => ?_)
    | exact flows_var _ (by first | assumption | exact h1)
    | exact flows_emit _ (by first | assumption | exact h1)
    | refine flows_bind (h2) (fun _ => ?_)
    | refine flows_bind (flows_pre _ (h2)) (fun _ => ?_)
    | exact flows_mono _ _ (by decide) (by decide) (h2)
    | refine flows_bind (flows_lit true _ (by decide!)) (fun _ => ?_)
    | refine flows_bind (flows_lit false _ (by decide!)) (fun _ => ?_)
    | exact flows_lit _ _ (by decide!)
    | simp only [bind_assoc_eq, pure_bind_eq]
    | split)

theorem flows_renderSelect (toks : List String) (c : compilerContext) (fuel : Nat)
    (sel : Select) (ht : toks = forbidden c.ct) (hq : QuietQuery toks c)
    (hs : QuietSel toks c sel)
    (hseam : sel.Rel.Typ = RelType.RelNone →
      ∀ pid md, closedEnd toks (c.h.renderRel sel.Ti sel.Rel pid sel.ArgMap md).2) :
    M.flows toks true (renderSelect c fuel sel) false := by
  have hint := hq.int32
  have h1 := hs.jsonFields
  have h2 := hs.columns
  have h3 := hs.cursorCol
  have h4 := hs.tableAlias
  have h5 := flows_renderBaseSelect toks c fuel sel ht hq hs hseam
  rcases forbidden_cases c.ct with ⟨hct, hf⟩ | ⟨hct, hf⟩ <;> rw [hf] at ht <;> subst ht <;>
  simp only [renderSelect, hct, if_true, if_false, bind_assoc_eq, pure_bind_eq]
  · refine flows_bind (flows_lit true _ (by decide!)) (fun _ => ?_)
    refine flows_bind (flows_emit _ h1) (fun _ => ?_)
    refine flows_bind (flows_lit true _ (by decide!)) (fun _ => ?_)
    refine flows_bind (flows_lit true _ (by decide!)) (fun _ => ?_)
    refine flows_join true ?_ (fun _ => ?_)
    · repeat' (first
        | exact flows_pure _ _ _ _ (by decide)
        | exact flows_panic _ _ _
        | refine flows_bind (flows_var _ (by first | assumption | exact hint _)) (fun _ => ?_)
        | refine flows_bind (flows_emit _ (by first | assumption | exact hint _)) (fun _ => ?_)
        | exact flows_var _ (by first | assumption | exact hint _)
        | exact flows_emit _ (by first | assumption | exact hint _)
        | refine flows_bind (flows_lit true _ (by decide!)) (fun _ => ?_)
        | refine flows_bind (flows_lit false _ (by decide!)) (fun _ => ?_)
        | exact flows_lit _ _ (by decide!)
        | refine flows_bind (flows_forRange true _ _ (fun i x hx => ?_)) (fun _ => ?_)
        | refine flows_mono _ _ (by decide) (by decide) (flows_forRange true _ _ (fun i x hx => ?_))
        | simp only [bind_assoc_eq, pure_bind_eq]
        | split)
    · refine flows_bind (flows_lit true _ (by decide!)) (fun _ => ?_)
      refine flows_bind (flows_emit _ h2) (fun _ => ?_)
      refine flows_join false ?_ (fun _ => ?_)
      · repeat' (first
          | exact flows_pure _ _ _ _ (by decide)
          | exact flows_panic _ _ _
          | refine flows_bind (flows_var _ (by first | assumption | exact hint _ | exact h3 _ hx)) (fun _ => ?_)
          | refine flows_bind (flows_emit _ (by first | assumption | exact hint _ | exact h3 _ hx)) (fun _ => ?_)
          | exact flows_var _ (by first | assumption | exact hint _ | exact h3 _ hx)
          | exact flows_emit _ (by first | assumption | exact hint _ | exact h3 _ hx)
          | refine flows_bind (flows_lit true _ (by decide!)) (fun _ => ?_)
          | refine flows_bind (flows_lit false _ (by decide!)) (fun _ => ?_)
          | exact flows_lit _ _ (by decide!)
          | refine flows_bind (flows_pre _ (flows_forRange false _ _ (fun i x hx => ?_))) (fun _ => ?_)
          | refine flows_mono _ _ (by decide) (by decide) (flows_forRange false _ _ (fun i x hx => ?_))
          | simp only [bind_assoc_eq, pure_bind_eq]
          | split)
      · repeat' (first
          | exact flows_pure _ _ _ _ (by decide)
          | exact flows_panic _ _ _
          | refine flows_bind (flows_var _ (by first | assumption | exact h4)) (fun _ => ?_)
          | refine flows_bind (flows_emit _ (by first | assumption | exact h4)) (fun _ => ?_)
          | exact flows_var _ (by first | assumption | exact h4)
          | exact flows_emit _ (by first | assumption | exact h4)
          | refine flows_bind (h5) (fun _ => ?_)
          | refine flows_bind (flows_pre _ (h5)) (fun _ => ?_)
          | exact flows_mono _ _ (by decide) (by decide) (h5)
          | refine flows_bind (flows_lit true _ (by decide!)) (fun _ => ?_)
          | refine flows_bind (flows_lit false _ (by decide!)) (fun _ => ?_)
          | exact flows_lit _ _ (by decide!)
          | simp only [bind_assoc_eq, pure_bind_eq]
          | split)
  · refine flows_bind (flows_lit true _ (by decide!)) (fun _ => ?_)
    refine flows_bind (flows_var _ (hint _)) (fun _ => ?_)
    refine flows_bind (flows_lit true _ (by decide!)) (fun _ => ?_)
    refine flows_join true ?_ (fun _ => ?_)
    · repeat' (first
        | exact flows_pure _ _ _ _ (by decide)
        | exact flows_panic _ _ _
        | refine flows_bind (flows_var _ (by first | assumption | exact hint _)) (fun _ => ?_)
        | refine flows_bind (flows_emit _ (by first | assumption | exact hint _)) (fun _ => ?_)
        | exact flows_var _ (by first | assumption | exact hint _)
        | exact flows_emit _ (by first | assumption | exact hint _)
        | refine flows_bind (flows_lit true _ (by decide!)) (fun _ => ?_)
        | refine flows_bind (flows_lit false _ (by decide!)) (fun _ => ?_)
        | exact flows_lit _ _ (by decide!)
        | refine flows_bind (flows_forRange true _ _ (fun i x hx => ?_)) (fun _ => ?_)
        | refine flows_mono _ _ (by decide) (by decide) (flows_forRange true _ _ (fun i x hx => ?_))
        | simp only [bind_assoc_eq, pure_bind_eq]
        | split)
    · refine flows_bind (flows_lit true _ (by decide!)) (fun _ => ?_)
      refine flows_join true ?_ (fun _ => ?_)
      · repeat' (first
          | exact flows_pure _ _ _ _ (by decide)
          | exact flows_panic _ _ _
          | refine flows_bind (flows_var _ (by first | assumption | exact hint _)) (fun _ => ?_)
          | refine flows_bind (flows_emit _ (by first | assumption | exact hint _)) (fun _ => ?_)
          | exact flows_var _ (by first | assumption | exact hint _)
          | exact flows_emit _ (by first | assumption | exact hint _)
          | refine flows_bind (flows_lit true _ (by decide!)) (fun _ => ?_)
          | refine flows_bind (flows_lit false _ (by decide!)) (fun _ => ?_)
          | exact flows_lit _ _ (by decide!)
          | refine flows_bind (flows_forRange true _ _ (fun i x hx => ?_)) (fun _ => ?_)
          | refine flows_mono _ _ (by decide) (by decide) (flows_forRange true _ _ (fun i x hx => ?_))
          | simp only [bind_assoc_eq, pure_bind_eq]
          | split)
      · refine flows_bind (flows_lit true _ (by decide!)) (fun _ => ?_)
        refine flows_bind (flows_emit _ h2) (fun _ => ?_)
        refine flows_join false ?_ (fun _ => ?_)
        · repeat' (first
            | exact flows_pure _ _ _ _ (by decide)
            | exact flows_panic _ _ _
            | refine flows_bind (flows_var _ (by first | assumption | exact hint _ | exact h3 _ hx)) (fun _ => ?_)
            | refine flows_bind (flows_emit _ (by first | assumption | exact hint _ | exact h3 _ hx)) (fun _ => ?_)
            | exact flows_var _ (by first | assumption | exact hint _ | exact h3 _ hx)
            | exact flows_emit _ (by first | assumption | exact hint _ | exact h3 _ hx)
            | refine flows_bind (flows_lit true _ (by decide!)) (fun _ => ?_)
            | refine flows_bind (flows_lit false _ (by decide!)) (fun _ => ?_)
            | exact flows_lit _ _ (by decide!)
            | refine flows_bind (flows_pre _ (flows_forRange false _ _ (fun i x hx => ?_))) (fun _ => ?_)
            | refine flows_mono _ _ (by decide) (by decide) (flows_forRange false _ _ (fun i x hx => ?_))
            | simp only [bind_assoc_eq, pure_bind_eq]
            | split)
        · repeat' (first
            | exact flows_pure _ _ _ _ (by decide)
            | exact flows_panic _ _ _
            | refine flows_bind (flows_var _ (by first | assumption | exact h4)) (fun _ => ?_)
            | refine flows_bind (flows_emit _ (by first | assumption | exact h4)) (fun _ => ?_)
            | exact flows_var _ (by first | assumption | exact h4)
            | exact flows_emit _ (by first | assumption | exact h4)
            | refine flows_bind (h5) (fun _ => ?_)
            | refine flows_bind (flows_pre _ (h5)) (fun _ => ?_)
            | exact flows_mono _ _ (by decide) (by decide) (h5)
            | refine flows_bind (flows_lit true _ (by decide!)) (fun _ => ?_)
            | refine flows_bind (flows_lit false _ (by decide!)) (fun _ => ?_)
            | exact flows_lit _ _ (by decide!)
            | simp only [bind_assoc_eq, pure_bind_eq]
            | split)

theorem flows_renderSelectClose (toks : List String) (c : compilerContext) (sel : Select)
    (ht : toks = forbidden c.ct) (hs : QuietSel toks c sel) :
    M.flows toks false (renderSelectClose c sel) false := by
  have h1 := hs.rowAlias
  have h2 := hs.listAlias
  rcases forbidden_cases c.ct with ⟨hct, hf⟩ | ⟨hct, hf⟩ <;> rw [hf] at ht <;> subst ht <;>
  simp only [renderSelectClose, bind_assoc_eq, pure_bind_eq] <;>
  repeat' (first
    | exact flows_pure _ _ _ _ (by decide)
    | exact flows_panic _ _ _
    | refine flows_bind (flows_var _ (by first | assumption | exact h1 | exact h2)) (fun _ => ?_)
    | refine flows_bind (flows_emit _ (by first | assumption | exact h1 | exact h2)) (fun _ => ?_)
    | exact flows_var _ (by first | assumption | exact h1 | exact h2)
    | exact flows_emit _ (by first | assumption | exact h1 | exact h2)
    | refine flows_bind (flows_lit true _ (by decide!)) (fun _ => ?_)
    | refine flows_bind (flows_lit false _ (by decide!)) (fun _ => ?_)
    | exact flows_lit _ _ (by decide!)
    | simp only [bind_assoc_eq, pure_bind_eq]
    | split)

theorem flows_renderLateralJoinClose (toks : List String) (c : compilerContext)
    (sel : Select) (ht : toks = forbidden c.ct) (hs : QuietSel toks c sel) :
    M.flows toks false (renderLateralJoinClose c sel) false := by
  have h2 := hs.listAlias
  rcases forbidden_cases c.ct with ⟨hct, hf⟩ | ⟨hct, hf⟩ <;> rw [hf] at ht <;> subst ht <;>
  simp only [renderLateralJoinClose, bind_assoc_eq, pure_bind_eq] <;>
  repeat' (first
    | exact flows_pure _ _ _ _ (by decide)
    | exact flows_panic _ _ _
    | refine flows_bind (flows_var _ (by first | assumption | exact h2)) (fun _ => ?_)
    | refine flows_bind (flows_emit _ (by first | assumption | exact h2)) (fun _ => ?_)
    | exact flows_var _ (by first | assumption | exact h2)
    | exact flows_emit _ (by first | assumption | exact h2)
    | refine flows_bind (flows_lit true _ (by decide!)) (fun _ => ?_)
    | refine flows_bind (flows_lit false _ (by decide!)) (fun _ => ?_)
    | exact flows_lit _ _ (by decide!)
    | simp only [bind_assoc_eq, pure_bind_eq]
    | split)

theorem flows_renderLateralJoin (toks : List String) (ct : String)
    (ht : toks = forbidden ct) : M.flows toks false renderLateralJoin true := by
  rcases forbidden_cases ct with ⟨hct, hf⟩ | ⟨hct, hf⟩ <;> rw [hf] at ht <;> subst ht <;>
  exact flows_lit _ _ (by decide!)

theorem flows_renderOpen (toks : List String) (c : compilerContext) (fuel : Nat)
    (sel : Select) (ht : toks = forbidden c.ct) (hq : QuietQuery toks c)
    (hs : QuietSel toks c sel)
    (hseam : sel.Rel.Typ = RelType.RelNone →
      ∀ pid md, closedEnd toks (c.h.renderRel sel.Ti sel.Rel pid sel.ArgMap md).2) :
    M.flows toks false (renderOpen c fuel true sel) false := by
  have h1 := flows_renderLateralJoin toks c.ct ht
  have h2 := flows_renderRecursiveCTE toks c fuel sel ht hq hs hseam
  have h3 := flows_renderPluralSelect toks c sel ht hq
  have h4 := flows_renderSelect toks c fuel sel ht hq hs hseam
  unfold renderOpen
  simp only [Bool.or_true, if_true, bind_assoc_eq]
  split
  · refine flows_bind h1 (fun _ => ?_)
    refine flows_join true ?_ (fun _ => flows_bind h3 (fun _ => h4))
    split
    · exact flows_pre _ h2
    · exact flows_pure _ _ _ _ (fun h => h)
  · exact flows_pure _ _ _ _ (fun h => h)

theorem flows_renderClose (toks : List String) (c : compilerContext) (sel : Select)
    (ht : toks = forbidden c.ct) (hs : QuietSel toks c sel) :
    M.flows toks false (renderClose c true sel) false := by
  have h1 := flows_renderSelectClose toks c sel ht hs
  have h2 := flows_renderLateralJoinClose toks c sel ht hs
  unfold renderClose
  simp only [Bool.or_true, if_true]
  split
  · exact flows_bind h1 (fun _ => h2)
  · exact flows_pure _ _ _ _ (fun h => h)

theorem flows_renderQuery (toks : List String) (c : compilerContext) (ef : Nat)
    (ht : toks = forbidden c.ct) (hq : QuietQuery toks c) (hs : QuietSeams toks c) :
    ∀ (fuel : Nat) (st : IntStack),
      M.flows toks false (renderQuery c ef true fuel st) false := by
  intro fuel
  induction fuel with
  | zero =>
    intro st
    cases st with
    | nil => exact flows_pure _ _ _ _ (fun h => h)
    | cons id st => exact flows_outOfFuel _ _ _
  | succ n ih =>
    intro st
    cases st with
    | nil => exact flows_pure _ _ _ _ (fun h => h)
    | cons id st =>
      simp only [renderQuery]
      split
      · split
        · exact flows_panic _ _ _
        next sel hsel =>
          have hmem := selectAt_mem _ _ _ hsel
          refine flows_bind (flows_renderOpen toks c ef sel ht hq (hq.selects sel hmem)
            (hs.whereRel sel hmem)) (fun _ => ?_)
          split
          · exact flows_panic _ _ _
          · exact ih _
      · split
        · exact flows_panic _ _ _
        next sel hsel =>
          have hmem := selectAt_mem _ _ _ hsel
          exact flows_bind (flows_renderClose toks c sel ht (hq.selects sel hmem))
            (fun _ => ih _)

theorem cursorKey_null (fn : String) :
    (write fn >>= fun _ => write "_cursor', NULL") =
      (write (fn ++ "_cursor") >>= fun _ => write "', NULL") := by
  rw [write_write, write_write, String.append_assoc]
  rfl

theorem cursorKey_value {β : Type} (fn : String) (f : Unit → M β) :
    (write fn >>= fun _ => write "_cursor', " >>= f) =
      (write (fn ++ "_cursor") >>= fun _ => write "', " >>= f) := by
  rw [write_write_bind, write_write_bind, String.append_assoc]
  rfl

theorem flows_rootsLoop (toks : List String) (c : compilerContext)
    (ht : toks = forbidden c.ct) (hq : QuietQuery toks c) (hs : QuietSeams toks c) :
    ∀ (ids : List Int) (i : Nat) (st : IntStack) (z : Bool),
      (∀ id ∈ ids, id ∈ c.qc.Roots) → (i = 0 → z = true) →
      M.flows toks z (rootsLoop c i ids st) false := by
  have hint := hq.int32
  intro ids
  induction ids with
  | nil =>
    intro i st z _ _
    exact flows_pure _ _ _ _ (fun h => absurd h (by decide))
  | cons id rest ih =>
    intro i st z hroots hz
    have hrest : ∀ id2 ∈ rest, id2 ∈ c.qc.Roots :=
      fun id2 h => hroots id2 (List.mem_cons_of_mem _ h)
    have hnext : ∀ st2, M.flows toks false (rootsLoop c (i + 1) rest st2) false :=
      fun st2 => ih (i + 1) st2 false hrest (fun h => absurd h (Nat.succ_ne_zero i))
    simp only [rootsLoop]
    refine flows_join true ?_ (fun _ => ?_)
    · by_cases hi : i = 0
      · rw [hz hi, hi, ite_bne_zero]
        exact flows_pure _ _ _ _ (fun h => h)
      · rw [ite_bne_pos _ hi]
        apply flows_pre
        rcases forbidden_cases c.ct with ⟨hct, hf⟩ | ⟨hct, hf⟩ <;> rw [hf] at ht <;>
          subst ht <;> exact flows_lit _ _ (by decide!)
    · split
      · exact flows_panic _ _ _
      next sel hsel =>
        have hmem := selectAt_mem _ _ _ hsel
        have hfn := (hq.selects sel hmem).fieldName
        have hkey := hs.cursorKey id (hroots id (List.mem_cons_self _ _)) sel hsel
        rcases forbidden_cases c.ct with ⟨hct, hf⟩ | ⟨hct, hf⟩ <;> rw [hf] at ht <;>
          subst ht <;> simp only [bind_assoc_eq, cursorKey_null, cursorKey_value] <;>
          split <;>
          refine flows_bind (flows_lit true _ (by decide!)) (fun _ => ?_) <;>
          refine flows_bind (flows_var _ hfn) (fun _ => ?_) <;>
          refine flows_bind (flows_lit true _ (by decide!)) (fun _ => ?_)
        all_goals first
          | (refine flows_join false ?_ (fun _ => hnext _)
             split
             · have hk := hkey (by assumption)
               repeat' (first
                 | exact flows_pure _ _ _ _ (by decide)
                 | exact flows_panic _ _ _
                 | refine flows_bind (flows_var _ (by first | assumption | exact hk)) (fun _ => ?_)
                 | refine flows_bind (flows_emit _ (by first | assumption | exact hk)) (fun _ => ?_)
                 | exact flows_var _ (by first | assumption | exact hk)
                 | exact flows_emit _ (by first | assumption | exact hk)
                 | refine flows_bind (flows_lit true _ (by decide!)) (fun _ => ?_)
                 | refine flows_bind (flows_lit false _ (by decide!)) (fun _ => ?_)
                 | exact flows_lit _ _ (by decide!)
                 | simp only [bind_assoc_eq, pure_bind_eq]
                 | split)
             · exact flows_pure _ _ _ _ (by decide))
          | (refine flows_bind (flows_var _ (hint _)) (fun _ => ?_)
             refine flows_bind (flows_lit false _ (by decide!)) (fun _ => ?_)
             refine flows_join false ?_ (fun _ => hnext _)
             split
             · have hk := hkey (by assumption)
               repeat' (first
                 | exact flows_pure _ _ _ _ (by decide)
                 | exact flows_panic _ _ _
                 | refine flows_bind (flows_var _ (by first | assumption | exact hk | exact hint _)) (fun _ => ?_)
                 | refine flows_bind (flows_emit _ (by first | assumption | exact hk | exact hint _)) (fun _ => ?_)
                 | exact flows_var _ (by first | assumption | exact hk | exact hint _)
                 | exact flows_emit _ (by first | assumption | exact hk | exact hint _)
                 | refine flows_bind (flows_lit true _ (by decide!)) (fun _ => ?_)
                 | refine flows_bind (flows_lit false _ (by decide!)) (fun _ => ?_)
                 | exact flows_lit _ _ (by decide!)
                 | simp only [bind_assoc_eq, pure_bind_eq]
                 | split)
             · exact flows_pure _ _ _ _ (by decide))

theorem flows_CompileQuery (toks : List String) (c : compilerContext) (fuel : Nat)
    (ht : toks = forbidden c.ct) (hq : QuietQuery toks c) (hs : QuietSeams toks c) :
    M.flows toks true (CompileQuery c fuel) false := by
  have h1 := flows_rootsLoop toks c ht hq hs c.qc.Roots 0 [] true (fun _ h => h) (fun _ => rfl)
  have h2 := flows_renderQuery toks c fuel ht hq hs fuel
  unfold CompileQuery
  refine flows_join true ?_ (fun _ => ?_)
  · split
    · exact flows_modify _ _ _
    · exact flows_pure _ _ _ _ (fun h => h)
  · refine flows_bind (flows_modify _ _ _) (fun _ => ?_)
    refine flows_join true ?_ (fun _ => ?_)
    · rcases forbidden_cases c.ct with ⟨hct, hf⟩ | ⟨hct, hf⟩ <;> rw [hf] at ht <;>
        subst ht <;> simp only [hct, if_true, if_false] <;> exact flows_lit _ _ (by decide!)
    · refine flows_bind h1 (fun st => ?_)
      refine flows_join true ?_ (fun _ => flows_pre _ (h2 _))
      rcases forbidden_cases c.ct with ⟨hct, hf⟩ | ⟨hct, hf⟩ <;> rw [hf] at ht <;>
        subst ht <;> exact flows_lit _ _ (by decide!)

/-! ## Dialect isolation (C16): the claim -/

theorem dialectIsolated_of_tokenFree (ct s : String) (h : tokenFree (forbidden ct) s) :
    dialectIsolated ct s := by
  rw [tokenFree_def] at h
  constructor
  · intro hct
    have hf : forbidden ct = mysqlForbidden := by simp [forbidden, hct]
    rw [hf] at h
    exact ⟨h _ (by simp [mysqlForbidden]), h _ (by simp [mysqlForbidden])⟩
  · intro hct
    have hf : forbidden ct = otherForbidden := by simp [forbidden, hct]
    rw [hf] at h
    exact ⟨h _ (by simp [otherForbidden]), h _ (by simp [otherForbidden]),
      h _ (by simp [otherForbidden]), h _ (by simp [otherForbidden])⟩

theorem tokenFree_of_flows {α : Type} (toks : List String) (x : M α) (z : Bool)
    (hx : M.flows toks true x z) (md : Metadata) (r : Emitted α) (hr : x md = Res.ok r) :
    tokenFree toks r.text := by
  rw [tokenFree_def]
  intro p hp
  have h := hx md r hr "" (textOK_empty toks true) p hp
  rw [String.empty_append] at h
  exact h.1

theorem CompileQuery_isolated (c : compilerContext) (fuel : Nat)
    (hq : QuietQuery (forbidden c.ct) c) (hs : QuietSeams (forbidden c.ct) c)
    (md : Metadata) (r : Emitted Unit) (hr : CompileQuery c fuel md = Res.ok r) :
    dialectIsolated c.ct r.text :=
  dialectIsolated_of_tokenFree _ _
    (tokenFree_of_flows _ _ _ (flows_CompileQuery _ c fuel rfl hq hs) md r hr)

theorem CompileEx_isolated (h : Helpers) (co : Compiler) (qc : QCode) (fuel : Nat)
    (hq : QuietQuery (forbidden co.ct) ⟨h, qc, co⟩)
    (hs : QuietSeams (forbidden co.ct) ⟨h, qc, co⟩)
    (r : CompiledEx) (sql : String) (hty : qc.Typ ≠ QType.QTMutation)
    (hr : CompileEx h co fuel (some qc) = Res.ok r) (hsql : r.sql = some sql) :
    dialectIsolated co.ct sql := by
  have key : ∀ rc : Compiled, runOn "" (CompileQuery ⟨h, qc, co⟩ fuel) = Res.ok rc →
      dialectIsolated co.ct rc.w := by
    intro rc hrc
    unfold runOn at hrc
    cases hcq : CompileQuery ⟨h, qc, co⟩ fuel {} with
    | ok e =>
      rw [hcq] at hrc
      injection hrc with hrc
      rw [← hrc]
      simp only [String.empty_append]
      exact CompileQuery_isolated ⟨h, qc, co⟩ fuel hq hs {} e hcq
    | panic => rw [hcq] at hrc; cases hrc
    | outOfFuel => rw [hcq] at hrc; cases hrc
  unfold CompileEx at hr
  cases hc : Compile h co fuel "" (some qc) with
  | ok rc =>
    rw [hc] at hr
    simp only [] at hr
    by_cases herr : rc.err.isSome = true
    · rw [if_pos herr] at hr
      injection hr with hr
      rw [← hr] at hsql
      cases hsql
    · rw [if_neg herr] at hr
      injection hr with hr
      rw [← hr] at hsql
      injection hsql with hsql
      rw [← hsql]
      cases hqt : qc.Typ with
      | QTQuery => simp only [Compile, hqt] at hc; exact key rc hc
      | QTSubscription => simp only [Compile, hqt] at hc; exact key rc hc
      | QTMutation => exact absurd hqt hty
      | QTOther code =>
        simp only [Compile, hqt] at hc
        injection hc with hc
        rw [← hc] at herr
        exact absurd rfl herr
  | panic => rw [hc] at hr; cases hr
  | outOfFuel => rw [hc] at hr; cases hr

/-- Claim C16 (amended): dialect isolation.  Provided no token of the other
dialect occurs in an input string of the query or in a text produced by a helper
(`QuietQuery`), the cursor key `<field name>_cursor` of a root has no occurrence
of one, and the text of the relation helper for a selection without a relation
does not end with a non-empty proper prefix of one (`QuietSeams`), every text
that `CompileQuery` emits, and the SQL that `CompileEx` returns for a query or
subscription, has with db type `mysql` no occurrence of `jsonb_` or `::` and
with any other db type no occurrence of `json_object`, `json_arrayagg`,
`JSON_TABLE` or `JSON_CONTAINS`. -/
theorem C16_dialect_isolation (h : Helpers) (co : Compiler) (qc : QCode) (fuel : Nat)
    (hq : QuietQuery (forbidden co.ct) ⟨h, qc, co⟩)
    (hs : QuietSeams (forbidden co.ct) ⟨h, qc, co⟩) :
    (∀ md r, CompileQuery ⟨h, qc, co⟩ fuel md = Res.ok r → dialectIsolated co.ct r.text) ∧
    (∀ r sql, qc.Typ ≠ QType.QTMutation → CompileEx h co fuel (some qc) = Res.ok r →
      r.sql = some sql → dialectIsolated co.ct sql) :=
  ⟨fun md r hr => CompileQuery_isolated ⟨h, qc, co⟩ fuel hq hs md r hr,
    fun r sql hty hr hsql => CompileEx_isolated h co qc fuel hq hs r sql hty hr hsql⟩

/-! ## Dialect isolation (C16): the helpers of the scenarios -/

theorem occurrences_head (c : Char) (p s : List Char) (h : ∀ ch ∈ s, ch ≠ c) :
    occurrences (c :: p) s = 0 := by
  induction s with
  | nil => rfl
  | cons x rest ih =>
    have hx : x ≠ c := h x (List.mem_cons_self _ _)
    have hne : (c == x) = false := by
      rw [beq_eq_false_iff_ne]
      exact fun h2 => hx h2.symm
    simp only [occurrences, List.isPrefixOf, hne, Bool.false_and, Bool.false_eq_true, if_false,
      Nat.zero_add]
    exact ih (fun ch hch => h ch (List.mem_cons_of_mem _ hch))

theorem tokenFree_plain (toks : List String)
    (ht : toks = mysqlForbidden ∨ toks = otherForbidden) (s : String)
    (hs : ∀ ch ∈ s.data, plainChar ch = true) : tokenFree toks s := by
  rw [tokenFree_def]
  have key : ∀ (c : Char) (p : List Char), plainChar c = false →
      occurrences (c :: p) s.data = 0 := by
    intro c p hc
    apply occurrences_head
    intro ch hch heq
    have := hs ch hch
    rw [heq, hc] at this
    exact absurd this (by decide)
  intro p hp
  rcases ht with ht | ht <;> subst ht
  · simp only [mysqlForbidden, List.mem_cons, List.mem_singleton, List.not_mem_nil,
      or_false] at hp
    rcases hp with rfl | rfl
    · exact key 'j' _ (by decide)
    · exact key ':' _ (by decide)
  · simp only [otherForbidden, List.mem_cons, List.mem_singleton, List.not_mem_nil,
      or_false] at hp
    rcases hp with rfl | rfl | rfl | rfl
    · exact key 'j' _ (by decide)
    · exact key 'j' _ (by decide)
    · exact key 'J' _ (by decide)
    · exact key 'J' _ (by decide)

theorem digitChar_plain (n : Nat) (h : n < 10) : plainChar (Nat.digitChar n) = true := by
  interval_cases n <;> decide

theorem toDigitsCore_plain : ∀ (fuel n : Nat) (ds : List Char),
    (∀ ch ∈ ds, plainChar ch = true) →
    ∀ ch ∈ Nat.toDigitsCore 10 fuel n ds, plainChar ch = true := by
  intro fuel
  induction fuel with
  | zero => intro n ds hds; simpa [Nat.toDigitsCore] using hds
  | succ f ih =>
    intro n ds hds
    have hcons : ∀ ch ∈ Nat.digitChar (n % 10) :: ds, plainChar ch = true := by
      intro ch hch
      rcases List.mem_cons.mp hch with h | h
      · rw [h]
        exact digitChar_plain _ (Nat.mod_lt _ (by decide))
      · exact hds ch h
    simp only [Nat.toDigitsCore]
    split
    · exact hcons
    · exact ih _ _ hcons

theorem natRepr_plain (n : Nat) : ∀ ch ∈ (toString n).data, plainChar ch = true := by
  show ∀ ch ∈ (Nat.repr n).data, plainChar ch = true
  unfold Nat.repr Nat.toDigits
  simp only [List.asString]
  exact toDigitsCore_plain _ _ _ (fun ch h => absurd h (List.not_mem_nil _))

theorem intRepr_plain (n : Int) : ∀ ch ∈ (toString n).data, plainChar ch = true := by
  cases n with
  | ofNat m => exact natRepr_plain m
  | negSucc m =>
    show ∀ ch ∈ ("-" ++ toString (Nat.succ m)).data, plainChar ch = true
    intro ch hch
    rw [String.data_append, List.mem_append] at hch
    rcases hch with h | h
    · have : ch = '-' := by simpa using h
      rw [this]
      decide
    · exact natRepr_plain _ ch h

theorem spec_int32_quiet (toks : List String)
    (ht : toks = mysqlForbidden ∨ toks = otherForbidden) (ct : String) (n : Int) :
    tokenFree toks ((specHelpers ct).int32String n) :=
  tokenFree_plain toks ht _ (intRepr_plain n)

theorem spec_param_quiet (toks : List String)
    (ht : toks = mysqlForbidden ∨ toks = otherForbidden) (ct : String) (p : Param)
    (md : Metadata) : tokenFree toks ((specHelpers ct).renderParam p md).2 := by
  have key : ∀ slot : Nat,
      tokenFree toks (if ct = "mysql" then "?" else "$" ++ toString slot) := by
    intro slot
    apply tokenFree_plain toks ht
    intro ch hch
    split at hch
    · have : ch = '?' := by simpa using hch
      rw [this]
      decide
    · rw [String.data_append, List.mem_append] at hch
      rcases hch with h | h
      · have : ch = '$' := by simpa using h
        rw [this]
        decide
      · exact natRepr_plain _ ch h
  show tokenFree toks (specRenderParam ct p md).2
  unfold specRenderParam
  split
  · exact key _
  · exact key _

/-! ## Dialect isolation (C16): the scenarios -/

theorem quietOp_jsonbMysql : QuietOp mysqlForbidden ⟨specHelpers "mysql", qcFiltered "mysql" "jsonb", mysqlCompiler⟩ usersTable expIdEq :=
  { col := by decide!
    refCol := by decide!
    fullText := by decide!
    literal := by decide!
    staticVar := fun _ h => by cases h
    staticSql := fun _ h => by cases h }

theorem quietLeaf_jsonbMysql : QuietLeaf mysqlForbidden ⟨specHelpers "mysql", qcFiltered "mysql" "jsonb", mysqlCompiler⟩ usersTable expIdEq :=
  { col := by decide!
    val := by decide!
    listVal := by decide!
    rels := by decide!
    table := by decide!
    op := quietOp_jsonbMysql
    relOp := fun _ h => by cases h
    relJoin := fun _ h => by cases h
    relOuter := fun _ h => by cases h }

theorem quietSel_jsonbMysql : QuietSel mysqlForbidden ⟨specHelpers "mysql", qcFiltered "mysql" "jsonb", mysqlCompiler⟩ (usersFiltered "jsonb") :=
  { fieldName := by decide!
    table := by decide!
    ti := by decide!
    rel := by decide!
    orderBy := by decide!
    distinctOn := by decide!
    bcols := by decide!
    joins := by decide!
    limitVar := by decide!
    offsetVar := by decide!
    argMap := by decide!
    jsonFields := fun _ =>
      (by decide! : tokenFree mysqlForbidden ((specHelpers "mysql").renderJSONFields [usersFiltered "jsonb"]
        (usersFiltered "jsonb") {}).2)
    columns := fun _ =>
      (by decide! : tokenFree mysqlForbidden ((specHelpers "mysql").renderColumns [usersFiltered "jsonb"]
        (usersFiltered "jsonb") {}).2)
    baseColumns := fun _ =>
      (by decide! : tokenFree mysqlForbidden ((specHelpers "mysql").renderBaseColumns [usersFiltered "jsonb"]
        (usersFiltered "jsonb") {}).2)
    cursorCol := by decide!
    cursorName := by decide!
    orderCol := by decide!
    distinctCol := by decide!
    groupCol := by decide!
    tableAlias := by decide!
    rowAlias := by decide!
    listAlias := by decide!
    fromTable := by decide!
    embedded := by decide!
    recursive := by decide!
    primary := by decide!
    parentPrimary := fun _ h => by cases h
    joinRel := fun _ h => by cases h
    whereRel := fun _ _ => (by decide! : tokenFree mysqlForbidden "")
    leaves := by
      intro ex hex l hl
      have h1 : ex = expIdEq := by
        have : some expIdEq = some ex := hex
        injection this with this
        exact this.symm
      subst h1
      have h2 : l = expIdEq := by
        have : l ∈ [expIdEq] := hl
        exact List.mem_singleton.mp this
      subst h2
      exact quietLeaf_jsonbMysql }

theorem quietQuery_jsonbMysql : QuietQuery mysqlForbidden ⟨specHelpers "mysql", qcFiltered "mysql" "jsonb", mysqlCompiler⟩ :=
  { selects := by
      intro sel hsel
      have h1 : sel = usersFiltered "jsonb" := List.mem_singleton.mp hsel
      subst h1
      exact quietSel_jsonbMysql
    svars := fun _ h => by cases h
    int32 := spec_int32_quiet _ (Or.inl rfl) _
    param := spec_param_quiet _ (Or.inl rfl) _ }

theorem quietOp_usersMysql : QuietOp mysqlForbidden ⟨specHelpers "mysql", qcFiltered "mysql" "users", mysqlCompiler⟩ usersTable expIdEq :=
  { col := by decide!
    refCol := by decide!
    fullText := by decide!
    literal := by decide!
    staticVar := fun _ h => by cases h
    staticSql := fun _ h => by cases h }

theorem quietLeaf_usersMysql : QuietLeaf mysqlForbidden ⟨specHelpers "mysql", qcFiltered "mysql" "users", mysqlCompiler⟩ usersTable expIdEq :=
  { col := by decide!
    val := by decide!
    listVal := by decide!
    rels := by decide!
    table := by decide!
    op := quietOp_usersMysql
    relOp := fun _ h => by cases h
    relJoin := fun _ h => by cases h
    relOuter := fun _ h => by cases h }

theorem quietSel_usersMysql : QuietSel mysqlForbidden ⟨specHelpers "mysql", qcFiltered "mysql" "users", mysqlCompiler⟩ (usersFiltered "users") :=
  { fieldName := by decide!
    table := by decide!
    ti := by decide!
    rel := by decide!
    orderBy := by decide!
    distinctOn := by decide!
    bcols := by decide!
    joins := by decide!
    limitVar := by decide!
    offsetVar := by decide!
    argMap := by decide!
    jsonFields := fun _ =>
      (by decide! : tokenFree mysqlForbidden ((specHelpers "mysql").renderJSONFields [usersFiltered "users"]
        (usersFiltered "users") {}).2)
    columns := fun _ =>
      (by decide! : tokenFree mysqlForbidden ((specHelpers "mysql").renderColumns [usersFiltered "users"]
        (usersFiltered "users") {}).2)
    baseColumns := fun _ =>
      (by decide! : tokenFree mysqlForbidden ((specHelpers "mysql").renderBaseColumns [usersFiltered "users"]
        (usersFiltered "users") {}).2)
    cursorCol := by decide!
    cursorName := by decide!
    orderCol := by decide!
    distinctCol := by decide!
    groupCol := by decide!
    tableAlias := by decide!
    rowAlias := by decide!
    listAlias := by decide!
    fromTable := by decide!
    embedded := by decide!
    recursive := by decide!
    primary := by decide!
    parentPrimary := fun _ h => by cases h
    joinRel := fun _ h => by cases h
    whereRel := fun _ _ => (by decide! : tokenFree mysqlForbidden "")
    leaves := by
      intro ex hex l hl
      have h1 : ex = expIdEq := by
        have : some expIdEq = some ex := hex
        injection this with this
        exact this.symm
      subst h1
      have h2 : l = expIdEq := by
        have : l ∈ [expIdEq] := hl
        exact List.mem_singleton.mp this
      subst h2
      exact quietLeaf_usersMysql }

theorem quietQuery_usersMysql : QuietQuery mysqlForbidden ⟨specHelpers "mysql", qcFiltered "mysql" "users", mysqlCompiler⟩ :=
  { selects := by
      intro sel hsel
      have h1 : sel = usersFiltered "users" := List.mem_singleton.mp hsel
      subst h1
      exact quietSel_usersMysql
    svars := fun _ h => by cases h
    int32 := spec_int32_quiet _ (Or.inl rfl) _
    param := spec_param_quiet _ (Or.inl rfl) _ }

theorem quietSeams_usersMysql : QuietSeams mysqlForbidden ⟨specHelpers "mysql", qcFiltered "mysql" "users", mysqlCompiler⟩ :=
  { cursorKey := by
      intro id hid sel hsel _
      have h0 : id = 0 := List.mem_singleton.mp hid
      subst h0
      have h1 : usersFiltered "users" = sel := by
        have : some (usersFiltered "users") = some sel := hsel
        injection this
      subst h1
      decide!
    whereRel := by
      intro sel hsel _ pid md
      have h1 : sel = usersFiltered "users" := List.mem_singleton.mp hsel
      subst h1
      exact (by decide! : closedEnd mysqlForbidden "") }

theorem quietOp_usersPostgres : QuietOp otherForbidden ⟨specHelpers "postgres", qcFiltered "postgres" "users", pgCompiler⟩ usersTable expIdEq :=
  { col := by decide!
    refCol := by decide!
    fullText := by decide!
    literal := by decide!
    staticVar := fun _ h => by cases h
    staticSql := fun _ h => by cases h }

theorem quietLeaf_usersPostgres : QuietLeaf otherForbidden ⟨specHelpers "postgres", qcFiltered "postgres" "users", pgCompiler⟩ usersTable expIdEq :=
  { col := by decide!
    val := by decide!
    listVal := by decide!
    rels := by decide!
    table := by decide!
    op := quietOp_usersPostgres
    relOp := fun _ h => by cases h
    relJoin := fun _ h => by cases h
    relOuter := fun _ h => by cases h }

theorem quietSel_usersPostgres : QuietSel otherForbidden ⟨specHelpers "postgres", qcFiltered "postgres" "users", pgCompiler⟩ (usersFiltered "users") :=
  { fieldName := by decide!
    table := by decide!
    ti := by decide!
    rel := by decide!
    orderBy := by decide!
    distinctOn := by decide!
    bcols := by decide!
    joins := by decide!
    limitVar := by decide!
    offsetVar := by decide!
    argMap := by decide!
    jsonFields := fun _ =>
      (by decide! : tokenFree otherForbidden ((specHelpers "postgres").renderJSONFields [usersFiltered "users"]
        (usersFiltered "users") {}).2)
    columns := fun _ =>
      (by decide! : tokenFree otherForbidden ((specHelpers "postgres").renderColumns [usersFiltered "users"]
        (usersFiltered "users") {}).2)
    baseColumns := fun _ =>
      (by decide! : tokenFree otherForbidden ((specHelpers "postgres").renderBaseColumns [usersFiltered "users"]
        (usersFiltered "users") {}).2)
    cursorCol := by decide!
    cursorName := by decide!
    orderCol := by decide!
    distinctCol := by decide!
    groupCol := by decide!
    tableAlias := by decide!
    rowAlias := by decide!
    listAlias := by decide!
    fromTable := by decide!
    embedded := by decide!
    recursive := by decide!
    primary := by decide!
    parentPrimary := fun _ h => by cases h
    joinRel := fun _ h => by cases h
    whereRel := fun _ _ => (by decide! : tokenFree otherForbidden "")
    leaves := by
      intro ex hex l hl
      have h1 : ex = expIdEq := by
        have : some expIdEq = some ex := hex
        injection this with this
        exact this.symm
      subst h1
      have h2 : l = expIdEq := by
        have : l ∈ [expIdEq] := hl
        exact List.mem_singleton.mp this
      subst h2
      exact quietLeaf_usersPostgres }

theorem quietQuery_usersPostgres : QuietQuery otherForbidden ⟨specHelpers "postgres", qcFiltered "postgres" "users", pgCompiler⟩ :=
  { selects := by
      intro sel hsel
      have h1 : sel = usersFiltered "users" := List.mem_singleton.mp hsel
      subst h1
      exact quietSel_usersPostgres
    svars := fun _ h => by cases h
    int32 := spec_int32_quiet _ (Or.inr rfl) _
    param := spec_param_quiet _ (Or.inr rfl) _ }

theorem quietSeams_usersPostgres : QuietSeams otherForbidden ⟨specHelpers "postgres", qcFiltered "postgres" "users", pgCompiler⟩ :=
  { cursorKey := by
      intro id hid sel hsel _
      have h0 : id = 0 := List.mem_singleton.mp hid
      subst h0
      have h1 : usersFiltered "users" = sel := by
        have : some (usersFiltered "users") = some sel := hsel
        injection this
      subst h1
      decide!
    whereRel := by
      intro sel hsel _ pid md
      have h1 : sel = usersFiltered "users" := List.mem_singleton.mp hsel
      subst h1
      exact (by decide! : closedEnd otherForbidden "") }

/-- Claim C16, counterexample: on MySQL the cursor-paged root with the field name
`jsonb` satisfies the proviso of the claim (no token occurs in an input string
or in a helper text: `QuietQuery`), and the SQL returned has the key
`'jsonb_cursor'`, one occurrence of `jsonb_`: the field name and the literal
`_cursor` that `CompileQuery` writes after it form the token across their
boundary. -/
theorem C16_counterexample_cursor_key :
    QuietQuery mysqlForbidden ⟨specHelpers "mysql", qcFiltered "mysql" "jsonb", mysqlCompiler⟩ ∧
    forbidden mysqlCompiler.ct = mysqlForbidden ∧
    CompileEx (specHelpers "mysql") mysqlCompiler 5 (some (qcFiltered "mysql" "jsonb")) =
      Res.ok (compiledFiltered "mysql" sqlJsonbCursor) ∧
    occ "jsonb_" sqlJsonbCursor = 1 ∧
    ¬ dialectIsolated "mysql" sqlJsonbCursor :=
  ⟨quietQuery_jsonbMysql, by decide!, by decide!, by decide!,
    fun h => absurd (h.1 rfl).1 (by decide!)⟩

/-- Witness of C16: the cursor-paged root `users` filtered by `id = '1'`, on
MySQL and on Postgres. -/
theorem C16_dialect_isolation_witness :
    (QuietQuery (forbidden mysqlCompiler.ct)
        ⟨specHelpers "mysql", qcFiltered "mysql" "users", mysqlCompiler⟩ ∧
      QuietSeams (forbidden mysqlCompiler.ct)
        ⟨specHelpers "mysql", qcFiltered "mysql" "users", mysqlCompiler⟩ ∧
      CompileEx (specHelpers "mysql") mysqlCompiler 5 (some (qcFiltered "mysql" "users")) =
        Res.ok (compiledFiltered "mysql" sqlFilteredMysql) ∧
      dialectIsolated "mysql" sqlFilteredMysql) ∧
    (QuietQuery (forbidden pgCompiler.ct)
        ⟨specHelpers "postgres", qcFiltered "postgres" "users", pgCompiler⟩ ∧
      QuietSeams (forbidden pgCompiler.ct)
        ⟨specHelpers "postgres", qcFiltered "postgres" "users", pgCompiler⟩ ∧
      CompileEx (specHelpers "postgres") pgCompiler 5 (some (qcFiltered "postgres" "users")) =
        Res.ok (compiledFiltered "postgres" sqlFilteredPostgres) ∧
      dialectIsolated "postgres" sqlFilteredPostgres) :=
  ⟨⟨quietQuery_usersMysql, quietSeams_usersMysql, by decide!,
      (C16_dialect_isolation (specHelpers "mysql") mysqlCompiler (qcFiltered "mysql" "users") 5
        quietQuery_usersMysql quietSeams_usersMysql).2
        (compiledFiltered "mysql" sqlFilteredMysql) sqlFilteredMysql (by decide) (by decide!) rfl⟩,
    ⟨quietQuery_usersPostgres, quietSeams_usersPostgres, by decide!,
      (C16_dialect_isolation (specHelpers "postgres") pgCompiler
        (qcFiltered "postgres" "users") 5
        quietQuery_usersPostgres quietSeams_usersPostgres).2
        (compiledFiltered "postgres" sqlFilteredPostgres) sqlFilteredPostgres (by decide)
        (by decide!) rfl⟩⟩

theorem quietOp_similar :
    QuietOp otherForbidden ⟨seamHelpers, qcSimilar, pgCompiler⟩ usersTable expSimilar :=
  { col := by decide!
    refCol := by decide!
    fullText := by decide!
    literal := by decide!
    staticVar := fun _ h => by cases h
    staticSql := fun _ h => by cases h }

theorem quietLeaf_similar :
    QuietLeaf otherForbidden ⟨seamHelpers, qcSimilar, pgCompiler⟩ usersTable expSimilar :=
  { col := by decide!
    val := by decide!
    listVal := by decide!
    rels := by decide!
    table := by decide!
    op := quietOp_similar
    relOp := fun _ h => by cases h
    relJoin := fun _ h => by cases h
    relOuter := fun _ h => by cases h }

theorem quietSel_similar :
    QuietSel otherForbidden ⟨seamHelpers, qcSimilar, pgCompiler⟩ usersSimilar :=
  { fieldName := by decide!
    table := by decide!
    ti := by decide!
    rel := by decide!
    orderBy := by decide!
    distinctOn := by decide!
    bcols := by decide!
    joins := by decide!
    limitVar := by decide!
    offsetVar := by decide!
    argMap := by decide!
    jsonFields := fun _ =>
      (by decide! : tokenFree otherForbidden
        (seamHelpers.renderJSONFields [usersSimilar] usersSimilar {}).2)
    columns := fun _ =>
      (by decide! : tokenFree otherForbidden
        (seamHelpers.renderColumns [usersSimilar] usersSimilar {}).2)
    baseColumns := fun _ =>
      (by decide! : tokenFree otherForbidden
        (seamHelpers.renderBaseColumns [usersSimilar] usersSimilar {}).2)
    cursorCol := by decide!
    cursorName := by decide!
    orderCol := by decide!
    distinctCol := by decide!
    groupCol := by decide!
    tableAlias := by decide!
    rowAlias := by decide!
    listAlias := by decide!
    fromTable := by decide!
    embedded := by decide!
    recursive := by decide!
    primary := by decide!
    parentPrimary := fun _ h => by cases h
    joinRel := fun _ h => by cases h
    whereRel := fun _ _ => (by decide! : tokenFree otherForbidden "JSON_CONTAIN")
    leaves := by
      intro ex hex l hl
      have h1 : ex = expSimilar := by
        have : some expSimilar = some ex := hex
        injection this with this
        exact this.symm
      subst h1
      have h2 : l = expSimilar := by
        have : l ∈ [expSimilar] := hl
        exact List.mem_singleton.mp this
      subst h2
      exact quietLeaf_similar }

/-- The second condition of `QuietSeams` is needed: with a relation helper whose
text `JSON_CONTAIN` has no occurrence of a token, the proviso `QuietQuery` holds
and no root has a cursor key, and the SQL for Postgres has `JSON_CONTAINS`, which
the text of the helper and the operator `SIMILAR TO` that `renderWhere` lets
follow it form across their boundary. -/
theorem relation_seam_needed :
    QuietQuery otherForbidden ⟨seamHelpers, qcSimilar, pgCompiler⟩ ∧
    forbidden pgCompiler.ct = otherForbidden ∧
    CompileEx seamHelpers pgCompiler 5 (some qcSimilar) =
      Res.ok { md := { ct := "postgres" }, sql := some sqlSimilar, err := none } ∧
    occ "JSON_CONTAINS" sqlSimilar = 1 ∧
    ¬ dialectIsolated "postgres" sqlSimilar :=
  ⟨{ selects := by
      intro sel hsel
      have h1 : sel = usersSimilar := List.mem_singleton.mp hsel
      subst h1
      exact quietSel_similar
     svars := fun _ h => by cases h
     int32 := spec_int32_quiet _ (Or.inr rfl) "postgres"
     param := spec_param_quiet _ (Or.inr rfl) "postgres" },
    by decide!, by decide!, by decide!,
    fun h => absurd (h.2 (by decide)).2.2.2 (by decide!)⟩

/-! ## The cursor column of a root (C21) -/

theorem inMode_plain (c : Char) (p a v : List Char) (ha : inMode (c :: p) false a)
    (hv : ∀ ch ∈ v, ch ∉ c :: p) : inMode (c :: p) false (a ++ v) := by
  refine ⟨occurrences_append_zero _ a v ha.1
    (occurrences_head c p v (fun ch hch heq => hv ch hch (heq ▸ List.mem_cons_self _ _))) ?_,
    fun h => absurd h (by decide)⟩
  intro k _ hk _ hpre
  have hne : (c :: p).drop k ≠ [] := by
    intro h
    have := congrArg List.length h
    rw [List.length_drop] at this
    simp only [List.length_nil] at this
    omega
  obtain ⟨x, rest, hx⟩ := List.exists_cons_of_ne_nil hne
  have hxp : x ∈ c :: p := List.mem_of_mem_drop (by rw [hx]; exact List.mem_cons_self _ _)
  have hxv : x ∈ v := hpre.subset (by rw [hx]; exact List.mem_cons_self _ _)
  exact hv x hxv hxp

/-- A text of characters of a number or a placeholder, written after any text
without an occurrence of `__cursor`, leaves the buffer without one. -/
theorem flows_numeral (s : String) (h : ∀ ch ∈ s.data, plainChar ch = true) :
    M.flows cursorToken false (write s) false := by
  intro md r hr a ha p hp
  rw [run_write] at hr
  injection hr with hr
  rw [← hr, String.data_append]
  have hp2 : p = "__cursor" := by simpa [cursorToken] using hp
  subst hp2
  apply inMode_plain '_' _ a.data s.data (ha _ hp)
  intro ch hch hmem
  have h1 := h ch hch
  have h2 : ∀ x ∈ "__cursor".data, plainChar x = false := by decide
  rw [h2 ch hmem] at h1
  exact absurd h1 (by decide)

theorem flows_rowColumns (c : compilerContext) (sel : Select)
    (hint : ∀ n, ∀ ch ∈ (c.h.int32String n).data, plainChar ch = true)
    (hfields : c.ct = "mysql" →
      ∀ md, tokenFree cursorToken (c.h.renderJSONFields c.qc.Selects sel md).2) :
    M.flows cursorToken true (rowColumns c sel) true := by
  have hnum : ∀ n, M.flows cursorToken false (write (c.h.int32String n)) false :=
    fun n => flows_numeral _ (hint n)
  simp only [rowColumns, bind_assoc_eq, pure_bind_eq]
  refine flows_join true ?_ (fun _ => ?_)
  · repeat' (first
      | exact flows_pure _ _ _ _ (by decide)
      | exact flows_panic _ _ _
      | refine flows_bind (flows_var _ (by first | assumption | exact hfields (by assumption))) (fun _ => ?_)
      | refine flows_bind (flows_emit _ (by first | assumption | exact hfields (by assumption))) (fun _ => ?_)
      | exact flows_var _ (by first | assumption | exact hfields (by assumption))
      | exact flows_emit _ (by first | assumption | exact hfields (by assumption))
      | refine flows_bind (hnum _) (fun _ => ?_)
      | refine flows_bind (flows_pre _ (hnum _)) (fun _ => ?_)
      | exact flows_mono _ _ (by decide) (by decide) (hnum _)
      | refine flows_bind (flows_lit true _ (by decide!)) (fun _ => ?_)
      | refine flows_bind (flows_lit false _ (by decide!)) (fun _ => ?_)
      | exact flows_lit _ _ (by decide!)
      | refine flows_bind (flows_forRange true _ _ (fun i x hx => ?_)) (fun _ => ?_)
      | refine flows_mono _ _ (by decide) (by decide) (flows_forRange true _ _ (fun i x hx => ?_))
      | simp only [bind_assoc_eq, pure_bind_eq]
      | split)
  · repeat' (first
      | exact flows_pure _ _ _ _ (by decide)
      | exact flows_panic _ _ _
      | refine flows_bind (flows_var _ (by first | assumption)) (fun _ => ?_)
      | refine flows_bind (flows_emit _ (by first | assumption)) (fun _ => ?_)
      | exact flows_var _ (by first | assumption)
      | exact flows_emit _ (by first | assumption)
      | refine flows_bind (hnum _) (fun _ => ?_)
      | refine flows_bind (flows_pre _ (hnum _)) (fun _ => ?_)
      | exact flows_mono _ _ (by decide) (by decide) (hnum _)
      | refine flows_bind (flows_lit true _ (by decide!)) (fun _ => ?_)
      | refine flows_bind (flows_lit false _ (by decide!)) (fun _ => ?_)
      | exact flows_lit _ _ (by decide!)
      | refine flows_bind (flows_forRange true _ _ (fun i x hx => ?_)) (fun _ => ?_)
      | refine flows_mono _ _ (by decide) (by decide) (flows_forRange true _ _ (fun i x hx => ?_))
      | simp only [bind_assoc_eq, pure_bind_eq]
      | split)

theorem returns_rowColumns (c : compilerContext) (sel : Select) :
    M.returns (rowColumns c sel) := by
  unfold rowColumns
  refine returns_bind ?_ (fun _ => returns_bind (returns_write _) (fun _ => ?_))
  · refine returns_ite (fun _ => ?_) (fun _ => ?_)
    · exact returns_bind (returns_write _) (fun _ =>
        returns_bind (returns_emit _) (fun _ => returns_write _))
    · refine returns_bind (returns_write _) (fun _ =>
        returns_bind (returns_write _) (fun _ => returns_bind (returns_write _) (fun _ => ?_)))
      refine returns_ite (fun _ => ?_) (fun _ => returns_pure ())
      exact returns_forRange _ _ (fun _ _ => returns_bind (returns_write _) (fun _ =>
        returns_bind (returns_write _) (fun _ => returns_write _)))
  · refine returns_ite (fun _ => ?_) (fun _ => returns_pure ())
    exact returns_forRange _ _ (fun _ _ => returns_bind (returns_write _) (fun _ =>
      returns_bind (returns_write _) (fun _ => returns_write _)))

theorem rowColumns_quiet (c : compilerContext) (sel : Select)
    (hint : ∀ n, ∀ ch ∈ (c.h.int32String n).data, plainChar ch = true)
    (hfields : c.ct = "mysql" →
      ∀ md, occ "__cursor" (c.h.renderJSONFields c.qc.Selects sel md).2 = 0)
    (md : Metadata) (r : Emitted Unit) (hr : rowColumns c sel md = Res.ok r) :
    occ "__cursor" r.text = 0 := by
  have hf : c.ct = "mysql" →
      ∀ md, tokenFree cursorToken (c.h.renderJSONFields c.qc.Selects sel md).2 := by
    intro hct md2
    rw [tokenFree_def]
    intro p hp
    have hp2 : p = "__cursor" := by simpa [cursorToken] using hp
    rw [hp2]
    exact hfields hct md2
  have h := tokenFree_of_flows cursorToken _ _ (flows_rowColumns c sel hint hf) md r hr
  rw [tokenFree_def] at h
  exact h "__cursor" (by simp [cursorToken])

theorem renderSelect_split (c : compilerContext) (fuel : Nat) (sel : Select) :
    renderSelect c fuel sel = (do
      write "SELECT "
      rowColumns c sel
      write "FROM (SELECT "
      rowBody c fuel sel) := by
  have h1 : "SELECT json_object(" = "SELECT " ++ "json_object(" := by decide
  have h2 : "SELECT to_jsonb(__sr_" = "SELECT " ++ "to_jsonb(__sr_" := by decide
  unfold renderSelect rowColumns rowBody
  by_cases hct : c.ct = "mysql"
  · simp only [hct, if_true, bind_assoc_eq, write_write_bind, ← String.append_assoc, ← h1]
  · simp only [hct, if_false, bind_assoc_eq, write_write_bind, ← String.append_assoc, ← h2]

theorem renderPluralSelect_singular (c : compilerContext) (sel : Select)
    (hs : sel.Singular = true) : renderPluralSelect c sel = pure () := by
  unfold renderPluralSelect
  rw [if_pos hs]

theorem cursorAggregate_end (h : Helpers) (sel : Select) :
    ∃ cols, cursorAggregate h sel = cols ++ ") as __cursor" :=
  ⟨_, rfl⟩

theorem renderOpen_lateral (c : compilerContext) (fuel : Nat) (sel : Select)
    (hty : sel.Typ ≠ SelType.SelTypeUnion) :
    renderOpen c fuel true sel = (do
      write " LEFT OUTER JOIN LATERAL ("
      (if sel.Rel.Typ = RelType.RelRecursive then renderRecursiveCTE c fuel sel else pure ())
      renderPluralSelect c sel
      write "SELECT "
      rowColumns c sel
      write "FROM (SELECT "
      rowBody c fuel sel) := by
  have hcond : (sel.Typ != SelType.SelTypeUnion) = true := by simp [hty]
  unfold renderOpen renderLateralJoin
  simp only [hcond, Bool.or_true, if_true, renderSelect_split]

theorem renderClose_lateral (c : compilerContext) (sel : Select)
    (hty : sel.Typ ≠ SelType.SelTypeUnion) (md : Metadata) :
    renderClose c true sel md = Res.ok ⟨(), md,
      ")" ++ c.h.aliasWithID "__sr" sel.ID
        ++ (if sel.Singular then "" else ")" ++ c.h.aliasWithID "__sj" sel.ID)
        ++ ")" ++ c.h.aliasWithID "__sj" sel.ID ++ " ON true"⟩ := by
  rw [renderClose_run c true sel hty md]
  unfold closeText lateralOpened
  simp only [Bool.or_true, if_true, String.append_assoc]

theorem rootEntry_cursor (h : Helpers) (sel : Select)
    (hskip : sel.SkipRender ≠ SkipType.SkipTypeUserNeeded)
    (hcur : sel.Paging.Cursor = true) :
    rootEntry h sel =
      "'" ++ sel.FieldName ++ "', __sj_" ++ h.int32String sel.ID ++ ".json"
        ++ ", '" ++ sel.FieldName ++ "_cursor', __sj_" ++ h.int32String sel.ID
        ++ ".__cursor" := by
  unfold rootEntry
  simp only [hskip, hcur, if_true, if_false, String.append_assoc]

theorem rootEntry_mem (h : Helpers) (qc : QCode) (id : Int) (sel : Select)
    (hid : id ∈ qc.Roots) (hsel : selectAt qc.Selects id = some sel) :
    rootEntry h sel ∈ (rootSelects qc).map (rootEntry h) := by
  apply List.mem_map_of_mem
  unfold rootSelects
  exact List.mem_filterMap.mpr ⟨id, hid, hsel⟩

theorem mem_renderedRoots (qc : QCode) (id : Int) (sel : Select)
    (hid : id ∈ qc.Roots) (hsel : selectAt qc.Selects id = some sel)
    (hskip : sel.SkipRender ≠ SkipType.SkipTypeUserNeeded) : sel ∈ renderedRoots qc := by
  unfold renderedRoots rootSelects
  rw [List.mem_filter]
  exact ⟨List.mem_filterMap.mpr ⟨id, hid, hsel⟩, by simp [hskip]⟩

theorem spec_int32_plain (ct : String) (n : Int) :
    ∀ ch ∈ ((specHelpers ct).int32String n).data, plainChar ch = true :=
  intRepr_plain n

/-- Claim C21 (amended): for every rendered root with cursor paging whose type is
not Union, the root wrapper reads `__sj_<id>.__cursor`; the open sequence of the
root starts the sub-select that the close sequence aliases `__sj_<id>`, and the
select list of that sub-select has a column `__cursor` if and only if the selection
is not singular.  For a selection that is not singular the plural wrapper comes
first and its select list ends in `) as __cursor`; for a singular selection the
plural wrapper writes nothing, the select list of the sub-select is the one of the
row wrapper, and that list is always written and never contains `__cursor`, so the
reference of the root wrapper has no definition.  The helper `int32String` is taken
to write only characters of a number or a placeholder, and on MySQL
`renderJSONFields` to write no `__cursor`. -/
theorem C21_cursor_column (c : compilerContext) (fuel : Nat) (id : Int) (sel : Select)
    (hid : id ∈ c.qc.Roots) (hsel : selectAt c.qc.Selects id = some sel)
    (hskip : sel.SkipRender ≠ SkipType.SkipTypeUserNeeded)
    (hty : sel.Typ ≠ SelType.SelTypeUnion)
    (hcur : sel.Paging.Cursor = true)
    (hint : ∀ n, ∀ ch ∈ (c.h.int32String n).data, plainChar ch = true)
    (hfields : c.ct = "mysql" →
      ∀ md, occ "__cursor" (c.h.renderJSONFields c.qc.Selects sel md).2 = 0) :
    (sel ∈ renderedRoots c.qc ∧
      rootEntry c.h sel ∈ (rootSelects c.qc).map (rootEntry c.h) ∧
      rootEntry c.h sel =
        "'" ++ sel.FieldName ++ "', __sj_" ++ c.h.int32String sel.ID ++ ".json"
          ++ ", '" ++ sel.FieldName ++ "_cursor', __sj_" ++ c.h.int32String sel.ID
          ++ ".__cursor") ∧
    (renderOpen c fuel true sel = (do
        write " LEFT OUTER JOIN LATERAL ("
        (if sel.Rel.Typ = RelType.RelRecursive then renderRecursiveCTE c fuel sel
         else pure ())
        renderPluralSelect c sel
        write "SELECT "
        rowColumns c sel
        write "FROM (SELECT "
        rowBody c fuel sel) ∧
      ∀ md, renderClose c true sel md = Res.ok ⟨(), md,
        ")" ++ c.h.aliasWithID "__sr" sel.ID
          ++ (if sel.Singular then "" else ")" ++ c.h.aliasWithID "__sj" sel.ID)
          ++ ")" ++ c.h.aliasWithID "__sj" sel.ID ++ " ON true"⟩) ∧
    (M.returns (rowColumns c sel) ∧
      ∀ md r, rowColumns c sel md = Res.ok r → occ "__cursor" r.text = 0) ∧
    (sel.Singular = false →
      (∀ md, renderPluralSelect c sel md = Res.ok ⟨(), md,
        pluralHead c.h c.ct sel ++ cursorAggregate c.h sel ++ " FROM ("⟩) ∧
      ∃ cols, cursorAggregate c.h sel = cols ++ ") as __cursor") ∧
    (sel.Singular = true → renderPluralSelect c sel = pure ()) :=
  ⟨⟨mem_renderedRoots c.qc id sel hid hsel hskip, rootEntry_mem c.h c.qc id sel hid hsel,
      rootEntry_cursor c.h sel hskip hcur⟩,
    ⟨renderOpen_lateral c fuel sel hty, renderClose_lateral c sel hty⟩,
    ⟨returns_rowColumns c sel, rowColumns_quiet c sel hint hfields⟩,
    fun hs => ⟨fun md => renderPluralSelect_cursor c sel md hs hcur,
      cursorAggregate_end c.h sel⟩,
    renderPluralSelect_singular c sel⟩

/-- Claim C21, witness: on Postgres, the singular cursor-paged root `users` and the
plural root `users` of scenario S4.  Both statements read `__sj_0.__cursor` in the
root wrapper; the statement of the singular root has no other `__cursor`, the one of
the plural root has `as __cursor` in the plural wrapper. -/
theorem C21_cursor_column_witness :
    (((0 : Int) ∈ cCursorOne.qc.Roots ∧
        selectAt cCursorOne.qc.Selects 0 = some usersCursorOne ∧
        usersCursorOne.SkipRender ≠ SkipType.SkipTypeUserNeeded ∧
        usersCursorOne.Typ ≠ SelType.SelTypeUnion ∧
        usersCursorOne.Paging.Cursor = true ∧ usersCursorOne.Singular = true) ∧
      (CompileEx (specHelpers "postgres") pgCompiler 5 (some qcCursorOne) = Res.ok
          { md := { ct := "postgres", params := [{ Name := "cursor", Typ := "text" }],
                    pindex := [("cursor", 1)] },
            sql := some sqlCursorOne, err := none } ∧
        occ "__sj_0.__cursor" sqlCursorOne = 1 ∧ occ "__cursor" sqlCursorOne = 1) ∧
      (rootEntry cCursorOne.h usersCursorOne =
          "'" ++ usersCursorOne.FieldName ++ "', __sj_"
            ++ cCursorOne.h.int32String usersCursorOne.ID ++ ".json"
            ++ ", '" ++ usersCursorOne.FieldName ++ "_cursor', __sj_"
            ++ cCursorOne.h.int32String usersCursorOne.ID ++ ".__cursor" ∧
        (∀ md r, rowColumns cCursorOne usersCursorOne md = Res.ok r →
          occ "__cursor" r.text = 0) ∧
        (usersCursorOne.Singular = true →
          renderPluralSelect cCursorOne usersCursorOne = pure ()))) ∧
    (((0 : Int) ∈ cS4.qc.Roots ∧ selectAt cS4.qc.Selects 0 = some usersCursor ∧
        usersCursor.SkipRender ≠ SkipType.SkipTypeUserNeeded ∧
        usersCursor.Typ ≠ SelType.SelTypeUnion ∧
        usersCursor.Paging.Cursor = true ∧ usersCursor.Singular = false) ∧
      (CompileEx (specHelpers "postgres") pgCompiler 5 (some qcS4) = Res.ok
          { md := { ct := "postgres", params := [{ Name := "cursor", Typ := "text" }],
                    pindex := [("cursor", 1)] },
            sql := some sqlCursorMany, err := none } ∧
        occ "__sj_0.__cursor" sqlCursorMany = 1 ∧ occ ") as __cursor" sqlCursorMany = 1) ∧
      (usersCursor.Singular = false →
        (∀ md, renderPluralSelect cS4 usersCursor md = Res.ok ⟨(), md,
          pluralHead cS4.h cS4.ct usersCursor ++ cursorAggregate cS4.h usersCursor
            ++ " FROM ("⟩) ∧
        ∃ cols, cursorAggregate cS4.h usersCursor = cols ++ ") as __cursor")) :=
  ⟨⟨⟨by decide, rfl, by decide, by decide, rfl, rfl⟩,
      ⟨by decide!, by decide!, by decide!⟩,
      (C21_cursor_column cCursorOne 5 0 usersCursorOne (by decide) rfl (by decide)
        (by decide) rfl (spec_int32_plain "postgres")
        (fun h => absurd h (by decide))).1.2.2,
      (C21_cursor_column cCursorOne 5 0 usersCursorOne (by decide) rfl (by decide)
        (by decide) rfl (spec_int32_plain "postgres")
        (fun h => absurd h (by decide))).2.2.1.2,
      (C21_cursor_column cCursorOne 5 0 usersCursorOne (by decide) rfl (by decide)
        (by decide) rfl (spec_int32_plain "postgres")
        (fun h => absurd h (by decide))).2.2.2.2⟩,
    ⟨by decide, rfl, by decide, by decide, rfl, rfl⟩,
    ⟨by decide!, by decide!, by decide!⟩,
    (C21_cursor_column cS4 5 0 usersCursor (by decide) rfl (by decide)
      (by decide) rfl (spec_int32_plain "postgres")
      (fun h => absurd h (by decide))).2.2.2.1⟩

/-- Claim C21, counterexample: the union query with cursor paging on its root, on
Postgres.  The root `media` is rendered, has cursor paging and is not singular, and
the root wrapper reads `__sj_0.__cursor`; the open and the close event of a Union
selection write nothing, so the statement has no sub-select aliased `__sj_0` and no
other `__cursor`: no column `__cursor` is defined although the selection is not
singular. -/
theorem C21_counterexample_union_root :
    ((0 : Int) ∈ cUnionCursor.qc.Roots ∧
      selectAt cUnionCursor.qc.Selects 0 = some unionCursor ∧
      unionCursor ∈ renderedRoots cUnionCursor.qc ∧
      unionCursor.Typ = SelType.SelTypeUnion ∧
      unionCursor.Paging.Cursor = true ∧ unionCursor.Singular = false) ∧
    CompileEx (specHelpers "postgres") pgCompiler 6 (some qcUnionCursor) = Res.ok
      { md := { ct := "postgres" }, sql := some sqlUnionCursor, err := none } ∧
    rootEntry cUnionCursor.h unionCursor =
      "'media', __sj_0.json, 'media_cursor', __sj_0.__cursor" ∧
    renderOpen cUnionCursor 6 true unionCursor = pure () ∧
    renderClose cUnionCursor true unionCursor = pure () ∧
    occ "__sj_0.__cursor" sqlUnionCursor = 1 ∧
    occ "__cursor" sqlUnionCursor = 1 ∧
    occ "\"__sj_0\"" sqlUnionCursor = 0 :=
  ⟨⟨by decide, rfl, mem_renderedRoots cUnionCursor.qc 0 unionCursor (by decide) rfl (by decide),
      rfl, rfl, rfl⟩,
    by decide!, by decide!, renderOpen_union cUnionCursor 6 true unionCursor rfl,
    renderClose_union cUnionCursor true unionCursor rfl,
    by decide!, by decide!, by decide!⟩

/-! ## A UserNeeded root and its descendants (C5) -/

theorem Descends.trans {selects : List Select} {a b s : Select}
    (hab : Descends selects a b) (hbs : Descends selects b s) : Descends selects a s := by
  induction hbs with
  | refl => exact hab
  | step p s cid _ hc hs ih => exact Descends.step p s cid ih hc hs

theorem descends_of_reachFrom (selects : List Select) (a s : Select)
    (h : ReachFrom selects a s) : Descends selects a s := by
  induction h with
  | refl sel => exact Descends.refl
  | step sel child s hchild _ ih =>
    obtain ⟨cid, hc, hs⟩ := mem_renderableChildren selects sel child hchild
    exact Descends.trans (Descends.step sel child cid Descends.refl hc hs) ih

theorem descends_valid (qc : QCode) (ht : TreeShaped qc) (a s : Select)
    (ha : selectAt qc.Selects a.ID = some a) (h : Descends qc.Selects a s) :
    selectAt qc.Selects s.ID = some s := by
  induction h with
  | refl => exact ha
  | step p s cid _ _ hs _ =>
    exact (selectAt_valid qc.Selects cid s ht.index ht.bound hs).2.2.1

theorem descends_sentinel (qc : QCode) (ht : TreeShaped qc) (a b : Select)
    (ha : selectAt qc.Selects a.ID = some a) (hb : b.ParentID < 0)
    (h : Descends qc.Selects a b) : a = b := by
  cases h with
  | refl => rfl
  | step p _ cid hp hc hs =>
    have hpv := descends_valid qc ht a p ha hp
    have hpm := selectAt_valid qc.Selects p.ID p ht.index ht.bound hpv
    have := ht.parent p hpm.1 cid hc _ hs
    omega

theorem descends_tree (qc : QCode) (ht : TreeShaped qc) (a b s : Select)
    (ha : selectAt qc.Selects a.ID = some a) (hb : selectAt qc.Selects b.ID = some b)
    (has : Descends qc.Selects a s) (hbs : Descends qc.Selects b s) :
    Descends qc.Selects a b ∨ Descends qc.Selects b a := by
  induction has generalizing b with
  | refl => exact Or.inr hbs
  | step p s cid hap hc hs ih =>
    cases hbs with
    | refl => exact Or.inl (Descends.step p _ cid hap hc hs)
    | step q _ cid2 hbq hc2 hs2 =>
      have hpv := descends_valid qc ht a p ha hap
      have hqv := descends_valid qc ht b q hb hbq
      have hpm := selectAt_valid qc.Selects p.ID p ht.index ht.bound hpv
      have hqm := selectAt_valid qc.Selects q.ID q ht.index ht.bound hqv
      have h1 := ht.parent p hpm.1 cid hc s hs
      have h2 := ht.parent q hqm.1 cid2 hc2 s hs2
      have hpq : p = q := by
        have h3 : selectAt qc.Selects p.ID = some q := by rw [← h1, h2]; exact hqv
        rw [hpv] at h3
        exact Option.some.inj h3
      subst hpq
      exact ih b hb hbq

theorem root_valid (qc : QCode) (ht : TreeShaped qc) (r : Select) (hr : r ∈ rootSelects qc) :
    selectAt qc.Selects r.ID = some r ∧ r.ParentID < 0 := by
  unfold rootSelects at hr
  obtain ⟨rid, hrid, hs⟩ := List.mem_filterMap.mp hr
  exact ⟨(selectAt_valid qc.Selects rid r ht.index ht.bound hs).2.2.1, ht.sentinel rid hrid r hs⟩

theorem reachable_not_below (qc : QCode) (ht : TreeShaped qc) (sel s : Select)
    (hsel : sel ∈ rootSelects qc)
    (hskip : sel.SkipRender = SkipType.SkipTypeUserNeeded) (hr : Reachable qc s) :
    ¬ Descends qc.Selects sel s := by
  intro hd
  obtain ⟨root, hroot, hreach⟩ := hr
  unfold renderedRoots at hroot
  rw [List.mem_filter] at hroot
  have hrv := root_valid qc ht root hroot.1
  have hsv := root_valid qc ht sel hsel
  have heq : root = sel := by
    rcases descends_tree qc ht root sel s hrv.1 hsv.1
      (descends_of_reachFrom qc.Selects root s hreach) hd with h | h
    · exact descends_sentinel qc ht root sel hrv.1 hsv.2 h
    · exact (descends_sentinel qc ht sel root hsv.1 hrv.2 h).symm
  rw [heq] at hroot
  simp [hskip] at hroot

theorem qcElided_tree : TreeShaped qcElided where
  index := by
    intro i s h
    match i, h with
    | 0, h => injection h with h; subst h; rfl
    | 1, h => injection h with h; subst h; rfl
    | 2, h => injection h with h; subst h; rfl
    | _ + 3, h => cases h
  bound := by decide
  children := by
    intro s hs cid hc
    simp only [qcElided, List.mem_cons, List.mem_singleton, List.not_mem_nil, or_false] at hs
    rcases hs with rfl | rfl | rfl
    · simp only [usersElided, List.mem_cons, List.not_mem_nil, or_false] at hc
      subst hc
      rfl
    · cases hc
    · cases hc
  parent := by
    intro p hp cid hc s hs
    simp only [qcElided, List.mem_cons, List.mem_singleton, List.not_mem_nil, or_false] at hp
    rcases hp with rfl | rfl | rfl
    · simp only [usersElided, List.mem_cons, List.not_mem_nil, or_false] at hc
      subst hc
      injection hs with hs
      subst hs
      rfl
    · cases hc
    · cases hc
  sentinel := by
    intro rid hrid r hr
    simp only [qcElided, List.mem_cons, List.mem_singleton, List.not_mem_nil, or_false] at hrid
    rcases hrid with rfl | rfl
    · injection hr with hr
      subst hr
      decide
    · injection hr with hr
      subst hr
      decide

/-- Claim C5: a UserNeeded root schedules no open or close event.  For a query
whose roots index the selection array and whose root `id` (at any position of
`Roots`) is UserNeeded, the stack after the loop over the roots is the one of the
same query with that root removed from `Roots`; `CompileQuery` emits for both
queries their own root wrapper followed by one and the same traversal, so the
text after `AS __root_x` is the same, and fails in the same way when the
traversal fails; and the root wrapper carries for that root the entry
`'<field_name>', NULL` (followed by `, '<field_name>_cursor', NULL` under cursor
paging).  When the selections keep the data model (ids are indices, `ParentID`
names the enclosing selection and is a sentinel for roots) and the trees below the
rendered roots unfold to the events `evs`, the traversal ends with exactly these
events, the text after the root wrapper is the text of these events, and none of
them is an event of the UserNeeded root or of any of its descendants: no
sub-select for them appears. -/
theorem C5_user_needed_root (h : Helpers) (co : Compiler) (fuel : Nat) (md : Metadata)
    (qc : QCode) (pre post : List Int) (id : Int) (sel : Select)
    (d : Nat) (evs : List Event)
    (hR : qc.Roots = pre ++ id :: post)
    (hsel : selectAt qc.Selects id = some sel)
    (hskip : sel.SkipRender = SkipType.SkipTypeUserNeeded)
    (hroots : ∀ rid ∈ qc.Roots, (selectAt qc.Selects rid).isSome = true)
    (htree : TreeShaped qc)
    (hunf : seqOpt ((renderedRoots qc).reverse.map (brackets qc.Selects d)) = some evs)
    (hfuel : evs.length ≤ fuel) :
    scheduleRoots (rootSelects qc) [] =
      scheduleRoots (rootSelects { qc with Roots := pre ++ post }) [] ∧
    CompileQuery ⟨h, qc, co⟩ fuel md =
      Res.shift (rootWrapper h co qc)
        (renderQuery ⟨h, qc, co⟩ fuel true fuel
          (scheduleRoots (rootSelects { qc with Roots := pre ++ post }) []) (rootMd qc md)) ∧
    CompileQuery ⟨h, { qc with Roots := pre ++ post }, co⟩ fuel md =
      Res.shift (rootWrapper h co { qc with Roots := pre ++ post })
        (renderQuery ⟨h, qc, co⟩ fuel true fuel
          (scheduleRoots (rootSelects { qc with Roots := pre ++ post }) []) (rootMd qc md)) ∧
    (rootSelects qc).map (rootEntry h) =
      (pre.filterMap (selectAt qc.Selects)).map (rootEntry h) ++
        ("'" ++ sel.FieldName ++ "', NULL"
            ++ (if sel.Paging.Cursor then ", '" ++ sel.FieldName ++ "_cursor', NULL" else ""))
          :: (post.filterMap (selectAt qc.Selects)).map (rootEntry h) ∧
    traverse qc.Selects fuel
      (scheduleRoots (rootSelects { qc with Roots := pre ++ post }) []) = some evs ∧
    renderQuery ⟨h, qc, co⟩ fuel true fuel
        (scheduleRoots (rootSelects { qc with Roots := pre ++ post }) []) =
      seqAll (evs.map (renderEvent ⟨h, qc, co⟩ fuel true)) ∧
    (∀ ev ∈ evs, ∀ s, Descends qc.Selects sel s →
      ev ≠ Event.opened s ∧ ev ≠ Event.closed s) := by
  have hsels : rootSelects qc =
      pre.filterMap (selectAt qc.Selects) ++ sel :: post.filterMap (selectAt qc.Selects) := by
    simp [rootSelects, hR, List.filterMap_append, List.filterMap_cons, hsel]
  have hsels2 : rootSelects { qc with Roots := pre ++ post } =
      pre.filterMap (selectAt qc.Selects) ++ post.filterMap (selectAt qc.Selects) := by
    simp [rootSelects, List.filterMap_append]
  have hsched : scheduleRoots (rootSelects qc) [] =
      scheduleRoots (rootSelects { qc with Roots := pre ++ post }) [] := by
    rw [hsels, hsels2]
    exact scheduleRoots_skip _ _ sel hskip []
  have hroots2 : ∀ rid ∈ pre ++ post, (selectAt qc.Selects rid).isSome = true := by
    intro rid hrid
    apply hroots rid
    rw [hR]
    rcases List.mem_append.mp hrid with hp | hp
    · exact List.mem_append_left _ hp
    · exact List.mem_append_right _ (List.mem_cons_of_mem _ hp)
  have htr : traverse qc.Selects fuel (rootStack qc) = some evs :=
    traverse_mono qc.Selects evs.length fuel (rootStack qc) evs hfuel
      (roots_traverse qc d evs htree.index htree.bound htree.children hunf)
  have hmem : sel ∈ rootSelects qc := by
    rw [hsels]
    exact List.mem_append_right _ (List.mem_cons_self _ _)
  unfold rootStack at htr
  rw [hsched] at htr
  refine ⟨hsched, ?_, ?_, ?_, htr, ?_, ?_⟩
  · rw [CompileQuery_run ⟨h, qc, co⟩ fuel md hroots, hsched]
  · rw [CompileQuery_run ⟨h, { qc with Roots := pre ++ post }, co⟩ fuel md hroots2]
    rw [renderQuery_roots]
    rfl
  · rw [hsels]
    simp [rootEntry, hskip]
  · exact renderQuery_events ⟨h, qc, co⟩ fuel true fuel _ evs htr
  · intro ev hev s hd
    have hreach := (roots_reach qc d evs hunf).1 ev hev
    constructor
    · intro he
      rw [he] at hreach
      exact reachable_not_below qc htree sel s hmem hskip hreach hd
    · intro he
      rw [he] at hreach
      exact reachable_not_below qc htree sel s hmem hskip hreach hd

/-- Claim C5, witness: the two-root query whose first root `users` is UserNeeded and
has the child `drafts`, on Postgres: the wrapper carries `'users', NULL`, the text
after it is the sub-select of `posts`, the only events are the open and the close
of `posts`, and neither `users` nor its child `drafts` has an event. -/
theorem C5_user_needed_root_witness :
    ((qcElided.Roots = [] ++ 0 :: [1] ∧ selectAt qcElided.Selects 0 = some usersElided ∧
        usersElided.SkipRender = SkipType.SkipTypeUserNeeded ∧
        (∀ rid ∈ qcElided.Roots, (selectAt qcElided.Selects rid).isSome = true) ∧
        TreeShaped qcElided ∧
        seqOpt ((renderedRoots qcElided).reverse.map (brackets qcElided.Selects 1)) =
          some [Event.opened postsSel, Event.closed postsSel]) ∧
      rootWrapper (specHelpers "postgres") pgCompiler qcElided = wrapperUserNeeded ∧
      CompileQuery ⟨specHelpers "postgres", qcElided, pgCompiler⟩ 4 {} =
        Res.ok ⟨(), { ct := "postgres" }, wrapperUserNeeded ++ lateralPosts⟩ ∧
      Descends qcElided.Selects usersElided draftsChild) ∧
    (CompileQuery ⟨specHelpers "postgres", { qcElided with Roots := [] ++ [1] },
        pgCompiler⟩ 4 {} =
      Res.shift (rootWrapper (specHelpers "postgres") pgCompiler
          { qcElided with Roots := [] ++ [1] })
        (renderQuery ⟨specHelpers "postgres", qcElided, pgCompiler⟩ 4 true 4
          (scheduleRoots (rootSelects { qcElided with Roots := [] ++ [1] }) [])
          (rootMd qcElided {})) ∧
    (rootSelects qcElided).map (rootEntry (specHelpers "postgres")) =
      (([] : List Int).filterMap (selectAt qcElided.Selects)).map
          (rootEntry (specHelpers "postgres")) ++
        ("'" ++ usersElided.FieldName ++ "', NULL"
            ++ (if usersElided.Paging.Cursor then
                  ", '" ++ usersElided.FieldName ++ "_cursor', NULL" else ""))
          :: (([1] : List Int).filterMap (selectAt qcElided.Selects)).map
            (rootEntry (specHelpers "postgres")) ∧
    traverse qcElided.Selects 4
      (scheduleRoots (rootSelects { qcElided with Roots := [] ++ [1] }) []) =
        some [Event.opened postsSel, Event.closed postsSel] ∧
    renderQuery ⟨specHelpers "postgres", qcElided, pgCompiler⟩ 4 true 4
        (scheduleRoots (rootSelects { qcElided with Roots := [] ++ [1] }) []) =
      seqAll ([Event.opened postsSel, Event.closed postsSel].map
        (renderEvent ⟨specHelpers "postgres", qcElided, pgCompiler⟩ 4 true)) ∧
    (∀ ev ∈ [Event.opened postsSel, Event.closed postsSel], ∀ s,
      Descends qcElided.Selects usersElided s →
        ev ≠ Event.opened s ∧ ev ≠ Event.closed s)) :=
  ⟨⟨⟨rfl, rfl, rfl, by decide!, qcElided_tree, rfl⟩, by decide!, by decide!,
      Descends.step usersElided draftsChild 2 Descends.refl (by decide) rfl⟩,
    (C5_user_needed_root (specHelpers "postgres") pgCompiler 4 {} qcElided [] [1] 0
      usersElided 1 [Event.opened postsSel, Event.closed postsSel] rfl rfl rfl (by decide!)
      qcElided_tree rfl (by decide)).2.2⟩

/-! ## Runs that end in a panic (C8) -/

theorem halts_pure {α : Type} (a : α) : M.halts (pure a : M α) :=
  fun _ h => by cases h

theorem halts_write (s : String) : M.halts (write s) :=
  fun _ h => by cases h

theorem halts_emit (e : Emit) : M.halts (emit e) :=
  fun _ h => by cases h

theorem halts_modify (f : Metadata → Metadata) : M.halts (modifyMd f) :=
  fun _ h => by cases h

theorem halts_panic {α : Type} : M.halts (panicM : M α) :=
  fun _ h => by cases h

theorem halts_bind {α β : Type} {x : M α} {f : α → M β}
    (hx : M.halts x) (hf : ∀ a, M.halts (f a)) : M.halts (x >>= f) := by
  intro md h
  rw [run_bind] at h
  cases hxm : x md with
  | ok r1 =>
    rw [hxm] at h
    simp only [] at h
    cases hfm : f r1.val r1.md with
    | ok r2 => rw [hfm] at h; cases h
    | panic => rw [hfm] at h; cases h
    | outOfFuel => exact hf r1.val r1.md hfm
  | panic => rw [hxm] at h; cases h
  | outOfFuel => exact hx md hxm

theorem halts_forRangeFrom {α : Type} (body : Nat → α → M Unit)
    (hbody : ∀ i x, M.halts (body i x)) (xs : List α) :
    ∀ (i : Nat), M.halts (forRangeFrom body i xs) := by
  induction xs with
  | nil =>
    intro i
    exact halts_pure ()
  | cons x rest ih =>
    intro i
    simp only [forRangeFrom]
    exact halts_bind (hbody i x) (fun _ => ih (i + 1))

theorem halts_forRange {α : Type} (xs : List α) (body : Nat → α → M Unit)
    (hbody : ∀ i x, M.halts (body i x)) : M.halts (forRange xs body) :=
  halts_forRangeFrom body hbody xs 0

theorem halts_seqAll (xs : List (M Unit)) (h : ∀ x ∈ xs, M.halts x) :
    M.halts (seqAll xs) := by
  induction xs with
  | nil => exact halts_pure ()
  | cons x rest ih =>
    simp only [seqAll]
    exact halts_bind (h x (List.mem_cons_self _ _))
      (fun _ => ih (fun y hy => h y (List.mem_cons_of_mem _ hy)))

theorem panics_of_neverOk {α : Type} {x : M α} (hn : M.neverOk x) (hh : M.halts x)
    (md : Metadata) : x md = Res.panic := by
  cases hx : x md with
  | ok r => exact absurd hx (hn md r)
  | panic => rfl
  | outOfFuel => exact absurd hx (hh md)

theorem halts_renderList (ex : Exp) : M.halts (renderList ex) := by
  unfold renderList
  repeat' (first
    | exact halts_pure _
    | exact halts_write _
    | exact halts_emit _
    | exact halts_modify _
    | exact halts_panic
    | assumption
    | refine halts_bind ?_ (fun _ => ?_)
    | refine halts_forRange _ _ (fun _ _ => ?_)
    | split)

theorem halts_renderValPrefix (c : compilerContext) (ti : TInfo) (ex : Exp) :
    M.halts (renderValPrefix c ti ex) := by
  unfold renderValPrefix renderValVarPrefix
  repeat' (first
    | exact halts_pure _
    | exact halts_write _
    | exact halts_emit _
    | exact halts_modify _
    | exact halts_panic
    | assumption
    | refine halts_bind ?_ (fun _ => ?_)
    | refine halts_forRange _ _ (fun _ _ => ?_)
    | split)

theorem halts_renderVal (c : compilerContext) (ti : TInfo) (ex : Exp) :
    M.halts (renderVal c ti ex) := by
  unfold renderVal renderValVar
  repeat' (first
    | exact halts_pure _
    | exact halts_write _
    | exact halts_emit _
    | exact halts_modify _
    | exact halts_panic
    | assumption
    | refine halts_bind ?_ (fun _ => ?_)
    | refine halts_forRange _ _ (fun _ _ => ?_)
    | split)

theorem halts_renderOpSwitch (c : compilerContext) (ti : TInfo) (ex : Exp) :
    M.halts (renderOpSwitch c ti ex) := by
  unfold renderOpSwitch
  repeat' (first
    | exact halts_pure _
    | exact halts_write _
    | exact halts_emit _
    | exact halts_modify _
    | exact halts_panic
    | assumption
    | refine halts_bind ?_ (fun _ => ?_)
    | refine halts_forRange _ _ (fun _ _ => ?_)
    | split)

theorem halts_renderOp (c : compilerContext) (schema : DBSchema) (ti : TInfo) (ex : Exp) :
    M.halts (renderOp c schema ti ex) := by
  unfold renderOp
  repeat' (first
    | exact halts_pure _
    | exact halts_write _
    | exact halts_emit _
    | exact halts_modify _
    | exact halts_panic
    | assumption
    | exact halts_renderValPrefix _ _ _
    | exact halts_renderOpSwitch _ _ _
    | exact halts_renderList _
    | exact halts_renderVal _ _ _
    | refine halts_bind ?_ (fun _ => ?_)
    | refine halts_forRange _ _ (fun _ _ => ?_)
    | split)

theorem halts_renderJoin (c : compilerContext) (rel : DBRel) (pid : Int) :
    M.halts (renderJoin c rel pid) := by
  unfold renderJoin
  repeat' (first
    | exact halts_pure _
    | exact halts_write _
    | exact halts_emit _
    | exact halts_modify _
    | exact halts_panic
    | assumption
    | refine halts_bind ?_ (fun _ => ?_)
    | refine halts_forRange _ _ (fun _ _ => ?_)
    | split)

theorem halts_renderNestedWhere (c : compilerContext) (rec : TInfo → Exp → M Unit)
    (ti : TInfo) (ex : Exp) (hrec : ∀ ti2 ex2, M.halts (rec ti2 ex2)) :
    M.halts (renderNestedWhere c rec ti ex) := by
  unfold renderNestedWhere
  repeat' (first
    | exact halts_pure _
    | exact halts_write _
    | exact halts_emit _
    | exact halts_modify _
    | exact halts_panic
    | assumption
    | exact hrec _ _
    | exact halts_renderJoin _ _ _
    | refine halts_bind ?_ (fun _ => ?_)
    | refine halts_forRange _ _ (fun _ _ => ?_)
    | split)

theorem expSteps_node (n : ExpNode) (cs : List Exp) :
    expSteps (Exp.node n cs) = 3 + expStepsAll cs := by
  rw [expSteps]

theorem expStepsAll_cons (e : Exp) (rest : List Exp) :
    expStepsAll (e :: rest) = expSteps e + 1 + expStepsAll rest := by
  rw [expStepsAll]

theorem stackSteps_append (a b : List Frame) :
    stackSteps (a ++ b) = stackSteps a + stackSteps b := by
  induction a with
  | nil => simp [stackSteps]
  | cons f rest ih =>
    show stackSteps (f :: (rest ++ b)) = _
    simp only [stackSteps, ih]
    omega

theorem stackSteps_interleave (op : ExpOp) (cs : List Exp) :
    stackSteps (interleave op cs) ≤ expStepsAll cs := by
  induction cs with
  | nil => simp [interleave, stackSteps]
  | cons e rest ih =>
    cases rest with
    | nil =>
      simp only [interleave, stackSteps, frameSteps, expStepsAll_cons]
      omega
    | cons e2 rest2 =>
      rw [expStepsAll_cons]
      simp only [interleave, stackSteps, frameSteps] at ih ⊢
      omega

theorem expSteps_children (val : Exp) : expSteps val = 3 + expStepsAll val.Children := by
  cases val with
  | node n cs => exact expSteps_node n cs

theorem halts_renderExpLoop (c : compilerContext) (schema : DBSchema) :
    ∀ (fuel : Nat) (ti : TInfo) (sn : Bool) (st : List Frame),
      stackSteps st ≤ fuel → M.halts (renderExpLoop c schema fuel ti sn st) := by
  intro fuel
  induction fuel with
  | zero =>
    intro ti sn st hst
    cases st with
    | nil => exact halts_pure ()
    | cons f st =>
      cases f <;> simp only [stackSteps, frameSteps] at hst
      · omega
      · omega
      · rename_i e
        rw [expSteps_children] at hst
        omega
  | succ n ih =>
    intro ti sn st hst
    cases st with
    | nil => exact halts_pure ()
    | cons f st =>
      cases f with
      | chr v =>
        simp only [stackSteps, frameSteps] at hst
        simp only [renderExpLoop]
        refine halts_bind ?_ (fun _ => ih ti sn st (by omega))
        repeat' (first
          | exact halts_pure _
          | exact halts_write _
          | exact halts_emit _
          | exact halts_modify _
          | exact halts_panic
          | assumption
          | refine halts_bind ?_ (fun _ => ?_)
          | refine halts_forRange _ _ (fun _ _ => ?_)
          | split)
      | op v =>
        simp only [stackSteps, frameSteps] at hst
        simp only [renderExpLoop]
        refine halts_bind ?_ (fun _ => ih ti sn st (by omega))
        repeat' (first
          | exact halts_pure _
          | exact halts_write _
          | exact halts_emit _
          | exact halts_modify _
          | exact halts_panic
          | assumption
          | refine halts_bind ?_ (fun _ => ?_)
          | refine halts_forRange _ _ (fun _ _ => ?_)
          | split)
      | exp val =>
        simp only [stackSteps, frameSteps] at hst
        rw [expSteps_children] at hst
        by_cases hleaf : isLeafOp val.Op = true
        · cases n with
          | zero => omega
          | succ k =>
            rw [renderExpLoop_leaf c schema k ti sn val st hleaf]
            refine halts_bind ?_ (fun _ => ih ti sn st (by omega))
            unfold leafRender
            split
            · exact halts_renderNestedWhere c _ ti val
                (fun ti2 ex2 => halts_renderOp c schema ti2 ex2)
            · exact halts_renderOp c schema ti val
        · cases hop : val.Op <;> simp [isLeafOp, hop] at hleaf
          · rw [loop_exp_and c schema n ti sn val st hop]
            refine ih ti sn _ ?_
            have := stackSteps_interleave ExpOp.OpAnd val.Children
            simp only [stackSteps, frameSteps, stackSteps_append]
            omega
          · rw [loop_exp_or c schema n ti sn val st hop]
            refine ih ti sn _ ?_
            have := stackSteps_interleave ExpOp.OpOr val.Children
            simp only [stackSteps, frameSteps, stackSteps_append]
            omega
          · cases hcs : val.Children with
            | nil =>
              rw [loop_exp_not_nil c schema n ti sn val st hop hcs]
              exact halts_panic
            | cons child rest =>
              rw [loop_exp_not c schema n ti sn val st child rest hop hcs]
              refine ih ti sn _ ?_
              rw [hcs, expStepsAll_cons] at hst
              simp only [stackSteps, frameSteps]
              omega
          · rw [loop_exp_false c schema n ti sn val st hop]
            refine ih ti sn _ ?_
            simp only [stackSteps, frameSteps]
            omega

theorem halts_renderExp (c : compilerContext) (fuel : Nat) (schema : DBSchema) (ti : TInfo)
    (ex : Exp) (sn : Bool) (hf : expSteps ex ≤ fuel) :
    M.halts (renderExp c fuel schema ti ex sn) := by
  unfold renderExp
  apply halts_renderExpLoop
  simp only [stackSteps, frameSteps]
  omega

theorem halts_renderWhere (c : compilerContext) (fuel : Nat) (sel : Select)
    (hf : whereSteps sel ≤ fuel) : M.halts (renderWhere c fuel sel) := by
  have hexp : ∀ ex, sel.Where.Exp = some ex →
      M.halts (renderExp c fuel c.qc.Schema sel.Ti ex false) := by
    intro ex hex
    apply halts_renderExp
    unfold whereSteps at hf
    rw [hex] at hf
    exact hf
  unfold renderWhere
  repeat' (first
    | exact halts_pure _
    | exact halts_write _
    | exact halts_emit _
    | exact halts_modify _
    | exact halts_panic
    | assumption
    | exact hexp _ (by assumption)
    | refine halts_bind ?_ (fun _ => ?_)
    | refine halts_forRange _ _ (fun _ _ => ?_)
    | split)

theorem halts_renderCursorCTE (c : compilerContext) (sel : Select) :
    M.halts (renderCursorCTE c sel) := by
  unfold renderCursorCTE
  repeat' (first
    | exact halts_pure _
    | exact halts_write _
    | exact halts_emit _
    | exact halts_modify _
    | exact halts_panic
    | assumption
    | refine halts_bind ?_ (fun _ => ?_)
    | refine halts_forRange _ _ (fun _ _ => ?_)
    | split)

theorem halts_renderDistinctOn (c : compilerContext) (sel : Select) :
    M.halts (renderDistinctOn c sel) := by
  unfold renderDistinctOn
  repeat' (first
    | exact halts_pure _
    | exact halts_write _
    | exact halts_emit _
    | exact halts_modify _
    | exact halts_panic
    | assumption
    | refine halts_bind ?_ (fun _ => ?_)
    | refine halts_forRange _ _ (fun _ _ => ?_)
    | split)

theorem halts_renderOrderBy (c : compilerContext) (sel : Select) :
    M.halts (renderOrderBy c sel) := by
  unfold renderOrderBy
  repeat' (first
    | exact halts_pure _
    | exact halts_write _
    | exact halts_emit _
    | exact halts_modify _
    | exact halts_panic
    | assumption
    | refine halts_bind ?_ (fun _ => ?_)
    | refine halts_forRange _ _ (fun _ _ => ?_)
    | split)

theorem halts_renderGroupBy (c : compilerContext) (sel : Select) :
    M.halts (renderGroupBy c sel) := by
  unfold renderGroupBy
  repeat' (first
    | exact halts_pure _
    | exact halts_write _
    | exact halts_emit _
    | exact halts_modify _
    | exact halts_panic
    | assumption
    | refine halts_bind ?_ (fun _ => ?_)
    | refine halts_forRange _ _ (fun _ _ => ?_)
    | split)

theorem halts_renderLimit (c : compilerContext) (sel : Select) :
    M.halts (renderLimit c sel) := by
  unfold renderLimit
  repeat' (first
    | exact halts_pure _
    | exact halts_write _
    | exact halts_emit _
    | exact halts_modify _
    | exact halts_panic
    | assumption
    | refine halts_bind ?_ (fun _ => ?_)
    | refine halts_forRange _ _ (fun _ _ => ?_)
    | split)

theorem halts_renderFrom (c : compilerContext) (sel : Select) :
    M.halts (renderFrom c sel) := by
  unfold renderFrom renderJSONTable renderRecordSet
  repeat' (first
    | exact halts_pure _
    | exact halts_write _
    | exact halts_emit _
    | exact halts_modify _
    | exact halts_panic
    | assumption
    | refine halts_bind ?_ (fun _ => ?_)
    | refine halts_forRange _ _ (fun _ _ => ?_)
    | split)

theorem halts_renderJoinTables (c : compilerContext) (sel : Select) :
    M.halts (renderJoinTables c sel) := by
  unfold renderJoinTables
  repeat' (first
    | exact halts_pure _
    | exact halts_write _
    | exact halts_emit _
    | exact halts_modify _
    | exact halts_panic
    | assumption
    | exact halts_renderJoin _ _ _
    | refine halts_bind ?_ (fun _ => ?_)
    | refine halts_forRange _ _ (fun _ _ => ?_)
    | split)

theorem halts_renderBaseSelect (c : compilerContext) (fuel : Nat) (sel : Select)
    (hf : whereSteps sel ≤ fuel) : M.halts (renderBaseSelect c fuel sel) := by
  unfold renderBaseSelect
  repeat' (first
    | exact halts_pure _
    | exact halts_write _
    | exact halts_emit _
    | exact halts_modify _
    | exact halts_panic
    | assumption
    | exact halts_renderCursorCTE _ _
    | exact halts_renderDistinctOn _ _
    | exact halts_renderFrom _ _
    | exact halts_renderJoinTables _ _
    | exact halts_renderWhere _ _ _ hf
    | exact halts_renderGroupBy _ _
    | exact halts_renderOrderBy _ _
    | exact halts_renderLimit _ _
    | refine halts_bind ?_ (fun _ => ?_)
    | refine halts_forRange _ _ (fun _ _ => ?_)
    | split)

theorem halts_renderRecursiveCTE (c : compilerContext) (fuel : Nat) (sel : Select)
    (hf : whereSteps sel ≤ fuel) : M.halts (renderRecursiveCTE c fuel sel) := by
  unfold renderRecursiveCTE renderRecursiveBaseSelect
  repeat' (first
    | exact halts_pure _
    | exact halts_write _
    | exact halts_emit _
    | exact halts_modify _
    | exact halts_panic
    | assumption
    | exact halts_renderFrom _ _
    | exact halts_renderWhere _ _ _ hf
    | refine halts_bind ?_ (fun _ => ?_)
    | refine halts_forRange _ _ (fun _ _ => ?_)
    | split)

theorem halts_renderSelect (c : compilerContext) (fuel : Nat) (sel : Select)
    (hf : whereSteps sel ≤ fuel) : M.halts (renderSelect c fuel sel) := by
  unfold renderSelect
  repeat' (first
    | exact halts_pure _
    | exact halts_write _
    | exact halts_emit _
    | exact halts_modify _
    | exact halts_panic
    | assumption
    | exact halts_renderBaseSelect _ _ _ hf
    | refine halts_bind ?_ (fun _ => ?_)
    | refine halts_forRange _ _ (fun _ _ => ?_)
    | split)

theorem halts_renderPluralSelect (c : compilerContext) (sel : Select) :
    M.halts (renderPluralSelect c sel) := by
  unfold renderPluralSelect
  repeat' (first
    | exact halts_pure _
    | exact halts_write _
    | exact halts_emit _
    | exact halts_modify _
    | exact halts_panic
    | assumption
    | refine halts_bind ?_ (fun _ => ?_)
    | refine halts_forRange _ _ (fun _ _ => ?_)
    | split)

theorem halts_renderOpen (c : compilerContext) (fuel : Nat) (multi : Bool) (sel : Select)
    (hf : whereSteps sel ≤ fuel) : M.halts (renderOpen c fuel multi sel) := by
  unfold renderOpen renderLateralJoin
  repeat' (first
    | exact halts_pure _
    | exact halts_write _
    | exact halts_emit _
    | exact halts_modify _
    | exact halts_panic
    | assumption
    | exact halts_renderRecursiveCTE _ _ _ hf
    | exact halts_renderPluralSelect _ _
    | exact halts_renderSelect _ _ _ hf
    | refine halts_bind ?_ (fun _ => ?_)
    | refine halts_forRange _ _ (fun _ _ => ?_)
    | split)

theorem halts_renderClose (c : compilerContext) (multi : Bool) (sel : Select) :
    M.halts (renderClose c multi sel) := by
  unfold renderClose renderSelectClose renderLateralJoinClose
  repeat' (first
    | exact halts_pure _
    | exact halts_write _
    | exact halts_emit _
    | exact halts_modify _
    | exact halts_panic
    | assumption
    | refine halts_bind ?_ (fun _ => ?_)
    | refine halts_forRange _ _ (fun _ _ => ?_)
    | split)

theorem halts_renderEvent (c : compilerContext) (fuel : Nat) (multi : Bool) (ev : Event)
    (hf : whereSteps ev.sel ≤ fuel) : M.halts (renderEvent c fuel multi ev) := by
  cases ev with
  | opened sel => exact halts_renderOpen c fuel multi sel hf
  | closed sel => exact halts_renderClose c multi sel

theorem whereSteps_le_sum (evs : List Event) (ev : Event) (hev : ev ∈ evs) :
    whereSteps ev.sel ≤ (evs.map (fun e => whereSteps e.sel)).sum := by
  induction evs with
  | nil => cases hev
  | cons e rest ih =>
    simp only [List.map_cons, List.sum_cons]
    rcases List.mem_cons.mp hev with h | h
    · subst h
      omega
    · have := ih h
      omega

theorem Compile_malformed_panic (h : Helpers) (co : Compiler) (w : String)
    (qc : QCode) (id : Int) (sel : Select) (ex : Exp)
    (hqt : qc.Typ = QType.QTQuery ∨ qc.Typ = QType.QTSubscription)
    (hroots : ∀ rid ∈ qc.Roots, (selectAt qc.Selects rid).isSome = true)
    (hroot : id ∈ qc.Roots) (hid : id < closeBlock)
    (hsel : selectAt qc.Selects id = some sel) (hself : sel.ID = id)
    (hskip : sel.SkipRender ≠ SkipType.SkipTypeUserNeeded)
    (hty : sel.Typ ≠ SelType.SelTypeUnion)
    (hex : sel.Where.Exp = some ex) (hmal : Malformed ex)
    (n : Nat) (evs : List Event) (htr : traverse qc.Selects n (rootStack qc) = some evs)
    (fuel : Nat) (hfuel : n + (evs.map (fun e => whereSteps e.sel)).sum ≤ fuel) :
    Compile h co fuel w (some qc) = Res.panic := by
  have hnever := Compile_malformed h co fuel w qc id sel ex hqt hroots hroot hid hsel hself
    hskip hty hex hmal
  have hc : Compile h co fuel w (some qc) = runOn w (CompileQuery ⟨h, qc, co⟩ fuel) := by
    rcases hqt with ht | ht <;> simp [Compile, ht]
  have htr2 := traverse_mono qc.Selects n fuel (rootStack qc) evs (by omega) htr
  have hq := renderQuery_events ⟨h, qc, co⟩ fuel true fuel (rootStack qc) evs htr2
  have hhalt : M.halts (renderQuery ⟨h, qc, co⟩ fuel true fuel (rootStack qc)) := by
    rw [hq]
    apply halts_seqAll
    intro x hx
    obtain ⟨ev, hev, rfl⟩ := List.mem_map.mp hx
    apply halts_renderEvent
    have := whereSteps_le_sum evs ev hev
    omega
  rw [hc] at hnever ⊢
  unfold runOn at hnever ⊢
  rw [CompileQuery_run ⟨h, qc, co⟩ fuel {} hroots] at hnever ⊢
  unfold rootStack at hhalt
  cases hr : renderQuery ⟨h, qc, co⟩ fuel true fuel
      (scheduleRoots (rootSelects qc) []) (rootMd qc {}) with
  | ok r =>
    exfalso
    apply hnever
    simp only [compilerContext.qc, compilerContext.h, compilerContext.co] at hr ⊢
    rw [hr]
    exact ⟨_, rfl⟩
  | panic => rfl
  | outOfFuel => exact absurd hr (hhalt _)

/-- Claim C8, amended: the compiler does not validate expression nodes and
returns no error for them.  For every Query or Subscription whose roots index
the selection array and that has a rendered root (its id its index and below
500, not UserNeeded, not a Union) whose WHERE tree holds a NOT node with an empty
children list on the path of the traversal, `Compile` returns neither an error
value nor SQL, whatever the fuel.  When the traversal of the selections ends (in
`n` iterations, with the events `evs`), the run aborts with a panic for every fuel
from a bound on: at the latest the loop of `renderExp`, popping a NOT node with an
empty children list, reads `Children[0]`, an index out of range. -/
theorem C8_malformed_not_node (h : Helpers) (co : Compiler) (fuel : Nat) (w : String)
    (qc : QCode) (id : Int) (sel : Select) (ex : Exp)
    (hqt : qc.Typ = QType.QTQuery ∨ qc.Typ = QType.QTSubscription)
    (hroots : ∀ rid ∈ qc.Roots, (selectAt qc.Selects rid).isSome = true)
    (hroot : id ∈ qc.Roots) (hid : id < closeBlock)
    (hsel : selectAt qc.Selects id = some sel) (hself : sel.ID = id)
    (hskip : sel.SkipRender ≠ SkipType.SkipTypeUserNeeded)
    (hty : sel.Typ ≠ SelType.SelTypeUnion)
    (hex : sel.Where.Exp = some ex) (hmal : Malformed ex) :
    (¬ ∃ r, Compile h co fuel w (some qc) = Res.ok r) ∧
    (∀ (n : Nat) (evs : List Event), traverse qc.Selects n (rootStack qc) = some evs →
      ∀ fuel2, n + (evs.map (fun e => whereSteps e.sel)).sum ≤ fuel2 →
        Compile h co fuel2 w (some qc) = Res.panic) ∧
    (∀ (c : compilerContext) (schema : DBSchema) (f : Nat) (ti : TInfo) (sn : Bool)
      (val : Exp) (st : List Frame), val.Op = ExpOp.OpNot → val.Children = [] →
        renderExpLoop c schema (f + 1) ti sn (Frame.exp val :: st) = panicM) :=
  ⟨Compile_malformed h co fuel w qc id sel ex hqt hroots hroot hid hsel hself hskip hty hex
      hmal,
    fun n evs htr fuel2 hfuel => Compile_malformed_panic h co w qc id sel ex hqt hroots hroot
      hid hsel hself hskip hty hex hmal n evs htr fuel2 hfuel,
    fun c schema f ti sn val st hop hcs => loop_exp_not_nil c schema f ti sn val st hop hcs⟩

/-- Claim C8, witness: the query of scenario S1 with the WHERE tree `NOT []`.  Its
traversal ends in two iterations with the open and the close event of `users`, the
bound of the fuel is 8, `Compile` panics for every fuel from 8 on, and it panics
with the fuel 5 as well. -/
theorem C8_malformed_not_node_witness :
    (Compile (specHelpers "postgres") pgCompiler 5 "" (some qcNotEmpty) = Res.panic ∧
      Malformed expNotEmpty ∧
      traverse qcNotEmpty.Selects 2 (rootStack qcNotEmpty) =
        some [Event.opened { usersSel with Where := { Exp := some expNotEmpty } },
          Event.closed { usersSel with Where := { Exp := some expNotEmpty } }] ∧
      2 + ([Event.opened { usersSel with Where := { Exp := some expNotEmpty } },
          Event.closed { usersSel with Where := { Exp := some expNotEmpty } }].map
            (fun e => whereSteps e.sel)).sum = 8) ∧
    ((¬ ∃ r, Compile (specHelpers "postgres") pgCompiler 5 "" (some qcNotEmpty) = Res.ok r) ∧
    (∀ (n : Nat) (evs : List Event),
      traverse qcNotEmpty.Selects n (rootStack qcNotEmpty) = some evs →
      ∀ fuel2, n + (evs.map (fun e => whereSteps e.sel)).sum ≤ fuel2 →
        Compile (specHelpers "postgres") pgCompiler fuel2 "" (some qcNotEmpty) = Res.panic) ∧
    (∀ (c : compilerContext) (schema : DBSchema) (f : Nat) (ti : TInfo) (sn : Bool)
      (val : Exp) (st : List Frame), val.Op = ExpOp.OpNot → val.Children = [] →
        renderExpLoop c schema (f + 1) ti sn (Frame.exp val :: st) = panicM)) :=
  ⟨⟨by decide!, malformed_expNotEmpty, rfl, rfl⟩,
    C8_malformed_not_node (specHelpers "postgres") pgCompiler 5 "" qcNotEmpty 0
      { usersSel with Where := { Exp := some expNotEmpty } } expNotEmpty
      (Or.inl rfl) (by decide!) (by decide!) (by decide) rfl rfl (by decide) (by decide) rfl
      malformed_expNotEmpty⟩

end Psql
